import Mathlib

/-!
Task scheduler: queue storage, single-task executor, task-list executor and
the two submission services.

A shallow embedding of the durable task queue (`internal/storage/storage.go`),
the single-task worker (`internal/executor/worker.go`, `executor.go`), the
list executor (`internal/listexecutor/listexecutor.go`) and the submission
services (`internal/service/task/service.go`,
`internal/service/tasklist/service.go`).

Conventions of the embedding:

* a document collection is the list of its documents in storage order; a
  record is stored under the field names that the driver's default struct
  codec gives it, the lowercased Go field names (the records carry `json`
  tags only), and a filter or a sort of a query reads the stored field of
  the name the query writes; a sort leaves documents of equal key in
  storage order;
* `[]byte` is `List Nat`, `time.Time` is a natural number of clock ticks,
  Go `int` is `Int` with explicit 64-bit wrap-around on arithmetic;
* every call to an external collaborator (document store driver, policy
  engine, HTTP upstream, cache) has its outcome supplied by an environment
  `Env` (or a `fault` argument for the store driver), and the worker
  records each call it makes in a trace.
-/

namespace TaskScheduler

/-! ## Data model (`internal/service/task.go`) -/

/-- Go `[]byte`. -/
abbrev Bytes := List Nat

/-- Go `time.Time`, as clock ticks. -/
abbrev Time := Nat

/-- Go `type State string`. -/
abbrev State := String

/-- Created is the initial task state. -/
def Created : State := "created"

/-- Pending state is when a worker has marked the task for processing. -/
def Pending : State := "pending"

/-- Done state is when the task is completed. -/
def Done : State := "done"

/-- Failed state is when the execution of a task of a group failed. -/
def Failed : State := "failed"

/-- Go `service.Task`. -/
structure Task where
  ID : String
  GroupID : String
  Name : String
  State : State
  URL : String
  Method : String
  Request : Bytes
  Response : Bytes
  ResponseCode : Int
  RequestPolicy : String
  ResponsePolicy : String
  FinalPolicy : String
  CacheNamespace : String
  CacheScope : String
  Retries : Int
  CreatedAt : Time
  StartedAt : Time
  FinishedAt : Time
deriving DecidableEq, Repr

/-- Sort key of a stored task document for an ascending sort on the field
`name`, in the comparison order of the store: a document without the field
compares as null, before every date. The driver's default struct codec
stores a Go field without `bson` tag under its lowercased name and
`service.Task` carries `json` tags only, so the dates of a task are stored
as `createdat`, `startedat` and `finishedat`. A missing field is `0`, a date
`v` is `v + 1`; fields that are not dates are not sorted on by any query and
are not told apart here. -/
def Task.sortKey (name : String) (t : Task) : Nat :=
  if name = "createdat" then t.CreatedAt + 1
  else if name = "startedat" then t.StartedAt + 1
  else if name = "finishedat" then t.FinishedAt + 1
  else 0

/-- Go `service.Group` (`internal/service/task_list.go`). -/
structure Group where
  ID : String
  Execution : String
  Tasks : List String
  State : State
  Request : Bytes
  FinalPolicy : String
deriving DecidableEq, Repr

/-- Go `service.TaskList` (`internal/service/task_list.go`). -/
structure TaskList where
  ID : String
  Name : String
  State : State
  Groups : List Group
  Request : Bytes
  CacheNamespace : String
  CacheScope : String
  CreatedAt : Time
  StartedAt : Time
  FinishedAt : Time
deriving DecidableEq, Repr

/-- Go `service.GroupTemplate` (`internal/service/task_list.go`). -/
structure GroupTemplate where
  Execution : String
  FinalPolicy : String
  Tasks : List String
deriving DecidableEq, Repr

/-- Go `service.Template` (`internal/service/task_list.go`). -/
structure Template where
  Name : String
  CacheNamespace : String
  CacheScope : String
  Groups : List GroupTemplate
deriving DecidableEq, Repr

/-- Go `goatasklist.TaskStatus`, generated from the type `TaskStatus` of
`design/types.go`: both fields are optional (Go `*string`). -/
structure TaskStatus where
  ID : Option String
  Status : Option String
deriving DecidableEq, Repr

/-- Go `goatasklist.GroupStatus`, generated from the type `GroupStatus` of
`design/types.go`. -/
structure GroupStatus where
  ID : Option String
  Status : Option String
  Tasks : List TaskStatus
deriving DecidableEq, Repr

/-- Go `goatasklist.TaskListStatusResponse`, generated from the type
`TaskListStatusResponse` of `design/types.go`. -/
structure TaskListStatusResponse where
  ID : String
  Status : String
  Groups : List GroupStatus
deriving DecidableEq, Repr

/-! ## Errors (package `microservice-core-go/pkg/err`, external) -/

/-- Error kinds of the external error package that the scheduler uses. -/
inductive Kind where
  | Unknown
  | BadRequest
  | Unauthorized
  | NotFound
  | Internal
deriving DecidableEq, Repr

/-- An error value: its kind and its message. Errors of other packages
(store driver, HTTP client) have kind `Unknown`. -/
structure Error where
  kind : Kind
  message : String
deriving DecidableEq, Repr

/-- The call `errors.New(message, cause)`: a new error around `cause`; its
kind is not given, so the kind of the cause is pulled up. -/
def Error.wrap (message : String) (cause : Error) : Error :=
  { kind := cause.kind, message := message ++ ": " ++ cause.message }

deriving instance DecidableEq for Except

/-- Go `int` addition on a 64-bit platform: the sum wraps around. -/
def wrapInt64 (x : Int) : Int := (x + 2 ^ 63) % 2 ^ 64 - 2 ^ 63

/-- Go `http.StatusOK`. -/
def StatusOK : Int := 200

/-! ## Document store primitives (MongoDB driver, external)

A collection is the list of its documents in storage order. -/

namespace Mongo

variable {α : Type}

/-- The driver's `InsertOne`. -/
def insertOne (c : List α) (d : α) : List α := c ++ [d]

/-- The driver's `InsertMany`. -/
def insertMany (c : List α) (ds : List α) : List α := c ++ ds

/-- The driver's `DeleteOne`: removes the first document matching the filter. -/
def deleteOne (p : α → Bool) : List α → List α
  | [] => []
  | d :: ds => if p d then ds else d :: deleteOne p ds

/-- The driver's `DeleteMany`: removes every document matching the filter. -/
def deleteMany (p : α → Bool) (c : List α) : List α := c.filter (fun d => !p d)

/-- The driver's `UpdateOne` (no upsert): updates the first document matching
the filter. -/
def updateOne (p : α → Bool) (f : α → α) : List α → List α
  | [] => []
  | d :: ds => if p d then f d :: ds else d :: updateOne p f ds

/-- The driver's `FindOne`: the first document matching the filter. -/
def findOne (p : α → Bool) (c : List α) : Option α := c.find? p

/-- Selection of `FindOneAndUpdate` with an ascending sort on `key`: position
and content of the document that matches the filter and comes first in the
sort order; among equal keys the one stored first. -/
def selectFirst (p : α → Bool) (key : α → Nat) : List α → Option (Nat × α)
  | [] => none
  | d :: ds =>
    match selectFirst p key ds with
    | none => if p d then some (0, d) else none
    | some (i, m) => if p d && decide (key d ≤ key m) then some (0, d) else some (i + 1, m)

/-- The driver's `FindOneAndUpdate` with `SetSort` (ascending on `key`) and
`SetReturnDocument(After)`: the selected document is updated in place and
its updated content returned; `none` stands for "no documents in result". -/
def findOneAndUpdate (p : α → Bool) (key : α → Nat) (f : α → α) (c : List α) :
    Option α × List α :=
  match selectFirst p key c with
  | none => (none, c)
  | some (i, d) => (some (f d), c.set i (f d))

/-- The driver's error `ErrNoDocuments`. -/
def ErrNoDocuments : Error := { kind := Kind.Unknown, message := "mongo: no documents in result" }

/-- The test `strings.Contains(err.Error(), "no documents in result")`. -/
def isNoDocuments (e : Error) : Bool :=
  decide ("no documents in result".toList <:+: e.message.toList)

end Mongo

/-! ## Task queue (`internal/storage/storage.go`) -/

namespace Storage

/-- Filter of `Poll`: `bson.M{"state": service.Created, "groupid": ""}`. -/
def pollFilter (t : Task) : Bool := t.State == Created && t.GroupID == ""

/-- Update of `Poll`: `bson.M{"$set": bson.M{"state": service.Pending}}`. -/
def setPending (t : Task) : Task := { t with State := Pending }

/-- Go `Storage.Add`: `InsertOne` into the `tasks` collection. `fault` is
the driver error, if the call fails. -/
def Add (fault : Option Error) (tasks : List Task) (task : Task) : List Task × Option Error :=
  match fault with
  | some e => (tasks, some e)
  | none => (Mongo.insertOne tasks task, none)

/-- Go `Storage.Poll`: `FindOneAndUpdate` on the `tasks` collection with the
filter `pollFilter`, `SetSort(bson.M{"createdAt": 1})` and update
`setPending`. A result error whose text contains "no documents in result"
becomes a NotFound error; any other driver or decoding error (`fault`) is
returned as it is. -/
def Poll (fault : Option Error) (tasks : List Task) : Except Error Task × List Task :=
  match fault with
  | some e =>
    if Mongo.isNoDocuments e then (.error ⟨Kind.NotFound, "task not found"⟩, tasks)
    else (.error e, tasks)
  | none =>
    match Mongo.findOneAndUpdate pollFilter (Task.sortKey "createdAt") setPending tasks with
    | (none, tasks') =>
      if Mongo.isNoDocuments Mongo.ErrNoDocuments then
        (.error ⟨Kind.NotFound, "task not found"⟩, tasks')
      else (.error Mongo.ErrNoDocuments, tasks')
    | (some task, tasks') => (.ok task, tasks')

/-- Go `Storage.Ack`: `DeleteOne(bson.M{"id": task.ID})`. -/
def Ack (fault : Option Error) (tasks : List Task) (task : Task) : List Task × Option Error :=
  match fault with
  | some e => (tasks, some e)
  | none => (Mongo.deleteOne (fun d => d.ID == task.ID) tasks, none)

/-- Go `Storage.Unack`: `UpdateOne` of the document with the task's id,
setting `state` to Created and `retries` to `t.Retries + 1`. -/
def Unack (fault : Option Error) (tasks : List Task) (t : Task) : List Task × Option Error :=
  match fault with
  | some e => (tasks, some e)
  | none =>
    (Mongo.updateOne (fun d => d.ID == t.ID)
      (fun d => { d with State := Created, Retries := wrapInt64 (t.Retries + 1) }) tasks, none)

/-- Go `Storage.AckGroupTasks`: `DeleteMany(bson.M{"groupid": group.ID})`. -/
def AckGroupTasks (fault : Option Error) (tasks : List Task) (group : Group) :
    List Task × Option Error :=
  match fault with
  | some e => (tasks, some e)
  | none => (Mongo.deleteMany (fun d => d.GroupID == group.ID) tasks, none)

end Storage

/-- One call on the live task queue (the `tasks` collection), with the
driver fault it meets, if any. `insertMany` is the bulk insert of the task
rows of a task list. -/
inductive QueueOp where
  | add (fault : Option Error) (task : Task)
  | insertMany (fault : Option Error) (tasks : List Task)
  | poll (fault : Option Error)
  | ack (fault : Option Error) (task : Task)
  | unack (fault : Option Error) (task : Task)
  | ackGroupTasks (fault : Option Error) (group : Group)

/-- The ids a queue call inserts. -/
def QueueOp.inserted : QueueOp → List String
  | .add _ task => [task.ID]
  | .insertMany _ tasks => tasks.map (fun t => t.ID)
  | _ => []

/-- The collection after one queue call. -/
def QueueOp.apply (tasks : List Task) : QueueOp → List Task
  | .add fault task => (Storage.Add fault tasks task).1
  | .insertMany fault ts =>
    match fault with
    | some _ => tasks
    | none => Mongo.insertMany tasks ts
  | .poll fault => (Storage.Poll fault tasks).2
  | .ack fault task => (Storage.Ack fault tasks task).1
  | .unack fault task => (Storage.Unack fault tasks task).1
  | .ackGroupTasks fault group => (Storage.AckGroupTasks fault tasks group).1

/-- The collection after a sequence of queue calls. -/
def QueueOp.run (tasks : List Task) (ops : List QueueOp) : List Task :=
  ops.foldl QueueOp.apply tasks

/-! ## External collaborators -/

/-- Result of `httpClient.Do` followed by `io.ReadAll` of the response body. -/
inductive HTTPResult where
  | doError (e : Error)
  | readError (status : Int) (e : Error)
  | response (status : Int) (body : Bytes)
deriving DecidableEq, Repr

/-- Outcomes of the calls to external collaborators. -/
structure Env where
  /-- Result of `Policy.Evaluate(ctx, policy, data)`. -/
  policyEvaluate : String → Bytes → Except Error Bytes
  /-- Error of `http.NewRequest(method, url, body)`, if the request cannot be built. -/
  newRequest : String → String → Option Error
  /-- Result of sending a request with the given method, url and body. -/
  httpDo : String → String → Bytes → HTTPResult
  /-- Error of `Cache.Set(ctx, key, namespace, scope, value)`, if it fails. -/
  cacheSet : String → String → String → Bytes → Option Error
  /-- Error with which `SaveTaskHistory` gives up, if it does. -/
  saveTaskHistory : Task → Option Error
  /-- Driver error of `Queue.Ack`, if it fails. -/
  ack : Task → Option Error
  /-- Driver error of `Queue.Unack`, if it fails. -/
  unack : Task → Option Error
  /-- Result of `json.Marshal` of a submitted payload. -/
  jsonMarshal : Bytes → Except Error Bytes

/-- A call made by an executor or a service, as recorded in the trace. -/
inductive Call where
  | policyEvaluate (policy : String) (data : Bytes)
  | httpDo (method url : String) (body : Bytes)
  | cacheSet (key ns scope : String) (value : Bytes)
  | saveTaskHistory (task : Task)
  | ack (task : Task)
  | unack (task : Task)
  | logError (message : String)
  | logDebug (message : String)
  | taskTemplate (taskName : String)
  | add (task : Task)
  | taskListTemplate (taskListName : String)
  | taskTemplates (names : List String)
  | addTaskList (taskList : TaskList) (tasks : List Task)
  | getGroupTasks (group : Group)
  | ackGroupTasks (group : Group)
  | saveTaskListHistory (taskList : TaskList)
  | ackList (taskList : TaskList)
  | taskHistory (taskID : String)
  | task (taskID : String)
  | taskListHistory (taskListID : String)
  | taskList (taskListID : String)
  | cacheGet (key ns scope : String)
  | eventTask (key ns scope : String)
deriving DecidableEq, Repr

/-- Key of a cache entry: (key, namespace, scope). -/
abbrev CacheKey := String × String × String

/-- Modelled from the spec: the cache service behind `internal/clients/cache`,
a blob store addressed by (key, namespace, scope); a put adds the entry in
front, so that the last writer wins. -/
def Cache.set (cache : List (CacheKey × Bytes)) (key ns scope : String) (value : Bytes) :
    List (CacheKey × Bytes) :=
  ((key, ns, scope), value) :: cache

/-- The collections, the cache and the trace of calls. -/
structure World where
  tasks : List Task
  tasksHistory : List Task
  taskTemplates : List Task
  cache : List (CacheKey × Bytes)
  trace : List Call
  taskLists : List TaskList := []
  taskListHistory : List TaskList := []
  taskListTemplates : List Template := []
deriving DecidableEq, Repr

namespace Storage

/-- Go `Storage.SaveTaskHistory`: `InsertOne` into `tasksHistory`, retried with
exponential backoff; `fault` is the error the retry gives up with, if it does. -/
def SaveTaskHistory (fault : Option Error) (tasksHistory : List Task) (task : Task) :
    List Task × Option Error :=
  match fault with
  | some e => (tasksHistory, some e)
  | none => (Mongo.insertOne tasksHistory task, none)

/-- Go `Storage.TaskTemplate`: `FindOne(bson.M{"name": taskName})` on the
`taskTemplates` collection. -/
def TaskTemplate (fault : Option Error) (taskTemplates : List Task) (taskName : String) :
    Except Error Task :=
  let result : Except Error Task :=
    match fault with
    | some e => .error e
    | none =>
      match Mongo.findOne (fun d => d.Name == taskName) taskTemplates with
      | none => .error Mongo.ErrNoDocuments
      | some d => .ok d
  match result with
  | .error e =>
    if Mongo.isNoDocuments e then .error ⟨Kind.NotFound, "task template not found"⟩
    else .error e
  | .ok task => .ok task

end Storage

/-! ## Task execution (`internal/executor/worker.go`, `internal/listexecutor/listexecutor.go`) -/

/-- What an execution leaves behind: the task record as updated in place, the
returned error (`none` for `nil`) and the calls made, in order. -/
structure Outcome where
  task : Task
  err : Option Error
  calls : List Call
deriving DecidableEq, Repr

/-- Go `http.MethodGet`. -/
def MethodGet : String := "GET"

/-- Both `doHTTPTask` functions, from the request body on: build the request,
send it, read the body. Returns (status, response, err) and the calls made. -/
def doHTTP (env : Env) (task : Task) (reqBody : Bytes) : (Int × Bytes × Option Error) × List Call :=
  match env.newRequest task.Method task.URL with
  | some e => ((0, [], some (Error.wrap "error creating http request" e)), [])
  | none =>
    match env.httpDo task.Method task.URL reqBody with
    | .doError e =>
      ((0, [], some (Error.wrap "error executing http request" e)),
        [Call.httpDo task.Method task.URL reqBody])
    | .readError _ e =>
      ((0, [], some (Error.wrap "error reading response body" e)),
        [Call.httpDo task.Method task.URL reqBody])
    | .response status body => ((status, body, none), [Call.httpDo task.Method task.URL reqBody])

/-- Go `Worker.doHTTPTask`: the request body is `task.Request`. -/
def Worker.doHTTPTask (env : Env) (task : Task) : (Int × Bytes × Option Error) × List Call :=
  doHTTP env task task.Request

/-- Go `ListExecutor.doHTTPTask`: the request body is `task.Request`, and
empty when the method is GET. -/
def ListExecutor.doHTTPTask (env : Env) (task : Task) : (Int × Bytes × Option Error) × List Call :=
  doHTTP env task (if task.Method = MethodGet then [] else task.Request)

/-- First part of Go `Worker.Execute` and of `ListExecutor.executeTask`
(worker.go lines 116-132, listexecutor.go lines 337-353): the task is
executing a request policy OR an HTTP call to a predefined URL. Returns the
early-return outcome, or the task, the response and the calls made. -/
def primaryStep (doHTTPTask : Env → Task → (Int × Bytes × Option Error) × List Call)
    (env : Env) (task : Task) : Except Outcome (Task × Bytes × List Call) :=
  if task.RequestPolicy ≠ "" then
    match env.policyEvaluate task.RequestPolicy task.Request with
    | .error e =>
      .error ⟨task, some (Error.wrap "error evaluating request policy" e),
        [Call.policyEvaluate task.RequestPolicy task.Request]⟩
    | .ok response =>
      .ok ({ task with ResponseCode := StatusOK }, response,
        [Call.policyEvaluate task.RequestPolicy task.Request])
  else if task.URL ≠ "" ∧ task.Method ≠ "" then
    match doHTTPTask env task with
    | ((_, _, some e), calls) => .error ⟨task, some e, calls⟩
    | ((status, response, none), calls) =>
      .ok ({ task with ResponseCode := status }, response, calls)
  else
    .error ⟨task,
      some ⟨Kind.Internal, "invalid task: must define either request policy or url"⟩, []⟩

/-- Second part of Go `Worker.Execute` and of `ListExecutor.executeTask`
(worker.go lines 134-158, listexecutor.go lines 355-379): store the response,
evaluate the response policy, evaluate the finalizer policy, mark the task
done. -/
def postProcess (env : Env) (finished : Time) (task : Task) (response : Bytes)
    (calls : List Call) : Outcome :=
  let task := { task with Response := response }
  -- evaluate response policy
  let second : Except Outcome (Task × List Call) :=
    if task.ResponsePolicy ≠ "" then
      match env.policyEvaluate task.ResponsePolicy task.Response with
      | .error e =>
        .error ⟨task, some (Error.wrap "error evaluating response policy" e),
          calls ++ [Call.policyEvaluate task.ResponsePolicy task.Response]⟩
      | .ok resp =>
        -- overwrite task response with the one returned from the policy
        .ok ({ task with Response := resp },
          calls ++ [Call.policyEvaluate task.ResponsePolicy task.Response])
    else .ok (task, calls)
  match second with
  | .error out => out
  | .ok (task, calls) =>
    -- evaluate finalizer policy
    let third : Except Outcome (Task × List Call) :=
      if task.FinalPolicy ≠ "" then
        match env.policyEvaluate task.FinalPolicy task.Response with
        | .error e =>
          .error ⟨task, some (Error.wrap "error evaluating final policy" e),
            calls ++ [Call.policyEvaluate task.FinalPolicy task.Response]⟩
        | .ok resp =>
          -- overwrite task response with the one returned from the policy
          .ok ({ task with Response := resp },
            calls ++ [Call.policyEvaluate task.FinalPolicy task.Response])
      else .ok (task, calls)
    match third with
    | .error out => out
    | .ok (task, calls) => ⟨{ task with State := Done, FinishedAt := finished }, none, calls⟩

/-- The body shared, statement by statement, by Go `Worker.Execute` and
`ListExecutor.executeTask`; `doHTTPTask` is the `doHTTPTask` of the receiver.
`started` and `finished` are the two readings of `time.Now()`. -/
def executeWith (doHTTPTask : Env → Task → (Int × Bytes × Option Error) × List Call)
    (env : Env) (started finished : Time) (task : Task) : Outcome :=
  let task := { task with StartedAt := started }
  match primaryStep doHTTPTask env task with
  | .error out => out
  | .ok (task, response, calls) => postProcess env finished task response calls

/-- Go `Worker.Execute`. -/
def Worker.Execute (env : Env) (started finished : Time) (task : Task) : Outcome :=
  executeWith Worker.doHTTPTask env started finished task

/-- Go `ListExecutor.executeTask`. -/
def ListExecutor.executeTask (env : Env) (started finished : Time) (task : Task) : Outcome :=
  executeWith ListExecutor.doHTTPTask env started finished task

/-! ## Single-task worker and dispatcher (`internal/executor`) -/

/-- Go `Worker.Start`, the processing of one task `t` received from the
dispatcher: one iteration of the worker loop. -/
def Worker.handle (env : Env) (maxTaskRetries : Int) (started finished : Time)
    (w : World) (t : Task) : World :=
  if t.Retries ≥ maxTaskRetries then
    match Storage.Ack (env.ack t) w.tasks t with
    | (tasks, some _) =>
      { w with tasks := tasks,
               trace := w.trace ++ [Call.ack t, Call.logError "failed to ack task in queue"] }
    | (tasks, none) =>
      { w with tasks := tasks,
               trace := w.trace ++ [Call.ack t,
                 Call.logError "task removed from queue due to too many failed executions"] }
  else
    let out := Worker.Execute env started finished t
    -- the record behind the pointer `t` (and `executed`) after the execution
    let t := out.task
    let trace := w.trace ++ out.calls
    match out.err with
    | some _ =>
      let trace := trace ++ [Call.logError "error executing task", Call.unack t]
      match Storage.Unack (env.unack t) w.tasks t with
      | (tasks, some _) =>
        { w with tasks := tasks,
                 trace := trace ++ [Call.logError "failed to unack task in queue"] }
      | (tasks, none) => { w with tasks := tasks, trace := trace }
    | none =>
      let executed := t
      let trace := trace ++ [Call.logDebug "task execution completed successfully",
        Call.cacheSet executed.ID executed.CacheNamespace executed.CacheScope executed.Response]
      match env.cacheSet executed.ID executed.CacheNamespace executed.CacheScope
          executed.Response with
      | some _ =>
        let trace := trace ++ [Call.logError "error storing task result in cache", Call.unack t]
        match Storage.Unack (env.unack t) w.tasks t with
        | (tasks, some _) =>
          { w with tasks := tasks,
                   trace := trace ++ [Call.logError "failed to unack task in queue"] }
        | (tasks, none) => { w with tasks := tasks, trace := trace }
      | none =>
        let cache := Cache.set w.cache executed.ID executed.CacheNamespace executed.CacheScope
          executed.Response
        let trace := trace ++ [Call.logDebug "task results are stored in cache",
          Call.saveTaskHistory executed]
        match Storage.SaveTaskHistory (env.saveTaskHistory executed) w.tasksHistory executed with
        | (tasksHistory, some _) =>
          -- `continue`: the loop goes on to the next task
          { w with cache := cache, tasksHistory := tasksHistory,
                   trace := trace ++ [Call.logError "error saving task history"] }
        | (tasksHistory, none) =>
          let trace := trace ++ [Call.logDebug "task history is saved", Call.ack executed]
          -- remove task from queue
          match Storage.Ack (env.ack executed) w.tasks executed with
          | (tasks, some _) =>
            { w with tasks := tasks, cache := cache, tasksHistory := tasksHistory,
                     trace := trace ++ [Call.logError "failed to ack task in queue"] }
          | (tasks, none) =>
            { w with tasks := tasks, cache := cache, tasksHistory := tasksHistory,
                     trace := trace }

/-! ## Task submission (`internal/service/task/service.go`) -/

/-- Go `goatask.CreateTaskRequest`; `Data` is the submitted payload. -/
structure CreateTaskRequest where
  TaskName : String
  Data : Bytes
  CacheNamespace : Option String
  CacheScope : Option String
deriving DecidableEq, Repr

/-- Go `task.Service.Create`: returns the new world and the task id or the
error. `templateFault` and `addFault` are the driver faults of the template
lookup and of the queue insert, `id` is `uuid.NewString()`, `now` is
`time.Now()`. -/
def Service.Create (env : Env) (templateFault addFault : Option Error) (id : String) (now : Time)
    (w : World) (req : CreateTaskRequest) : World × Except Error String :=
  if req.TaskName = "" then (w, .error ⟨Kind.BadRequest, "missing taskName"⟩)
  else
    -- get predefined task definition from storage
    let w := { w with trace := w.trace ++ [Call.taskTemplate req.TaskName] }
    match Storage.TaskTemplate templateFault w.taskTemplates req.TaskName with
    | .error e =>
      ({ w with trace := w.trace ++ [Call.logError "error getting task template from storage"] },
        .error e)
    | .ok task =>
      match env.jsonMarshal req.Data with
      | .error e =>
        ({ w with trace := w.trace ++ [Call.logError "error marshaling request data to JSON"] },
          .error ⟨Kind.BadRequest,
            "error marshaling request data to JSON" ++ ": " ++ e.message⟩)
      | .ok taskRequest =>
        let task := { task with ID := id, State := Created, CreatedAt := now,
                                Request := taskRequest }
        -- if cache key namespace and scope are given, use them instead of the defaults
        let task :=
          match req.CacheNamespace with
          | some ns => if ns ≠ "" then { task with CacheNamespace := ns } else task
          | none => task
        let task :=
          match req.CacheScope with
          | some sc => if sc ≠ "" then { task with CacheScope := sc } else task
          | none => task
        let w := { w with trace := w.trace ++ [Call.add task] }
        match Storage.Add addFault w.tasks task with
        | (tasks, some e) =>
          ({ w with tasks := tasks,
                    trace := w.trace ++ [Call.logError "error adding task to queue"] },
            .error (Error.wrap "failed to create task" e))
        | (tasks, none) => ({ w with tasks := tasks }, .ok task.ID)

/-! ## The single-task executor as a transition system -/

/-- State of the single-task executor: the world, and the tasks the
dispatcher has polled and handed to the workers that are not yet processed. -/
structure ExecutorState where
  world : World
  inflight : List Task
deriving DecidableEq, Repr

/-- Go `Executor.Start`, one tick of the dispatcher loop: poll the queue; on
an error continue; otherwise send the task to the workers. -/
def Executor.tick (fault : Option Error) (s : ExecutorState) : ExecutorState :=
  match Storage.Poll fault s.world.tasks with
  | (.error _, tasks) => { s with world := { s.world with tasks := tasks } }
  | (.ok t, tasks) => { world := { s.world with tasks := tasks }, inflight := s.inflight ++ [t] }

/-- What can happen next in the single-task executor. -/
inductive Event where
  /-- The dispatcher polls; `fault` is the driver fault, if any. -/
  | tick (fault : Option Error)
  /-- A worker takes the in-flight task at position `i` and processes it. -/
  | work (i : Nat) (started finished : Time)
  /-- A client submits a task. -/
  | submit (templateFault addFault : Option Error) (id : String) (now : Time)
      (req : CreateTaskRequest)

/-- One step of the single-task executor. -/
def Executor.step (env : Env) (maxTaskRetries : Int) (s : ExecutorState) : Event → ExecutorState
  | .tick fault => Executor.tick fault s
  | .work i started finished =>
    match s.inflight[i]? with
    | none => s
    | some t =>
      { world := Worker.handle env maxTaskRetries started finished s.world t,
        inflight := s.inflight.eraseIdx i }
  | .submit templateFault addFault id now req =>
    { s with world := (Service.Create env templateFault addFault id now s.world req).1 }

/-- The state after a sequence of events. -/
def Executor.run (env : Env) (maxTaskRetries : Int) (s : ExecutorState) (events : List Event) :
    ExecutorState :=
  events.foldl (Executor.step env maxTaskRetries) s

/-- One poll cycle: the dispatcher polls and a worker processes what was polled. -/
def Executor.pollCycle (env : Env) (maxTaskRetries : Int) (started finished : Time)
    (s : ExecutorState) : ExecutorState :=
  Executor.run env maxTaskRetries s [Event.tick none, Event.work 0 started finished]

/-- The state after `n` poll cycles. -/
def Executor.pollCycles (env : Env) (maxTaskRetries : Int) (started finished : Time) :
    Nat → ExecutorState → ExecutorState
  | 0, s => s
  | n + 1, s =>
    Executor.pollCycle env maxTaskRetries started finished
      (Executor.pollCycles env maxTaskRetries started finished n s)

/-- The HTTP call to (method, url) fails whatever the body: the request cannot
be built, or it cannot be sent, or the body of the answer cannot be read. -/
def Env.httpFails (env : Env) (method url : String) : Prop :=
  (∃ e, env.newRequest method url = some e) ∨
  ∀ body, (∃ e, env.httpDo method url body = HTTPResult.doError e) ∨
    ∃ status e, env.httpDo method url body = HTTPResult.readError status e

/-- A record of the live queue is in order, for the retry cap and the initial
queue `init`: its retries are between 0 and the cap, or it is a group task
that has been in the queue, unchanged, from the start. -/
def Executor.Good (maxTaskRetries : Int) (init : List Task) (d : Task) : Prop :=
  (0 ≤ d.Retries ∧ d.Retries ≤ maxTaskRetries) ∨ (d.GroupID ≠ "" ∧ d ∈ init)

/-- Invariant of the single-task executor: every stored record is in order,
no in-flight task has negative retries, and the templates carry retries 0. -/
def Executor.Inv (maxTaskRetries : Int) (init : List Task) (s : ExecutorState) : Prop :=
  (∀ d ∈ s.world.tasks, Executor.Good maxTaskRetries init d) ∧
  (∀ t ∈ s.inflight, 0 ≤ t.Retries) ∧
  (∀ d ∈ s.world.taskTemplates, d.Retries = 0)

/-! ## Task-list storage (`internal/storage/storage.go`) -/

/-- The driver's `Find` with an ascending sort on `key`: the documents
matching the filter, sorted by `key`; among equal keys in storage order. -/
def Mongo.findSorted {α : Type} (p : α → Bool) (key : α → Nat) (l : List α) : List α :=
  (l.filter p).insertionSort (fun a b => key a ≤ key b)

/-- The driver's error `ErrEmptySlice`, returned by `InsertMany` for an empty
slice of documents. -/
def Mongo.ErrEmptySlice : Error :=
  { kind := Kind.Unknown, message := "must provide at least one element in input slice" }

/-- Go `map[string]*service.Task`. -/
abbrev TemplateMap := String → Option Task

/-- Driver faults of the three calls of `AddTaskList`. -/
structure AddTaskListFaults where
  insertList : Option Error
  insertTasks : Option Error
  ackList : Option Error
deriving DecidableEq, Repr

namespace Storage

/-- Go `Storage.GetGroupTasks`: `Find` on the `tasks` collection with the
filter `bson.M{"groupid": group.ID}` and `SetSort(bson.M{"createdAt": 1})`. -/
def GetGroupTasks (fault : Option Error) (tasks : List Task) (group : Group) :
    Except Error (List Task) :=
  match fault with
  | some e => .error e
  | none =>
    .ok (Mongo.findSorted (fun d => d.GroupID == group.ID) (Task.sortKey "createdAt") tasks)

/-- Go `Storage.AckList`: `DeleteOne(bson.M{"id": taskList.ID})` on `taskLists`. -/
def AckList (fault : Option Error) (taskLists : List TaskList) (taskList : TaskList) :
    List TaskList × Option Error :=
  match fault with
  | some e => (taskLists, some e)
  | none => (Mongo.deleteOne (fun d => d.ID == taskList.ID) taskLists, none)

/-- Go `Storage.SaveTaskListHistory`: `InsertOne` into `taskListHistory`,
retried with exponential backoff; `fault` is the error the retry gives up
with, if it does. -/
def SaveTaskListHistory (fault : Option Error) (taskListHistory : List TaskList)
    (taskList : TaskList) : List TaskList × Option Error :=
  match fault with
  | some e => (taskListHistory, some e)
  | none => (Mongo.insertOne taskListHistory taskList, none)

/-- Go `Storage.TaskListTemplate`: `FindOne(bson.M{"name": taskListName})` on
the `taskListTemplates` collection. -/
def TaskListTemplate (fault : Option Error) (taskListTemplates : List Template)
    (taskListName : String) : Except Error Template :=
  let result : Except Error Template :=
    match fault with
    | some e => .error e
    | none =>
      match Mongo.findOne (fun d => d.Name == taskListName) taskListTemplates with
      | none => .error Mongo.ErrNoDocuments
      | some d => .ok d
  match result with
  | .error e =>
    if Mongo.isNoDocuments e then .error ⟨Kind.NotFound, "taskList template not found"⟩
    else .error e
  | .ok tasklist => .ok tasklist

/-- Go `Storage.TaskTemplates`: `Find(bson.M{"name": bson.M{"$in": names}})` on
the `taskTemplates` collection; the documents found are put into a map by
name, one after the other. -/
def TaskTemplates (fault : Option Error) (taskTemplates : List Task) (names : List String) :
    Except Error TemplateMap :=
  match fault with
  | some e => .error e
  | none =>
    .ok ((taskTemplates.filter (fun d => names.contains d.Name)).foldl
      (fun res task => fun name => if name = task.Name then some task else res name)
      (fun _ => none))

/-- Go `Storage.AddTaskList`: insert the list record, then bulk-insert the
task rows; if the bulk insert fails, remove the list record again. Returns the
`taskLists` and `tasks` collections and the error. -/
def AddTaskList (faults : AddTaskListFaults) (taskLists : List TaskList) (tasks : List Task)
    (taskList : TaskList) (ts : List Task) : (List TaskList × List Task) × Option Error :=
  match faults.insertList with
  | some e => ((taskLists, tasks), some e)
  | none =>
    let taskLists := Mongo.insertOne taskLists taskList
    let insertMany : Option Error :=
      match faults.insertTasks with
      | some e => some e
      | none => if ts.isEmpty then some Mongo.ErrEmptySlice else none
    match insertMany with
    | some e =>
      -- remove taskList from queue
      match AckList faults.ackList taskLists taskList with
      | (taskLists, some e') => ((taskLists, tasks), some (Error.wrap "failed to ack taskList" e'))
      | (taskLists, none) => ((taskLists, tasks), some e)
    | none => ((taskLists, Mongo.insertMany tasks ts), none)

end Storage

/-! ## Task-list executor (`internal/listexecutor/listexecutor.go`) -/

/-- Outcomes of the calls that only the list executor makes, and the
readings of the clock for the execution of a task. `schedule` is the order in
which the concurrent executions of a parallel group are taken, one at a time. -/
structure ListEnv where
  /-- Driver error of `Storage.GetGroupTasks`, if it fails. -/
  getGroupTasks : Group → Option Error
  /-- Driver error of `Queue.AckGroupTasks`, if it fails. -/
  ackGroupTasks : Group → Option Error
  /-- Error with which `SaveTaskListHistory` gives up, if it does. -/
  saveTaskListHistory : TaskList → Option Error
  /-- Driver error of `Queue.AckList`, if it fails. -/
  ackList : TaskList → Option Error
  /-- Result of `json.Marshal` of the accumulated status. -/
  jsonMarshal : TaskListStatusResponse → Except Error Bytes
  /-- Order in which the tasks of a parallel group are taken. -/
  schedule : List Task → List Task
  /-- Reading of `time.Now()` at the start of the execution of a task. -/
  startedAt : Task → Time
  /-- Reading of `time.Now()` at the end of the execution of a task. -/
  finishedAt : Task → Time

/-- Go `sequential`. -/
def sequential : String := "sequential"

/-- Go `parallel`. -/
def parallel : String := "parallel"

/-- State of the loop over the tasks of a group: the group record (its state
is updated in place), the rolling input `req` of a sequential group, the
accumulated `state`, the task records as the loop left them, and the world. -/
structure GroupRun where
  group : Group
  req : Bytes
  state : GroupStatus
  tasks : List Task
  world : World
deriving DecidableEq, Repr

/-- What the execution of a group leaves behind: the group record, the task
records in the order in which they were taken, the world, and the returned
status or error. -/
structure GroupResult where
  group : Group
  tasks : List Task
  world : World
  result : Except Error GroupStatus
deriving DecidableEq, Repr

/-- Go `ListExecutor.executeSequential`, the body of the loop over the tasks
(listexecutor.go lines 186-238). -/
def ListExecutor.sequentialStep (env : Env) (lenv : ListEnv) (run : GroupRun) (task : Task) :
    GroupRun :=
  -- mark all subsequent tasks as failed if one task already failed
  if run.group.State = Failed then
    let task := { task with State := Failed }
    { run with state := { run.state with
                          Tasks := run.state.Tasks ++ [⟨some task.ID, some Failed⟩] },
               tasks := run.tasks ++ [task] }
  else
    let task := { task with Request := run.req }
    let out := ListExecutor.executeTask env (lenv.startedAt task) (lenv.finishedAt task) task
    let task := out.task
    let world := { run.world with trace := run.world.trace ++ out.calls }
    match out.err with
    | some _ =>
      let task := { task with State := Failed }
      { group := { run.group with State := Failed },
        req := run.req,
        state := { run.state with Tasks := run.state.Tasks ++ [⟨some task.ID, some Failed⟩] },
        tasks := run.tasks ++ [task],
        world := { world with trace := world.trace ++ [Call.logError "error executing task"] } }
    | none =>
      let state := { run.state with
                     Tasks := run.state.Tasks ++ [⟨some task.ID, some task.State⟩] }
      -- pass the response from current task as an input to the next task
      let req := task.Response
      let world := { world with trace := world.trace ++
        [Call.logDebug "task execution completed successfully",
          Call.cacheSet task.ID task.CacheNamespace task.CacheScope task.Response] }
      match env.cacheSet task.ID task.CacheNamespace task.CacheScope task.Response with
      | some _ =>
        { group := run.group, req := req, state := state, tasks := run.tasks ++ [task],
          world := { world with trace := world.trace ++
            [Call.logError "error storing task result in cache"] } }
      | none =>
        let world := { world with
          cache := Cache.set world.cache task.ID task.CacheNamespace task.CacheScope task.Response,
          trace := world.trace ++
            [Call.logDebug "task results are stored in cache", Call.saveTaskHistory task] }
        match Storage.SaveTaskHistory (env.saveTaskHistory task) world.tasksHistory task with
        | (tasksHistory, some _) =>
          { group := run.group, req := req, state := state, tasks := run.tasks ++ [task],
            world := { world with tasksHistory := tasksHistory,
                                  trace := world.trace ++
                                    [Call.logError "error saving task history"] } }
        | (tasksHistory, none) =>
          { group := run.group, req := req, state := state, tasks := run.tasks ++ [task],
            world := { world with tasksHistory := tasksHistory,
                                  trace := world.trace ++
                                    [Call.logDebug "task history is saved"] } }

/-- Go `ListExecutor.executeParallel`, the body of the function launched for
each task (listexecutor.go lines 267-310), taken as one step. -/
def ListExecutor.parallelStep (env : Env) (lenv : ListEnv) (run : GroupRun) (t : Task) :
    GroupRun :=
  -- pass group request to each task
  let t := { t with Request := run.group.Request }
  let out := ListExecutor.executeTask env (lenv.startedAt t) (lenv.finishedAt t) t
  let t := out.task
  let world := { run.world with trace := run.world.trace ++ out.calls }
  match out.err with
  | some _ =>
    let t := { t with State := Failed }
    { group := { run.group with State := Failed },
      req := run.req,
      state := { run.state with Tasks := run.state.Tasks ++ [⟨some t.ID, some Failed⟩] },
      tasks := run.tasks ++ [t],
      world := { world with trace := world.trace ++ [Call.logError "error executing task"] } }
  | none =>
    let state := { run.state with Tasks := run.state.Tasks ++ [⟨some t.ID, some t.State⟩] }
    let world := { world with trace := world.trace ++
      [Call.logDebug "task execution completed successfully",
        Call.cacheSet t.ID t.CacheNamespace t.CacheScope t.Response] }
    match env.cacheSet t.ID t.CacheNamespace t.CacheScope t.Response with
    | some _ =>
      { group := run.group, req := run.req, state := state, tasks := run.tasks ++ [t],
        world := { world with trace := world.trace ++
          [Call.logError "error storing task result in cache"] } }
    | none =>
      let world := { world with
        cache := Cache.set world.cache t.ID t.CacheNamespace t.CacheScope t.Response,
        trace := world.trace ++
          [Call.logDebug "task results are stored in cache", Call.saveTaskHistory t] }
      match Storage.SaveTaskHistory (env.saveTaskHistory t) world.tasksHistory t with
      | (tasksHistory, some _) =>
        { group := run.group, req := run.req, state := state, tasks := run.tasks ++ [t],
          world := { world with tasksHistory := tasksHistory,
                                trace := world.trace ++
                                  [Call.logError "error saving task history"] } }
      | (tasksHistory, none) =>
        { group := run.group, req := run.req, state := state, tasks := run.tasks ++ [t],
          world := { world with tasksHistory := tasksHistory,
                                trace := world.trace ++
                                  [Call.logDebug "task history is saved"] } }

/-- The end shared by Go `executeSequential` and `executeParallel`
(listexecutor.go lines 240-252 and 316-328): remove the tasks of the group
from the queue, settle the state of the group, return the status. -/
def ListExecutor.finishGroup (lenv : ListEnv) (run : GroupRun) : GroupResult :=
  -- remove tasks from queue
  let world := { run.world with trace := run.world.trace ++ [Call.ackGroupTasks run.group] }
  let world :=
    match Storage.AckGroupTasks (lenv.ackGroupTasks run.group) world.tasks run.group with
    | (tasks, some _) =>
      { world with tasks := tasks,
                   trace := world.trace ++ [Call.logError "failed to ack group tasks in queue"] }
    | (tasks, none) => { world with tasks := tasks }
  let group := if run.group.State ≠ Failed then { run.group with State := Done } else run.group
  { group := group, tasks := run.tasks, world := world,
    result := .ok { run.state with ID := some group.ID, Status := some group.State } }

/-- Go `ListExecutor.executeSequential`. -/
def ListExecutor.executeSequential (env : Env) (lenv : ListEnv) (w : World) (group : Group) :
    GroupResult :=
  let group := { group with State := Pending }
  let w := { w with trace := w.trace ++ [Call.getGroupTasks group] }
  match Storage.GetGroupTasks (lenv.getGroupTasks group) w.tasks group with
  | .error e => { group := group, tasks := [], world := w, result := .error e }
  | .ok tasks =>
    ListExecutor.finishGroup lenv
      (tasks.foldl (ListExecutor.sequentialStep env lenv)
        { group := group, req := group.Request, state := ⟨none, none, []⟩, tasks := [],
          world := w })

/-- Go `ListExecutor.executeParallel`, the concurrent executions taken one at
a time in the order `lenv.schedule`. -/
def ListExecutor.executeParallel (env : Env) (lenv : ListEnv) (w : World) (group : Group) :
    GroupResult :=
  let group := { group with State := Pending }
  let w := { w with trace := w.trace ++ [Call.getGroupTasks group] }
  match Storage.GetGroupTasks (lenv.getGroupTasks group) w.tasks group with
  | .error e => { group := group, tasks := [], world := w, result := .error e }
  | .ok tasks =>
    ListExecutor.finishGroup lenv
      ((lenv.schedule tasks).foldl (ListExecutor.parallelStep env lenv)
        { group := group, req := group.Request, state := ⟨none, none, []⟩, tasks := [],
          world := w })

/-- Go `ListExecutor.executeGroup`. -/
def ListExecutor.executeGroup (env : Env) (lenv : ListEnv) (w : World) (group : Group) :
    GroupResult :=
  if group.Execution = sequential then ListExecutor.executeSequential env lenv w group
  else if group.Execution = parallel then ListExecutor.executeParallel env lenv w group
  else
    { group := group, tasks := [], world := w,
      result := .error ⟨Kind.Unknown, "unknown type of group execution"⟩ }

/-- State of the loop of `Execute` over the groups of a list: the world, the
state of the list, the group records already gone through, the accumulated
`state.Groups`, and whether the run has stopped on a nil pointer dereference. -/
structure ListRun where
  world : World
  listState : State
  groups : List Group
  state : List GroupStatus
  panicked : Bool
deriving DecidableEq, Repr

/-- Go `ListExecutor.Execute`, the body of the loop over the groups
(listexecutor.go lines 121-132). When `executeGroup` returns an error the
group status is nil, and reading `*groupState.Status` stops the run. -/
def ListExecutor.groupStep (env : Env) (lenv : ListEnv) (run : ListRun) (group : Group) :
    ListRun :=
  if run.panicked then { run with groups := run.groups ++ [group] }
  else
    let r := ListExecutor.executeGroup env lenv run.world group
    match r.result with
    | .error _ =>
      { world := { r.world with trace := r.world.trace ++ [Call.logError "error executing group"] },
        listState := Failed,
        groups := run.groups ++ [{ r.group with State := Failed }],
        state := run.state,
        panicked := true }
    | .ok groupState =>
      match groupState.Status with
      | none =>
        { world := r.world, listState := run.listState, groups := run.groups ++ [r.group],
          state := run.state ++ [groupState], panicked := true }
      | some status =>
        -- mark taskList as `Failed` if the group's state is `Failed`
        { world := r.world,
          listState := if status = Failed then Failed else run.listState,
          groups := run.groups ++ [r.group],
          state := run.state ++ [groupState],
          panicked := false }

/-- How a run of `Execute` ends: it returns, leaving the world, the list
record and the accumulated status; or it stops on a nil pointer dereference. -/
inductive ExecuteResult where
  | finished (world : World) (list : TaskList) (state : TaskListStatusResponse)
  | panicked (world : World) (list : TaskList)
deriving DecidableEq, Repr

/-- Go `ListExecutor.Execute`. `started` and `finished` are the two readings
of `time.Now()`. -/
def ListExecutor.Execute (env : Env) (lenv : ListEnv) (started finished : Time) (w : World)
    (list : TaskList) : ExecuteResult :=
  let list := { list with State := Pending, StartedAt := started }
  -- execute groups sequentially
  let run := list.Groups.foldl (ListExecutor.groupStep env lenv)
    { world := w, listState := list.State, groups := [], state := [], panicked := false }
  let list := { list with Groups := run.groups, State := run.listState }
  if run.panicked then ExecuteResult.panicked run.world list
  else
    let list := if list.State ≠ Failed then { list with State := Done } else list
    let list := { list with FinishedAt := finished }
    let state : TaskListStatusResponse := { ID := list.ID, Status := list.State, Groups := run.state }
    let w := run.world
    let w :=
      match lenv.jsonMarshal state with
      | .error _ => { w with trace := w.trace ++ [Call.logError "error marshaling taskList state"] }
      | .ok value =>
        let w := { w with trace := w.trace ++
          [Call.cacheSet list.ID list.CacheNamespace list.CacheScope value] }
        match env.cacheSet list.ID list.CacheNamespace list.CacheScope value with
        | some _ =>
          { w with trace := w.trace ++ [Call.logError "error storing taskList state in cache"] }
        | none =>
          { w with cache := Cache.set w.cache list.ID list.CacheNamespace list.CacheScope value,
                   trace := w.trace ++ [Call.logDebug "taskList state is stored in cache"] }
    let w := { w with trace := w.trace ++ [Call.saveTaskListHistory list] }
    let w :=
      match Storage.SaveTaskListHistory (lenv.saveTaskListHistory list) w.taskListHistory list with
      | (taskListHistory, some _) =>
        { w with taskListHistory := taskListHistory,
                 trace := w.trace ++ [Call.logError "error saving taskList history"] }
      | (taskListHistory, none) =>
        { w with taskListHistory := taskListHistory,
                 trace := w.trace ++ [Call.logDebug "taskList history is saved"] }
    let w := { w with trace := w.trace ++ [Call.ackList list] }
    let w :=
      match Storage.AckList (lenv.ackList list) w.taskLists list with
      | (taskLists, some _) =>
        { w with taskLists := taskLists,
                 trace := w.trace ++ [Call.logError "failed to ack taskList in queue"] }
      | (taskLists, none) => { w with taskLists := taskLists }
    ExecuteResult.finished w list state

/-! ## Task-list submission (`internal/service/tasklist/service.go`) -/

/-- Go `goatasklist.CreateTaskListRequest`; `Data` is the submitted payload. -/
structure CreateTaskListRequest where
  TaskListName : String
  Data : Bytes
  CacheNamespace : Option String
  CacheScope : Option String
deriving DecidableEq, Repr

/-- The readings of `uuid.NewString()` and of `time.Now()` during one
`tasklist.Create`: for the list, for the group at position `i` of the
template, and for the `k`-th task that `createTasks` creates. -/
structure Fresh where
  listID : String
  listNow : Time
  groupID : Nat → String
  taskID : Nat → String
  taskNow : Nat → Time

namespace tasklist

/-- Go `taskNamesFromTaskListTemplate`: the names of all tasks within one
taskList template. -/
def taskNamesFromTaskListTemplate (template : Template) : List String :=
  template.Groups.foldl (fun names group => names ++ group.Tasks) []

/-- Go `createGroups`, from the group at position `i` of the template on. -/
def createGroupsFrom (fresh : Fresh) (req : Bytes) : Nat → List GroupTemplate → List Group
  | _, [] => []
  | i, group :: rest =>
    { ID := fresh.groupID i, Execution := group.Execution, Tasks := group.Tasks,
      State := Created, Request := req, FinalPolicy := group.FinalPolicy } ::
      createGroupsFrom fresh req (i + 1) rest

/-- Go `createGroups`. -/
def createGroups (fresh : Fresh) (t : Template) (req : Bytes) : List Group :=
  createGroupsFrom fresh req 0 t.Groups

/-- Go `createTasks`, the task created for `taskName` of `group` from its
template, as the `k`-th task. -/
def createTask (fresh : Fresh) (t : TaskList) (group : Group) (k : Nat) (taskName : String)
    (template : Task) : Task :=
  let task : Task :=
    { ID := fresh.taskID k, GroupID := group.ID, Name := taskName, State := Created,
      URL := template.URL, Method := template.Method, Request := [], Response := [],
      ResponseCode := 0, RequestPolicy := template.RequestPolicy,
      ResponsePolicy := template.ResponsePolicy, FinalPolicy := template.FinalPolicy,
      CacheNamespace := template.CacheNamespace, CacheScope := template.CacheScope,
      Retries := 0, CreatedAt := fresh.taskNow k, StartedAt := 0, FinishedAt := 0 }
  -- if cache namespace and scope are set in the taskList, use them instead of the defaults
  let task := if t.CacheNamespace ≠ "" then { task with CacheNamespace := t.CacheNamespace } else task
  let task := if t.CacheScope ≠ "" then { task with CacheScope := t.CacheScope } else task
  task

/-- Go `createTasks`, the inner loop over the task names of one group; `k`
tasks have been created before. -/
def createGroupTasks (fresh : Fresh) (t : TaskList) (templates : TemplateMap) (group : Group) :
    Nat → List String → Except Error (List Task)
  | _, [] => .ok []
  | k, taskName :: rest =>
    match templates taskName with
    | none => .error ⟨Kind.NotFound, "failed to find task template"⟩
    | some template =>
      match createGroupTasks fresh t templates group (k + 1) rest with
      | .error e => .error e
      | .ok tasks => .ok (createTask fresh t group k taskName template :: tasks)

/-- Go `createTasks`, the outer loop over the groups; `k` tasks have been
created before. -/
def createTasksFrom (fresh : Fresh) (t : TaskList) (templates : TemplateMap) :
    Nat → List Group → Except Error (List Task)
  | _, [] => .ok []
  | k, group :: rest =>
    match createGroupTasks fresh t templates group k group.Tasks with
    | .error e => .error e
    | .ok tasks =>
      match createTasksFrom fresh t templates (k + group.Tasks.length) rest with
      | .error e => .error e
      | .ok more => .ok (tasks ++ more)

/-- Go `createTasks`: creates task instances out of task templates in order
to be added to the queue for execution. -/
def createTasks (fresh : Fresh) (t : TaskList) (templates : TemplateMap) :
    Except Error (List Task) :=
  createTasksFrom fresh t templates 0 t.Groups

/-- Go `tasklist.Service.Create`, the list record it builds from the
template, the request and the marshalled payload (service.go lines 74-91). -/
def newTaskList (fresh : Fresh) (template : Template) (req : CreateTaskListRequest)
    (taskListRequest : Bytes) : TaskList :=
  let taskList : TaskList :=
    { ID := fresh.listID,
      Groups := createGroups fresh template taskListRequest,
      Name := template.Name,
      Request := taskListRequest,
      CacheScope := template.CacheScope,
      CacheNamespace := template.CacheNamespace,
      State := Created,
      CreatedAt := fresh.listNow,
      StartedAt := 0,
      FinishedAt := 0 }
  -- if cache namespace and scope are given, use them instead of the defaults
  let taskList :=
    match req.CacheNamespace with
    | some ns => if ns ≠ "" then { taskList with CacheNamespace := ns } else taskList
    | none => taskList
  let taskList :=
    match req.CacheScope with
    | some sc => if sc ≠ "" then { taskList with CacheScope := sc } else taskList
    | none => taskList
  taskList

/-- Go `tasklist.Service.Create`: returns the new world and the list id or
the error. `templateFault` and `templatesFault` are the driver faults of the
two template lookups, `faults` those of `AddTaskList`. -/
def Create (env : Env) (templateFault templatesFault : Option Error) (faults : AddTaskListFaults)
    (fresh : Fresh) (w : World) (req : CreateTaskListRequest) : World × Except Error String :=
  if req.TaskListName = "" then (w, .error ⟨Kind.BadRequest, "missing taskListName"⟩)
  else
    -- get predefined taskList definition from storage
    let w := { w with trace := w.trace ++ [Call.taskListTemplate req.TaskListName] }
    match Storage.TaskListTemplate templateFault w.taskListTemplates req.TaskListName with
    | .error e =>
      ({ w with trace := w.trace ++
          [Call.logError "error getting taskList template from storage"] }, .error e)
    | .ok template =>
      -- get predefined task definitions from storage
      let w := { w with trace := w.trace ++
        [Call.taskTemplates (taskNamesFromTaskListTemplate template)] }
      match Storage.TaskTemplates templatesFault w.taskTemplates
          (taskNamesFromTaskListTemplate template) with
      | .error e =>
        ({ w with trace := w.trace ++
            [Call.logError "error getting task templates from storage"] }, .error e)
      | .ok taskTemplates =>
        match env.jsonMarshal req.Data with
        | .error e =>
          ({ w with trace := w.trace ++ [Call.logError "error marshaling request data to JSON"] },
            .error ⟨Kind.BadRequest,
              "error marshaling request data to JSON" ++ ": " ++ e.message⟩)
        | .ok taskListRequest =>
          let taskList := newTaskList fresh template req taskListRequest
          match createTasks fresh taskList taskTemplates with
          | .error e =>
            ({ w with trace := w.trace ++
                [Call.logError "failed to create tasks for taskList"] },
              .error (Error.wrap "failed to create tasks for taskList" e))
          | .ok tasks =>
            let w := { w with trace := w.trace ++ [Call.addTaskList taskList tasks] }
            match Storage.AddTaskList faults w.taskLists w.tasks taskList tasks with
            | ((taskLists, queue), some e) =>
              ({ w with taskLists := taskLists, tasks := queue,
                        trace := w.trace ++ [Call.logError "error adding taskList to queue"] },
                .error (Error.wrap "error adding taskList to queue" e))
            | ((taskLists, queue), none) =>
              ({ w with taskLists := taskLists, tasks := queue }, .ok taskList.ID)

end tasklist

/-! ## Parts of the group loops, named for the statements -/

/-- The execution of a task of a group on the input `req`, as both group
loops do it: `task.Request = req`, then `executeTask`. -/
def ListExecutor.runTask (env : Env) (lenv : ListEnv) (req : Bytes) (task : Task) : Outcome :=
  ListExecutor.executeTask env (lenv.startedAt { task with Request := req })
    (lenv.finishedAt { task with Request := req }) { task with Request := req }

/-- The record of a task and the status reported for it agree. -/
def TaskStatus.ofTask (t : Task) : TaskStatus := { ID := some t.ID, Status := some t.State }

/-- The state of a group loop at its entry: the group is Pending, the fetch
of its tasks is in the trace, the rolling input is the group request. -/
def GroupRun.init (w : World) (group : Group) : GroupRun :=
  { group := { group with State := Pending },
    req := group.Request,
    state := ⟨none, none, []⟩,
    tasks := [],
    world := { w with trace := w.trace ++ [Call.getGroupTasks { group with State := Pending }] } }

/-- The state of the loop of `executeSequential` after the tasks `tasks`. -/
def ListExecutor.sequentialLoop (env : Env) (lenv : ListEnv) (w : World) (group : Group)
    (tasks : List Task) : GroupRun :=
  tasks.foldl (ListExecutor.sequentialStep env lenv) (GroupRun.init w group)

/-- The state of `executeParallel` after the executions of `tasks`, taken one
at a time. -/
def ListExecutor.parallelLoop (env : Env) (lenv : ListEnv) (w : World) (group : Group)
    (tasks : List Task) : GroupRun :=
  tasks.foldl (ListExecutor.parallelStep env lenv) (GroupRun.init w group)

/-! ## Specification side: precedence of the cache fields -/

/-- Stated from the specification, to be compared with `tasklist.Create`: a
cache field of a list is the submitted value when that is given and not
empty, and the value of the list template otherwise. -/
def specListCacheField (submitted : Option String) (listTemplate : String) : String :=
  match submitted with
  | some s => if s ≠ "" then s else listTemplate
  | none => listTemplate

/-- Stated from the specification, to be compared with `createTasks`: a
cache field of a task of a list is the submitted value when that is given
and not empty, else the value of the list template when that is not empty,
else the value of the task template. -/
def specTaskCacheField (submitted : Option String) (listTemplate taskTemplate : String) :
    String :=
  match submitted with
  | some s => if s ≠ "" then s else if listTemplate ≠ "" then listTemplate else taskTemplate
  | none => if listTemplate ≠ "" then listTemplate else taskTemplate

/-! ## Reading results (`internal/service/task/service.go`, `internal/service/tasklist/service.go`) -/

/-- Go `errors.Is(kind, err)` of the external error package: the error has
this kind. -/
def Error.is (kind : Kind) (e : Error) : Bool := e.kind == kind

namespace Storage

/-- Go `Storage.Task`, named `TaskByID` next to the type `Task`:
`FindOne(bson.M{"id": taskID})` on the `tasks` collection. -/
def TaskByID (fault : Option Error) (tasks : List Task) (taskID : String) : Except Error Task :=
  let result : Except Error Task :=
    match fault with
    | some e => .error e
    | none =>
      match Mongo.findOne (fun d => d.ID == taskID) tasks with
      | none => .error Mongo.ErrNoDocuments
      | some d => .ok d
  match result with
  | .error e =>
    if Mongo.isNoDocuments e then .error ⟨Kind.NotFound, "task not found"⟩
    else .error e
  | .ok task => .ok task

/-- Go `Storage.TaskHistory`: `FindOne(bson.M{"id": taskID})` on the
`tasksHistory` collection. -/
def TaskHistory (fault : Option Error) (tasksHistory : List Task)
    (taskID : String) : Except Error Task :=
  let result : Except Error Task :=
    match fault with
    | some e => .error e
    | none =>
      match Mongo.findOne (fun d => d.ID == taskID) tasksHistory with
      | none => .error Mongo.ErrNoDocuments
      | some d => .ok d
  match result with
  | .error e =>
    if Mongo.isNoDocuments e then .error ⟨Kind.NotFound, "task not found"⟩
    else .error e
  | .ok task => .ok task

/-- Go `Storage.TaskList`, named `TaskListByID` next to the type `TaskList`:
`FindOne(bson.M{"id": taskListID})` on the `taskLists` collection. -/
def TaskListByID (fault : Option Error) (taskLists : List TaskList) (taskListID : String) :
    Except Error TaskList :=
  let result : Except Error TaskList :=
    match fault with
    | some e => .error e
    | none =>
      match Mongo.findOne (fun d => d.ID == taskListID) taskLists with
      | none => .error Mongo.ErrNoDocuments
      | some d => .ok d
  match result with
  | .error e =>
    if Mongo.isNoDocuments e then .error ⟨Kind.NotFound, "taskList not found"⟩
    else .error e
  | .ok list => .ok list

/-- Go `Storage.TaskListHistory`: `FindOne(bson.M{"id": taskListID})` on the
`taskListHistory` collection. -/
def TaskListHistory (fault : Option Error) (taskListHistory : List TaskList)
    (taskListID : String) : Except Error TaskList :=
  let result : Except Error TaskList :=
    match fault with
    | some e => .error e
    | none =>
      match Mongo.findOne (fun d => d.ID == taskListID) taskListHistory with
      | none => .error Mongo.ErrNoDocuments
      | some d => .ok d
  match result with
  | .error e =>
    if Mongo.isNoDocuments e then .error ⟨Kind.NotFound, "taskList not found"⟩
    else .error e
  | .ok list => .ok list

end Storage

/-- Go `interface{}` holding what `json.Decoder.Decode` returns: a decoded
JSON document. The decoder is external; a document is kept as a text. -/
structure Document where
  text : String
deriving DecidableEq, Repr

/-- Outcomes of the calls that the two reading endpoints make. -/
structure ReadEnv where
  /-- Driver error of `Storage.TaskHistory`, if it fails. -/
  taskHistory : String → Option Error
  /-- Driver error of `Storage.Task`, if it fails. -/
  task : String → Option Error
  /-- Driver error of `Storage.TaskListHistory`, if it fails. -/
  taskListHistory : String → Option Error
  /-- Driver error of `Storage.TaskList`, if it fails. -/
  taskList : String → Option Error
  /-- Driver error of `Storage.GetGroupTasks`, if it fails. -/
  getGroupTasks : Group → Option Error
  /-- Error of `Cache.Get(ctx, key, namespace, scope)`, if the call fails. -/
  cacheGet : String → String → String → Option Error
  /-- Error that `Cache.Get` returns for a key without entry. -/
  cacheMiss : String → String → String → Error
  /-- Result of decoding cached bytes into an `interface{}`. -/
  jsonDecode : Bytes → Except Error Document
  /-- Result of decoding cached bytes into a `TaskListStatusResponse`. -/
  jsonDecodeStatus : Bytes → Except Error TaskListStatusResponse

/-- Modelled from the spec: the cache service behind `internal/clients/cache`,
a get returns the value last put under (key, namespace, scope), if any. -/
def Cache.get (cache : List (CacheKey × Bytes)) (key ns scope : String) : Option Bytes :=
  (cache.find? (fun entry => entry.1 == (key, ns, scope))).map (fun entry => entry.2)

/-- Modelled from the spec: the call `Cache.Get(ctx, key, namespace, scope)`
of the services, whose client is not part of the sources: the call fails, or
it returns the cached value, or the error for a key without entry. -/
def Cache.Get (renv : ReadEnv) (cache : List (CacheKey × Bytes)) (key ns scope : String) :
    Except Error Bytes :=
  match renv.cacheGet key ns scope with
  | some e => .error e
  | none =>
    match Cache.get cache key ns scope with
    | some value => .ok value
    | none => .error (renv.cacheMiss key ns scope)

/-- Go `task.Service.TaskResult`, from the test of the state of the task on
(service.go lines 108-124); `calls` are the calls made so far. -/
def Service.taskResultOf (renv : ReadEnv) (w : World) (task : Task) (calls : List Call) :
    Except Error Document × List Call :=
  if task.State ≠ Done ∧ task.State ≠ Failed then
    (.error ⟨Kind.NotFound, "no result, task is not completed"⟩, calls)
  else
    let calls := calls ++ [Call.cacheGet task.ID task.CacheNamespace task.CacheScope]
    match Cache.Get renv w.cache task.ID task.CacheNamespace task.CacheScope with
    | .error e => (.error e, calls ++ [Call.logError "error getting task result from cache"])
    | .ok value =>
      match renv.jsonDecode value with
      | .error e =>
        (.error (Error.wrap "error decoding result from cache" e),
          calls ++ [Call.logError "error decoding result from cache"])
      | .ok result => (.ok result, calls)

/-- Go `task.Service.TaskResult`: the result or the error, and the calls
made, in order. -/
def Service.TaskResult (renv : ReadEnv) (w : World) (taskID : String) :
    Except Error Document × List Call :=
  if taskID = "" then (.error ⟨Kind.BadRequest, "missing taskID"⟩, [])
  else
    let calls := [Call.taskHistory taskID]
    match Storage.TaskHistory (renv.taskHistory taskID) w.tasksHistory taskID with
    | .ok task => Service.taskResultOf renv w task calls
    | .error e =>
      if !Error.is Kind.NotFound e then
        (.error e, calls ++ [Call.logError "error getting task from history collection"])
      else
        let calls := calls ++ [Call.task taskID]
        match Storage.TaskByID (renv.task taskID) w.tasks taskID with
        | .error e =>
          if Error.is Kind.NotFound e then (.error (Error.wrap "task is not found" e), calls)
          else (.error e, calls ++ [Call.logError "error getting task from history collection"])
        | .ok task => Service.taskResultOf renv w task calls

namespace tasklist

/-- Go `calculateState`, the loop over the groups of the list. -/
def calculateGroups (renv : ReadEnv) (w : World) :
    List Group → Except Error (List GroupStatus) × List Call
  | [] => (.ok [], [])
  | group :: rest =>
    match Storage.GetGroupTasks (renv.getGroupTasks group) w.tasks group with
    | .error e => (.error e, [Call.getGroupTasks group])
    | .ok tasks =>
      let groupState : GroupStatus :=
        { ID := some group.ID, Status := some group.State,
          Tasks := tasks.map (fun t => { ID := some t.ID, Status := some t.State }) }
      match calculateGroups renv w rest with
      | (.error e, calls) => (.error e, Call.getGroupTasks group :: calls)
      | (.ok groups, calls) => (.ok (groupState :: groups), Call.getGroupTasks group :: calls)

/-- Go `calculateState`. -/
def calculateState (renv : ReadEnv) (w : World) (list : TaskList) :
    Except Error TaskListStatusResponse × List Call :=
  match calculateGroups renv w list.Groups with
  | (.error e, calls) => (.error e, calls)
  | (.ok groups, calls) => (.ok { ID := list.ID, Status := list.State, Groups := groups }, calls)

/-- Go `tasklist.Service.TaskListStatus`, from the test of the state of the
list on (service.go lines 136-158); `calls` are the calls made so far. -/
def taskListStatusOf (renv : ReadEnv) (w : World) (list : TaskList) (calls : List Call) :
    Except Error TaskListStatusResponse × List Call :=
  if list.State ≠ Done ∧ list.State ≠ Failed then
    -- taskList is not executed yet
    match calculateState renv w list with
    | (.error e, more) =>
      (.error e, calls ++ more ++ [Call.logError "error calculating taskList state"])
    | (.ok result, more) => (.ok result, calls ++ more)
  else
    -- taskList is already executed
    let calls := calls ++ [Call.cacheGet list.ID list.CacheNamespace list.CacheScope]
    match Cache.Get renv w.cache list.ID list.CacheNamespace list.CacheScope with
    | .error e => (.error e, calls ++ [Call.logError "error getting taskList result from cache"])
    | .ok value =>
      match renv.jsonDecodeStatus value with
      | .error e =>
        (.error (Error.wrap "error decoding result from cache" e),
          calls ++ [Call.logError "error decoding result from cache"])
      | .ok result => (.ok result, calls)

/-- Go `tasklist.Service.TaskListStatus`: the status or the error, and the
calls made, in order. -/
def TaskListStatus (renv : ReadEnv) (w : World) (taskListID : String) :
    Except Error TaskListStatusResponse × List Call :=
  if taskListID = "" then (.error ⟨Kind.BadRequest, "missing taskListID"⟩, [])
  else
    let calls := [Call.taskListHistory taskListID]
    match Storage.TaskListHistory (renv.taskListHistory taskListID) w.taskListHistory
        taskListID with
    | .ok list => taskListStatusOf renv w list calls
    | .error e =>
      if !Error.is Kind.NotFound e then
        (.error e, calls ++ [Call.logError "error getting taskList from history collection"])
      else
        let calls := calls ++ [Call.taskList taskListID]
        match Storage.TaskListByID (renv.taskList taskListID) w.taskLists taskListID with
        | .error e =>
          if Error.is Kind.NotFound e then
            (.error (Error.wrap "taskList is not found" e), calls)
          else
            (.error e,
              calls ++ [Call.logError "error getting taskList from taskLists collection"])
        | .ok list => taskListStatusOf renv w list calls

end tasklist

/-! ## Event client (`internal/clients/event/client.go`) -/

/-- Go `service.EventTask` (`internal/service/task.go`). -/
structure EventTask where
  Key : String
  Namespace : String
  Scope : String
  TaskName : String
deriving DecidableEq, Repr

/-- What the handler reads of a `cloudevents.Event`: its data content type
and its data. -/
structure CloudEvent where
  DataContentType : String
  Data : Bytes
deriving DecidableEq, Repr

/-- A value of the `map[string]interface{}` that `json.Unmarshal` fills, as
far as the handler tells values apart: a string, or anything else. -/
inductive JSONField where
  | string (s : String)
  | other
deriving DecidableEq, Repr

/-- Outcomes of the calls that the event client makes. -/
structure EventEnv where
  /-- Result of `json.Unmarshal(event.Data(), &data)`: the fields of the object. -/
  jsonUnmarshal : Bytes → Except Error (String → Option JSONField)
  /-- Driver error of `Storage.EventTask`, if it fails. -/
  eventTask : String → String → String → Option Error
  /-- Driver error of `Storage.TaskTemplate`, if it fails. -/
  taskTemplate : String → Option Error
  /-- Result of `json.Marshal(eventTask)`. -/
  jsonMarshal : EventTask → Except Error Bytes
  /-- Driver error of `Queue.Add`, if it fails. -/
  add : Task → Option Error

/-- Go `strings.Split(s, sep)` of the standard library for a separator of
one character, on the characters of `s`: the pieces between the separators,
the empty ones included. -/
def Strings.splitChars (sep : Char) : List Char → List (List Char)
  | [] => [[]]
  | c :: cs =>
    if c = sep then [] :: Strings.splitChars sep cs
    else
      match Strings.splitChars sep cs with
      | [] => [[c]]
      | piece :: rest => (c :: piece) :: rest

/-- Go `strings.Split(s, sep)` for a separator of one character. -/
def Strings.Split (s : String) (sep : Char) : List String :=
  (Strings.splitChars sep s.toList).map String.mk

/-- Go `Storage.EventTask`, named `EventTaskByKey` next to the type
`EventTask`: `FindOne` on the `eventTasks` collection with the filter
`bson.M{"key": key, "namespace": namespace, "scope": scope}`. -/
def Storage.EventTaskByKey (fault : Option Error) (eventTasks : List EventTask)
    (key ns scope : String) : Except Error EventTask :=
  let result : Except Error EventTask :=
    match fault with
    | some e => .error e
    | none =>
      match Mongo.findOne
          (fun d => d.Key == key && d.Namespace == ns && d.Scope == scope) eventTasks with
      | none => .error Mongo.ErrNoDocuments
      | some d => .ok d
  match result with
  | .error e =>
    if Mongo.isNoDocuments e then .error ⟨Kind.NotFound, "eventTask not found"⟩
    else .error e
  | .ok eventTask => .ok eventTask

/-- Go `eventDataKey`. -/
def eventDataKey : String := "key"

/-- Go `Client.enqueueTask`: returns the new world and the error (`none` for
`nil`). `id` is `uuid.NewString()`, `now` is `time.Now()`. -/
def Client.enqueueTask (eenv : EventEnv) (id : String) (now : Time) (w : World)
    (eventTask : EventTask) : World × Option Error :=
  -- get predefined task definition from storage
  let w := { w with trace := w.trace ++ [Call.taskTemplate eventTask.TaskName] }
  match Storage.TaskTemplate (eenv.taskTemplate eventTask.TaskName) w.taskTemplates
      eventTask.TaskName with
  | .error e => (w, some e)
  | .ok task =>
    if task.RequestPolicy = "" then
      (w, some ⟨Kind.Unknown, "event task must execute a policy"⟩)
    else
      match eenv.jsonMarshal eventTask with
      | .error e => (w, some (Error.wrap "error marshaling input to JSON" e))
      | .ok input =>
        let task := { task with ID := id, State := Created, CreatedAt := now, Request := input }
        let w := { w with trace := w.trace ++ [Call.add task] }
        match Storage.Add (eenv.add task) w.tasks task with
        | (tasks, some e) => ({ w with tasks := tasks }, some (Error.wrap "failed to create task" e))
        | (tasks, none) => ({ w with tasks := tasks }, none)

/-- Go `Client.handler`: returns the new world and the error (`none` for
`nil`). `eventTasks` is the collection of the bindings, which the client
only reads. -/
def Client.handler (eenv : EventEnv) (eventTasks : List EventTask) (id : String) (now : Time)
    (w : World) (event : CloudEvent) : World × Option Error :=
  if event.DataContentType ≠ "application/json" then
    (w, some ⟨Kind.Unknown, "event data has invalid content type, must be application/json"⟩)
  else
    match eenv.jsonUnmarshal event.Data with
    | .error e => (w, some e)
    | .ok data =>
      match data eventDataKey with
      | none => (w, some ⟨Kind.Unknown, "invalid event data key"⟩)
      | some cKey =>
        -- `cacheKey, _ := cKey.(string)`
        let cacheKey : String :=
          match cKey with
          | .string s => s
          | .other => ""
        let sCacheKey := Strings.Split cacheKey ','
        if sCacheKey.length = 0 then
          (w, some ⟨Kind.Unknown, "cache key cannot be empty"⟩)
        else
          let key := sCacheKey.getD 0 ""
          let ns := if sCacheKey.length > 1 then sCacheKey.getD 1 "" else ""
          let scope := if sCacheKey.length > 2 then sCacheKey.getD 2 "" else ""
          -- get event task template from storage
          let w := { w with trace := w.trace ++ [Call.eventTask key ns scope] }
          match Storage.EventTaskByKey (eenv.eventTask key ns scope) eventTasks key ns scope with
          | .error e => (w, some e)
          | .ok eventTask =>
            -- add task to task queue
            Client.enqueueTask eenv id now w eventTask

/-! ## Specification side: the key of an event -/

/-- Stated from the specification, to be compared with `Client.handler`:
segment `n` of a comma-separated text, counted from 0: the text before the
first comma for `n = 0`, the segment after the `n`-th comma otherwise, and
the empty text if there is no such segment. -/
def specSegment : Nat → List Char → List Char
  | 0, cs => cs.takeWhile (fun c => c ≠ ',')
  | n + 1, cs =>
    match cs.dropWhile (fun c => c ≠ ',') with
    | [] => []
    | _ :: rest => specSegment n rest

/-! ## The services and the executors over one world -/

/-- The world that a run of `Execute` leaves behind, however it ends. -/
def ExecuteResult.world : ExecuteResult → World
  | .finished world _ _ => world
  | .panicked world _ => world

/-- What can happen next in the scheduler as a whole. -/
inductive SchedulerEvent where
  /-- A step of the single-task executor, or the submission of a task. -/
  | executor (ev : Event)
  /-- A client submits a task list. -/
  | createList (templateFault templatesFault : Option Error) (faults : AddTaskListFaults)
      (fresh : Fresh) (req : CreateTaskListRequest)
  /-- The event client receives an event. -/
  | event (eenv : EventEnv) (eventTasks : List EventTask) (id : String) (now : Time)
      (ev : CloudEvent)
  /-- The list executor executes one group of a list. -/
  | executeGroup (lenv : ListEnv) (group : Group)
  /-- The list executor executes a list. -/
  | executeList (lenv : ListEnv) (started finished : Time) (list : TaskList)

/-- One step of the scheduler: the services and the executors act on the
same world. -/
def Scheduler.step (env : Env) (maxTaskRetries : Int) (s : ExecutorState) :
    SchedulerEvent → ExecutorState
  | .executor ev => Executor.step env maxTaskRetries s ev
  | .createList templateFault templatesFault faults fresh req =>
    { s with world := (tasklist.Create env templateFault templatesFault faults fresh s.world req).1 }
  | .event eenv eventTasks id now ev =>
    { s with world := (Client.handler eenv eventTasks id now s.world ev).1 }
  | .executeGroup lenv group =>
    { s with world := (ListExecutor.executeGroup env lenv s.world group).world }
  | .executeList lenv started finished list =>
    { s with world := (ListExecutor.Execute env lenv started finished s.world list).world }

/-- The state of the scheduler after a sequence of events. -/
def Scheduler.run (env : Env) (maxTaskRetries : Int) (s : ExecutorState)
    (events : List SchedulerEvent) : ExecutorState :=
  events.foldl (Scheduler.step env maxTaskRetries) s

/-- A record of the live queue is in a live state: Created or Pending, and
Created if it is a task of a group. -/
def Task.live (d : Task) : Prop :=
  (d.State = Created ∨ d.State = Pending) ∧ (d.GroupID ≠ "" → d.State = Created)

instance (d : Task) : Decidable d.live := by
  unfold Task.live
  exact inferInstance

/-! ## Sample data -/

/-- A standalone policy task. -/
def sampleTask : Task :=
  { ID := "a", GroupID := "", Name := "n", State := Created, URL := "", Method := "",
    Request := [1], Response := [], ResponseCode := 0, RequestPolicy := "p",
    ResponsePolicy := "", FinalPolicy := "", CacheNamespace := "", CacheScope := "",
    Retries := 0, CreatedAt := 5, StartedAt := 0, FinishedAt := 0 }

/-- A queue of three tasks: an older group task, and two standalone tasks. -/
def sampleQueue : List Task :=
  [{ sampleTask with ID := "g", GroupID := "g1", CreatedAt := 1 },
   sampleTask,
   { sampleTask with ID := "b", CreatedAt := 3 }]

/-- A standalone HTTP task. -/
def sampleHTTPTask : Task :=
  { sampleTask with RequestPolicy := "", URL := "http://upstream", Method := "POST" }

/-- The sample HTTP task with a method that `http.NewRequest` rejects. -/
def sampleBadMethodTask : Task := { sampleHTTPTask with Method := "BAD METHOD" }

/-- A standalone policy task with both post-processing policies set. -/
def sampleChainTask : Task :=
  { sampleTask with ResponsePolicy := "rp", FinalPolicy := "fin" }

/-- An environment in which every collaborator answers: a policy appends its
name's length to the data, the upstream answers 200 with body `[7]`. -/
def sampleEnv : Env :=
  { policyEvaluate := fun policy data => .ok (data ++ [policy.length]),
    newRequest := fun _ _ => none,
    httpDo := fun _ _ _ => .response 200 [7],
    cacheSet := fun _ _ _ _ => none,
    saveTaskHistory := fun _ => none,
    ack := fun _ => none,
    unack := fun _ => none,
    jsonMarshal := fun data => .ok data }

/-- The sample environment, in which a request with the method "BAD METHOD"
cannot be built. -/
def badMethodEnv : Env :=
  { sampleEnv with
    newRequest := fun method _ => if method = "BAD METHOD" then some ⟨Kind.Unknown, "net/http: invalid method"⟩ else none }

/-- The sample environment with the history store down. -/
def historyDownEnv : Env :=
  { sampleEnv with saveTaskHistory := fun _ => some ⟨Kind.Unknown, "history store down"⟩ }

/-- The sample environment with the cache down. -/
def cacheDownEnv : Env :=
  { sampleEnv with cacheSet := fun _ _ _ _ => some ⟨Kind.Unknown, "cache down"⟩ }

/-- A task with neither request policy nor url. -/
def sampleInvalidTask : Task :=
  { sampleTask with RequestPolicy := "", Method := "POST" }

/-- The sample task as the dispatcher hands it to a worker: claimed. -/
def samplePending : Task := { sampleTask with State := Pending }

/-- The sample environment with an upstream that always answers 503. -/
def upstream5xxEnv : Env :=
  { sampleEnv with httpDo := fun _ _ _ => HTTPResult.response 503 [9] }

/-- The sample environment with an upstream that cannot be reached. -/
def upstreamDownEnv : Env :=
  { sampleEnv with httpDo := fun _ _ _ => HTTPResult.doError ⟨Kind.Unknown, "connection refused"⟩ }

/-- A world whose queue holds only the given task. -/
def worldOf (t : Task) : World :=
  { tasks := [t], tasksHistory := [], taskTemplates := [], cache := [], trace := [] }

/-- The sample HTTP task with method GET. -/
def sampleGetTask : Task := { sampleHTTPTask with Method := "GET" }

/-- A list environment in which every call succeeds, parallel tasks are
taken in fetch order, and the status marshals to one byte per group. -/
def sampleListEnv : ListEnv :=
  { getGroupTasks := fun _ => none,
    ackGroupTasks := fun _ => none,
    saveTaskListHistory := fun _ => none,
    ackList := fun _ => none,
    jsonMarshal := fun state => .ok (state.Groups.map (fun g => g.Tasks.length)),
    schedule := fun tasks => tasks,
    startedAt := fun _ => 1,
    finishedAt := fun _ => 2 }

/-- Readings of the id generator and of the clock: distinct ids, a clock that
advances with every task. -/
def sampleFresh : Fresh :=
  { listID := "L",
    listNow := 10,
    groupID := fun i => "g" ++ toString i,
    taskID := fun k => "t" ++ toString k,
    taskNow := fun k => 11 + k }

/-- Task templates "ta" and "tb": policy tasks. -/
def sampleTemplates : List Task :=
  [{ sampleTask with ID := "", Name := "ta", RequestPolicy := "pa", Request := [],
                     CacheNamespace := "tns" },
   { sampleTask with ID := "", Name := "tb", RequestPolicy := "pb", Request := [],
                     CacheScope := "tsc" }]

/-- A list template with one sequential group over "ta", "tb" and one
parallel group over "tb". -/
def sampleListTemplate : Template :=
  { Name := "L1", CacheNamespace := "lns", CacheScope := "",
    Groups := [{ Execution := "sequential", FinalPolicy := "", Tasks := ["ta", "tb"] },
               { Execution := "parallel", FinalPolicy := "", Tasks := ["tb"] }] }

/-- A world holding the sample templates and nothing else. -/
def sampleListWorld : World :=
  { tasks := [], tasksHistory := [], taskTemplates := sampleTemplates, cache := [], trace := [],
    taskListTemplates := [sampleListTemplate] }

/-- A request for the sample list. -/
def sampleListRequest : CreateTaskListRequest :=
  { TaskListName := "L1", Data := [4, 2], CacheNamespace := none, CacheScope := some "rsc" }

/-- No driver fault in `AddTaskList`. -/
def noFaults : AddTaskListFaults := { insertList := none, insertTasks := none, ackList := none }

/-- The world after the sample list has been created. -/
def sampleCreatedWorld : World :=
  (tasklist.Create sampleEnv none none noFaults sampleFresh sampleListWorld sampleListRequest).1

/-- The first group of the created sample list: sequential, over "ta", "tb". -/
def sampleGroup0 : Group :=
  { ID := "g0", Execution := "sequential", Tasks := ["ta", "tb"], State := Created,
    Request := [4, 2], FinalPolicy := "" }

/-- The first task record of the first group of the created sample list. -/
def sampleTaskA : Task :=
  { sampleTask with ID := "t0", GroupID := "g0", Name := "ta", RequestPolicy := "pa",
                    Request := [], CacheNamespace := "lns", CacheScope := "rsc",
                    CreatedAt := 11 }

/-- The second task record of the first group of the created sample list. -/
def sampleTaskB : Task :=
  { sampleTask with ID := "t1", GroupID := "g0", Name := "tb", RequestPolicy := "pb",
                    Request := [], CacheNamespace := "lns", CacheScope := "rsc",
                    CreatedAt := 12 }

/-- The two task records of the first group of the created sample list. -/
def sampleGroup0Tasks : List Task := [sampleTaskA, sampleTaskB]

/-- The sample environment with a policy engine that fails on policy "pa". -/
def policyDownEnv : Env :=
  { sampleEnv with
    policyEvaluate := fun policy data => if policy = "pa" then .error ⟨Kind.Unknown, "policy failed"⟩ else .ok (data ++ [policy.length]) }

/-- The second group of the created sample list: parallel, over "tb". -/
def sampleGroup1 : Group :=
  { ID := "g1", Execution := "parallel", Tasks := ["tb"], State := Created,
    Request := [4, 2], FinalPolicy := "" }

/-- The created sample list, as it is stored in the queue. -/
def sampleList : TaskList :=
  { ID := "L", Name := "L1", State := Created, Groups := [sampleGroup0, sampleGroup1],
    Request := [4, 2], CacheNamespace := "lns", CacheScope := "rsc", CreatedAt := 10,
    StartedAt := 0, FinishedAt := 0 }

/-- Readings of the id generator and of the clock in which the id of the
group at position `i` is `i + 1` letters long. -/
def unaryFresh : Fresh :=
  { sampleFresh with groupID := fun i => String.mk (List.replicate (i + 1) 'g') }

/-- Readings as in `unaryFresh`, with a clock that is set back between any
two tasks. -/
def backwardFresh : Fresh :=
  { unaryFresh with taskNow := fun k => 50 - k }

/-- A request for a task from the template "ta": an empty namespace, a scope. -/
def sampleCreateRequest : CreateTaskRequest :=
  { TaskName := "ta", Data := [4, 2], CacheNamespace := some "", CacheScope := some "rsc" }

/-- The template "ta" of the sample templates. -/
def sampleTemplateA : Task :=
  { sampleTask with ID := "", Name := "ta", RequestPolicy := "pa", Request := [],
                    CacheNamespace := "tns" }

/-- The template "tb" of the sample templates. -/
def sampleTemplateB : Task :=
  { sampleTask with ID := "", Name := "tb", RequestPolicy := "pb", Request := [],
                    CacheScope := "tsc" }

/-- The template map of the sample templates. -/
def sampleTemplateMap : TemplateMap :=
  fun name => if name = "ta" then some sampleTemplateA else if name = "tb" then some sampleTemplateB else none

/-- A template map without the template "tb". -/
def sampleTemplateMapA : TemplateMap :=
  fun name => if name = "ta" then some sampleTemplateA else none

/-- A request for a task with an empty name. -/
def sampleEmptyCreateRequest : CreateTaskRequest :=
  { TaskName := "", Data := [4, 2], CacheNamespace := none, CacheScope := none }

/-- A request for a list with an empty name. -/
def sampleEmptyListRequest : CreateTaskListRequest :=
  { TaskListName := "", Data := [4, 2], CacheNamespace := none, CacheScope := none }

/-- A driver error of the store. -/
def storageError : Error := { kind := Kind.Unknown, message := "storage error" }

/-- A reading environment in which every call succeeds; a key without
entry gives a NotFound error; bytes decode to the text they spell, and no
bytes do not decode. -/
def sampleReadEnv : ReadEnv :=
  { taskHistory := fun _ => none,
    task := fun _ => none,
    taskListHistory := fun _ => none,
    taskList := fun _ => none,
    getGroupTasks := fun _ => none,
    cacheGet := fun _ _ _ => none,
    cacheMiss := fun _ _ _ => ⟨Kind.NotFound, "key not found"⟩,
    jsonDecode := fun b => if b = [] then .error ⟨Kind.Unknown, "EOF"⟩ else .ok ⟨String.mk (b.map Char.ofNat)⟩,
    jsonDecodeStatus := fun b => if b = [] then .error ⟨Kind.Unknown, "EOF"⟩ else .ok { ID := "L", Status := Done, Groups := [] } }

/-- The world after a worker with cap 3 has processed the claimed sample
task, every collaborator answering. -/
def sampleDoneWorld : World := Worker.handle sampleEnv 3 1 2 (worldOf samplePending) samplePending

/-- The claimed sample task with three failed executions behind it. -/
def sampleAtCap : Task := { samplePending with Retries := 3 }

/-- The world after a worker with cap 3 has received the sample task with
retries 3: the task is dropped. -/
def sampleDroppedWorld : World := Worker.handle sampleEnv 3 1 2 (worldOf sampleAtCap) sampleAtCap

/-- Driver faults of `AddTaskList` in which the bulk insert of the tasks and
the delete of the list record that follows both fail. -/
def bulkAndAckFaults : AddTaskListFaults :=
  { insertList := none, insertTasks := some storageError, ackList := some storageError }

/-- Driver faults of `AddTaskList` in which only the bulk insert fails. -/
def bulkFaults : AddTaskListFaults :=
  { insertList := none, insertTasks := some storageError, ackList := none }

/-- The bindings of the sample events: one to the policy template "ta", one
to a template that calls a URL. -/
def sampleEventTasks : List EventTask :=
  [{ Key := "k1", Namespace := "ns1", Scope := "sc1", TaskName := "ta" },
   { Key := "k2", Namespace := "", Scope := "", TaskName := "th" }]

/-- A template without request policy. -/
def sampleURLTemplate : Task := { sampleHTTPTask with ID := "", Name := "th" }

/-- A world with an empty queue and the sample templates "ta", "tb", "th". -/
def sampleEventWorld : World :=
  { tasks := [], tasksHistory := [], taskTemplates := sampleTemplates ++ [sampleURLTemplate],
    cache := [], trace := [] }

/-- The fields of a payload whose only field is `key`, with the given text. -/
def sampleFields (text : String) : String → Option JSONField :=
  fun field => if field = "key" then some (JSONField.string text) else none

/-- An event environment in which every call succeeds: data of one byte
decodes to the key "k1,ns1,sc1,more", longer data to the key "k2", and no
data does not decode; a binding marshals to the lengths of its fields. -/
def sampleEventEnv : EventEnv :=
  { jsonUnmarshal := fun b => if b = [] then .error ⟨Kind.Unknown, "unexpected end of JSON input"⟩ else if b.length = 1 then .ok (sampleFields "k1,ns1,sc1,more") else .ok (sampleFields "k2"),
    eventTask := fun _ _ _ => none,
    taskTemplate := fun _ => none,
    jsonMarshal := fun b => .ok [b.Key.length, b.Namespace.length, b.Scope.length, b.TaskName.length],
    add := fun _ => none }

/-- An event that carries the key "k1,ns1,sc1,more". -/
def sampleEvent : CloudEvent := { DataContentType := "application/json", Data := [1] }

/-- An event that carries the key "k2". -/
def sampleURLEvent : CloudEvent := { DataContentType := "application/json", Data := [1, 2] }

/-- A group whose kind of execution is neither "sequential" nor "parallel". -/
def sampleUnknownGroup : Group :=
  { ID := "gx", Execution := "serial", Tasks := ["ta"], State := Created,
    Request := [4, 2], FinalPolicy := "" }

/-- The sample list with a group of unknown execution before its two groups. -/
def sampleUnknownList : TaskList :=
  { sampleList with Groups := [sampleUnknownGroup, sampleGroup0, sampleGroup1] }

/-! ## Theorems -/

section MongoLemmas

variable {α : Type}

theorem Mongo.selectFirst_eq_none {p : α → Bool} {key : α → Nat} {c : List α} :
    Mongo.selectFirst p key c = none ↔ ∀ d ∈ c, p d = false := by
  induction c with
  | nil => simp [Mongo.selectFirst]
  | cons d ds ih =>
    unfold Mongo.selectFirst
    cases h : Mongo.selectFirst p key ds with
    | none =>
      have hds := ih.mp h
      by_cases hp : p d = true
      · simp [hp]
      · have hpf : p d = false := by simpa using hp
        rw [hpf]
        simp only [Bool.false_eq_true, if_false, true_iff]
        intro x hx
        rcases List.mem_cons.mp hx with rfl | hx
        · exact hpf
        · exact hds x hx
    | some r =>
      obtain ⟨i, m⟩ := r
      have hne : ¬ ∀ x ∈ ds, p x = false := fun hall => by
        rw [ih.mpr hall] at h; cases h
      simp only []
      constructor
      · intro h2; split at h2 <;> cases h2
      · intro hall
        exact absurd (fun x hx => hall x (List.mem_cons_of_mem _ hx)) hne

theorem Mongo.selectFirst_eq_some {p : α → Bool} {key : α → Nat} {l : List α} {i : Nat} {m : α}
    (h : Mongo.selectFirst p key l = some (i, m)) :
    l[i]? = some m ∧ p m = true ∧ ∀ d ∈ l, p d = true → key m ≤ key d := by
  induction l generalizing i m with
  | nil => simp [Mongo.selectFirst] at h
  | cons d ds ih =>
    unfold Mongo.selectFirst at h
    cases hs : Mongo.selectFirst p key ds with
    | none =>
      rw [hs] at h
      have hnone := Mongo.selectFirst_eq_none.mp hs
      by_cases hp : p d = true
      · simp [hp] at h
        obtain ⟨rfl, rfl⟩ := h
        refine ⟨by simp, hp, ?_⟩
        intro x hx hpx
        rcases List.mem_cons.mp hx with rfl | hx
        · exact le_rfl
        · rw [hnone x hx] at hpx; cases hpx
      · simp [hp] at h
    | some r =>
      obtain ⟨j, n⟩ := r
      rw [hs] at h
      obtain ⟨hget, hpn, hmin⟩ := ih hs
      by_cases hc : (p d && decide (key d ≤ key n)) = true
      · simp only [hc, if_true] at h
        simp only [Option.some.injEq, Prod.mk.injEq] at h
        obtain ⟨rfl, rfl⟩ := h
        simp only [Bool.and_eq_true, decide_eq_true_eq] at hc
        refine ⟨by simp, hc.1, ?_⟩
        intro x hx hpx
        rcases List.mem_cons.mp hx with rfl | hx
        · exact le_rfl
        · exact le_trans hc.2 (hmin x hx hpx)
      · simp only [hc] at h
        simp only [Bool.false_eq_true, if_false, Option.some.injEq, Prod.mk.injEq] at h
        obtain ⟨rfl, rfl⟩ := h
        refine ⟨by simpa using hget, hpn, ?_⟩
        intro x hx hpx
        rcases List.mem_cons.mp hx with rfl | hx
        · simp only [Bool.and_eq_true, decide_eq_true_eq, not_and, not_le] at hc
          exact le_of_lt (hc hpx)
        · exact hmin x hx hpx

theorem Mongo.mem_deleteOne {p : α → Bool} {c : List α} {d : α}
    (h : d ∈ Mongo.deleteOne p c) : d ∈ c := by
  induction c with
  | nil => simp [Mongo.deleteOne] at h
  | cons x xs ih =>
    unfold Mongo.deleteOne at h
    split at h
    · exact List.mem_cons_of_mem _ h
    · rcases List.mem_cons.mp h with rfl | h
      · exact List.mem_cons_self _ _
      · exact List.mem_cons_of_mem _ (ih h)

theorem Mongo.length_deleteOne {p : α → Bool} {l : List α} (h : ∃ d ∈ l, p d = true) :
    (Mongo.deleteOne p l).length + 1 = l.length := by
  induction l with
  | nil => obtain ⟨d, hd, _⟩ := h; cases hd
  | cons x xs ih =>
    unfold Mongo.deleteOne
    by_cases hx : p x = true
    · simp [hx]
    · obtain ⟨d, hd, hpd⟩ := h
      rcases List.mem_cons.mp hd with rfl | hd
      · exact absurd hpd hx
      · simp [hx, ih ⟨d, hd, hpd⟩]

theorem Mongo.mem_updateOne {p : α → Bool} {f : α → α} {c : List α} {d : α}
    (h : d ∈ Mongo.updateOne p f c) : d ∈ c ∨ ∃ x ∈ c, p x = true ∧ d = f x := by
  induction c with
  | nil => simp [Mongo.updateOne] at h
  | cons x xs ih =>
    unfold Mongo.updateOne at h
    split at h
    · rename_i hp
      rcases List.mem_cons.mp h with rfl | h
      · exact Or.inr ⟨x, List.mem_cons_self _ _, hp, rfl⟩
      · exact Or.inl (List.mem_cons_of_mem _ h)
    · rcases List.mem_cons.mp h with rfl | h
      · exact Or.inl (List.mem_cons_self _ _)
      · rcases ih h with h | ⟨y, hy, hpy, rfl⟩
        · exact Or.inl (List.mem_cons_of_mem _ h)
        · exact Or.inr ⟨y, List.mem_cons_of_mem _ hy, hpy, rfl⟩

/-- With a sort key on which all documents agree, the selection is the
first stored document that matches the filter. -/
theorem Mongo.selectFirst_first {p : α → Bool} {key : α → Nat} (hkey : ∀ a b, key a = key b) :
    ∀ {l : List α} {i : Nat} {m : α}, Mongo.selectFirst p key l = some (i, m) →
      ∀ j, j < i → ∀ x, l[j]? = some x → p x = false := by
  intro l
  induction l with
  | nil => intro i m h; simp [Mongo.selectFirst] at h
  | cons d ds ih =>
    intro i m h j hj x hx
    unfold Mongo.selectFirst at h
    cases hs : Mongo.selectFirst p key ds with
    | none =>
      rw [hs] at h
      by_cases hp : p d = true
      · simp [hp] at h
        omega
      · simp [hp] at h
    | some r =>
      obtain ⟨k, n⟩ := r
      rw [hs] at h
      have hle : decide (key d ≤ key n) = true := by
        rw [hkey d n]; simp
      simp only [hle, Bool.and_true] at h
      by_cases hp : p d = true
      · simp [hp] at h
        omega
      · have hpf : p d = false := by simpa using hp
        simp only [hpf, Bool.false_eq_true, if_false, Option.some.injEq, Prod.mk.injEq] at h
        obtain ⟨hi, hm⟩ := h
        cases j with
        | zero =>
          simp only [List.getElem?_cons_zero, Option.some.injEq] at hx
          rw [← hx]; exact hpf
        | succ j' =>
          simp only [List.getElem?_cons_succ] at hx
          exact ih hs j' (by omega) x hx

/-- With a sort key on which all documents agree, a sorted find returns the
documents that match the filter, in storage order. -/
theorem Mongo.findSorted_const {p : α → Bool} {key : α → Nat} (hkey : ∀ a b, key a = key b)
    (l : List α) : Mongo.findSorted p key l = l.filter p := by
  unfold Mongo.findSorted
  apply List.Sorted.insertionSort_eq
  unfold List.Sorted
  exact List.pairwise_of_forall (fun a b => le_of_eq (hkey a b))

end MongoLemmas

/-- No stored task document has a field `createdAt`: the sort key of that
name is the one of a missing field for every task. -/
theorem Task.sortKey_createdAt (a b : Task) :
    Task.sortKey "createdAt" a = Task.sortKey "createdAt" b := by
  simp [Task.sortKey]

theorem Mongo.isNoDocuments_ErrNoDocuments : Mongo.isNoDocuments Mongo.ErrNoDocuments = true := by
  decide

theorem Storage.pollFilter_iff (t : Task) :
    Storage.pollFilter t = true ↔ t.State = Created ∧ t.GroupID = "" := by
  simp [Storage.pollFilter]

/-- Outcome of a fault-free `Poll` in terms of the selection. -/
theorem Storage.Poll_none_eq (tasks : List Task) :
    Storage.Poll none tasks =
      match Mongo.selectFirst Storage.pollFilter (Task.sortKey "createdAt") tasks with
      | none => (.error ⟨Kind.NotFound, "task not found"⟩, tasks)
      | some (i, d) => (.ok (Storage.setPending d), tasks.set i (Storage.setPending d)) := by
  unfold Storage.Poll Mongo.findOneAndUpdate
  cases h : Mongo.selectFirst Storage.pollFilter (Task.sortKey "createdAt") tasks with
  | none => simp [Mongo.isNoDocuments_ErrNoDocuments]
  | some r => obtain ⟨i, d⟩ := r; simp

/-- Whatever `Poll` returns is the pending copy of the first stored eligible
task. -/
theorem Storage.Poll_ok {fault : Option Error} {tasks tasks' : List Task} {task : Task}
    (h : Storage.Poll fault tasks = (.ok task, tasks')) :
    ∃ i d, tasks[i]? = some d ∧ Storage.pollFilter d = true ∧
      (∀ j, j < i → ∀ x, tasks[j]? = some x → Storage.pollFilter x = false) ∧
      task = Storage.setPending d ∧ tasks' = tasks.set i (Storage.setPending d) := by
  cases fault with
  | some e =>
    unfold Storage.Poll at h
    simp only [] at h
    split at h <;> simp at h
  | none =>
    rw [Storage.Poll_none_eq] at h
    cases hs : Mongo.selectFirst Storage.pollFilter (Task.sortKey "createdAt") tasks with
    | none => rw [hs] at h; simp at h
    | some r =>
      obtain ⟨i, d⟩ := r
      rw [hs] at h
      simp only [Prod.mk.injEq, Except.ok.injEq] at h
      obtain ⟨hget, hp, _⟩ := Mongo.selectFirst_eq_some hs
      exact ⟨i, d, hget, hp, Mongo.selectFirst_first Task.sortKey_createdAt hs,
        h.1.symm, h.2.symm⟩

/-- A fault-free `Poll` on a queue without eligible task is NotFound. -/
theorem Storage.Poll_none_notFound {tasks : List Task}
    (hno : ¬ ∃ t ∈ tasks, t.State = Created ∧ t.GroupID = "") :
    Storage.Poll none tasks = (.error ⟨Kind.NotFound, "task not found"⟩, tasks) := by
  have hall : ∀ d ∈ tasks, Storage.pollFilter d = false := by
    intro d hd
    cases hp : Storage.pollFilter d with
    | false => rfl
    | true => exact absurd ⟨d, hd, (Storage.pollFilter_iff d).mp hp⟩ hno
  rw [Storage.Poll_none_eq, Mongo.selectFirst_eq_none.mpr hall]

/-- C1, what the code does instead of taking the oldest task. `Storage.Poll`
on the live task queue (no driver fault): if some stored task has state
Created and an empty group id, Poll returns the pending copy of the one of
those that is stored first, whatever the creation times (the sort key
`createdAt` names no field of the stored documents), the stored record at
that position becomes that pending copy and every other record is
unchanged; otherwise Poll returns the NotFound error and the queue is
unchanged. Whatever Poll returns has an empty group id and state Pending. -/
theorem Storage.Poll_first_stored (tasks : List Task) :
    ((∃ t ∈ tasks, t.State = Created ∧ t.GroupID = "") →
      ∃ (i : Nat) (t₀ : Task) (tasks' : List Task),
        Storage.Poll none tasks = (.ok { t₀ with State := Pending }, tasks') ∧
        tasks[i]? = some t₀ ∧ t₀.State = Created ∧ t₀.GroupID = "" ∧
        (∀ j, j < i → ∀ t, tasks[j]? = some t → ¬ (t.State = Created ∧ t.GroupID = "")) ∧
        tasks.find? Storage.pollFilter = some t₀ ∧
        tasks'.length = tasks.length ∧
        tasks'[i]? = some { t₀ with State := Pending } ∧
        (∀ j, j ≠ i → tasks'[j]? = tasks[j]?)) ∧
    ((¬ ∃ t ∈ tasks, t.State = Created ∧ t.GroupID = "") →
      Storage.Poll none tasks = (.error ⟨Kind.NotFound, "task not found"⟩, tasks)) ∧
    (∀ fault task tasks', Storage.Poll fault tasks = (.ok task, tasks') →
      task.GroupID = "" ∧ task.State = Pending) := by
  refine ⟨?_, ?_, ?_⟩
  · rintro ⟨t, ht, hst, hg⟩
    cases hs : Mongo.selectFirst Storage.pollFilter (Task.sortKey "createdAt") tasks with
    | none =>
      have := Mongo.selectFirst_eq_none.mp hs t ht
      rw [(Storage.pollFilter_iff t).mpr ⟨hst, hg⟩] at this
      cases this
    | some r =>
      obtain ⟨i, d⟩ := r
      obtain ⟨hget, hp, _⟩ := Mongo.selectFirst_eq_some hs
      have hfirst := Mongo.selectFirst_first Task.sortKey_createdAt hs
      have hd := (Storage.pollFilter_iff d).mp hp
      have hi : i < tasks.length := by
        rcases Nat.lt_or_ge i tasks.length with h | h
        · exact h
        · rw [List.getElem?_eq_none h] at hget; cases hget
      refine ⟨i, d, tasks.set i (Storage.setPending d), ?_, hget, hd.1, hd.2, ?_, ?_, ?_, ?_, ?_⟩
      · rw [Storage.Poll_none_eq, hs]; rfl
      · intro j hj x hx hel
        have := hfirst j hj x hx
        rw [(Storage.pollFilter_iff x).mpr hel] at this
        cases this
      · rw [List.find?_eq_some_iff_getElem]
        refine ⟨hp, i, hi, ?_, ?_⟩
        · rw [List.getElem?_eq_getElem hi] at hget
          exact Option.some.inj hget
        · intro j hj
          have hjl : j < tasks.length := by omega
          have := hfirst j hj tasks[j] (List.getElem?_eq_getElem hjl)
          simp [this]
      · simp
      · rw [List.getElem?_set_self hi]; rfl
      · intro j hj
        exact List.getElem?_set_ne (Ne.symm hj)
  · exact fun hno => Storage.Poll_none_notFound hno
  · intro fault task tasks' h
    obtain ⟨i, d, _, hp, _, rfl, _⟩ := Storage.Poll_ok h
    exact ⟨((Storage.pollFilter_iff d).mp hp).2, rfl⟩

/-- C1, on the sample queue, stored in the order "g" (a group task, created
at 1), "a" (created at 5), "b" (created at 3): Poll claims "a", stored
first, although the eligible task "b" is older. -/
theorem Storage.Poll_first_stored_witness :
    (∃ t ∈ sampleQueue, t.State = Created ∧ t.GroupID = "" ∧
      t.CreatedAt < sampleTask.CreatedAt) ∧
    ∃ (i : Nat) (t₀ : Task) (tasks' : List Task),
      Storage.Poll none sampleQueue = (.ok { t₀ with State := Pending }, tasks') ∧
      sampleQueue[i]? = some t₀ ∧ t₀.State = Created ∧ t₀.GroupID = "" ∧
      (∀ j, j < i → ∀ t, sampleQueue[j]? = some t → ¬ (t.State = Created ∧ t.GroupID = "")) ∧
      sampleQueue.find? Storage.pollFilter = some t₀ ∧
      tasks'.length = sampleQueue.length ∧
      tasks'[i]? = some { t₀ with State := Pending } ∧
      (∀ j, j ≠ i → tasks'[j]? = sampleQueue[j]?) :=
  ⟨⟨{ sampleTask with ID := "b", CreatedAt := 3 }, by decide, by decide, by decide, by decide⟩,
    (Storage.Poll_first_stored sampleQueue).1 ⟨sampleTask, by decide, by decide, by decide⟩⟩

/-! ### Ack, then Poll -/

theorem Storage.mem_Ack_iff {tasks : List Task} {t : Task}
    (hid : (tasks.map (fun d => d.ID)).Nodup) (d : Task) :
    d ∈ (Storage.Ack none tasks t).1 ↔ d ∈ tasks ∧ d.ID ≠ t.ID := by
  simp only [Storage.Ack]
  induction tasks with
  | nil => simp [Mongo.deleteOne]
  | cons x xs ih =>
    rw [List.map_cons, List.nodup_cons] at hid
    unfold Mongo.deleteOne
    by_cases hx : x.ID = t.ID
    · have hxs : ∀ y ∈ xs, y.ID ≠ t.ID := by
        intro y hy hyt
        exact hid.1 (List.mem_map.mpr ⟨y, hy, by rw [hyt, hx]⟩)
      simp only [hx, beq_self_eq_true, if_true, List.mem_cons]
      constructor
      · intro h; exact ⟨Or.inr h, hxs d h⟩
      · rintro ⟨rfl | h, hne⟩
        · exact absurd hx hne
        · exact h
    · have hb : (x.ID == t.ID) = false := by simpa using hx
      simp only [hb, Bool.false_eq_true, if_false, List.mem_cons, ih hid.2]
      constructor
      · rintro (rfl | ⟨h, hne⟩)
        · exact ⟨Or.inl rfl, hx⟩
        · exact ⟨Or.inr h, hne⟩
      · rintro ⟨rfl | h, hne⟩
        · exact Or.inl rfl
        · exact Or.inr ⟨h, hne⟩

/-- A queue call that inserts no task with the given id keeps the queue
free of that id. -/
theorem QueueOp.apply_noID {id : String} {tasks : List Task} (op : QueueOp)
    (hq : ∀ d ∈ tasks, d.ID ≠ id) (hop : id ∉ op.inserted) :
    ∀ d ∈ QueueOp.apply tasks op, d.ID ≠ id := by
  intro d hd
  cases op with
  | add fault task =>
    cases fault with
    | some e => exact hq d hd
    | none =>
      simp only [QueueOp.apply, Storage.Add, Mongo.insertOne, List.mem_append,
        List.mem_singleton] at hd
      rcases hd with hd | rfl
      · exact hq d hd
      · intro h; exact hop (by simp [QueueOp.inserted, h])
  | insertMany fault ts =>
    cases fault with
    | some e => exact hq d hd
    | none =>
      simp only [QueueOp.apply, Mongo.insertMany, List.mem_append] at hd
      rcases hd with hd | hd
      · exact hq d hd
      · intro h
        exact hop (by simp only [QueueOp.inserted, List.mem_map]; exact ⟨d, hd, h⟩)
  | poll fault =>
    simp only [QueueOp.apply] at hd
    cases hr : Storage.Poll fault tasks with
    | mk r tasks' =>
      rw [hr] at hd
      cases r with
      | error e =>
        have : tasks' = tasks := by
          cases fault with
          | some e0 =>
            unfold Storage.Poll at hr
            simp only [] at hr
            split at hr <;> simp only [Prod.mk.injEq] at hr <;> exact hr.2.symm
          | none =>
            rw [Storage.Poll_none_eq] at hr
            split at hr
            · simp only [Prod.mk.injEq] at hr; exact hr.2.symm
            · simp at hr
        exact hq d (this ▸ hd)
      | ok task =>
        obtain ⟨i, x, hget, _, _, _, rfl⟩ := Storage.Poll_ok hr
        rcases List.mem_or_eq_of_mem_set hd with hd | rfl
        · exact hq d hd
        · exact hq x (List.getElem?_mem hget)
  | ack fault task =>
    cases fault with
    | some e => exact hq d hd
    | none => exact hq d (Mongo.mem_deleteOne hd)
  | unack fault task =>
    cases fault with
    | some e => exact hq d hd
    | none =>
      rcases Mongo.mem_updateOne hd with hd | ⟨x, hx, _, rfl⟩
      · exact hq d hd
      · exact hq x hx
  | ackGroupTasks fault group =>
    cases fault with
    | some e => exact hq d hd
    | none =>
      simp only [QueueOp.apply, Storage.AckGroupTasks, Mongo.deleteMany] at hd
      exact hq d (List.mem_filter.mp hd).1

theorem QueueOp.run_noID {id : String} (ops : List QueueOp) :
    ∀ {tasks : List Task}, (∀ d ∈ tasks, d.ID ≠ id) → (∀ op ∈ ops, id ∉ op.inserted) →
      ∀ d ∈ QueueOp.run tasks ops, d.ID ≠ id := by
  induction ops with
  | nil => intro tasks hq _; simpa [QueueOp.run] using hq
  | cons op ops ih =>
    intro tasks hq hops
    have h1 := QueueOp.apply_noID op hq (hops op (List.mem_cons_self _ _))
    have h2 := ih h1 (fun o ho => hops o (List.mem_cons_of_mem _ ho))
    simpa [QueueOp.run] using h2

/-- C2. In a live task queue with unique task ids, after a successful
`Ack(t)`: no record with the id of `t` is stored and every other record still
is; after any further queue calls that do not insert that id, no `Poll`
returns a task with that id; and if `t` was the only eligible task (state
Created, empty group id), the next `Poll` returns NotFound. -/
theorem Storage.Ack_then_Poll (tasks : List Task) (t : Task)
    (hid : (tasks.map (fun d => d.ID)).Nodup) (ht : t ∈ tasks) :
    (Storage.Ack none tasks t).2 = none ∧
    t ∉ (Storage.Ack none tasks t).1 ∧
    (Storage.Ack none tasks t).1.length + 1 = tasks.length ∧
    (∀ d, d ∈ (Storage.Ack none tasks t).1 ↔ d ∈ tasks ∧ d.ID ≠ t.ID) ∧
    (∀ ops : List QueueOp, (∀ op ∈ ops, t.ID ∉ op.inserted) →
      ∀ fault task tasks',
        Storage.Poll fault (QueueOp.run (Storage.Ack none tasks t).1 ops) = (.ok task, tasks') →
        task.ID ≠ t.ID) ∧
    ((∀ d ∈ tasks, d.State = Created → d.GroupID = "" → d = t) →
      Storage.Poll none (Storage.Ack none tasks t).1 =
        (.error ⟨Kind.NotFound, "task not found"⟩, (Storage.Ack none tasks t).1)) := by
  have hmem := Storage.mem_Ack_iff (t := t) hid
  refine ⟨rfl, fun h => ((hmem t).mp h).2 rfl, ?_, hmem, ?_, ?_⟩
  · exact Mongo.length_deleteOne ⟨t, ht, by simp⟩
  · intro ops hops fault task tasks' hpoll
    obtain ⟨i, x, hget, _, _, rfl, _⟩ := Storage.Poll_ok hpoll
    exact QueueOp.run_noID ops (fun d hd => ((hmem d).mp hd).2) hops x
      (List.getElem?_mem hget)
  · intro honly
    refine Storage.Poll_none_notFound ?_
    rintro ⟨d, hd, hst, hg⟩
    obtain ⟨hdt, hne⟩ := (hmem d).mp hd
    exact hne (by rw [honly d hdt hst hg])

/-- C2, on the sample queue: the ack of the standalone task "a" succeeds
and removes exactly that record, and after two more polls no poll returns
"a". -/
theorem Storage.Ack_then_Poll_witness :
    ((Storage.Ack none sampleQueue sampleTask).2 = none ∧
      sampleTask ∉ (Storage.Ack none sampleQueue sampleTask).1 ∧
      (Storage.Ack none sampleQueue sampleTask).1.length + 1 = sampleQueue.length) ∧
    ∀ fault task tasks',
      Storage.Poll fault (QueueOp.run (Storage.Ack none sampleQueue sampleTask).1
        [QueueOp.poll none, QueueOp.poll none]) = (.ok task, tasks') →
      task.ID ≠ sampleTask.ID :=
  ⟨⟨(Storage.Ack_then_Poll sampleQueue sampleTask (by decide) (by decide)).1,
      (Storage.Ack_then_Poll sampleQueue sampleTask (by decide) (by decide)).2.1,
      (Storage.Ack_then_Poll sampleQueue sampleTask (by decide) (by decide)).2.2.1⟩,
    (Storage.Ack_then_Poll sampleQueue sampleTask (by decide) (by decide)).2.2.2.2.1
      [QueueOp.poll none, QueueOp.poll none] (by decide)⟩

/-! ### Task execution -/

/-- The outcome of the second part of an execution has one of two forms:
done with some response, or failed with the state untouched; the calls it
adds are policy evaluations. -/
theorem postProcess_form (env : Env) (finished : Time) (t : Task) (r : Bytes) (calls : List Call) :
    ∃ resp extra, (∀ c ∈ extra, ∃ p d, c = Call.policyEvaluate p d) ∧
      (postProcess env finished t r calls =
          ⟨{ t with Response := resp, State := Done, FinishedAt := finished }, none,
            calls ++ extra⟩ ∨
        ∃ e, postProcess env finished t r calls =
          ⟨{ t with Response := resp }, some e, calls ++ extra⟩) := by
  unfold postProcess
  by_cases h1 : t.ResponsePolicy = ""
  · by_cases h2 : t.FinalPolicy = ""
    · exact ⟨r, [], by simp, Or.inl (by simp [h1, h2])⟩
    · cases hf : env.policyEvaluate t.FinalPolicy r with
      | error e =>
        exact ⟨r, [Call.policyEvaluate t.FinalPolicy r], by simp,
          Or.inr ⟨Error.wrap "error evaluating final policy" e, by simp [h1, h2, hf]⟩⟩
      | ok r2 =>
        exact ⟨r2, [Call.policyEvaluate t.FinalPolicy r], by simp, Or.inl (by simp [h1, h2, hf])⟩
  · cases hr : env.policyEvaluate t.ResponsePolicy r with
    | error e =>
      exact ⟨r, [Call.policyEvaluate t.ResponsePolicy r], by simp,
        Or.inr ⟨Error.wrap "error evaluating response policy" e, by simp [h1, hr]⟩⟩
    | ok r1 =>
      by_cases h2 : t.FinalPolicy = ""
      · exact ⟨r1, [Call.policyEvaluate t.ResponsePolicy r], by simp,
          Or.inl (by simp [h1, h2, hr])⟩
      · cases hf : env.policyEvaluate t.FinalPolicy r1 with
        | error e =>
          exact ⟨r1, [Call.policyEvaluate t.ResponsePolicy r, Call.policyEvaluate t.FinalPolicy r1],
            by simp, Or.inr ⟨Error.wrap "error evaluating final policy" e,
              by simp [h1, h2, hr, hf]⟩⟩
        | ok r2 =>
          exact ⟨r2, [Call.policyEvaluate t.ResponsePolicy r, Call.policyEvaluate t.FinalPolicy r1],
            by simp, Or.inl (by simp [h1, h2, hr, hf])⟩

/-- The primary step of a task with a request policy. -/
theorem primaryStep_policy (d : Env → Task → (Int × Bytes × Option Error) × List Call)
    (env : Env) (t : Task) (h : t.RequestPolicy ≠ "") :
    primaryStep d env t =
      match env.policyEvaluate t.RequestPolicy t.Request with
      | .error e =>
        .error ⟨t, some (Error.wrap "error evaluating request policy" e),
          [Call.policyEvaluate t.RequestPolicy t.Request]⟩
      | .ok response =>
        .ok ({ t with ResponseCode := StatusOK }, response,
          [Call.policyEvaluate t.RequestPolicy t.Request]) := by
  unfold primaryStep
  rw [if_pos h]

/-- The primary step of a task without request policy, with url and method. -/
theorem primaryStep_http (d : Env → Task → (Int × Bytes × Option Error) × List Call)
    (env : Env) (t : Task) (h : t.RequestPolicy = "") (hu : t.URL ≠ "") (hm : t.Method ≠ "") :
    primaryStep d env t =
      match d env t with
      | ((_, _, some e), calls) => .error ⟨t, some e, calls⟩
      | ((status, response, none), calls) =>
        .ok ({ t with ResponseCode := status }, response, calls) := by
  unfold primaryStep
  rw [if_neg (not_not.mpr h), if_pos ⟨hu, hm⟩]

/-- The primary step of a task with neither. -/
theorem primaryStep_invalid (d : Env → Task → (Int × Bytes × Option Error) × List Call)
    (env : Env) (t : Task) (h : t.RequestPolicy = "") (hum : t.URL = "" ∨ t.Method = "") :
    primaryStep d env t =
      .error ⟨t,
        some ⟨Kind.Internal, "invalid task: must define either request policy or url"⟩, []⟩ := by
  unfold primaryStep
  rw [if_neg (not_not.mpr h), if_neg]
  rintro ⟨hu, hm⟩
  rcases hum with h1 | h1
  · exact hu h1
  · exact hm h1

/-- An execution whose task has a request policy: the policy result decides. -/
theorem executeWith_policy (d : Env → Task → (Int × Bytes × Option Error) × List Call)
    (env : Env) (started finished : Time) (task : Task) (h : task.RequestPolicy ≠ "") :
    executeWith d env started finished task =
      match env.policyEvaluate task.RequestPolicy task.Request with
      | .error e =>
        ⟨{ task with StartedAt := started },
          some (Error.wrap "error evaluating request policy" e),
          [Call.policyEvaluate task.RequestPolicy task.Request]⟩
      | .ok r =>
        postProcess env finished { task with StartedAt := started, ResponseCode := StatusOK } r
          [Call.policyEvaluate task.RequestPolicy task.Request] := by
  unfold executeWith
  simp only []
  rw [primaryStep_policy d env _ (by exact h)]
  simp only []
  cases env.policyEvaluate task.RequestPolicy task.Request <;> rfl

/-- An execution whose task has no request policy but a url and a method:
the result of `doHTTPTask` decides. -/
theorem executeWith_http (d : Env → Task → (Int × Bytes × Option Error) × List Call)
    (env : Env) (started finished : Time) (task : Task) (h : task.RequestPolicy = "")
    (hu : task.URL ≠ "") (hm : task.Method ≠ "") :
    executeWith d env started finished task =
      match d env { task with StartedAt := started } with
      | ((_, _, some e), calls) => ⟨{ task with StartedAt := started }, some e, calls⟩
      | ((status, r, none), calls) =>
        postProcess env finished { task with StartedAt := started, ResponseCode := status } r
          calls := by
  unfold executeWith
  simp only []
  rw [primaryStep_http d env _ (by exact h) (by exact hu) (by exact hm)]
  generalize d env { task with StartedAt := started } = res
  obtain ⟨⟨status, r, err⟩, calls⟩ := res
  cases err <;> rfl

/-- An execution whose task has neither a request policy nor both url and
method fails at once, without any call. -/
theorem executeWith_invalid (d : Env → Task → (Int × Bytes × Option Error) × List Call)
    (env : Env) (started finished : Time) (task : Task) (h : task.RequestPolicy = "")
    (hum : task.URL = "" ∨ task.Method = "") :
    executeWith d env started finished task =
      ⟨{ task with StartedAt := started },
        some ⟨Kind.Internal, "invalid task: must define either request policy or url"⟩, []⟩ := by
  unfold executeWith
  simp only []
  rw [primaryStep_invalid d env _ (by exact h) (by exact hum)]

/-- A successful primary step only sets the response code. -/
theorem primaryStep_ok {d : Env → Task → (Int × Bytes × Option Error) × List Call}
    {env : Env} {t t' : Task} {r : Bytes} {calls : List Call}
    (h : primaryStep d env t = .ok (t', r, calls)) :
    ∃ status, t' = { t with ResponseCode := status } := by
  by_cases hp : t.RequestPolicy = ""
  · by_cases hum : t.URL ≠ "" ∧ t.Method ≠ ""
    · rw [primaryStep_http d env t hp hum.1 hum.2] at h
      generalize d env t = res at h
      obtain ⟨⟨status, r0, err⟩, calls0⟩ := res
      cases err with
      | some e => cases h
      | none =>
        simp only [Except.ok.injEq, Prod.mk.injEq] at h
        exact ⟨status, h.1.symm⟩
    · rw [primaryStep_invalid d env t hp (by
        by_contra hc
        push_neg at hc
        exact hum hc)] at h
      cases h
  · rw [primaryStep_policy d env t hp] at h
    cases hpe : env.policyEvaluate t.RequestPolicy t.Request with
    | error e => rw [hpe] at h; cases h
    | ok r0 =>
      rw [hpe] at h
      simp only [Except.ok.injEq, Prod.mk.injEq] at h
      exact ⟨StatusOK, h.1.symm⟩

/-- A failed primary step leaves the task as it was. -/
theorem primaryStep_error {d : Env → Task → (Int × Bytes × Option Error) × List Call}
    {env : Env} {t : Task} {out : Outcome} (h : primaryStep d env t = .error out) :
    out.task = t ∧ ∃ e, out.err = some e := by
  by_cases hp : t.RequestPolicy = ""
  · by_cases hum : t.URL ≠ "" ∧ t.Method ≠ ""
    · rw [primaryStep_http d env t hp hum.1 hum.2] at h
      generalize d env t = res at h
      obtain ⟨⟨status, r0, err⟩, calls0⟩ := res
      cases err with
      | some e =>
        simp only [Except.error.injEq] at h
        subst h
        exact ⟨rfl, e, rfl⟩
      | none => cases h
    · rw [primaryStep_invalid d env t hp (by
        by_contra hc
        push_neg at hc
        exact hum hc)] at h
      simp only [Except.error.injEq] at h
      subst h
      exact ⟨rfl, _, rfl⟩
  · rw [primaryStep_policy d env t hp] at h
    cases hpe : env.policyEvaluate t.RequestPolicy t.Request with
    | error e =>
      rw [hpe] at h
      simp only [Except.error.injEq] at h
      subst h
      exact ⟨rfl, _, rfl⟩
    | ok r0 => rw [hpe] at h; cases h

/-- What every execution keeps and what it changes: id, group id, retries
and cache fields are kept; the state is Done on success and kept on failure. -/
theorem executeWith_frame (d : Env → Task → (Int × Bytes × Option Error) × List Call)
    (env : Env) (started finished : Time) (task : Task) :
    (executeWith d env started finished task).task.ID = task.ID ∧
    (executeWith d env started finished task).task.GroupID = task.GroupID ∧
    (executeWith d env started finished task).task.Retries = task.Retries ∧
    (executeWith d env started finished task).task.CacheNamespace = task.CacheNamespace ∧
    (executeWith d env started finished task).task.CacheScope = task.CacheScope ∧
    ((executeWith d env started finished task).err = none →
      (executeWith d env started finished task).task.State = Done) ∧
    ((executeWith d env started finished task).err ≠ none →
      (executeWith d env started finished task).task.State = task.State) := by
  unfold executeWith
  simp only []
  cases hp : primaryStep d env { task with StartedAt := started } with
  | error out =>
    obtain ⟨ht, e, he⟩ := primaryStep_error hp
    simp [ht, he]
  | ok res =>
    obtain ⟨t', r, calls⟩ := res
    obtain ⟨status, rfl⟩ := primaryStep_ok hp
    obtain ⟨resp, extra, _, hform | ⟨e, hform⟩⟩ :=
      postProcess_form env finished
        { ({ task with StartedAt := started } : Task) with ResponseCode := status } r calls
    · simp only [hform]; simp
    · simp only [hform]; simp

/-- With a request policy, whatever `doHTTPTask` is: the first call evaluates
the request policy on the request, no HTTP call is made, and the response code
is 200 once that evaluation succeeds. -/
theorem executeWith_policy_spec (d : Env → Task → (Int × Bytes × Option Error) × List Call)
    (env : Env) (started finished : Time) (task : Task) (h : task.RequestPolicy ≠ "") :
    (executeWith d env started finished task).calls.head? =
      some (Call.policyEvaluate task.RequestPolicy task.Request) ∧
    (∀ m u b, Call.httpDo m u b ∉ (executeWith d env started finished task).calls) ∧
    (∀ r, env.policyEvaluate task.RequestPolicy task.Request = .ok r →
      (executeWith d env started finished task).task.ResponseCode = 200) := by
  rw [executeWith_policy d env started finished task h]
  cases hp : env.policyEvaluate task.RequestPolicy task.Request with
  | error e => simp
  | ok r =>
    obtain ⟨resp, extra, hextra, hform | ⟨e, hform⟩⟩ :=
      postProcess_form env finished
        { task with StartedAt := started, ResponseCode := StatusOK } r
        [Call.policyEvaluate task.RequestPolicy task.Request]
    all_goals
      simp only [hform]
      refine ⟨by simp, ?_, fun _ _ => rfl⟩
      intro m u b hmem
      simp only [List.mem_append, List.mem_singleton] at hmem
      rcases hmem with hmem | hmem
      · cases hmem
      · obtain ⟨p, x, hpx⟩ := hextra _ hmem
        cases hpx

/-- Without request policy, with url and method, when `doHTTPTask` sends the
body `body` and the request can be built: the first call is the HTTP call,
and the response code is the status the upstream answered. -/
theorem executeWith_http_spec (d : Env → Task → (Int × Bytes × Option Error) × List Call)
    (env : Env) (started finished : Time) (task : Task) (body : Bytes)
    (hd : d env { task with StartedAt := started } = doHTTP env task body)
    (h : task.RequestPolicy = "") (hu : task.URL ≠ "") (hm : task.Method ≠ "")
    (hnew : env.newRequest task.Method task.URL = none) :
    (executeWith d env started finished task).calls.head? =
      some (Call.httpDo task.Method task.URL body) ∧
    (∀ status b, env.httpDo task.Method task.URL body = .response status b →
      (executeWith d env started finished task).task.ResponseCode = status) := by
  rw [executeWith_http d env started finished task h hu hm, hd]
  unfold doHTTP
  rw [hnew]
  cases hr : env.httpDo task.Method task.URL body with
  | doError e => simp
  | readError st e => simp
  | response status b =>
    obtain ⟨resp, extra, hextra, hform | ⟨e, hform⟩⟩ :=
      postProcess_form env finished
        { task with StartedAt := started, ResponseCode := status } b
        [Call.httpDo task.Method task.URL body]
    all_goals
      simp only [hform]
      refine ⟨by simp, ?_⟩
      intro status' b' heq
      cases heq
      rfl

/-- An execution of a task with url and method whose request cannot be
built fails before any call. -/
theorem executeWith_http_unbuilt (d : Env → Task → (Int × Bytes × Option Error) × List Call)
    (env : Env) (started finished : Time) (task : Task) (body : Bytes)
    (hd : d env { task with StartedAt := started } = doHTTP env task body)
    (h : task.RequestPolicy = "") (hu : task.URL ≠ "") (hm : task.Method ≠ "") (e : Error)
    (hnew : env.newRequest task.Method task.URL = some e) :
    executeWith d env started finished task =
      ⟨{ task with StartedAt := started },
        some (Error.wrap "error creating http request" e), []⟩ := by
  rw [executeWith_http d env started finished task h hu hm, hd]
  unfold doHTTP
  rw [hnew]

/-- C3, the claim refuted on a sample: a task without request policy, with
url "http://upstream" and method "BAD METHOD", both non-empty. The request
cannot be built: neither `Worker.Execute` nor `ListExecutor.executeTask`
makes an HTTP call, and the execution fails. -/
theorem execute_unbuilt_request_no_call :
    sampleBadMethodTask.RequestPolicy = "" ∧ sampleBadMethodTask.URL ≠ "" ∧
    sampleBadMethodTask.Method ≠ "" ∧
    (Worker.Execute badMethodEnv 1 2 sampleBadMethodTask).calls = [] ∧
    (Worker.Execute badMethodEnv 1 2 sampleBadMethodTask).err =
      some ⟨Kind.Unknown, "error creating http request: net/http: invalid method"⟩ ∧
    (ListExecutor.executeTask badMethodEnv 1 2 sampleBadMethodTask).calls = [] ∧
    (ListExecutor.executeTask badMethodEnv 1 2 sampleBadMethodTask).err =
      some ⟨Kind.Unknown, "error creating http request: net/http: invalid method"⟩ := by
  decide

/-- C3, amended. Task execution selects by task shape, in `Worker.Execute`
and in `ListExecutor.executeTask` alike. With a non-empty request policy the
first call evaluates that policy on the task request, no HTTP call is made
(whatever url and method are), and the response code is 200 once the
evaluation succeeds. Otherwise, with url and method both non-empty, the
request is built: when it can be built, the first call is the HTTP call and
the response code is the status the upstream returned; when it cannot, no
call is made and the execution fails with the error "error creating http
request". On success the state is Done. -/
theorem execute_selects_by_shape (env : Env) (started finished : Time) (task : Task) :
    (∀ exec : Env → Time → Time → Task → Outcome,
      exec = Worker.Execute ∨ exec = ListExecutor.executeTask →
      (task.RequestPolicy ≠ "" →
        (exec env started finished task).calls.head? =
          some (Call.policyEvaluate task.RequestPolicy task.Request) ∧
        (∀ m u b, Call.httpDo m u b ∉ (exec env started finished task).calls) ∧
        (∀ r, env.policyEvaluate task.RequestPolicy task.Request = .ok r →
          (exec env started finished task).task.ResponseCode = 200)) ∧
      ((exec env started finished task).err = none →
        (exec env started finished task).task.State = Done)) ∧
    (task.RequestPolicy = "" → task.URL ≠ "" → task.Method ≠ "" →
      env.newRequest task.Method task.URL = none →
      ((Worker.Execute env started finished task).calls.head? =
          some (Call.httpDo task.Method task.URL task.Request) ∧
        ∀ status body, env.httpDo task.Method task.URL task.Request = .response status body →
          (Worker.Execute env started finished task).task.ResponseCode = status) ∧
      ((ListExecutor.executeTask env started finished task).calls.head? =
          some (Call.httpDo task.Method task.URL
            (if task.Method = MethodGet then [] else task.Request)) ∧
        ∀ status body,
          env.httpDo task.Method task.URL
            (if task.Method = MethodGet then [] else task.Request) = .response status body →
          (ListExecutor.executeTask env started finished task).task.ResponseCode = status)) ∧
    (task.RequestPolicy = "" → task.URL ≠ "" → task.Method ≠ "" →
      ∀ e, env.newRequest task.Method task.URL = some e →
      ∀ exec : Env → Time → Time → Task → Outcome,
        exec = Worker.Execute ∨ exec = ListExecutor.executeTask →
        (exec env started finished task).calls = [] ∧
        (exec env started finished task).err =
          some (Error.wrap "error creating http request" e) ∧
        (exec env started finished task).task.State = task.State) := by
  refine ⟨?_, ?_, ?_⟩
  · rintro exec (rfl | rfl)
    · exact ⟨executeWith_policy_spec _ env started finished task,
        (executeWith_frame _ env started finished task).2.2.2.2.2.1⟩
    · exact ⟨executeWith_policy_spec _ env started finished task,
        (executeWith_frame _ env started finished task).2.2.2.2.2.1⟩
  · intro h hu hm hnew
    exact ⟨executeWith_http_spec Worker.doHTTPTask env started finished task task.Request rfl
        h hu hm hnew,
      executeWith_http_spec ListExecutor.doHTTPTask env started finished task _ rfl h hu hm hnew⟩
  · rintro h hu hm e hnew exec (rfl | rfl)
    · have hex : Worker.Execute env started finished task = _ :=
        executeWith_http_unbuilt Worker.doHTTPTask env started finished task task.Request rfl
          h hu hm e hnew
      rw [hex]
      exact ⟨rfl, rfl, rfl⟩
    · have hex : ListExecutor.executeTask env started finished task = _ :=
        executeWith_http_unbuilt ListExecutor.doHTTPTask env started finished task _ rfl
          h hu hm e hnew
      rw [hex]
      exact ⟨rfl, rfl, rfl⟩

/-- C3, on samples. A task with url and method set as well as a request
policy evaluates its policy and gets code 200, and no HTTP call is made; the
sample HTTP task, whose request can be built, sends its request first and
gets the status of the answer; the task with the method "BAD METHOD" makes
no call. -/
theorem execute_selects_by_shape_witness :
    ((Worker.Execute sampleEnv 1 2 { sampleHTTPTask with RequestPolicy := "p" }).calls.head? =
        some (Call.policyEvaluate "p" [1]) ∧
      (∀ m u b, Call.httpDo m u b ∉
        (Worker.Execute sampleEnv 1 2 { sampleHTTPTask with RequestPolicy := "p" }).calls) ∧
      (∀ r, sampleEnv.policyEvaluate "p" [1] = .ok r →
        (Worker.Execute sampleEnv 1 2
          { sampleHTTPTask with RequestPolicy := "p" }).task.ResponseCode = 200)) ∧
    ((Worker.Execute sampleEnv 1 2 sampleHTTPTask).calls.head? =
        some (Call.httpDo sampleHTTPTask.Method sampleHTTPTask.URL sampleHTTPTask.Request) ∧
      ∀ status body,
        sampleEnv.httpDo sampleHTTPTask.Method sampleHTTPTask.URL sampleHTTPTask.Request =
          .response status body →
        (Worker.Execute sampleEnv 1 2 sampleHTTPTask).task.ResponseCode = status) ∧
    ((ListExecutor.executeTask badMethodEnv 1 2 sampleBadMethodTask).calls = [] ∧
      (ListExecutor.executeTask badMethodEnv 1 2 sampleBadMethodTask).err =
        some (Error.wrap "error creating http request"
          ⟨Kind.Unknown, "net/http: invalid method"⟩) ∧
      (ListExecutor.executeTask badMethodEnv 1 2 sampleBadMethodTask).task.State =
        sampleBadMethodTask.State) :=
  ⟨((execute_selects_by_shape sampleEnv 1 2 { sampleHTTPTask with RequestPolicy := "p" }).1
      Worker.Execute (Or.inl rfl)).1 (by decide),
    ((execute_selects_by_shape sampleEnv 1 2 sampleHTTPTask).2.1 (by decide) (by decide)
      (by decide) rfl).1,
    (execute_selects_by_shape badMethodEnv 1 2 sampleBadMethodTask).2.2 (by decide) (by decide)
      (by decide) ⟨Kind.Unknown, "net/http: invalid method"⟩ (by decide)
      ListExecutor.executeTask (Or.inr rfl)⟩

/-- The second part of an execution, case by case. -/
theorem postProcess_spec (env : Env) (finished : Time) (t : Task) (r : Bytes) (calls : List Call) :
    (t.ResponsePolicy = "" → t.FinalPolicy = "" →
      (postProcess env finished t r calls).err = none ∧
      (postProcess env finished t r calls).task.Response = r) ∧
    (t.ResponsePolicy ≠ "" → t.FinalPolicy = "" →
      ∀ r₁, env.policyEvaluate t.ResponsePolicy r = .ok r₁ →
        (postProcess env finished t r calls).err = none ∧
        (postProcess env finished t r calls).task.Response = r₁) ∧
    (t.ResponsePolicy = "" → t.FinalPolicy ≠ "" →
      ∀ r₂, env.policyEvaluate t.FinalPolicy r = .ok r₂ →
        (postProcess env finished t r calls).err = none ∧
        (postProcess env finished t r calls).task.Response = r₂) ∧
    (t.ResponsePolicy ≠ "" → t.FinalPolicy ≠ "" →
      ∀ r₁ r₂, env.policyEvaluate t.ResponsePolicy r = .ok r₁ →
        env.policyEvaluate t.FinalPolicy r₁ = .ok r₂ →
        (postProcess env finished t r calls).err = none ∧
        (postProcess env finished t r calls).task.Response = r₂) ∧
    (t.ResponsePolicy ≠ "" →
      ∀ e, env.policyEvaluate t.ResponsePolicy r = .error e →
        (postProcess env finished t r calls).err =
          some (Error.wrap "error evaluating response policy" e) ∧
        (postProcess env finished t r calls).task.State = t.State) ∧
    (t.ResponsePolicy = "" → t.FinalPolicy ≠ "" →
      ∀ e, env.policyEvaluate t.FinalPolicy r = .error e →
        (postProcess env finished t r calls).err =
          some (Error.wrap "error evaluating final policy" e) ∧
        (postProcess env finished t r calls).task.State = t.State) ∧
    (t.ResponsePolicy ≠ "" → t.FinalPolicy ≠ "" →
      ∀ r₁ e, env.policyEvaluate t.ResponsePolicy r = .ok r₁ →
        env.policyEvaluate t.FinalPolicy r₁ = .error e →
        (postProcess env finished t r calls).err =
          some (Error.wrap "error evaluating final policy" e) ∧
        (postProcess env finished t r calls).task.State = t.State) := by
  refine ⟨?_, ?_, ?_, ?_, ?_, ?_, ?_⟩
  · intro h1 h2
    simp [postProcess, h1, h2]
  · intro h1 h2 r₁ hr
    simp [postProcess, h1, h2, hr]
  · intro h1 h2 r₂ hf
    simp [postProcess, h1, h2, hf]
  · intro h1 h2 r₁ r₂ hr hf
    simp [postProcess, h1, h2, hr, hf]
  · intro h1 e hr
    simp [postProcess, h1, hr]
  · intro h1 h2 e hf
    simp [postProcess, h1, h2, hf]
  · intro h1 h2 r₁ e hr hf
    simp [postProcess, h1, h2, hr, hf]

/-- After a successful primary step the execution is its second part. -/
theorem executeWith_of_primaryStep (d : Env → Task → (Int × Bytes × Option Error) × List Call)
    (env : Env) (started finished : Time) (task task' : Task) (r : Bytes) (calls : List Call)
    (h : primaryStep d env { task with StartedAt := started } = .ok (task', r, calls)) :
    executeWith d env started finished task = postProcess env finished task' r calls ∧
    task'.ResponsePolicy = task.ResponsePolicy ∧ task'.FinalPolicy = task.FinalPolicy ∧
    task'.State = task.State := by
  obtain ⟨status, rfl⟩ := primaryStep_ok h
  refine ⟨?_, rfl, rfl, rfl⟩
  unfold executeWith
  simp only []
  rw [h]

/-- C4. In `Worker.Execute` and in `ListExecutor.executeTask`: when the
primary step (request policy or HTTP call) yields the raw response `r` and the
configured post-processing policies succeed, the final response is `r` if
neither response policy nor final policy is set, the response policy's
result on `r` if only that is set, the final policy's result on `r` if only
that is set, and the final policy's result on the response policy's result
if both are set. When a configured policy evaluation (request, response or
final policy) fails, the execution returns the wrapped error and the task
state is left as it was, not set to Done. -/
theorem execute_postprocessing (env : Env) (started finished : Time) (task : Task)
    (exec : Env → Time → Time → Task → Outcome)
    (doHTTPTask : Env → Task → (Int × Bytes × Option Error) × List Call)
    (hexec : (exec = Worker.Execute ∧ doHTTPTask = Worker.doHTTPTask) ∨
      (exec = ListExecutor.executeTask ∧ doHTTPTask = ListExecutor.doHTTPTask)) :
    (∀ task' r calls,
      primaryStep doHTTPTask env { task with StartedAt := started } = .ok (task', r, calls) →
      (task.ResponsePolicy = "" → task.FinalPolicy = "" →
        (exec env started finished task).err = none ∧
        (exec env started finished task).task.Response = r) ∧
      (task.ResponsePolicy ≠ "" → task.FinalPolicy = "" →
        ∀ r₁, env.policyEvaluate task.ResponsePolicy r = .ok r₁ →
          (exec env started finished task).err = none ∧
          (exec env started finished task).task.Response = r₁) ∧
      (task.ResponsePolicy = "" → task.FinalPolicy ≠ "" →
        ∀ r₂, env.policyEvaluate task.FinalPolicy r = .ok r₂ →
          (exec env started finished task).err = none ∧
          (exec env started finished task).task.Response = r₂) ∧
      (task.ResponsePolicy ≠ "" → task.FinalPolicy ≠ "" →
        ∀ r₁ r₂, env.policyEvaluate task.ResponsePolicy r = .ok r₁ →
          env.policyEvaluate task.FinalPolicy r₁ = .ok r₂ →
          (exec env started finished task).err = none ∧
          (exec env started finished task).task.Response = r₂) ∧
      (task.ResponsePolicy ≠ "" →
        ∀ e, env.policyEvaluate task.ResponsePolicy r = .error e →
          (exec env started finished task).err =
            some (Error.wrap "error evaluating response policy" e) ∧
          (exec env started finished task).task.State = task.State) ∧
      (task.ResponsePolicy = "" → task.FinalPolicy ≠ "" →
        ∀ e, env.policyEvaluate task.FinalPolicy r = .error e →
          (exec env started finished task).err =
            some (Error.wrap "error evaluating final policy" e) ∧
          (exec env started finished task).task.State = task.State) ∧
      (task.ResponsePolicy ≠ "" → task.FinalPolicy ≠ "" →
        ∀ r₁ e, env.policyEvaluate task.ResponsePolicy r = .ok r₁ →
          env.policyEvaluate task.FinalPolicy r₁ = .error e →
          (exec env started finished task).err =
            some (Error.wrap "error evaluating final policy" e) ∧
          (exec env started finished task).task.State = task.State)) ∧
    (task.RequestPolicy ≠ "" →
      ∀ e, env.policyEvaluate task.RequestPolicy task.Request = .error e →
        (exec env started finished task).err =
          some (Error.wrap "error evaluating request policy" e) ∧
        (exec env started finished task).task.State = task.State) := by
  have key : exec = executeWith doHTTPTask := by
    rcases hexec with ⟨rfl, rfl⟩ | ⟨rfl, rfl⟩ <;> rfl
  subst key
  refine ⟨?_, ?_⟩
  · intro task' r calls hprim
    obtain ⟨heq, hrp, hfp, hst⟩ :=
      executeWith_of_primaryStep doHTTPTask env started finished task task' r calls hprim
    rw [heq, ← hrp, ← hfp, ← hst]
    exact postProcess_spec env finished task' r calls
  · intro h e he
    rw [executeWith_policy doHTTPTask env started finished task h, he]
    exact ⟨rfl, rfl⟩

/-- C4, on a sample: a policy task with both post-processing policies set;
each policy of the sample environment appends the length of its name, so the
raw response `[1, 1]` becomes `[1, 1, 2, 3]`. -/
theorem execute_postprocessing_witness :
    (Worker.Execute sampleEnv 1 2 sampleChainTask).err = none ∧
      (Worker.Execute sampleEnv 1 2 sampleChainTask).task.Response = [1, 1, 2, 3] :=
  ((execute_postprocessing sampleEnv 1 2 sampleChainTask
      Worker.Execute Worker.doHTTPTask (Or.inl ⟨rfl, rfl⟩)).1
    { sampleChainTask with StartedAt := 1, ResponseCode := 200 }
    [1, 1] [Call.policyEvaluate "p" [1]] (by decide)).2.2.2.1
    (by decide) (by decide) [1, 1, 2] [1, 1, 2, 3] (by decide) (by decide)

/-! ### The single-task worker -/

theorem wrapInt64_eq {x : Int} (h1 : -2 ^ 63 ≤ x) (h2 : x < 2 ^ 63) : wrapInt64 x = x := by
  unfold wrapInt64
  omega

/-- The execution by the worker keeps the id and the retries of the task. -/
theorem Worker.Execute_frame (env : Env) (started finished : Time) (t : Task) :
    (Worker.Execute env started finished t).task.ID = t.ID ∧
    (Worker.Execute env started finished t).task.Retries = t.Retries :=
  ⟨(executeWith_frame _ env started finished t).1,
    (executeWith_frame _ env started finished t).2.2.1⟩

/-- A fault-free `Unack` on a queue with unique ids rewrites exactly the
records with the id of the task. -/
theorem Storage.Unack_eq_map {tasks : List Task} (t : Task)
    (hid : (tasks.map (fun d => d.ID)).Nodup) :
    (Storage.Unack none tasks t).1 =
      tasks.map (fun d => if d.ID = t.ID then
        { d with State := Created, Retries := wrapInt64 (t.Retries + 1) } else d) := by
  simp only [Storage.Unack]
  induction tasks with
  | nil => rfl
  | cons x xs ih =>
    rw [List.map_cons, List.nodup_cons] at hid
    unfold Mongo.updateOne
    by_cases hx : x.ID = t.ID
    · have hxs : ∀ y ∈ xs, y.ID ≠ t.ID := by
        intro y hy hyt
        exact hid.1 (List.mem_map.mpr ⟨y, hy, by rw [hyt, hx]⟩)
      have hmap : xs.map (fun d => if d.ID = t.ID then
          { d with State := Created, Retries := wrapInt64 (t.Retries + 1) } else d) = xs := by
        conv_rhs => rw [← List.map_id xs]
        apply List.map_congr_left
        intro y hy
        simp [hxs y hy]
      rw [List.map_cons, hmap]
      simp [hx]
    · have hb : (x.ID == t.ID) = false := by simpa using hx
      rw [List.map_cons, ← ih hid.2]
      simp [hb, hx]

/-- The worker on a task at or above the cap: Ack, one log line, nothing else. -/
theorem Worker.handle_atCap (env : Env) (maxTaskRetries : Int) (started finished : Time)
    (w : World) (t : Task) (h : t.Retries ≥ maxTaskRetries) :
    (Worker.handle env maxTaskRetries started finished w t).tasks =
      (Storage.Ack (env.ack t) w.tasks t).1 ∧
    (∃ message, (Worker.handle env maxTaskRetries started finished w t).trace =
      w.trace ++ [Call.ack t, Call.logError message]) ∧
    (Worker.handle env maxTaskRetries started finished w t).cache = w.cache ∧
    (Worker.handle env maxTaskRetries started finished w t).tasksHistory = w.tasksHistory := by
  have hh : (Worker.handle env maxTaskRetries started finished w t).tasks =
      (Storage.Ack (env.ack t) w.tasks t).1 := by
    unfold Worker.handle
    rw [if_pos h]
    cases hack : env.ack t <;> simp [Storage.Ack]
  refine ⟨hh, ?_, ?_, ?_⟩
  · unfold Worker.handle
    rw [if_pos h]
    cases hack : env.ack t
    · exact ⟨"task removed from queue due to too many failed executions",
        by simp [Storage.Ack]⟩
    · exact ⟨"failed to ack task in queue", by simp [Storage.Ack]⟩
  · unfold Worker.handle
    rw [if_pos h]
    cases hack : env.ack t <;> simp [Storage.Ack]
  · unfold Worker.handle
    rw [if_pos h]
    cases hack : env.ack t <;> simp [Storage.Ack]

/-- C5. A task handed to the single-task worker with retries at or above the
cap: the worker calls Ack for it and logs, and that is all (no policy
evaluation, no HTTP call, no cache write, no history write, no unack: the
trace grows by the ack and one log line; cache and history are unchanged); the
queue is the one Ack leaves, which, when the ack succeeds on a queue with
unique ids, holds no record with the id of the task and every other record. -/
theorem Worker.handle_drop (env : Env) (maxTaskRetries : Int) (started finished : Time)
    (w : World) (t : Task) (h : t.Retries ≥ maxTaskRetries) :
    (Worker.handle env maxTaskRetries started finished w t).tasks =
      (Storage.Ack (env.ack t) w.tasks t).1 ∧
    (∃ message, (Worker.handle env maxTaskRetries started finished w t).trace =
      w.trace ++ [Call.ack t, Call.logError message]) ∧
    (Worker.handle env maxTaskRetries started finished w t).cache = w.cache ∧
    (Worker.handle env maxTaskRetries started finished w t).tasksHistory = w.tasksHistory ∧
    (env.ack t = none → (w.tasks.map (fun d => d.ID)).Nodup →
      ∀ d, d ∈ (Worker.handle env maxTaskRetries started finished w t).tasks ↔
        d ∈ w.tasks ∧ d.ID ≠ t.ID) := by
  obtain ⟨hh, htrace, hcache, hhist⟩ :=
    Worker.handle_atCap env maxTaskRetries started finished w t h
  refine ⟨hh, htrace, hcache, hhist, ?_⟩
  intro hack hid d
  rw [hh, hack]
  exact Storage.mem_Ack_iff hid d

/-- C5, on a sample: with cap 0 the sample task is dropped at once. -/
theorem Worker.handle_drop_witness :
    (Worker.handle sampleEnv 0 1 2 (worldOf sampleTask) sampleTask).tasks =
        (Storage.Ack (sampleEnv.ack sampleTask) (worldOf sampleTask).tasks sampleTask).1 ∧
      (∃ message, (Worker.handle sampleEnv 0 1 2 (worldOf sampleTask) sampleTask).trace =
        (worldOf sampleTask).trace ++ [Call.ack sampleTask, Call.logError message]) :=
  ⟨(Worker.handle_drop sampleEnv 0 1 2 (worldOf sampleTask) sampleTask (by decide)).1,
    (Worker.handle_drop sampleEnv 0 1 2 (worldOf sampleTask) sampleTask (by decide)).2.1⟩

/-- The worker on a task below the cap whose execution fails: it logs and
calls Unack with the task; nothing else. -/
theorem Worker.handle_execError (env : Env) (maxTaskRetries : Int) (started finished : Time)
    (w : World) (t : Task) (h : t.Retries < maxTaskRetries) (e : Error)
    (he : (Worker.Execute env started finished t).err = some e) :
    (Worker.handle env maxTaskRetries started finished w t).tasks =
      (Storage.Unack (env.unack (Worker.Execute env started finished t).task) w.tasks
        (Worker.Execute env started finished t).task).1 ∧
    (Worker.handle env maxTaskRetries started finished w t).cache = w.cache ∧
    (Worker.handle env maxTaskRetries started finished w t).tasksHistory = w.tasksHistory ∧
    (Worker.handle env maxTaskRetries started finished w t).trace =
      w.trace ++ (Worker.Execute env started finished t).calls ++
        [Call.logError "error executing task",
          Call.unack (Worker.Execute env started finished t).task] ++
        (match env.unack (Worker.Execute env started finished t).task with
          | none => []
          | some _ => [Call.logError "failed to unack task in queue"]) := by
  unfold Worker.handle
  rw [if_neg (not_le.mpr h)]
  simp only [he]
  cases env.unack (Worker.Execute env started finished t).task <;> simp [Storage.Unack]

/-- The worker on a task below the cap whose execution succeeds and whose
cache write fails: it logs and calls Unack with the task; nothing else. -/
theorem Worker.handle_cacheError (env : Env) (maxTaskRetries : Int) (started finished : Time)
    (w : World) (t : Task) (h : t.Retries < maxTaskRetries)
    (he : (Worker.Execute env started finished t).err = none) (e : Error)
    (hc : env.cacheSet (Worker.Execute env started finished t).task.ID
      (Worker.Execute env started finished t).task.CacheNamespace
      (Worker.Execute env started finished t).task.CacheScope
      (Worker.Execute env started finished t).task.Response = some e) :
    (Worker.handle env maxTaskRetries started finished w t).tasks =
      (Storage.Unack (env.unack (Worker.Execute env started finished t).task) w.tasks
        (Worker.Execute env started finished t).task).1 ∧
    (Worker.handle env maxTaskRetries started finished w t).cache = w.cache ∧
    (Worker.handle env maxTaskRetries started finished w t).tasksHistory = w.tasksHistory ∧
    (Worker.handle env maxTaskRetries started finished w t).trace =
      w.trace ++ (Worker.Execute env started finished t).calls ++
        [Call.logDebug "task execution completed successfully",
          Call.cacheSet (Worker.Execute env started finished t).task.ID
            (Worker.Execute env started finished t).task.CacheNamespace
            (Worker.Execute env started finished t).task.CacheScope
            (Worker.Execute env started finished t).task.Response,
          Call.logError "error storing task result in cache",
          Call.unack (Worker.Execute env started finished t).task] ++
        (match env.unack (Worker.Execute env started finished t).task with
          | none => []
          | some _ => [Call.logError "failed to unack task in queue"]) := by
  unfold Worker.handle
  rw [if_neg (not_le.mpr h)]
  simp only [he, hc]
  cases env.unack (Worker.Execute env started finished t).task <;> simp [Storage.Unack]

/-- The worker on a task below the cap whose execution and cache write
succeed and whose history write fails: the result is cached, the failure is
logged, and the loop goes on to the next task; the queue is not touched. -/
theorem Worker.handle_historyError (env : Env) (maxTaskRetries : Int) (started finished : Time)
    (w : World) (t : Task) (h : t.Retries < maxTaskRetries)
    (he : (Worker.Execute env started finished t).err = none)
    (hc : env.cacheSet (Worker.Execute env started finished t).task.ID
      (Worker.Execute env started finished t).task.CacheNamespace
      (Worker.Execute env started finished t).task.CacheScope
      (Worker.Execute env started finished t).task.Response = none) (e : Error)
    (hh : env.saveTaskHistory (Worker.Execute env started finished t).task = some e) :
    (Worker.handle env maxTaskRetries started finished w t).tasks = w.tasks ∧
    (Worker.handle env maxTaskRetries started finished w t).tasksHistory = w.tasksHistory ∧
    (Worker.handle env maxTaskRetries started finished w t).trace =
      w.trace ++ (Worker.Execute env started finished t).calls ++
        [Call.logDebug "task execution completed successfully",
          Call.cacheSet (Worker.Execute env started finished t).task.ID
            (Worker.Execute env started finished t).task.CacheNamespace
            (Worker.Execute env started finished t).task.CacheScope
            (Worker.Execute env started finished t).task.Response,
          Call.logDebug "task results are stored in cache",
          Call.saveTaskHistory (Worker.Execute env started finished t).task,
          Call.logError "error saving task history"] := by
  unfold Worker.handle
  rw [if_neg (not_le.mpr h)]
  simp [he, hc, hh, Storage.SaveTaskHistory]

/-- The worker on a task below the cap whose execution, cache write and
history write succeed: the task is acked. -/
theorem Worker.handle_success (env : Env) (maxTaskRetries : Int) (started finished : Time)
    (w : World) (t : Task) (h : t.Retries < maxTaskRetries)
    (he : (Worker.Execute env started finished t).err = none)
    (hc : env.cacheSet (Worker.Execute env started finished t).task.ID
      (Worker.Execute env started finished t).task.CacheNamespace
      (Worker.Execute env started finished t).task.CacheScope
      (Worker.Execute env started finished t).task.Response = none)
    (hh : env.saveTaskHistory (Worker.Execute env started finished t).task = none) :
    (Worker.handle env maxTaskRetries started finished w t).tasks =
      (Storage.Ack (env.ack (Worker.Execute env started finished t).task) w.tasks
        (Worker.Execute env started finished t).task).1 ∧
    (Worker.handle env maxTaskRetries started finished w t).tasksHistory =
      w.tasksHistory ++ [(Worker.Execute env started finished t).task] := by
  unfold Worker.handle
  rw [if_neg (not_le.mpr h)]
  simp only [he, hc, hh, Storage.SaveTaskHistory, Mongo.insertOne]
  cases env.ack (Worker.Execute env started finished t).task <;> simp [Storage.Ack]

/-- The calls of `Worker.Execute` are policy evaluations and HTTP calls. -/
theorem Worker.Execute_calls (env : Env) (started finished : Time) (t : Task) :
    ∀ c ∈ (Worker.Execute env started finished t).calls,
      (∃ p x, c = Call.policyEvaluate p x) ∨ ∃ m u b, c = Call.httpDo m u b := by
  have hpp : ∀ (t' : Task) (r : Bytes) (calls : List Call),
      (∀ c ∈ calls, (∃ p x, c = Call.policyEvaluate p x) ∨ ∃ m u b, c = Call.httpDo m u b) →
      ∀ c ∈ (postProcess env finished t' r calls).calls,
        (∃ p x, c = Call.policyEvaluate p x) ∨ ∃ m u b, c = Call.httpDo m u b := by
    intro t' r calls hcalls c hc
    obtain ⟨resp, extra, hextra, hform | ⟨e, hform⟩⟩ := postProcess_form env finished t' r calls
    all_goals
      rw [hform] at hc
      rcases List.mem_append.mp hc with hc | hc
      · exact hcalls c hc
      · exact Or.inl (hextra c hc)
  unfold Worker.Execute
  by_cases hp : t.RequestPolicy = ""
  · by_cases hum : t.URL ≠ "" ∧ t.Method ≠ ""
    · rw [executeWith_http _ env started finished t hp hum.1 hum.2]
      have hd : ∀ c ∈ (Worker.doHTTPTask env { t with StartedAt := started }).2,
          ∃ m u b, c = Call.httpDo m u b := by
        unfold Worker.doHTTPTask doHTTP
        intro c hc
        split at hc
        · cases hc
        · split at hc <;> exact ⟨_, _, _, List.mem_singleton.mp hc⟩
      generalize Worker.doHTTPTask env { t with StartedAt := started } = res at hd
      obtain ⟨⟨status, r, err⟩, calls⟩ := res
      cases err with
      | some e => exact fun c hc => Or.inr (hd c hc)
      | none => exact hpp _ _ _ (fun c hc => Or.inr (hd c hc))
    · rw [executeWith_invalid _ env started finished t hp (by
        by_contra hc
        push_neg at hc
        exact hum hc)]
      intro c hc
      cases hc
  · rw [executeWith_policy _ env started finished t hp]
    cases env.policyEvaluate t.RequestPolicy t.Request with
    | error e =>
      intro c hc
      exact Or.inl ⟨_, _, List.mem_singleton.mp hc⟩
    | ok r =>
      exact hpp _ _ _ (fun c hc => Or.inl ⟨_, _, List.mem_singleton.mp hc⟩)

/-- C8. A task below the retry cap (the stored record being the one handed
to the worker, ids unique) whose execution succeeds but whose cache write
fails: the worker unacks it, so that the stored record of the task ends with
state Created and retries exactly one greater, every other record is
unchanged and none is removed; the history is unchanged; and the calls the
worker adds to the trace include the unack, but no history write and no ack. -/
theorem Worker.cache_failure_unacks (env : Env) (maxTaskRetries : Int) (started finished : Time)
    (w : World) (t : Task) (hlt : t.Retries < maxTaskRetries) (hmax : maxTaskRetries < 2 ^ 63)
    (hlow : -2 ^ 63 ≤ t.Retries)
    (he : (Worker.Execute env started finished t).err = none) (e : Error)
    (hc : env.cacheSet (Worker.Execute env started finished t).task.ID
      (Worker.Execute env started finished t).task.CacheNamespace
      (Worker.Execute env started finished t).task.CacheScope
      (Worker.Execute env started finished t).task.Response = some e)
    (hu : env.unack (Worker.Execute env started finished t).task = none)
    (hid : (w.tasks.map (fun d => d.ID)).Nodup) (ht : t ∈ w.tasks) :
    (Worker.handle env maxTaskRetries started finished w t).tasks =
      w.tasks.map (fun d => if d.ID = t.ID then
        { d with State := Created, Retries := t.Retries + 1 } else d) ∧
    { t with State := Created, Retries := t.Retries + 1 } ∈
      (Worker.handle env maxTaskRetries started finished w t).tasks ∧
    (∀ d ∈ (Worker.handle env maxTaskRetries started finished w t).tasks,
      d.ID = t.ID → d = { t with State := Created, Retries := t.Retries + 1 }) ∧
    (Worker.handle env maxTaskRetries started finished w t).tasks.length = w.tasks.length ∧
    (Worker.handle env maxTaskRetries started finished w t).tasksHistory = w.tasksHistory ∧
    ∃ added, (Worker.handle env maxTaskRetries started finished w t).trace = w.trace ++ added ∧
      Call.unack (Worker.Execute env started finished t).task ∈ added ∧
      (∀ x, Call.saveTaskHistory x ∉ added) ∧ (∀ x, Call.ack x ∉ added) := by
  obtain ⟨htasks, _, hhist, htrace⟩ :=
    Worker.handle_cacheError env maxTaskRetries started finished w t hlt he e hc
  obtain ⟨hID, hR⟩ := Worker.Execute_frame env started finished t
  have hq : (Worker.handle env maxTaskRetries started finished w t).tasks =
      w.tasks.map (fun d => if d.ID = t.ID then
        { d with State := Created, Retries := t.Retries + 1 } else d) := by
    rw [htasks, hu, Storage.Unack_eq_map _ hid, hID, hR,
      wrapInt64_eq (by omega) (by omega)]
  refine ⟨hq, ?_, ?_, ?_, hhist, ?_⟩
  · rw [hq]
    exact List.mem_map.mpr ⟨t, ht, by simp⟩
  · intro d hd hdt
    rw [hq] at hd
    obtain ⟨x, hx, rfl⟩ := List.mem_map.mp hd
    by_cases hxt : x.ID = t.ID
    · have hxeq : x = t := by
        have hinj := List.inj_on_of_nodup_map hid hx ht hxt
        exact hinj
      simp [hxeq]
    · simp only [hxt, if_false] at hdt
  · rw [hq, List.length_map]
  · refine ⟨_, by rw [htrace, hu, List.append_assoc, List.append_assoc], ?_, ?_, ?_⟩
    · simp
    · intro x hx
      simp only [List.mem_append, List.mem_cons, List.mem_singleton, List.not_mem_nil,
        or_false] at hx
      rcases hx with hx | hx | hx | hx | hx
      · rcases Worker.Execute_calls env started finished t _ hx with ⟨p, y, h⟩ | ⟨m, u, b, h⟩ <;>
          cases h
      all_goals cases hx
    · intro x hx
      simp only [List.mem_append, List.mem_cons, List.mem_singleton, List.not_mem_nil,
        or_false] at hx
      rcases hx with hx | hx | hx | hx | hx
      · rcases Worker.Execute_calls env started finished t _ hx with ⟨p, y, h⟩ | ⟨m, u, b, h⟩ <;>
          cases h
      all_goals cases hx

/-- C8, on a sample: the cache is down, the claimed sample task is executed,
and its stored record goes back to Created with retries 1. -/
theorem Worker.cache_failure_unacks_witness :
    (Worker.handle cacheDownEnv 3 1 2 (worldOf samplePending) samplePending).tasks =
      (worldOf samplePending).tasks.map (fun d => if d.ID = samplePending.ID then
        { d with State := Created, Retries := samplePending.Retries + 1 } else d) :=
  (Worker.cache_failure_unacks cacheDownEnv 3 1 2 (worldOf samplePending) samplePending
    (by decide) (by norm_num) (by decide) (by decide) ⟨Kind.Unknown, "cache down"⟩
    (by decide) (by decide) (by decide) (by decide)).1

/-- C9, evaluated: the claimed sample task, cap 3, every collaborator up
except the history store. The worker executes the task, caches the result,
fails to save the history, logs, and goes on to the next task: no Ack (and no
Unack) is called and the record stays in the live queue, in state Pending.
With the history store up, the same task is acked and leaves the queue. -/
theorem Worker.history_failure_skips_ack :
    (Worker.handle historyDownEnv 3 1 2 (worldOf samplePending) samplePending).tasks =
        [samplePending] ∧
      (Worker.handle historyDownEnv 3 1 2 (worldOf samplePending) samplePending).trace =
        [Call.policyEvaluate "p" [1],
          Call.logDebug "task execution completed successfully",
          Call.cacheSet "a" "" "" [1, 1],
          Call.logDebug "task results are stored in cache",
          Call.saveTaskHistory
            { samplePending with State := Done, Response := [1, 1], ResponseCode := 200,
                                 StartedAt := 1, FinishedAt := 2 },
          Call.logError "error saving task history"] ∧
      (Worker.handle sampleEnv 3 1 2 (worldOf samplePending) samplePending).tasks = [] := by
  decide

/-- C10, the claim refuted on a sample: the invalid sample task with
retries 3, handed to a worker with cap 3. The worker does not execute it and
does not unack it: it acks it, and the record leaves the queue. -/
theorem Worker.invalid_task_at_cap_acked :
    sampleInvalidTask.RequestPolicy = "" ∧ sampleInvalidTask.URL = "" ∧
    (Worker.handle sampleEnv 3 1 2 (worldOf { sampleInvalidTask with Retries := 3 })
      { sampleInvalidTask with Retries := 3 }).trace =
      [Call.ack { sampleInvalidTask with Retries := 3 },
        Call.logError "task removed from queue due to too many failed executions"] ∧
    (Worker.handle sampleEnv 3 1 2 (worldOf { sampleInvalidTask with Retries := 3 })
      { sampleInvalidTask with Retries := 3 }).tasks = [] := by
  decide

/-- C10, amended. A task with empty request policy and with url or method
empty: `Worker.Execute` fails with the Internal error "invalid task", makes
no call and leaves the task state as it was. The worker leaves cache and
history untouched for it: below the retry cap it executes the task, and what
it does is log the error and call Unack with the task; at or above the cap
it does not execute the task, and what it does is call Ack with the task and
log one line. -/
theorem Worker.invalid_task_unacked (env : Env) (maxTaskRetries : Int)
    (started finished : Time) (w : World) (t : Task) (hp : t.RequestPolicy = "")
    (hum : t.URL = "" ∨ t.Method = "") :
    (Worker.Execute env started finished t).err =
      some ⟨Kind.Internal, "invalid task: must define either request policy or url"⟩ ∧
    (Worker.Execute env started finished t).task.State = t.State ∧
    (Worker.Execute env started finished t).calls = [] ∧
    (t.Retries < maxTaskRetries →
      (Worker.handle env maxTaskRetries started finished w t).cache = w.cache ∧
      (Worker.handle env maxTaskRetries started finished w t).tasksHistory = w.tasksHistory ∧
      (Worker.handle env maxTaskRetries started finished w t).tasks =
        (Storage.Unack (env.unack { t with StartedAt := started }) w.tasks
          { t with StartedAt := started }).1 ∧
      (Worker.handle env maxTaskRetries started finished w t).trace =
        w.trace ++
          [Call.logError "error executing task", Call.unack { t with StartedAt := started }] ++
          (match env.unack { t with StartedAt := started } with
            | none => []
            | some _ => [Call.logError "failed to unack task in queue"])) ∧
    (t.Retries ≥ maxTaskRetries →
      (Worker.handle env maxTaskRetries started finished w t).cache = w.cache ∧
      (Worker.handle env maxTaskRetries started finished w t).tasksHistory = w.tasksHistory ∧
      (Worker.handle env maxTaskRetries started finished w t).tasks =
        (Storage.Ack (env.ack t) w.tasks t).1 ∧
      ∃ message, (Worker.handle env maxTaskRetries started finished w t).trace =
        w.trace ++ [Call.ack t, Call.logError message]) := by
  have hex : Worker.Execute env started finished t =
      ⟨{ t with StartedAt := started },
        some ⟨Kind.Internal, "invalid task: must define either request policy or url"⟩, []⟩ :=
    executeWith_invalid _ env started finished t hp hum
  refine ⟨by rw [hex], by rw [hex], by rw [hex], ?_, ?_⟩
  · intro hlt
    obtain ⟨h1, h2, h3, h4⟩ :=
      Worker.handle_execError env maxTaskRetries started finished w t hlt _ (by rw [hex])
    rw [hex] at h1 h4
    exact ⟨h2, h3, h1, by simpa using h4⟩
  · intro hge
    obtain ⟨h1, h2, h3, h4⟩ := Worker.handle_atCap env maxTaskRetries started finished w t hge
    exact ⟨h3, h4, h1, h2⟩

/-- C10, on a sample: a task with a method but neither url nor request
policy. Its execution fails without a call; below the cap the worker unacks
it, and the stored record is Created again with one more retry; at the cap
the worker acks it. -/
theorem Worker.invalid_task_unacked_witness :
    ((Worker.Execute sampleEnv 1 2 sampleInvalidTask).err =
        some ⟨Kind.Internal, "invalid task: must define either request policy or url"⟩ ∧
      (Worker.Execute sampleEnv 1 2 sampleInvalidTask).task.State = sampleInvalidTask.State ∧
      (Worker.Execute sampleEnv 1 2 sampleInvalidTask).calls = []) ∧
    ((Worker.handle sampleEnv 3 1 2 (worldOf sampleInvalidTask) sampleInvalidTask).cache =
        (worldOf sampleInvalidTask).cache ∧
      (Worker.handle sampleEnv 3 1 2 (worldOf sampleInvalidTask) sampleInvalidTask).tasksHistory =
        (worldOf sampleInvalidTask).tasksHistory ∧
      (Worker.handle sampleEnv 3 1 2 (worldOf sampleInvalidTask) sampleInvalidTask).tasks =
        (Storage.Unack (sampleEnv.unack { sampleInvalidTask with StartedAt := 1 })
          (worldOf sampleInvalidTask).tasks { sampleInvalidTask with StartedAt := 1 }).1) ∧
    (Worker.handle sampleEnv 3 1 2 (worldOf { sampleInvalidTask with Retries := 3 })
        { sampleInvalidTask with Retries := 3 }).tasks =
      (Storage.Ack (sampleEnv.ack { sampleInvalidTask with Retries := 3 })
        (worldOf { sampleInvalidTask with Retries := 3 }).tasks
        { sampleInvalidTask with Retries := 3 }).1 :=
  ⟨⟨(Worker.invalid_task_unacked sampleEnv 3 1 2 (worldOf sampleInvalidTask) sampleInvalidTask
        (by decide) (Or.inl (by decide))).1,
      (Worker.invalid_task_unacked sampleEnv 3 1 2 (worldOf sampleInvalidTask) sampleInvalidTask
        (by decide) (Or.inl (by decide))).2.1,
      (Worker.invalid_task_unacked sampleEnv 3 1 2 (worldOf sampleInvalidTask) sampleInvalidTask
        (by decide) (Or.inl (by decide))).2.2.1⟩,
    ⟨((Worker.invalid_task_unacked sampleEnv 3 1 2 (worldOf sampleInvalidTask) sampleInvalidTask
        (by decide) (Or.inl (by decide))).2.2.2.1 (by decide)).1,
      ((Worker.invalid_task_unacked sampleEnv 3 1 2 (worldOf sampleInvalidTask) sampleInvalidTask
        (by decide) (Or.inl (by decide))).2.2.2.1 (by decide)).2.1,
      ((Worker.invalid_task_unacked sampleEnv 3 1 2 (worldOf sampleInvalidTask) sampleInvalidTask
        (by decide) (Or.inl (by decide))).2.2.2.1 (by decide)).2.2.1⟩,
    ((Worker.invalid_task_unacked sampleEnv 3 1 2
        (worldOf { sampleInvalidTask with Retries := 3 }) { sampleInvalidTask with Retries := 3 }
        (by decide) (Or.inl (by decide))).2.2.2.2 (by decide)).2.2.1⟩

/-! ### Poll cycles -/

/-- C7, as stated, fails: the sample HTTP task (retries 0) with an upstream
that always answers 503, cap 3. The first execution is not treated as
failed: after the first poll cycle the task has left the live queue and is
in the history with state Done and response code 503; no Unack was called. -/
theorem Executor.upstream_5xx_is_done :
    (Executor.pollCycle upstream5xxEnv 3 1 2 ⟨worldOf sampleHTTPTask, []⟩).world.tasks = [] ∧
      (Executor.pollCycle upstream5xxEnv 3 1 2 ⟨worldOf sampleHTTPTask, []⟩).world.tasksHistory =
        [{ sampleHTTPTask with State := Done, Response := [9], ResponseCode := 503,
                               StartedAt := 1, FinishedAt := 2 }] ∧
      (Executor.pollCycle upstream5xxEnv 3 1 2 ⟨worldOf sampleHTTPTask, []⟩).world.trace =
        [Call.httpDo "POST" "http://upstream" [1],
          Call.logDebug "task execution completed successfully",
          Call.cacheSet "a" "" "" [9],
          Call.logDebug "task results are stored in cache",
          Call.saveTaskHistory
            { sampleHTTPTask with State := Done, Response := [9], ResponseCode := 503,
                                  StartedAt := 1, FinishedAt := 2 },
          Call.logDebug "task history is saved",
          Call.ack
            { sampleHTTPTask with State := Done, Response := [9], ResponseCode := 503,
                                  StartedAt := 1, FinishedAt := 2 }] := by
  decide

/-- When the HTTP call fails, so does `doHTTPTask`. -/
theorem doHTTP_of_httpFails {env : Env} {t : Task} (body : Bytes)
    (h : env.httpFails t.Method t.URL) :
    ∃ e calls, doHTTP env t body = ((0, [], some e), calls) := by
  unfold doHTTP
  rcases h with ⟨e, he⟩ | h
  · rw [he]; exact ⟨_, _, rfl⟩
  · cases hn : env.newRequest t.Method t.URL with
    | some e => exact ⟨_, _, rfl⟩
    | none =>
      rcases h body with ⟨e, he⟩ | ⟨status, e, he⟩
      · rw [he]; exact ⟨_, _, rfl⟩
      · rw [he]; exact ⟨_, _, rfl⟩

/-- The execution of an HTTP task whose HTTP call fails returns an error. -/
theorem Worker.Execute_of_httpFails (env : Env) (started finished : Time) (t : Task)
    (hp : t.RequestPolicy = "") (hu : t.URL ≠ "") (hm : t.Method ≠ "")
    (h : env.httpFails t.Method t.URL) :
    ∃ e, (Worker.Execute env started finished t).err = some e := by
  unfold Worker.Execute
  rw [executeWith_http _ env started finished t hp hu hm]
  obtain ⟨e, calls, he⟩ :=
    doHTTP_of_httpFails (t := { t with StartedAt := started }) t.Request h
  have : Worker.doHTTPTask env { t with StartedAt := started } = ((0, [], some e), calls) := he
  rw [this]
  exact ⟨e, rfl⟩

/-- A dispatcher tick on a queue holding one eligible task. -/
theorem Executor.tick_single (s : ExecutorState) (u : Task) (hq : s.world.tasks = [u])
    (hin : s.inflight = []) (hst : u.State = Created) (hg : u.GroupID = "") :
    Executor.tick none s =
      { world := { s.world with tasks := [Storage.setPending u] },
        inflight := [Storage.setPending u] } := by
  have hpf : Storage.pollFilter u = true := (Storage.pollFilter_iff u).mpr ⟨hst, hg⟩
  unfold Executor.tick
  rw [Storage.Poll_none_eq, hq]
  simp [Mongo.selectFirst, hpf, hin]

/-- A poll cycle, in terms of the tick and the worker. -/
theorem Executor.pollCycle_single (env : Env) (maxTaskRetries : Int) (started finished : Time)
    (s : ExecutorState) (u : Task) (hq : s.world.tasks = [u])
    (hin : s.inflight = []) (hst : u.State = Created) (hg : u.GroupID = "") :
    Executor.pollCycle env maxTaskRetries started finished s =
      { world := Worker.handle env maxTaskRetries started finished
          { s.world with tasks := [Storage.setPending u] } (Storage.setPending u),
        inflight := [] } := by
  unfold Executor.pollCycle Executor.run
  simp only [List.foldl, Executor.step]
  rw [Executor.tick_single s u hq hin hst hg]
  simp

/-- A poll cycle on a queue holding one eligible HTTP task below the cap
whose HTTP call fails: the task is back in state Created with one more
retry; the history and the cache are untouched. -/
theorem Executor.pollCycle_fail (env : Env) (maxTaskRetries : Int) (started finished : Time)
    (s : ExecutorState) (u : Task) (hq : s.world.tasks = [u])
    (hin : s.inflight = []) (hst : u.State = Created) (hg : u.GroupID = "")
    (hp : u.RequestPolicy = "") (hu : u.URL ≠ "") (hm : u.Method ≠ "")
    (hf : env.httpFails u.Method u.URL) (hun : ∀ x, env.unack x = none)
    (h0 : 0 ≤ u.Retries) (hlt : u.Retries < maxTaskRetries) (hmax : maxTaskRetries < 2 ^ 63) :
    (Executor.pollCycle env maxTaskRetries started finished s).world.tasks =
      [{ u with State := Created, Retries := u.Retries + 1 }] ∧
    (Executor.pollCycle env maxTaskRetries started finished s).inflight = [] ∧
    (Executor.pollCycle env maxTaskRetries started finished s).world.tasksHistory =
      s.world.tasksHistory ∧
    (Executor.pollCycle env maxTaskRetries started finished s).world.cache = s.world.cache := by
  rw [Executor.pollCycle_single env maxTaskRetries started finished s u hq hin hst hg]
  obtain ⟨e, he⟩ := Worker.Execute_of_httpFails env started finished (Storage.setPending u)
    hp hu hm hf
  obtain ⟨h1, h2, h3, _⟩ := Worker.handle_execError env maxTaskRetries started finished
    { s.world with tasks := [Storage.setPending u] } (Storage.setPending u) hlt e he
  obtain ⟨hID, hR⟩ := Worker.Execute_frame env started finished (Storage.setPending u)
  refine ⟨?_, rfl, h3, h2⟩
  simp only []
  rw [h1, hun]
  simp only [Storage.Unack, Mongo.updateOne, hID, hR, beq_self_eq_true, if_true]
  have hw : wrapInt64 ((Storage.setPending u).Retries + 1) = u.Retries + 1 :=
    wrapInt64_eq (by simp only [Storage.setPending]; omega)
      (by simp only [Storage.setPending]; omega)
  rw [hw]
  rfl

/-- A poll cycle on a queue holding one eligible task at or above the cap:
the task is removed; the history and the cache are untouched. -/
theorem Executor.pollCycle_drop (env : Env) (maxTaskRetries : Int) (started finished : Time)
    (s : ExecutorState) (u : Task) (hq : s.world.tasks = [u])
    (hin : s.inflight = []) (hst : u.State = Created) (hg : u.GroupID = "")
    (hack : ∀ x, env.ack x = none) (hge : u.Retries ≥ maxTaskRetries) :
    (Executor.pollCycle env maxTaskRetries started finished s).world.tasks = [] ∧
    (Executor.pollCycle env maxTaskRetries started finished s).inflight = [] ∧
    (Executor.pollCycle env maxTaskRetries started finished s).world.tasksHistory =
      s.world.tasksHistory ∧
    (Executor.pollCycle env maxTaskRetries started finished s).world.cache = s.world.cache := by
  rw [Executor.pollCycle_single env maxTaskRetries started finished s u hq hin hst hg]
  obtain ⟨h1, _, h2, h3⟩ := Worker.handle_atCap env maxTaskRetries started finished
    { s.world with tasks := [Storage.setPending u] } (Storage.setPending u) hge
  refine ⟨?_, rfl, h3, h2⟩
  simp only []
  rw [h1, hack]
  simp [Storage.Ack, Mongo.deleteOne]

/-- The first three poll cycles of the retry scenario. -/
theorem Executor.pollCycles_fail (env : Env) (started finished : Time) (w : World) (t : Task)
    (hq : w.tasks = [t]) (hst : t.State = Created) (hg : t.GroupID = "") (hr : t.Retries = 0)
    (hp : t.RequestPolicy = "") (hu : t.URL ≠ "") (hm : t.Method ≠ "")
    (hf : env.httpFails t.Method t.URL) (hun : ∀ x, env.unack x = none) :
    ∀ k : Nat, k ≤ 3 →
      (Executor.pollCycles env 3 started finished k ⟨w, []⟩).world.tasks =
        [{ t with State := Created, Retries := (k : Int) }] ∧
      (Executor.pollCycles env 3 started finished k ⟨w, []⟩).inflight = [] ∧
      (Executor.pollCycles env 3 started finished k ⟨w, []⟩).world.tasksHistory =
        w.tasksHistory := by
  intro k
  induction k with
  | zero =>
    intro _
    refine ⟨?_, rfl, rfl⟩
    simp only [Executor.pollCycles, hq]
    cases t
    simp only [] at hst hr
    subst hst hr
    rfl
  | succ k ih =>
    intro hk
    obtain ⟨h1, h2, h3⟩ := ih (by omega)
    simp only [Executor.pollCycles]
    obtain ⟨g1, g2, g3, _⟩ := Executor.pollCycle_fail env 3 started finished
      (Executor.pollCycles env 3 started finished k ⟨w, []⟩)
      { t with State := Created, Retries := (k : Int) } h1 h2 rfl hg hp hu hm hf hun
      (by simp) (by simp only []; omega) (by norm_num)
    refine ⟨?_, g2, g3.trans h3⟩
    rw [g1]
    simp only [Nat.cast_succ]

/-- C7, amended. A standalone task with url and method set (no request
policy), alone in the queue with retries 0, whose HTTP call fails on every
attempt (the request cannot be built or sent, or the answer cannot be read),
cap 3, acks and unacks succeeding: before each of the first four poll cycles
the task is stored in state Created with retries 0, 1, 2, 3, and these are the
retries of the task each poll hands out; each of the first three executions
fails and the task is unacked; the fourth poll cycle removes it; and no
history record is ever written. -/
theorem Executor.retries_and_drop (env : Env) (started finished : Time) (w : World) (t : Task)
    (hq : w.tasks = [t]) (hst : t.State = Created) (hg : t.GroupID = "") (hr : t.Retries = 0)
    (hp : t.RequestPolicy = "") (hu : t.URL ≠ "") (hm : t.Method ≠ "")
    (hf : env.httpFails t.Method t.URL) (hun : ∀ x, env.unack x = none)
    (hack : ∀ x, env.ack x = none) :
    (∀ k : Nat, k ≤ 3 →
      (Executor.pollCycles env 3 started finished k ⟨w, []⟩).world.tasks =
        [{ t with State := Created, Retries := (k : Int) }] ∧
      (Executor.tick none (Executor.pollCycles env 3 started finished k ⟨w, []⟩)).inflight =
        [{ t with State := Pending, Retries := (k : Int) }]) ∧
    (Executor.pollCycles env 3 started finished 4 ⟨w, []⟩).world.tasks = [] ∧
    (∀ k : Nat, k ≤ 4 →
      (Executor.pollCycles env 3 started finished k ⟨w, []⟩).world.tasksHistory =
        w.tasksHistory) := by
  have hc := Executor.pollCycles_fail env started finished w t hq hst hg hr hp hu hm hf hun
  obtain ⟨h1, h2, h3⟩ := hc 3 le_rfl
  obtain ⟨g1, _, g3, _⟩ := Executor.pollCycle_drop env 3 started finished
    (Executor.pollCycles env 3 started finished 3 ⟨w, []⟩)
    { t with State := Created, Retries := ((3 : Nat) : Int) } h1 h2 rfl hg hack
    (by simp)
  have e4 : Executor.pollCycles env 3 started finished 4 ⟨w, []⟩ =
      Executor.pollCycle env 3 started finished
        (Executor.pollCycles env 3 started finished 3 ⟨w, []⟩) := by
    simp only [Executor.pollCycles]
  refine ⟨?_, ?_, ?_⟩
  · intro k hk
    obtain ⟨k1, k2, _⟩ := hc k hk
    refine ⟨k1, ?_⟩
    rw [Executor.tick_single _ _ k1 k2 rfl hg]
    rfl
  · rw [e4]; exact g1
  · intro k hk
    rcases Nat.lt_or_ge k 4 with hlt | hge
    · exact (hc k (by omega)).2.2
    · have : k = 4 := by omega
      subst this
      rw [e4]
      exact g3.trans h3

/-- C7, amended, on a sample: the upstream cannot be reached; after three
poll cycles the sample HTTP task is stored with retries 3 and the next poll
hands it out with retries 3; after the fourth it is gone. -/
theorem Executor.retries_and_drop_witness :
    ((Executor.pollCycles upstreamDownEnv 3 1 2 3 ⟨worldOf sampleHTTPTask, []⟩).world.tasks =
        [{ sampleHTTPTask with State := Created, Retries := ((3 : Nat) : Int) }] ∧
      (Executor.tick none
        (Executor.pollCycles upstreamDownEnv 3 1 2 3 ⟨worldOf sampleHTTPTask, []⟩)).inflight =
        [{ sampleHTTPTask with State := Pending, Retries := ((3 : Nat) : Int) }]) ∧
      (Executor.pollCycles upstreamDownEnv 3 1 2 4 ⟨worldOf sampleHTTPTask, []⟩).world.tasks =
        [] :=
  ⟨(Executor.retries_and_drop upstreamDownEnv 1 2 (worldOf sampleHTTPTask) sampleHTTPTask rfl
      (by decide) (by decide) (by decide) (by decide) (by decide) (by decide)
      (Or.inr (fun _ => Or.inl ⟨_, rfl⟩)) (fun _ => rfl) (fun _ => rfl)).1 3 (by decide),
    (Executor.retries_and_drop upstreamDownEnv 1 2 (worldOf sampleHTTPTask) sampleHTTPTask rfl
      (by decide) (by decide) (by decide) (by decide) (by decide) (by decide)
      (Or.inr (fun _ => Or.inl ⟨_, rfl⟩)) (fun _ => rfl) (fun _ => rfl)).2.1⟩

/-! ### The retry cap as an invariant -/

/-- A `Poll` that returns an error leaves the queue as it was. -/
theorem Storage.Poll_error {fault : Option Error} {tasks tasks' : List Task} {e : Error}
    (h : Storage.Poll fault tasks = (.error e, tasks')) : tasks' = tasks := by
  cases fault with
  | some e0 =>
    unfold Storage.Poll at h
    simp only [] at h
    split at h <;> simp only [Prod.mk.injEq] at h <;> exact h.2.symm
  | none =>
    rw [Storage.Poll_none_eq] at h
    split at h
    · simp only [Prod.mk.injEq] at h; exact h.2.symm
    · simp at h

/-- The worker never touches the templates. -/
theorem Worker.handle_taskTemplates (env : Env) (maxTaskRetries : Int) (started finished : Time)
    (w : World) (t : Task) :
    (Worker.handle env maxTaskRetries started finished w t).taskTemplates = w.taskTemplates := by
  unfold Worker.handle
  simp only []
  repeat' split
  all_goals rfl

/-- What the worker can do to the queue: nothing, an Ack, or, for a task
below the cap, an Unack with the retries of that task. -/
theorem Worker.handle_tasks_cases (env : Env) (maxTaskRetries : Int) (started finished : Time)
    (w : World) (t : Task) :
    (Worker.handle env maxTaskRetries started finished w t).tasks = w.tasks ∨
    (∃ fault x, (Worker.handle env maxTaskRetries started finished w t).tasks =
      (Storage.Ack fault w.tasks x).1) ∨
    (t.Retries < maxTaskRetries ∧ ∃ fault x, x.Retries = t.Retries ∧
      (Worker.handle env maxTaskRetries started finished w t).tasks =
        (Storage.Unack fault w.tasks x).1) := by
  by_cases h : t.Retries ≥ maxTaskRetries
  · exact Or.inr (Or.inl ⟨_, _,
      (Worker.handle_atCap env maxTaskRetries started finished w t h).1⟩)
  · have hlt : t.Retries < maxTaskRetries := not_le.mp h
    have hR := (Worker.Execute_frame env started finished t).2
    cases he : (Worker.Execute env started finished t).err with
    | some e =>
      exact Or.inr (Or.inr ⟨hlt, _, _, hR,
        (Worker.handle_execError env maxTaskRetries started finished w t hlt e he).1⟩)
    | none =>
      cases hc : env.cacheSet (Worker.Execute env started finished t).task.ID
        (Worker.Execute env started finished t).task.CacheNamespace
        (Worker.Execute env started finished t).task.CacheScope
        (Worker.Execute env started finished t).task.Response with
      | some e =>
        exact Or.inr (Or.inr ⟨hlt, _, _, hR,
          (Worker.handle_cacheError env maxTaskRetries started finished w t hlt he e hc).1⟩)
      | none =>
        cases hh : env.saveTaskHistory (Worker.Execute env started finished t).task with
        | some e =>
          exact Or.inl
            (Worker.handle_historyError env maxTaskRetries started finished w t hlt he hc e hh).1
        | none =>
          exact Or.inr (Or.inl ⟨_, _,
            (Worker.handle_success env maxTaskRetries started finished w t hlt he hc hh).1⟩)

/-- A template that `TaskTemplate` returns is a stored template. -/
theorem Storage.TaskTemplate_ok {fault : Option Error} {taskTemplates : List Task}
    {taskName : String} {task : Task}
    (h : Storage.TaskTemplate fault taskTemplates taskName = .ok task) :
    task ∈ taskTemplates := by
  unfold Storage.TaskTemplate at h
  cases fault with
  | some e =>
    simp only [] at h
    split at h <;> cases h
  | none =>
    simp only [Mongo.findOne] at h
    cases hf : List.find? (fun d => d.Name == taskName) taskTemplates with
    | none =>
      rw [hf] at h
      simp only [] at h
      split at h <;> cases h
    | some d =>
      rw [hf] at h
      simp only [Except.ok.injEq] at h
      subst h
      exact List.mem_of_find?_eq_some hf

/-- What a submission can do to the queue: nothing, or add one task with the
retries of a stored template. The templates are not touched. -/
theorem Service.Create_tasks_cases (env : Env) (templateFault addFault : Option Error)
    (id : String) (now : Time) (w : World) (req : CreateTaskRequest) :
    (Service.Create env templateFault addFault id now w req).1.taskTemplates =
      w.taskTemplates ∧
    ((Service.Create env templateFault addFault id now w req).1.tasks = w.tasks ∨
      ∃ template ∈ w.taskTemplates, ∃ task, task.Retries = template.Retries ∧
        (Service.Create env templateFault addFault id now w req).1.tasks =
          w.tasks ++ [task]) := by
  unfold Service.Create
  by_cases hn : req.TaskName = ""
  · simp [hn]
  · rw [if_neg hn]
    simp only []
    cases ht : Storage.TaskTemplate templateFault w.taskTemplates req.TaskName with
    | error e => simp
    | ok template =>
      have hmem := Storage.TaskTemplate_ok ht
      cases hj : env.jsonMarshal req.Data with
      | error e => simp
      | ok taskRequest =>
        cases addFault with
        | some e => simp [Storage.Add]
        | none =>
          refine ⟨by simp [Storage.Add], Or.inr ⟨template, hmem, ?_⟩⟩
          simp only [Storage.Add, Mongo.insertOne]
          refine ⟨_, ?_, rfl⟩
          cases req.CacheNamespace <;> cases req.CacheScope <;> simp only [] <;>
            (repeat' split) <;> rfl

/-- Every step of the single-task executor keeps the invariant. -/
theorem Executor.step_Inv (env : Env) (maxTaskRetries : Int) (h0 : 0 ≤ maxTaskRetries)
    (hmax : maxTaskRetries < 2 ^ 63) (init : List Task) (s : ExecutorState)
    (hinv : Executor.Inv maxTaskRetries init s) (ev : Event) :
    Executor.Inv maxTaskRetries init (Executor.step env maxTaskRetries s ev) := by
  obtain ⟨hq, hfl, htm⟩ := hinv
  cases ev with
  | tick fault =>
    simp only [Executor.step, Executor.tick]
    cases hr : Storage.Poll fault s.world.tasks with
    | mk r tasks' =>
      cases r with
      | error e =>
        have := Storage.Poll_error hr
        subst this
        exact ⟨hq, hfl, htm⟩
      | ok t =>
        obtain ⟨i, d, hget, hpf, _, rfl, rfl⟩ := Storage.Poll_ok hr
        have hd := hq d (List.getElem?_mem hget)
        have hdg : d.GroupID = "" := ((Storage.pollFilter_iff d).mp hpf).2
        have hd' : 0 ≤ d.Retries ∧ d.Retries ≤ maxTaskRetries := by
          rcases hd with hd | ⟨hne, _⟩
          · exact hd
          · exact absurd hdg hne
        refine ⟨?_, ?_, htm⟩
        · intro x hx
          rcases List.mem_or_eq_of_mem_set hx with hx | rfl
          · exact hq x hx
          · exact Or.inl hd'
        · intro x hx
          rcases List.mem_append.mp hx with hx | hx
          · exact hfl x hx
          · rw [List.mem_singleton.mp hx]
            exact hd'.1
  | work i started finished =>
    simp only [Executor.step]
    cases hi : s.inflight[i]? with
    | none => exact ⟨hq, hfl, htm⟩
    | some t =>
      have ht0 : 0 ≤ t.Retries := hfl t (List.getElem?_mem hi)
      refine ⟨?_, fun x hx => hfl x (List.mem_of_mem_eraseIdx hx), ?_⟩
      · intro x hx
        simp only [] at hx
        rcases Worker.handle_tasks_cases env maxTaskRetries started finished s.world t with
          h | ⟨fault, y, h⟩ | ⟨hlt, fault, y, hy, h⟩
        · rw [h] at hx; exact hq x hx
        · rw [h] at hx
          cases fault with
          | some e => exact hq x hx
          | none => exact hq x (Mongo.mem_deleteOne hx)
        · rw [h] at hx
          cases fault with
          | some e => exact hq x hx
          | none =>
            rcases Mongo.mem_updateOne hx with hx | ⟨z, _, _, rfl⟩
            · exact hq x hx
            · refine Or.inl ?_
              simp only [hy]
              rw [wrapInt64_eq (by omega) (by omega)]
              constructor <;> omega
      · intro x hx
        simp only [] at hx
        rw [Worker.handle_taskTemplates] at hx
        exact htm x hx
  | submit templateFault addFault id now req =>
    simp only [Executor.step]
    obtain ⟨h1, h2⟩ := Service.Create_tasks_cases env templateFault addFault id now s.world req
    refine ⟨?_, hfl, ?_⟩
    · intro x hx
      rcases h2 with h2 | ⟨template, hmem, task, hret, h2⟩
      · rw [h2] at hx; exact hq x hx
      · rw [h2] at hx
        rcases List.mem_append.mp hx with hx | hx
        · exact hq x hx
        · rw [List.mem_singleton.mp hx]
          refine Or.inl ?_
          rw [hret, htm template hmem]
          exact ⟨le_rfl, h0⟩
    · intro x hx
      rw [h1] at hx
      exact htm x hx

/-- Every run of the single-task executor keeps the invariant. -/
theorem Executor.run_Inv (env : Env) (maxTaskRetries : Int) (h0 : 0 ≤ maxTaskRetries)
    (hmax : maxTaskRetries < 2 ^ 63) (init : List Task) (events : List Event) :
    ∀ s, Executor.Inv maxTaskRetries init s →
      Executor.Inv maxTaskRetries init (Executor.run env maxTaskRetries s events) := by
  induction events with
  | nil => intro s hs; exact hs
  | cons ev events ih =>
    intro s hs
    exact ih _ (Executor.step_Inv env maxTaskRetries h0 hmax init s hs ev)

/-- C6. Reachable states of the single-task executor, for every cap
`0 ≤ maxTaskRetries` (a Go int): starting with idle workers from a live queue
whose standalone tasks all have retries 0, with task templates carrying
retries 0, and stepping by dispatcher polls, worker processing (execute,
unack, ack) and submissions: every standalone task stored in the live queue
has retries at most the cap, at all times; and so has every stored task, as
soon as the group tasks of the initial queue have. -/
theorem Executor.retries_le_max (env : Env) (maxTaskRetries : Int) (h0 : 0 ≤ maxTaskRetries)
    (hmax : maxTaskRetries < 2 ^ 63) (s₀ : ExecutorState)
    (hstandalone : ∀ t ∈ s₀.world.tasks, t.GroupID = "" → t.Retries = 0)
    (htemplates : ∀ t ∈ s₀.world.taskTemplates, t.Retries = 0)
    (hidle : s₀.inflight = []) (events : List Event) :
    (∀ t ∈ (Executor.run env maxTaskRetries s₀ events).world.tasks,
      t.GroupID = "" → t.Retries ≤ maxTaskRetries) ∧
    ((∀ t ∈ s₀.world.tasks, t.GroupID ≠ "" → t.Retries ≤ maxTaskRetries) →
      ∀ t ∈ (Executor.run env maxTaskRetries s₀ events).world.tasks,
        t.Retries ≤ maxTaskRetries) := by
  have hinit : Executor.Inv maxTaskRetries s₀.world.tasks s₀ := by
    refine ⟨?_, ?_, htemplates⟩
    · intro d hd
      by_cases hg : d.GroupID = ""
      · exact Or.inl (by rw [hstandalone d hd hg]; exact ⟨le_rfl, h0⟩)
      · exact Or.inr ⟨hg, hd⟩
    · intro t ht
      rw [hidle] at ht
      cases ht
  obtain ⟨hq, _, _⟩ := Executor.run_Inv env maxTaskRetries h0 hmax s₀.world.tasks events s₀ hinit
  refine ⟨?_, ?_⟩
  · intro t ht hg
    rcases hq t ht with h | ⟨hne, _⟩
    · exact h.2
    · exact absurd hg hne
  · intro hgroup t ht
    rcases hq t ht with h | ⟨hne, hmem⟩
    · exact h.2
    · exact hgroup t hmem hne

/-- C6, on a sample: cap 3, the sample queue (one group task, two standalone
tasks, all with retries 0), an upstream that cannot be reached; after two
polls, the processing of both polled tasks and another poll, every stored
task has retries at most 3. -/
theorem Executor.retries_le_max_witness :
    (∀ t ∈ (Executor.run upstreamDownEnv 3
        ⟨{ worldOf sampleTask with tasks := sampleQueue }, []⟩
        [Event.tick none, Event.tick none, Event.work 0 1 2, Event.work 0 1 2,
          Event.tick none]).world.tasks,
      t.GroupID = "" → t.Retries ≤ 3) ∧
    ∀ t ∈ (Executor.run upstreamDownEnv 3
        ⟨{ worldOf sampleTask with tasks := sampleQueue }, []⟩
        [Event.tick none, Event.tick none, Event.work 0 1 2, Event.work 0 1 2,
          Event.tick none]).world.tasks,
      t.Retries ≤ 3 :=
  ⟨(Executor.retries_le_max upstreamDownEnv 3 (by decide) (by norm_num)
      ⟨{ worldOf sampleTask with tasks := sampleQueue }, []⟩
      (by decide) (by decide) rfl
      [Event.tick none, Event.tick none, Event.work 0 1 2, Event.work 0 1 2,
        Event.tick none]).1,
    (Executor.retries_le_max upstreamDownEnv 3 (by decide) (by norm_num)
      ⟨{ worldOf sampleTask with tasks := sampleQueue }, []⟩
      (by decide) (by decide) rfl
      [Event.tick none, Event.tick none, Event.work 0 1 2, Event.work 0 1 2,
        Event.tick none]).2 (by decide)⟩

/-! ### HTTP request body -/

/-- The bodies the two `doHTTPTask` send, once the request is built: the
worker always sends the task request; the list executor sends nothing for GET. -/
theorem doHTTPTask_calls (env : Env) (task : Task)
    (hnew : env.newRequest task.Method task.URL = none) :
    (Worker.doHTTPTask env task).2 = [Call.httpDo task.Method task.URL task.Request] ∧
    (ListExecutor.doHTTPTask env task).2 =
      [Call.httpDo task.Method task.URL (if task.Method = MethodGet then [] else task.Request)] := by
  unfold Worker.doHTTPTask ListExecutor.doHTTPTask doHTTP
  rw [hnew]
  constructor
  · cases env.httpDo task.Method task.URL task.Request <;> rfl
  · cases env.httpDo task.Method task.URL
      (if task.Method = MethodGet then [] else task.Request) <;> rfl

/-- C11, evaluated: the sample HTTP task with method GET and request `[1]`.
The single-task worker sends the request `[1]` as the body of the GET call
(in `doHTTPTask` and so in `Execute`); the list executor sends an empty body. -/
theorem Worker.doHTTPTask_GET_sends_request :
    (Worker.doHTTPTask sampleEnv sampleGetTask).2 =
        [Call.httpDo "GET" "http://upstream" [1]] ∧
      (Worker.Execute sampleEnv 1 2 sampleGetTask).calls =
        [Call.httpDo "GET" "http://upstream" [1]] ∧
      (ListExecutor.doHTTPTask sampleEnv sampleGetTask).2 =
        [Call.httpDo "GET" "http://upstream" []] := by
  decide

/-! ### Groups of a task list -/

/-- What every execution keeps, besides what `executeWith_frame` lists: name,
request, url, method and policies. -/
theorem executeWith_keeps (d : Env → Task → (Int × Bytes × Option Error) × List Call)
    (env : Env) (started finished : Time) (task : Task) :
    (executeWith d env started finished task).task.Name = task.Name ∧
    (executeWith d env started finished task).task.Request = task.Request ∧
    (executeWith d env started finished task).task.URL = task.URL ∧
    (executeWith d env started finished task).task.Method = task.Method ∧
    (executeWith d env started finished task).task.RequestPolicy = task.RequestPolicy ∧
    (executeWith d env started finished task).task.ResponsePolicy = task.ResponsePolicy ∧
    (executeWith d env started finished task).task.FinalPolicy = task.FinalPolicy := by
  unfold executeWith
  simp only []
  cases hp : primaryStep d env { task with StartedAt := started } with
  | error out =>
    obtain ⟨ht, e, he⟩ := primaryStep_error hp
    simp [ht]
  | ok res =>
    obtain ⟨t', r, calls⟩ := res
    obtain ⟨status, rfl⟩ := primaryStep_ok hp
    obtain ⟨resp, extra, _, hform | ⟨e, hform⟩⟩ :=
      postProcess_form env finished
        { ({ task with StartedAt := started } : Task) with ResponseCode := status } r calls
    · simp only [hform]; simp
    · simp only [hform]; simp

theorem Pending_ne_Failed : Pending ≠ Failed := by decide

theorem Done_ne_Failed : Done ≠ Failed := by decide

/-- A step of a sequential group that is already failed: the task is marked
Failed and reported failed; nothing else happens. -/
theorem ListExecutor.sequentialStep_skip (env : Env) (lenv : ListEnv) (run : GroupRun)
    (task : Task) (h : run.group.State = Failed) :
    ListExecutor.sequentialStep env lenv run task =
      { run with state := { run.state with
                            Tasks := run.state.Tasks ++ [⟨some task.ID, some Failed⟩] },
                 tasks := run.tasks ++ [{ task with State := Failed }] } := by
  unfold ListExecutor.sequentialStep
  rw [if_pos h]

/-- The execution of a task of a group keeps id, name, group id and cache
fields, runs on the given input, and ends Done exactly when it succeeds. -/
theorem ListExecutor.runTask_frame (env : Env) (lenv : ListEnv) (req : Bytes) (task : Task) :
    (ListExecutor.runTask env lenv req task).task.ID = task.ID ∧
    (ListExecutor.runTask env lenv req task).task.Name = task.Name ∧
    (ListExecutor.runTask env lenv req task).task.GroupID = task.GroupID ∧
    (ListExecutor.runTask env lenv req task).task.Request = req ∧
    ((ListExecutor.runTask env lenv req task).err = none →
      (ListExecutor.runTask env lenv req task).task.State = Done) := by
  unfold ListExecutor.runTask ListExecutor.executeTask
  have h1 := executeWith_frame ListExecutor.doHTTPTask env
    (lenv.startedAt { task with Request := req })
    (lenv.finishedAt { task with Request := req }) { task with Request := req }
  have h2 := executeWith_keeps ListExecutor.doHTTPTask env
    (lenv.startedAt { task with Request := req })
    (lenv.finishedAt { task with Request := req }) { task with Request := req }
  exact ⟨h1.1, h2.1, h1.2.1, h2.2.1, h1.2.2.2.2.2.1⟩

/-- A step of a sequential group that is not failed, when the execution of
the task fails: the group becomes Failed, the rolling input is kept. -/
theorem ListExecutor.sequentialStep_fail (env : Env) (lenv : ListEnv) (run : GroupRun)
    (task : Task) (h : run.group.State ≠ Failed) (e : Error)
    (he : (ListExecutor.runTask env lenv run.req task).err = some e) :
    ListExecutor.sequentialStep env lenv run task =
      { group := { run.group with State := Failed },
        req := run.req,
        state := { run.state with Tasks := run.state.Tasks ++ [⟨some task.ID, some Failed⟩] },
        tasks := run.tasks ++
          [{ (ListExecutor.runTask env lenv run.req task).task with State := Failed }],
        world := { run.world with trace := run.world.trace ++
          (ListExecutor.runTask env lenv run.req task).calls ++
          [Call.logError "error executing task"] } } := by
  have hID := (ListExecutor.runTask_frame env lenv run.req task).1
  unfold ListExecutor.runTask at he hID ⊢
  unfold ListExecutor.sequentialStep
  rw [if_neg h]
  simp only [he]
  rw [hID]

/-- A step of a sequential group that is not failed, when the execution of
the task succeeds: the group state is kept, whatever the cache and the
history store answer, and the response becomes the rolling input. -/
theorem ListExecutor.sequentialStep_ok (env : Env) (lenv : ListEnv) (run : GroupRun)
    (task : Task) (h : run.group.State ≠ Failed)
    (he : (ListExecutor.runTask env lenv run.req task).err = none) :
    (ListExecutor.sequentialStep env lenv run task).group = run.group ∧
    (ListExecutor.sequentialStep env lenv run task).req =
      (ListExecutor.runTask env lenv run.req task).task.Response ∧
    (ListExecutor.sequentialStep env lenv run task).state =
      { run.state with Tasks := run.state.Tasks ++ [⟨some task.ID, some Done⟩] } ∧
    (ListExecutor.sequentialStep env lenv run task).tasks = run.tasks ++
      [(ListExecutor.runTask env lenv run.req task).task] := by
  have hfr := ListExecutor.runTask_frame env lenv run.req task
  have hID := hfr.1
  have hDone := hfr.2.2.2.2 he
  unfold ListExecutor.runTask at he hID hDone ⊢
  unfold ListExecutor.sequentialStep
  rw [if_neg h]
  simp only [he]
  split
  · simp [hID, hDone]
  · split <;> simp [hID, hDone]

/-- A step of a parallel group, when the execution of the task fails. -/
theorem ListExecutor.parallelStep_fail (env : Env) (lenv : ListEnv) (run : GroupRun)
    (task : Task) (e : Error)
    (he : (ListExecutor.runTask env lenv run.group.Request task).err = some e) :
    ListExecutor.parallelStep env lenv run task =
      { group := { run.group with State := Failed },
        req := run.req,
        state := { run.state with Tasks := run.state.Tasks ++ [⟨some task.ID, some Failed⟩] },
        tasks := run.tasks ++
          [{ (ListExecutor.runTask env lenv run.group.Request task).task with State := Failed }],
        world := { run.world with trace := run.world.trace ++
          (ListExecutor.runTask env lenv run.group.Request task).calls ++
          [Call.logError "error executing task"] } } := by
  have hID := (ListExecutor.runTask_frame env lenv run.group.Request task).1
  unfold ListExecutor.runTask at he hID ⊢
  unfold ListExecutor.parallelStep
  simp only [he]
  rw [hID]

/-- A step of a parallel group, when the execution of the task succeeds:
the group state is kept, whatever the cache and the history store answer. -/
theorem ListExecutor.parallelStep_ok (env : Env) (lenv : ListEnv) (run : GroupRun)
    (task : Task)
    (he : (ListExecutor.runTask env lenv run.group.Request task).err = none) :
    (ListExecutor.parallelStep env lenv run task).group = run.group ∧
    (ListExecutor.parallelStep env lenv run task).state =
      { run.state with Tasks := run.state.Tasks ++ [⟨some task.ID, some Done⟩] } ∧
    (ListExecutor.parallelStep env lenv run task).tasks = run.tasks ++
      [(ListExecutor.runTask env lenv run.group.Request task).task] := by
  have hfr := ListExecutor.runTask_frame env lenv run.group.Request task
  have hID := hfr.1
  have hDone := hfr.2.2.2.2 he
  unfold ListExecutor.runTask at he hID hDone ⊢
  unfold ListExecutor.parallelStep
  simp only [he]
  split
  · simp [hID, hDone]
  · split <;> simp [hID, hDone]

/-- Go `executeSequential` once the tasks are fetched: the loop, then the end. -/
theorem ListExecutor.executeSequential_of_fetch (env : Env) (lenv : ListEnv) (w : World)
    (group : Group) (fetched : List Task)
    (hfetch : Storage.GetGroupTasks (lenv.getGroupTasks { group with State := Pending }) w.tasks
      { group with State := Pending } = .ok fetched) :
    ListExecutor.executeSequential env lenv w group =
      ListExecutor.finishGroup lenv (ListExecutor.sequentialLoop env lenv w group fetched) := by
  unfold ListExecutor.executeSequential ListExecutor.sequentialLoop GroupRun.init
  simp only [hfetch]

/-- Go `executeParallel` once the tasks are fetched: the executions, then the end. -/
theorem ListExecutor.executeParallel_of_fetch (env : Env) (lenv : ListEnv) (w : World)
    (group : Group) (fetched : List Task)
    (hfetch : Storage.GetGroupTasks (lenv.getGroupTasks { group with State := Pending }) w.tasks
      { group with State := Pending } = .ok fetched) :
    ListExecutor.executeParallel env lenv w group =
      ListExecutor.finishGroup lenv
        (ListExecutor.parallelLoop env lenv w group (lenv.schedule fetched)) := by
  unfold ListExecutor.executeParallel ListExecutor.parallelLoop GroupRun.init
  simp only [hfetch]

/-- One step of a sequential group, all cases: one record is added, with the
id and the name of the task, and its status is reported; the task is skipped
(group already Failed), or its execution fails, or it succeeds. -/
theorem ListExecutor.sequentialStep_summary (env : Env) (lenv : ListEnv) (run : GroupRun)
    (task : Task) :
    ∃ r : Task,
      (ListExecutor.sequentialStep env lenv run task).tasks = run.tasks ++ [r] ∧
      (ListExecutor.sequentialStep env lenv run task).state =
        { run.state with Tasks := run.state.Tasks ++ [TaskStatus.ofTask r] } ∧
      r.ID = task.ID ∧ r.Name = task.Name ∧
      (ListExecutor.sequentialStep env lenv run task).group.ID = run.group.ID ∧
      ((run.group.State = Failed ∧ r = { task with State := Failed } ∧
          ListExecutor.sequentialStep env lenv run task =
            { run with state := (ListExecutor.sequentialStep env lenv run task).state,
                       tasks := (ListExecutor.sequentialStep env lenv run task).tasks }) ∨
        (run.group.State ≠ Failed ∧ (ListExecutor.runTask env lenv run.req task).err ≠ none ∧
          r.State = Failed ∧ r.Request = run.req ∧
          (ListExecutor.sequentialStep env lenv run task).group.State = Failed ∧
          (ListExecutor.sequentialStep env lenv run task).req = run.req) ∨
        (run.group.State ≠ Failed ∧ (ListExecutor.runTask env lenv run.req task).err = none ∧
          r = (ListExecutor.runTask env lenv run.req task).task ∧
          r.State = Done ∧ r.Request = run.req ∧
          (ListExecutor.sequentialStep env lenv run task).group = run.group ∧
          (ListExecutor.sequentialStep env lenv run task).req = r.Response)) := by
  have hfr := ListExecutor.runTask_frame env lenv run.req task
  by_cases h : run.group.State = Failed
  · rw [ListExecutor.sequentialStep_skip env lenv run task h]
    exact ⟨{ task with State := Failed }, rfl, rfl, rfl, rfl, rfl, Or.inl ⟨h, rfl, rfl⟩⟩
  · cases he : (ListExecutor.runTask env lenv run.req task).err with
    | some e =>
      rw [ListExecutor.sequentialStep_fail env lenv run task h e he]
      refine ⟨{ (ListExecutor.runTask env lenv run.req task).task with State := Failed },
        rfl, ?_, hfr.1, hfr.2.1, rfl, Or.inr (Or.inl ⟨h, by simp, rfl, hfr.2.2.2.1, rfl, rfl⟩)⟩
      simp [TaskStatus.ofTask, hfr.1]
    | none =>
      obtain ⟨h1, h2, h3, h4⟩ := ListExecutor.sequentialStep_ok env lenv run task h he
      refine ⟨(ListExecutor.runTask env lenv run.req task).task, h4, ?_, hfr.1, hfr.2.1,
        by rw [h1], Or.inr (Or.inr ⟨h, rfl, rfl, hfr.2.2.2.2 he, hfr.2.2.2.1, h1, h2⟩)⟩
      rw [h3]
      simp [TaskStatus.ofTask, hfr.1, hfr.2.2.2.2 he]

/-- One step of a parallel group, both cases. -/
theorem ListExecutor.parallelStep_summary (env : Env) (lenv : ListEnv) (run : GroupRun)
    (task : Task) :
    ∃ r : Task,
      (ListExecutor.parallelStep env lenv run task).tasks = run.tasks ++ [r] ∧
      (ListExecutor.parallelStep env lenv run task).state =
        { run.state with Tasks := run.state.Tasks ++ [TaskStatus.ofTask r] } ∧
      r.ID = task.ID ∧ r.Name = task.Name ∧ r.Request = run.group.Request ∧
      (ListExecutor.parallelStep env lenv run task).group.ID = run.group.ID ∧
      (ListExecutor.parallelStep env lenv run task).group.Request = run.group.Request ∧
      (((ListExecutor.runTask env lenv run.group.Request task).err ≠ none ∧
          r.State = Failed ∧
          (ListExecutor.parallelStep env lenv run task).group.State = Failed) ∨
        ((ListExecutor.runTask env lenv run.group.Request task).err = none ∧
          r = (ListExecutor.runTask env lenv run.group.Request task).task ∧
          r.State = Done ∧
          (ListExecutor.parallelStep env lenv run task).group = run.group)) := by
  have hfr := ListExecutor.runTask_frame env lenv run.group.Request task
  cases he : (ListExecutor.runTask env lenv run.group.Request task).err with
  | some e =>
    rw [ListExecutor.parallelStep_fail env lenv run task e he]
    refine ⟨{ (ListExecutor.runTask env lenv run.group.Request task).task with State := Failed },
      rfl, ?_, hfr.1, hfr.2.1, hfr.2.2.2.1, rfl, rfl, Or.inl ⟨by simp, rfl, rfl⟩⟩
    simp [TaskStatus.ofTask, hfr.1]
  | none =>
    obtain ⟨h1, h3, h4⟩ := ListExecutor.parallelStep_ok env lenv run task he
    refine ⟨(ListExecutor.runTask env lenv run.group.Request task).task, h4, ?_, hfr.1, hfr.2.1,
      hfr.2.2.2.1, by rw [h1], by rw [h1], Or.inr ⟨rfl, rfl, hfr.2.2.2.2 he, h1⟩⟩
    rw [h3]
    simp [TaskStatus.ofTask, hfr.1, hfr.2.2.2.2 he]

/-- The loop of a sequential group keeps: the group is Failed exactly when a
task record is Failed; the reported statuses are those of the task records;
the records carry the ids and names of the tasks, in order. -/
theorem ListExecutor.sequential_foldl_inv (env : Env) (lenv : ListEnv) (ts : List Task) :
    ∀ run : GroupRun,
      (run.group.State = Failed ↔ ∃ t ∈ run.tasks, t.State = Failed) →
      run.state.Tasks = run.tasks.map TaskStatus.ofTask →
      ((ts.foldl (ListExecutor.sequentialStep env lenv) run).group.State = Failed ↔
        ∃ t ∈ (ts.foldl (ListExecutor.sequentialStep env lenv) run).tasks, t.State = Failed) ∧
      (ts.foldl (ListExecutor.sequentialStep env lenv) run).state.Tasks =
        (ts.foldl (ListExecutor.sequentialStep env lenv) run).tasks.map TaskStatus.ofTask ∧
      (ts.foldl (ListExecutor.sequentialStep env lenv) run).group.ID = run.group.ID ∧
      (ts.foldl (ListExecutor.sequentialStep env lenv) run).tasks.map (fun t => t.ID) =
        run.tasks.map (fun t => t.ID) ++ ts.map (fun t => t.ID) ∧
      (ts.foldl (ListExecutor.sequentialStep env lenv) run).tasks.map (fun t => t.Name) =
        run.tasks.map (fun t => t.Name) ++ ts.map (fun t => t.Name) := by
  induction ts with
  | nil => intro run h1 h2; simp [h1, h2]
  | cons task ts ih =>
    intro run h1 h2
    obtain ⟨r, hr1, hr2, hr3, hr4, hr5, hcase⟩ :=
      ListExecutor.sequentialStep_summary env lenv run task
    have g1 : (ListExecutor.sequentialStep env lenv run task).group.State = Failed ↔
        ∃ t ∈ (ListExecutor.sequentialStep env lenv run task).tasks, t.State = Failed := by
      rw [hr1]
      rcases hcase with ⟨hf, hr, heq⟩ | ⟨hf, _, hrs, _, hgs, _⟩ | ⟨hf, _, _, hrs, _, hg, _⟩
      · rw [heq]
        simp only [hf, true_iff]
        exact ⟨r, by simp, by rw [hr]⟩
      · simp only [hgs, true_iff]
        exact ⟨r, by simp, hrs⟩
      · rw [hg]
        constructor
        · intro h; exact absurd h hf
        · rintro ⟨t, ht, hts⟩
          rcases List.mem_append.mp ht with ht | ht
          · exact h1.mpr ⟨t, ht, hts⟩
          · rw [List.mem_singleton.mp ht, hrs] at hts
            exact absurd hts Done_ne_Failed
    have g2 : (ListExecutor.sequentialStep env lenv run task).state.Tasks =
        (ListExecutor.sequentialStep env lenv run task).tasks.map TaskStatus.ofTask := by
      rw [hr1, hr2]
      simp [h2]
    obtain ⟨i1, i2, i3, i4, i5⟩ := ih _ g1 g2
    simp only [List.foldl_cons]
    refine ⟨i1, i2, i3.trans hr5, ?_, ?_⟩
    · rw [i4, hr1]; simp [hr3]
    · rw [i5, hr1]; simp [hr4]

/-- The executions of a parallel group keep the same, and every record has
the group request as its request. -/
theorem ListExecutor.parallel_foldl_inv (env : Env) (lenv : ListEnv) (ts : List Task) :
    ∀ run : GroupRun,
      (run.group.State = Failed ↔ ∃ t ∈ run.tasks, t.State = Failed) →
      run.state.Tasks = run.tasks.map TaskStatus.ofTask →
      (∀ t ∈ run.tasks, t.Request = run.group.Request) →
      ((ts.foldl (ListExecutor.parallelStep env lenv) run).group.State = Failed ↔
        ∃ t ∈ (ts.foldl (ListExecutor.parallelStep env lenv) run).tasks, t.State = Failed) ∧
      (ts.foldl (ListExecutor.parallelStep env lenv) run).state.Tasks =
        (ts.foldl (ListExecutor.parallelStep env lenv) run).tasks.map TaskStatus.ofTask ∧
      (ts.foldl (ListExecutor.parallelStep env lenv) run).group.ID = run.group.ID ∧
      (ts.foldl (ListExecutor.parallelStep env lenv) run).tasks.map (fun t => t.ID) =
        run.tasks.map (fun t => t.ID) ++ ts.map (fun t => t.ID) ∧
      (ts.foldl (ListExecutor.parallelStep env lenv) run).tasks.map (fun t => t.Name) =
        run.tasks.map (fun t => t.Name) ++ ts.map (fun t => t.Name) ∧
      (∀ t ∈ (ts.foldl (ListExecutor.parallelStep env lenv) run).tasks,
        t.Request = run.group.Request) := by
  induction ts with
  | nil => intro run h1 h2 h3; simp [h1, h2]; exact h3
  | cons task ts ih =>
    intro run h1 h2 h3
    obtain ⟨r, hr1, hr2, hr3, hr4, hrq, hr5, hr6, hcase⟩ :=
      ListExecutor.parallelStep_summary env lenv run task
    have g1 : (ListExecutor.parallelStep env lenv run task).group.State = Failed ↔
        ∃ t ∈ (ListExecutor.parallelStep env lenv run task).tasks, t.State = Failed := by
      rw [hr1]
      rcases hcase with ⟨_, hrs, hgs⟩ | ⟨_, _, hrs, hg⟩
      · simp only [hgs, true_iff]
        exact ⟨r, by simp, hrs⟩
      · rw [hg, h1]
        constructor
        · rintro ⟨t, ht, hts⟩
          exact ⟨t, List.mem_append_left _ ht, hts⟩
        · rintro ⟨t, ht, hts⟩
          rcases List.mem_append.mp ht with ht | ht
          · exact ⟨t, ht, hts⟩
          · rw [List.mem_singleton.mp ht, hrs] at hts
            exact absurd hts Done_ne_Failed
    have g2 : (ListExecutor.parallelStep env lenv run task).state.Tasks =
        (ListExecutor.parallelStep env lenv run task).tasks.map TaskStatus.ofTask := by
      rw [hr1, hr2]
      simp [h2]
    have g3 : ∀ t ∈ (ListExecutor.parallelStep env lenv run task).tasks,
        t.Request = (ListExecutor.parallelStep env lenv run task).group.Request := by
      rw [hr1, hr6]
      intro t ht
      rcases List.mem_append.mp ht with ht | ht
      · exact h3 t ht
      · rw [List.mem_singleton.mp ht]; exact hrq
    obtain ⟨i1, i2, i3, i4, i5, i6⟩ := ih _ g1 g2 g3
    simp only [List.foldl_cons]
    refine ⟨i1, i2, i3.trans hr5, ?_, ?_, ?_⟩
    · rw [i4, hr1]; simp [hr3]
    · rw [i5, hr1]; simp [hr4]
    · intro t ht; rw [i6 t ht, hr6]

/-- The end of a group run: the group is Done unless it is Failed, and the
returned status carries the id and the state of the group. -/
theorem ListExecutor.finishGroup_spec (lenv : ListEnv) (run : GroupRun) :
    (ListExecutor.finishGroup lenv run).tasks = run.tasks ∧
    ((ListExecutor.finishGroup lenv run).group.State = Failed ↔ run.group.State = Failed) ∧
    ((ListExecutor.finishGroup lenv run).group.State = Failed ∨
      (ListExecutor.finishGroup lenv run).group.State = Done) ∧
    (ListExecutor.finishGroup lenv run).group.ID = run.group.ID ∧
    (ListExecutor.finishGroup lenv run).result =
      .ok { ID := some run.group.ID,
            Status := some (ListExecutor.finishGroup lenv run).group.State,
            Tasks := run.state.Tasks } := by
  unfold ListExecutor.finishGroup
  by_cases h : run.group.State = Failed
  · simp [h]
  · simp [h, Done_ne_Failed]

/-- The state of a group loop at its entry satisfies what the loops keep. -/
theorem GroupRun.init_inv (w : World) (group : Group) :
    ((GroupRun.init w group).group.State = Failed ↔
      ∃ t ∈ (GroupRun.init w group).tasks, t.State = Failed) ∧
    (GroupRun.init w group).state.Tasks = (GroupRun.init w group).tasks.map TaskStatus.ofTask ∧
    (∀ t ∈ (GroupRun.init w group).tasks, t.Request = (GroupRun.init w group).group.Request) := by
  refine ⟨?_, rfl, ?_⟩
  · simp only [GroupRun.init, List.not_mem_nil, false_and, exists_false, iff_false]
    exact Pending_ne_Failed
  · intro t ht; cases ht

/-- A sequential group whose tasks are fetched: terminal state and status. -/
theorem ListExecutor.executeSequential_spec (env : Env) (lenv : ListEnv) (w : World)
    (group : Group) (fetched : List Task)
    (hfetch : Storage.GetGroupTasks (lenv.getGroupTasks { group with State := Pending }) w.tasks
      { group with State := Pending } = .ok fetched) :
    ((ListExecutor.executeSequential env lenv w group).group.State = Failed ↔
      ∃ t ∈ (ListExecutor.executeSequential env lenv w group).tasks, t.State = Failed) ∧
    ((ListExecutor.executeSequential env lenv w group).group.State = Failed ∨
      (ListExecutor.executeSequential env lenv w group).group.State = Done) ∧
    (ListExecutor.executeSequential env lenv w group).result =
      .ok { ID := some group.ID,
            Status := some (ListExecutor.executeSequential env lenv w group).group.State,
            Tasks := (ListExecutor.executeSequential env lenv w group).tasks.map
              TaskStatus.ofTask } ∧
    (ListExecutor.executeSequential env lenv w group).tasks.map (fun t => t.ID) =
      fetched.map (fun t => t.ID) ∧
    (ListExecutor.executeSequential env lenv w group).tasks.map (fun t => t.Name) =
      fetched.map (fun t => t.Name) ∧
    (ListExecutor.executeSequential env lenv w group).group.ID = group.ID := by
  rw [ListExecutor.executeSequential_of_fetch env lenv w group fetched hfetch]
  obtain ⟨j1, j2, _⟩ := GroupRun.init_inv w group
  obtain ⟨i1, i2, i3, i4, i5⟩ :=
    ListExecutor.sequential_foldl_inv env lenv fetched (GroupRun.init w group) j1 j2
  obtain ⟨f1, f2, f3, f4, f5⟩ := ListExecutor.finishGroup_spec lenv
    (ListExecutor.sequentialLoop env lenv w group fetched)
  unfold ListExecutor.sequentialLoop at f1 f2 f3 f4 f5 ⊢
  refine ⟨?_, f3, ?_, ?_, ?_, ?_⟩
  · rw [f2, f1]; exact i1
  · rw [f5, f1, i2, i3]; rfl
  · rw [f1, i4]; rfl
  · rw [f1, i5]; rfl
  · rw [f4, i3]; rfl

/-- A parallel group whose tasks are fetched: terminal state and status. -/
theorem ListExecutor.executeParallel_spec (env : Env) (lenv : ListEnv) (w : World)
    (group : Group) (fetched : List Task)
    (hfetch : Storage.GetGroupTasks (lenv.getGroupTasks { group with State := Pending }) w.tasks
      { group with State := Pending } = .ok fetched) :
    ((ListExecutor.executeParallel env lenv w group).group.State = Failed ↔
      ∃ t ∈ (ListExecutor.executeParallel env lenv w group).tasks, t.State = Failed) ∧
    ((ListExecutor.executeParallel env lenv w group).group.State = Failed ∨
      (ListExecutor.executeParallel env lenv w group).group.State = Done) ∧
    (ListExecutor.executeParallel env lenv w group).result =
      .ok { ID := some group.ID,
            Status := some (ListExecutor.executeParallel env lenv w group).group.State,
            Tasks := (ListExecutor.executeParallel env lenv w group).tasks.map
              TaskStatus.ofTask } ∧
    (ListExecutor.executeParallel env lenv w group).tasks.map (fun t => t.ID) =
      (lenv.schedule fetched).map (fun t => t.ID) ∧
    (∀ t ∈ (ListExecutor.executeParallel env lenv w group).tasks, t.Request = group.Request) ∧
    (ListExecutor.executeParallel env lenv w group).group.ID = group.ID := by
  rw [ListExecutor.executeParallel_of_fetch env lenv w group fetched hfetch]
  obtain ⟨j1, j2, j3⟩ := GroupRun.init_inv w group
  obtain ⟨i1, i2, i3, i4, _, i6⟩ :=
    ListExecutor.parallel_foldl_inv env lenv (lenv.schedule fetched) (GroupRun.init w group)
      j1 j2 j3
  obtain ⟨f1, f2, f3, f4, f5⟩ := ListExecutor.finishGroup_spec lenv
    (ListExecutor.parallelLoop env lenv w group (lenv.schedule fetched))
  unfold ListExecutor.parallelLoop at f1 f2 f3 f4 f5 ⊢
  refine ⟨?_, f3, ?_, ?_, ?_, ?_⟩
  · rw [f2, f1]; exact i1
  · rw [f5, f1, i2, i3]; rfl
  · rw [f1, i4]; rfl
  · rw [f1]; exact i6
  · rw [f4, i3]; rfl

/-- C13. A group executed by `executeSequential` or by `executeParallel`
(the executions of a parallel group taken one at a time), its tasks being
fetched: the terminal state of the group is Failed if and only if at least
one of its task records ended Failed, and Done otherwise; the returned
status carries the id of the group, that state, and for each task record its
id and state. A task whose execution succeeds leaves the state of the group
as it is, whatever the cache write and the history write return. -/
theorem ListExecutor.group_terminal_state (env : Env) (lenv : ListEnv) (w : World)
    (group : Group) (fetched : List Task)
    (hfetch : Storage.GetGroupTasks (lenv.getGroupTasks { group with State := Pending }) w.tasks
      { group with State := Pending } = .ok fetched) :
    (∀ r : GroupResult,
      r = ListExecutor.executeSequential env lenv w group ∨
        r = ListExecutor.executeParallel env lenv w group →
      (r.group.State = Failed ↔ ∃ t ∈ r.tasks, t.State = Failed) ∧
      (r.group.State = Failed ∨ r.group.State = Done) ∧
      r.result = .ok { ID := some group.ID, Status := some r.group.State,
                       Tasks := r.tasks.map TaskStatus.ofTask }) ∧
    (ListExecutor.executeSequential env lenv w group).tasks.map (fun t => t.ID) =
      fetched.map (fun t => t.ID) ∧
    (ListExecutor.executeParallel env lenv w group).tasks.map (fun t => t.ID) =
      (lenv.schedule fetched).map (fun t => t.ID) ∧
    (∀ (run : GroupRun) (task : Task), run.group.State ≠ Failed →
      (ListExecutor.runTask env lenv run.req task).err = none →
      (ListExecutor.sequentialStep env lenv run task).group.State = run.group.State) ∧
    (∀ (run : GroupRun) (task : Task),
      (ListExecutor.runTask env lenv run.group.Request task).err = none →
      (ListExecutor.parallelStep env lenv run task).group.State = run.group.State) := by
  obtain ⟨s1, s2, s3, s4, _, _⟩ :=
    ListExecutor.executeSequential_spec env lenv w group fetched hfetch
  obtain ⟨p1, p2, p3, p4, _, _⟩ :=
    ListExecutor.executeParallel_spec env lenv w group fetched hfetch
  refine ⟨?_, s4, p4, ?_, ?_⟩
  · rintro r (rfl | rfl)
    · exact ⟨s1, s2, s3⟩
    · exact ⟨p1, p2, p3⟩
  · intro run task h he
    rw [(ListExecutor.sequentialStep_ok env lenv run task h he).1]
  · intro run task he
    rw [(ListExecutor.parallelStep_ok env lenv run task he).1]

/-- C13, on a sample: the first group of the created sample list, with a
policy engine that fails on the first task: the group ends Failed. -/
theorem ListExecutor.group_terminal_state_witness :
    ((ListExecutor.executeSequential policyDownEnv sampleListEnv sampleCreatedWorld
        sampleGroup0).group.State = Failed ↔
      ∃ t ∈ (ListExecutor.executeSequential policyDownEnv sampleListEnv sampleCreatedWorld
        sampleGroup0).tasks, t.State = Failed) ∧
    ((ListExecutor.executeSequential policyDownEnv sampleListEnv sampleCreatedWorld
        sampleGroup0).group.State = Failed ∨
      (ListExecutor.executeSequential policyDownEnv sampleListEnv sampleCreatedWorld
        sampleGroup0).group.State = Done) ∧
    (ListExecutor.executeSequential policyDownEnv sampleListEnv sampleCreatedWorld
        sampleGroup0).result =
      .ok { ID := some sampleGroup0.ID,
            Status := some (ListExecutor.executeSequential policyDownEnv sampleListEnv
              sampleCreatedWorld sampleGroup0).group.State,
            Tasks := (ListExecutor.executeSequential policyDownEnv sampleListEnv
              sampleCreatedWorld sampleGroup0).tasks.map TaskStatus.ofTask } :=
  (ListExecutor.group_terminal_state policyDownEnv sampleListEnv sampleCreatedWorld sampleGroup0
    sampleGroup0Tasks (by decide)).1 _ (Or.inl rfl)

/-! ### Sequential group after a failure -/

/-- Once the group is Failed, every further task of the sequential loop is
only recorded as Failed: the world, the group and the rolling input stay. -/
theorem ListExecutor.sequential_foldl_failed (env : Env) (lenv : ListEnv) (suf : List Task) :
    ∀ run : GroupRun, run.group.State = Failed →
      suf.foldl (ListExecutor.sequentialStep env lenv) run =
        { run with
          state := { run.state with
                     Tasks := run.state.Tasks ++
                       suf.map (fun t => (⟨some t.ID, some Failed⟩ : TaskStatus)) },
          tasks := run.tasks ++ suf.map (fun t => { t with State := Failed }) } := by
  induction suf with
  | nil => intro run _; simp
  | cons t suf ih =>
    intro run h
    rw [List.foldl_cons, ListExecutor.sequentialStep_skip env lenv run t h, ih _ (by exact h)]
    simp [List.append_assoc]

/-- C14. A sequential group whose fetched tasks are `pre ++ tk :: suf`, where
the group has not failed before `tk` and the execution of `tk` fails: no task
of `suf` is executed (the world after the loop, with its trace of policy and
HTTP calls, its cache and its history, is the world after `tk`), every task of
`suf` is recorded with state Failed and status "failed", the group ends
Failed with status "failed", and the returned group status lists exactly one
status per fetched task, in fetch order, each with the id of its task. -/
theorem ListExecutor.sequential_after_failure (env : Env) (lenv : ListEnv) (w : World)
    (group : Group) (pre suf : List Task) (tk : Task)
    (hfetch : Storage.GetGroupTasks (lenv.getGroupTasks { group with State := Pending }) w.tasks
      { group with State := Pending } = .ok (pre ++ tk :: suf))
    (hpre : (ListExecutor.sequentialLoop env lenv w group pre).group.State ≠ Failed)
    (hk : (ListExecutor.runTask env lenv (ListExecutor.sequentialLoop env lenv w group pre).req
      tk).err ≠ none) :
    (ListExecutor.sequentialLoop env lenv w group (pre ++ tk :: suf)).world =
      (ListExecutor.sequentialLoop env lenv w group (pre ++ [tk])).world ∧
    (ListExecutor.sequentialLoop env lenv w group (pre ++ [tk])).world.trace =
      (ListExecutor.sequentialLoop env lenv w group pre).world.trace ++
        (ListExecutor.runTask env lenv (ListExecutor.sequentialLoop env lenv w group pre).req
          tk).calls ++ [Call.logError "error executing task"] ∧
    (ListExecutor.executeSequential env lenv w group).world =
      (ListExecutor.finishGroup lenv
        (ListExecutor.sequentialLoop env lenv w group (pre ++ [tk]))).world ∧
    (ListExecutor.executeSequential env lenv w group).tasks =
      (ListExecutor.sequentialLoop env lenv w group (pre ++ [tk])).tasks ++
        suf.map (fun t => { t with State := Failed }) ∧
    (ListExecutor.executeSequential env lenv w group).group.State = Failed ∧
    ∃ status : GroupStatus,
      (ListExecutor.executeSequential env lenv w group).result = .ok status ∧
      status.ID = some group.ID ∧
      status.Status = some Failed ∧
      status.Tasks =
        (ListExecutor.sequentialLoop env lenv w group (pre ++ [tk])).state.Tasks ++
          suf.map (fun t => (⟨some t.ID, some Failed⟩ : TaskStatus)) ∧
      status.Tasks.map (fun s => s.ID) = (pre ++ tk :: suf).map (fun t => some t.ID) ∧
      status.Tasks.length = (pre ++ tk :: suf).length := by
  obtain ⟨e, he⟩ := Option.ne_none_iff_exists'.mp hk
  have hstep : ListExecutor.sequentialLoop env lenv w group (pre ++ [tk]) =
      ListExecutor.sequentialStep env lenv (ListExecutor.sequentialLoop env lenv w group pre)
        tk := by
    simp [ListExecutor.sequentialLoop, List.foldl_append]
  have hfail := ListExecutor.sequentialStep_fail env lenv _ tk hpre e he
  have hF : (ListExecutor.sequentialLoop env lenv w group (pre ++ [tk])).group.State = Failed := by
    rw [hstep, hfail]
  have hall : ListExecutor.sequentialLoop env lenv w group (pre ++ tk :: suf) =
      { ListExecutor.sequentialLoop env lenv w group (pre ++ [tk]) with
        state := { (ListExecutor.sequentialLoop env lenv w group (pre ++ [tk])).state with
                   Tasks := (ListExecutor.sequentialLoop env lenv w group
                       (pre ++ [tk])).state.Tasks ++
                     suf.map (fun t => (⟨some t.ID, some Failed⟩ : TaskStatus)) },
        tasks := (ListExecutor.sequentialLoop env lenv w group (pre ++ [tk])).tasks ++
          suf.map (fun t => { t with State := Failed }) } := by
    rw [← ListExecutor.sequential_foldl_failed env lenv suf _ hF]
    simp [ListExecutor.sequentialLoop, List.foldl_append]
  obtain ⟨s1, s2, s3, s4, _, _⟩ :=
    ListExecutor.executeSequential_spec env lenv w group _ hfetch
  have hex := ListExecutor.executeSequential_of_fetch env lenv w group _ hfetch
  obtain ⟨f1, f2, f3, f4, f5⟩ := ListExecutor.finishGroup_spec lenv
    (ListExecutor.sequentialLoop env lenv w group (pre ++ tk :: suf))
  have hgF : (ListExecutor.executeSequential env lenv w group).group.State = Failed := by
    rw [hex, f2, hall]; exact hF
  have htasks : (ListExecutor.executeSequential env lenv w group).tasks =
      (ListExecutor.sequentialLoop env lenv w group (pre ++ [tk])).tasks ++
        suf.map (fun t => { t with State := Failed }) := by
    rw [hex, f1, hall]
  refine ⟨by rw [hall], by rw [hstep, hfail], ?_, htasks, hgF, _, s3, rfl, ?_, ?_, ?_, ?_⟩
  · rw [hex]
    unfold ListExecutor.finishGroup
    rw [hall]
  · simp only []; rw [hgF]
  · simp only []
    rw [hex, f1]
    obtain ⟨j1, j2, _⟩ := GroupRun.init_inv w group
    obtain ⟨_, i2, _⟩ :=
      ListExecutor.sequential_foldl_inv env lenv (pre ++ tk :: suf) (GroupRun.init w group) j1 j2
    unfold ListExecutor.sequentialLoop at hall ⊢
    rw [← i2, hall]
  · simp only []
    have hm : (pre ++ tk :: suf).map (fun t => some t.ID) =
        ((pre ++ tk :: suf).map (fun t => t.ID)).map some := by
      rw [List.map_map]; rfl
    rw [hm, ← s4, List.map_map, List.map_map]
    rfl
  · simp only [List.length_map]
    rw [← List.length_map (ListExecutor.executeSequential env lenv w group).tasks
      (fun t => t.ID), s4, List.length_map]

/-- C14, on a sample: the first group of the created sample list with a
policy engine that fails on its first task: the second task is not executed. -/
theorem ListExecutor.sequential_after_failure_witness :
    (ListExecutor.sequentialLoop policyDownEnv sampleListEnv sampleCreatedWorld sampleGroup0
        ([] ++ sampleTaskA :: [sampleTaskB])).world =
      (ListExecutor.sequentialLoop policyDownEnv sampleListEnv sampleCreatedWorld sampleGroup0
        ([] ++ [sampleTaskA])).world ∧
    (ListExecutor.executeSequential policyDownEnv sampleListEnv sampleCreatedWorld
      sampleGroup0).tasks =
      (ListExecutor.sequentialLoop policyDownEnv sampleListEnv sampleCreatedWorld sampleGroup0
        ([] ++ [sampleTaskA])).tasks ++ [sampleTaskB].map (fun t => { t with State := Failed }) ∧
    (ListExecutor.executeSequential policyDownEnv sampleListEnv sampleCreatedWorld
      sampleGroup0).group.State = Failed :=
  ⟨(ListExecutor.sequential_after_failure policyDownEnv sampleListEnv sampleCreatedWorld
      sampleGroup0 [] [sampleTaskB] sampleTaskA (by decide) (by decide) (by decide)).1,
   (ListExecutor.sequential_after_failure policyDownEnv sampleListEnv sampleCreatedWorld
      sampleGroup0 [] [sampleTaskB] sampleTaskA (by decide) (by decide) (by decide)).2.2.2.1,
   (ListExecutor.sequential_after_failure policyDownEnv sampleListEnv sampleCreatedWorld
      sampleGroup0 [] [sampleTaskB] sampleTaskA (by decide) (by decide) (by decide)).2.2.2.2.1⟩

/-! ### Inputs of the tasks of a group -/

/-- What the sequential loop keeps about the rolling input: the first record
ran on `req₀`, and a record that ended Done hands its response to the next. -/
theorem ListExecutor.sequential_foldl_chain (env : Env) (lenv : ListEnv) (req₀ : Bytes)
    (ts : List Task) :
    ∀ run : GroupRun,
      List.Chain' (fun a b : Task => a.State = Done → b.Request = a.Response) run.tasks →
      (∀ a, run.tasks.getLast? = some a → a.State = Done →
        run.group.State ≠ Failed ∧ run.req = a.Response) →
      (run.tasks = [] → run.req = req₀ ∧ run.group.State ≠ Failed) →
      (∀ r, run.tasks.head? = some r → r.Request = req₀) →
      List.Chain' (fun a b : Task => a.State = Done → b.Request = a.Response)
        (ts.foldl (ListExecutor.sequentialStep env lenv) run).tasks ∧
      (∀ r, (ts.foldl (ListExecutor.sequentialStep env lenv) run).tasks.head? = some r →
        r.Request = req₀) := by
  induction ts with
  | nil => intro run h1 _ _ h4; exact ⟨h1, h4⟩
  | cons t ts ih =>
    intro run h1 h2 h3 h4
    rw [List.foldl_cons]
    obtain ⟨r, hr, _, _, _, _, hcase⟩ := ListExecutor.sequentialStep_summary env lenv run t
    apply ih
    · rw [hr]
      apply List.Chain'.append h1 (List.chain'_singleton r)
      intro x hx y hy hd
      have hy' : y = r := by simpa using hy.symm
      subst hy'
      obtain ⟨hnf, hreq⟩ := h2 x (by simpa using hx) hd
      rcases hcase with ⟨hf, _⟩ | ⟨_, _, _, hq, _⟩ | ⟨_, _, _, _, hq, _⟩
      · exact absurd hf hnf
      · rw [hq, hreq]
      · rw [hq, hreq]
    · intro a ha hd
      rw [hr] at ha
      have ha' : a = r := by simpa using ha.symm
      subst ha'
      rcases hcase with ⟨_, hf, _⟩ | ⟨_, _, hf, _⟩ | ⟨hnf, _, _, _, _, hg, hq⟩
      · rw [hf] at hd; exact absurd hd.symm Done_ne_Failed
      · rw [hf] at hd; exact absurd hd.symm Done_ne_Failed
      · exact ⟨by rw [hg]; exact hnf, hq⟩
    · intro hnil
      rw [hr] at hnil
      simp at hnil
    · intro r' hr'
      rw [hr] at hr'
      cases htl : run.tasks with
      | nil =>
        rw [htl] at hr'
        have h' : r' = r := by simpa using hr'.symm
        subst h'
        obtain ⟨hreq, hnf⟩ := h3 htl
        rcases hcase with ⟨hf, _⟩ | ⟨_, _, _, hq, _⟩ | ⟨_, _, _, _, hq, _⟩
        · exact absurd hf hnf
        · rw [hq, hreq]
        · rw [hq, hreq]
      | cons x xs =>
        rw [htl] at hr'
        apply h4
        rw [htl]
        simpa using hr'

/-- C15. In a sequential group the first task record ran on the request of
the group, and every record that ended Done handed its final response to
the task after it as that task's request; in a parallel group every task
ran on the request of the group. -/
theorem ListExecutor.task_inputs (env : Env) (lenv : ListEnv) (w : World) (group : Group)
    (fetched : List Task)
    (hfetch : Storage.GetGroupTasks (lenv.getGroupTasks { group with State := Pending }) w.tasks
      { group with State := Pending } = .ok fetched) :
    (∀ r, (ListExecutor.executeSequential env lenv w group).tasks.head? = some r →
      r.Request = group.Request) ∧
    List.Chain' (fun a b : Task => a.State = Done → b.Request = a.Response)
      (ListExecutor.executeSequential env lenv w group).tasks ∧
    (∀ r ∈ (ListExecutor.executeParallel env lenv w group).tasks, r.Request = group.Request) ∧
    (∀ (run : GroupRun) (task : Task), run.group.State ≠ Failed →
      (ListExecutor.sequentialStep env lenv run task).tasks.getLast? =
        some (if (ListExecutor.runTask env lenv run.req task).err = none
          then (ListExecutor.runTask env lenv run.req task).task
          else { (ListExecutor.runTask env lenv run.req task).task with State := Failed })) ∧
    (∀ (run : GroupRun) (task : Task),
      (ListExecutor.parallelStep env lenv run task).tasks.getLast? =
        some (if (ListExecutor.runTask env lenv run.group.Request task).err = none
          then (ListExecutor.runTask env lenv run.group.Request task).task
          else { (ListExecutor.runTask env lenv run.group.Request task).task with
                 State := Failed })) := by
  obtain ⟨_, _, _, _, p5, _⟩ := ListExecutor.executeParallel_spec env lenv w group fetched hfetch
  have hex := ListExecutor.executeSequential_of_fetch env lenv w group _ hfetch
  obtain ⟨f1, _⟩ := ListExecutor.finishGroup_spec lenv
    (ListExecutor.sequentialLoop env lenv w group fetched)
  obtain ⟨c1, c2⟩ := ListExecutor.sequential_foldl_chain env lenv group.Request fetched
    (GroupRun.init w group) List.chain'_nil (by intro a ha; cases ha)
    (fun _ => ⟨rfl, Pending_ne_Failed⟩) (by intro r hr; cases hr)
  refine ⟨?_, ?_, p5, ?_, ?_⟩
  · rw [hex, f1]; exact c2
  · rw [hex, f1]; exact c1
  · intro run task h
    cases he : (ListExecutor.runTask env lenv run.req task).err with
    | none =>
      rw [(ListExecutor.sequentialStep_ok env lenv run task h he).2.2.2]
      simp
    | some e =>
      rw [ListExecutor.sequentialStep_fail env lenv run task h e he]
      simp
  · intro run task
    cases he : (ListExecutor.runTask env lenv run.group.Request task).err with
    | none =>
      rw [(ListExecutor.parallelStep_ok env lenv run task he).2.2]
      simp
    | some e =>
      rw [ListExecutor.parallelStep_fail env lenv run task e he]
      simp

/-- C15, on a sample: the first group of the created sample list, every
collaborator answering: the second task runs on the response of the first. -/
theorem ListExecutor.task_inputs_witness :
    List.Chain' (fun a b : Task => a.State = Done → b.Request = a.Response)
      (ListExecutor.executeSequential sampleEnv sampleListEnv sampleCreatedWorld
        sampleGroup0).tasks ∧
    (∀ r ∈ (ListExecutor.executeParallel sampleEnv sampleListEnv sampleCreatedWorld
      sampleGroup0).tasks, r.Request = sampleGroup0.Request) :=
  ⟨(ListExecutor.task_inputs sampleEnv sampleListEnv sampleCreatedWorld sampleGroup0
      sampleGroup0Tasks (by decide)).2.1,
   (ListExecutor.task_inputs sampleEnv sampleListEnv sampleCreatedWorld sampleGroup0
      sampleGroup0Tasks (by decide)).2.2.1⟩

/-! ### State of a task list after `Execute` -/

/-- A group with a known kind of execution whose tasks are fetched: its
execution returns a status carrying the terminal state of the group. -/
theorem ListExecutor.executeGroup_spec (env : Env) (lenv : ListEnv) (w : World) (group : Group)
    (hexec : group.Execution = sequential ∨ group.Execution = parallel)
    (hfetch : lenv.getGroupTasks { group with State := Pending } = none) :
    ((ListExecutor.executeGroup env lenv w group).group.State = Failed ∨
      (ListExecutor.executeGroup env lenv w group).group.State = Done) ∧
    (ListExecutor.executeGroup env lenv w group).group.ID = group.ID ∧
    ∃ status : GroupStatus,
      (ListExecutor.executeGroup env lenv w group).result = .ok status ∧
      status.ID = some group.ID ∧
      status.Status = some (ListExecutor.executeGroup env lenv w group).group.State := by
  have hf : Storage.GetGroupTasks (lenv.getGroupTasks { group with State := Pending }) w.tasks
      { group with State := Pending } =
      .ok (Mongo.findSorted (fun d => d.GroupID == group.ID) (Task.sortKey "createdAt")
        w.tasks) := by
    rw [hfetch]; rfl
  unfold ListExecutor.executeGroup
  by_cases hs : group.Execution = sequential
  · rw [if_pos hs]
    obtain ⟨_, s2, s3, _, _, s6⟩ := ListExecutor.executeSequential_spec env lenv w group _ hf
    exact ⟨s2, s6, _, s3, rfl, rfl⟩
  · rw [if_neg hs, if_pos (hexec.resolve_left hs)]
    obtain ⟨_, p2, p3, _, _, p6⟩ := ListExecutor.executeParallel_spec env lenv w group _ hf
    exact ⟨p2, p6, _, p3, rfl, rfl⟩

/-- One step of the loop of `Execute` over a group with a known kind of
execution whose tasks are fetched. -/
theorem ListExecutor.groupStep_spec (env : Env) (lenv : ListEnv) (run : ListRun) (group : Group)
    (hp : run.panicked = false)
    (hexec : group.Execution = sequential ∨ group.Execution = parallel)
    (hfetch : lenv.getGroupTasks { group with State := Pending } = none) :
    ∃ (g : Group) (status : GroupStatus),
      (g.State = Failed ∨ g.State = Done) ∧ g.ID = group.ID ∧
      status.ID = some group.ID ∧ status.Status = some g.State ∧
      (ListExecutor.groupStep env lenv run group).panicked = false ∧
      (ListExecutor.groupStep env lenv run group).groups = run.groups ++ [g] ∧
      (ListExecutor.groupStep env lenv run group).state = run.state ++ [status] ∧
      (ListExecutor.groupStep env lenv run group).listState =
        if g.State = Failed then Failed else run.listState := by
  obtain ⟨h1, h2, status, h3, h4, h5⟩ :=
    ListExecutor.executeGroup_spec env lenv run.world group hexec hfetch
  refine ⟨(ListExecutor.executeGroup env lenv run.world group).group, status, h1, h2, h4, h5, ?_⟩
  unfold ListExecutor.groupStep
  rw [hp]
  simp only [Bool.false_eq_true, if_false]
  rw [h3]
  simp [h5]

/-- What the loop of `Execute` keeps over groups with a known kind of
execution whose tasks are fetched. -/
theorem ListExecutor.groupStep_foldl_inv (env : Env) (lenv : ListEnv) (gs : List Group) :
    ∀ run : ListRun,
      (∀ g ∈ gs, g.Execution = sequential ∨ g.Execution = parallel) →
      (∀ g ∈ gs, lenv.getGroupTasks { g with State := Pending } = none) →
      run.panicked = false →
      (run.listState = Failed ↔ ∃ g ∈ run.groups, g.State = Failed) →
      (∀ g ∈ run.groups, g.State = Failed ∨ g.State = Done) →
      run.state.map (fun s => s.Status) = run.groups.map (fun g => some g.State) →
      (gs.foldl (ListExecutor.groupStep env lenv) run).panicked = false ∧
      ((gs.foldl (ListExecutor.groupStep env lenv) run).listState = Failed ↔
        ∃ g ∈ (gs.foldl (ListExecutor.groupStep env lenv) run).groups, g.State = Failed) ∧
      (∀ g ∈ (gs.foldl (ListExecutor.groupStep env lenv) run).groups,
        g.State = Failed ∨ g.State = Done) ∧
      (gs.foldl (ListExecutor.groupStep env lenv) run).state.map (fun s => s.Status) =
        (gs.foldl (ListExecutor.groupStep env lenv) run).groups.map (fun g => some g.State) ∧
      (gs.foldl (ListExecutor.groupStep env lenv) run).groups.map (fun g => g.ID) =
        run.groups.map (fun g => g.ID) ++ gs.map (fun g => g.ID) ∧
      (gs.foldl (ListExecutor.groupStep env lenv) run).state.map (fun s => s.ID) =
        run.state.map (fun s => s.ID) ++ gs.map (fun g => some g.ID) := by
  induction gs with
  | nil => intro run _ _ hp h1 h2 h3; exact ⟨hp, h1, h2, h3, by simp, by simp⟩
  | cons g gs ih =>
    intro run hexec hfetch hp h1 h2 h3
    obtain ⟨g', status, a1, a2, a3, a4, a5, a6, a7, a8⟩ :=
      ListExecutor.groupStep_spec env lenv run g hp (hexec g (List.mem_cons_self _ _))
        (hfetch g (List.mem_cons_self _ _))
    rw [List.foldl_cons]
    obtain ⟨b1, b2, b3, b4, b5, b6⟩ := ih (ListExecutor.groupStep env lenv run g)
      (fun x hx => hexec x (List.mem_cons_of_mem _ hx))
      (fun x hx => hfetch x (List.mem_cons_of_mem _ hx)) a5
      (by
        rw [a8, a6]
        by_cases hg : g'.State = Failed
        · rw [if_pos hg]
          simp only [true_iff]
          exact ⟨g', by simp, hg⟩
        · rw [if_neg hg, h1]
          constructor
          · rintro ⟨x, hx, hxs⟩; exact ⟨x, by simp [hx], hxs⟩
          · rintro ⟨x, hx, hxs⟩
            rcases List.mem_append.mp hx with hx | hx
            · exact ⟨x, hx, hxs⟩
            · rw [List.mem_singleton.mp hx] at hxs; exact absurd hxs hg)
      (by
        rw [a6]
        intro x hx
        rcases List.mem_append.mp hx with hx | hx
        · exact h2 x hx
        · rw [List.mem_singleton.mp hx]; exact a1)
      (by rw [a7, a6, List.map_append, List.map_append, h3]; simp [a4])
    refine ⟨b1, b2, b3, b4, ?_, ?_⟩
    · rw [b5, a6]; simp [a2]
    · rw [b6, a7]; simp [a3]

/-- The end of `Execute` when the loop over the groups went through: the list
record that is written to the history and the status that is returned. -/
theorem ListExecutor.Execute_of_loop (env : Env) (lenv : ListEnv) (started finished : Time)
    (w : World) (list : TaskList)
    (hp : (list.Groups.foldl (ListExecutor.groupStep env lenv)
      { world := w, listState := Pending, groups := [], state := [],
        panicked := false }).panicked = false) :
    ∃ (w' : World) (list' : TaskList),
      ListExecutor.Execute env lenv started finished w list =
        ExecuteResult.finished w' list'
          { ID := list.ID, Status := list'.State,
            Groups := (list.Groups.foldl (ListExecutor.groupStep env lenv)
              { world := w, listState := Pending, groups := [], state := [],
                panicked := false }).state } ∧
      list'.ID = list.ID ∧
      list'.Groups = (list.Groups.foldl (ListExecutor.groupStep env lenv)
        { world := w, listState := Pending, groups := [], state := [],
          panicked := false }).groups ∧
      list'.State = (if (list.Groups.foldl (ListExecutor.groupStep env lenv)
        { world := w, listState := Pending, groups := [], state := [],
          panicked := false }).listState = Failed then Failed else Done) ∧
      Call.saveTaskListHistory list' ∈ w'.trace ∧
      (lenv.saveTaskListHistory list' = none → list' ∈ w'.taskListHistory) := by
  unfold ListExecutor.Execute
  simp only []
  generalize (list.Groups.foldl (ListExecutor.groupStep env lenv)
      { world := w, listState := Pending, groups := [], state := [],
        panicked := false }) = run at hp ⊢
  rw [hp]
  simp only [Bool.false_eq_true, if_false]
  unfold Storage.SaveTaskListHistory Storage.AckList
  by_cases hF : run.listState = Failed
  · simp only [hF, ne_eq, not_true_eq_false, if_false, if_true]
    refine ⟨_, _, rfl, rfl, rfl, rfl, ?_, ?_⟩
    · cases lenv.ackList _ <;> cases lenv.saveTaskListHistory _ <;> simp
    · intro hs
      rw [hs]
      cases lenv.ackList _ <;> simp [Mongo.insertOne]
  · simp only [hF, ne_eq, not_false_eq_true, if_false, if_true]
    refine ⟨_, _, rfl, rfl, rfl, rfl, ?_, ?_⟩
    · cases lenv.ackList _ <;> cases lenv.saveTaskListHistory _ <;> simp
    · intro hs
      rw [hs]
      cases lenv.ackList _ <;> simp [Mongo.insertOne]

/-- C12. A task list whose groups all have execution "sequential" or
"parallel" and whose group task fetches succeed: `Execute` returns; the state
of the list is then Done if and only if the state of every group is Done, and
Failed otherwise; the list record handed to `SaveTaskListHistory` is that
record, with that state (and it is in the history when the write succeeds);
the accumulated status carries the state of the list and one status per
group, with the state of that group. A list with no groups ends Done, and
its accumulated status has no groups. -/
theorem ListExecutor.Execute_list_state (env : Env) (lenv : ListEnv) (started finished : Time)
    (w : World) (list : TaskList)
    (hexec : ∀ g ∈ list.Groups, g.Execution = sequential ∨ g.Execution = parallel)
    (hfetch : ∀ g ∈ list.Groups, lenv.getGroupTasks { g with State := Pending } = none) :
    ∃ (w' : World) (list' : TaskList) (state : TaskListStatusResponse),
      ListExecutor.Execute env lenv started finished w list =
        ExecuteResult.finished w' list' state ∧
      (list'.State = Done ↔ ∀ g ∈ list'.Groups, g.State = Done) ∧
      (list'.State = Done ∨ list'.State = Failed) ∧
      list'.ID = list.ID ∧
      list'.Groups.map (fun g => g.ID) = list.Groups.map (fun g => g.ID) ∧
      Call.saveTaskListHistory list' ∈ w'.trace ∧
      (lenv.saveTaskListHistory list' = none → list' ∈ w'.taskListHistory) ∧
      state.ID = list.ID ∧
      state.Status = list'.State ∧
      state.Groups.map (fun s => s.Status) = list'.Groups.map (fun g => some g.State) ∧
      state.Groups.map (fun s => s.ID) = list'.Groups.map (fun g => some g.ID) ∧
      (list.Groups = [] → list'.State = Done ∧ list'.Groups = [] ∧ state.Groups = []) := by
  obtain ⟨k1, k2, k3, k4, k5, k6⟩ := ListExecutor.groupStep_foldl_inv env lenv list.Groups
    { world := w, listState := Pending, groups := [], state := [], panicked := false }
    hexec hfetch rfl
    (by simp only [List.not_mem_nil, false_and, exists_false, iff_false]; exact Pending_ne_Failed)
    (by intro g hg; cases hg) rfl
  obtain ⟨w', list', e1, e2, e3, e4, e5, e6⟩ :=
    ListExecutor.Execute_of_loop env lenv started finished w list k1
  refine ⟨w', list', _, e1, ?_, ?_, e2, ?_, e5, e6, rfl, rfl, ?_, ?_, ?_⟩
  · rw [e4, e3]
    constructor
    · intro h g hg
      rcases k3 g hg with hf | hd
      · have : (list.Groups.foldl (ListExecutor.groupStep env lenv)
            { world := w, listState := Pending, groups := [], state := [],
              panicked := false }).listState = Failed := k2.mpr ⟨g, hg, hf⟩
        rw [if_pos this] at h
        exact absurd h.symm Done_ne_Failed
      · exact hd
    · intro h
      rw [if_neg]
      intro hF
      obtain ⟨g, hg, hf⟩ := k2.mp hF
      rw [h g hg] at hf
      exact Done_ne_Failed hf
  · rw [e4]
    split
    · exact Or.inr rfl
    · exact Or.inl rfl
  · rw [e3, k5]; rfl
  · simp only []; rw [e3]; exact k4
  · simp only []
    have hm : ∀ l : List Group, l.map (fun g => some g.ID) = (l.map (fun g => g.ID)).map some := by
      intro l; rw [List.map_map]; rfl
    rw [e3, hm, k5, k6, hm]
    rfl
  · intro hnil
    simp only []
    rw [e4, e3, hnil]
    exact ⟨rfl, rfl, rfl⟩

/-- C12, on a sample: the created sample list is executed, every
collaborator answering: the run returns and the state of the list agrees
with the states of its groups. -/
theorem ListExecutor.Execute_list_state_witness :
    sampleCreatedWorld.taskLists = [sampleList] ∧
    ∃ (w' : World) (list' : TaskList) (state : TaskListStatusResponse),
      ListExecutor.Execute sampleEnv sampleListEnv 20 30 sampleCreatedWorld sampleList =
        ExecuteResult.finished w' list' state ∧
      (list'.State = Done ↔ ∀ g ∈ list'.Groups, g.State = Done) ∧
      Call.saveTaskListHistory list' ∈ w'.trace :=
  ⟨by decide,
   match ListExecutor.Execute_list_state sampleEnv sampleListEnv 20 30 sampleCreatedWorld
      sampleList (by decide) (by decide) with
   | ⟨w', list', state, h1, h2, _, _, _, h6, _⟩ => ⟨w', list', state, h1, h2, h6⟩⟩

/-! ### Task-list submission -/

/-- The fields of the list record that `tasklist.Create` builds. -/
theorem tasklist.newTaskList_spec (fresh : Fresh) (template : Template)
    (req : CreateTaskListRequest) (data : Bytes) :
    (tasklist.newTaskList fresh template req data).ID = fresh.listID ∧
    (tasklist.newTaskList fresh template req data).Groups =
      tasklist.createGroups fresh template data ∧
    (tasklist.newTaskList fresh template req data).Name = template.Name ∧
    (tasklist.newTaskList fresh template req data).Request = data ∧
    (tasklist.newTaskList fresh template req data).State = Created ∧
    (tasklist.newTaskList fresh template req data).CreatedAt = fresh.listNow ∧
    (tasklist.newTaskList fresh template req data).CacheNamespace =
      (match req.CacheNamespace with
        | some ns => if ns ≠ "" then ns else template.CacheNamespace
        | none => template.CacheNamespace) ∧
    (tasklist.newTaskList fresh template req data).CacheScope =
      (match req.CacheScope with
        | some sc => if sc ≠ "" then sc else template.CacheScope
        | none => template.CacheScope) := by
  unfold tasklist.newTaskList
  cases req.CacheNamespace with
  | none =>
    cases req.CacheScope with
    | none => exact ⟨rfl, rfl, rfl, rfl, rfl, rfl, rfl, rfl⟩
    | some sc =>
      by_cases hs : sc = ""
      · simp [hs]
      · simp [hs]
  | some ns =>
    cases req.CacheScope with
    | none =>
      by_cases hns : ns = ""
      · simp [hns]
      · simp [hns]
    | some sc =>
      by_cases hns : ns = "" <;> by_cases hs : sc = "" <;> simp [hns, hs]

/-- An empty list name: `tasklist.Create` answers BadRequest and leaves the
world, its trace included, as it is. -/
theorem tasklist.Create_empty_name (env : Env) (templateFault templatesFault : Option Error)
    (faults : AddTaskListFaults) (fresh : Fresh) (w : World) (req : CreateTaskListRequest)
    (hn : req.TaskListName = "") :
    tasklist.Create env templateFault templatesFault faults fresh w req =
      (w, .error ⟨Kind.BadRequest, "missing taskListName"⟩) := by
  unfold tasklist.Create
  rw [if_pos hn]

/-- The lookup of the list template fails: `tasklist.Create` returns the
error of the lookup. -/
theorem tasklist.Create_template_error (env : Env) (templateFault templatesFault : Option Error)
    (faults : AddTaskListFaults) (fresh : Fresh) (w : World) (req : CreateTaskListRequest)
    (hn : req.TaskListName ≠ "") (e : Error)
    (ht : Storage.TaskListTemplate templateFault w.taskListTemplates req.TaskListName =
      .error e) :
    tasklist.Create env templateFault templatesFault faults fresh w req =
      ({ w with trace := w.trace ++ [Call.taskListTemplate req.TaskListName,
          Call.logError "error getting taskList template from storage"] }, .error e) := by
  unfold tasklist.Create
  rw [if_neg hn]
  simp only [ht, List.append_assoc, List.singleton_append]

/-- The lookup of the task templates fails: `tasklist.Create` returns the
error of the lookup. -/
theorem tasklist.Create_templates_error (env : Env) (templateFault templatesFault : Option Error)
    (faults : AddTaskListFaults) (fresh : Fresh) (w : World) (req : CreateTaskListRequest)
    (hn : req.TaskListName ≠ "") (template : Template) (e : Error)
    (ht : Storage.TaskListTemplate templateFault w.taskListTemplates req.TaskListName =
      .ok template)
    (hts : Storage.TaskTemplates templatesFault w.taskTemplates
      (tasklist.taskNamesFromTaskListTemplate template) = .error e) :
    tasklist.Create env templateFault templatesFault faults fresh w req =
      ({ w with trace := w.trace ++ [Call.taskListTemplate req.TaskListName,
          Call.taskTemplates (tasklist.taskNamesFromTaskListTemplate template),
          Call.logError "error getting task templates from storage"] }, .error e) := by
  unfold tasklist.Create
  rw [if_neg hn]
  simp only [ht, hts, List.append_assoc, List.cons_append, List.nil_append]

/-- The payload does not marshal: `tasklist.Create` answers BadRequest. -/
theorem tasklist.Create_marshal_error (env : Env) (templateFault templatesFault : Option Error)
    (faults : AddTaskListFaults) (fresh : Fresh) (w : World) (req : CreateTaskListRequest)
    (hn : req.TaskListName ≠ "") (template : Template) (templates : TemplateMap) (e : Error)
    (ht : Storage.TaskListTemplate templateFault w.taskListTemplates req.TaskListName =
      .ok template)
    (hts : Storage.TaskTemplates templatesFault w.taskTemplates
      (tasklist.taskNamesFromTaskListTemplate template) = .ok templates)
    (hm : env.jsonMarshal req.Data = .error e) :
    tasklist.Create env templateFault templatesFault faults fresh w req =
      ({ w with trace := w.trace ++ [Call.taskListTemplate req.TaskListName,
          Call.taskTemplates (tasklist.taskNamesFromTaskListTemplate template),
          Call.logError "error marshaling request data to JSON"] },
        .error ⟨Kind.BadRequest, "error marshaling request data to JSON" ++ ": " ++ e.message⟩) := by
  unfold tasklist.Create
  rw [if_neg hn]
  simp only [ht, hts, hm, List.append_assoc, List.cons_append, List.nil_append]

/-- A task template is missing from the map: `tasklist.Create` returns the
error of `createTasks`, wrapped, and calls the queue not at all. -/
theorem tasklist.Create_tasks_error (env : Env) (templateFault templatesFault : Option Error)
    (faults : AddTaskListFaults) (fresh : Fresh) (w : World) (req : CreateTaskListRequest)
    (hn : req.TaskListName ≠ "") (template : Template) (templates : TemplateMap) (data : Bytes)
    (e : Error)
    (ht : Storage.TaskListTemplate templateFault w.taskListTemplates req.TaskListName =
      .ok template)
    (hts : Storage.TaskTemplates templatesFault w.taskTemplates
      (tasklist.taskNamesFromTaskListTemplate template) = .ok templates)
    (hm : env.jsonMarshal req.Data = .ok data)
    (hc : tasklist.createTasks fresh (tasklist.newTaskList fresh template req data) templates =
      .error e) :
    tasklist.Create env templateFault templatesFault faults fresh w req =
      ({ w with trace := w.trace ++ [Call.taskListTemplate req.TaskListName,
          Call.taskTemplates (tasklist.taskNamesFromTaskListTemplate template),
          Call.logError "failed to create tasks for taskList"] },
        .error (Error.wrap "failed to create tasks for taskList" e)) := by
  unfold tasklist.Create
  rw [if_neg hn]
  simp only [ht, hts, hm, hc, List.append_assoc, List.cons_append, List.nil_append]

/-- The list and its tasks are built: `tasklist.Create` hands them to
`AddTaskList` and returns what that returns. -/
theorem tasklist.Create_add (env : Env) (templateFault templatesFault : Option Error)
    (faults : AddTaskListFaults) (fresh : Fresh) (w : World) (req : CreateTaskListRequest)
    (hn : req.TaskListName ≠ "") (template : Template) (templates : TemplateMap) (data : Bytes)
    (tasks : List Task)
    (ht : Storage.TaskListTemplate templateFault w.taskListTemplates req.TaskListName =
      .ok template)
    (hts : Storage.TaskTemplates templatesFault w.taskTemplates
      (tasklist.taskNamesFromTaskListTemplate template) = .ok templates)
    (hm : env.jsonMarshal req.Data = .ok data)
    (hc : tasklist.createTasks fresh (tasklist.newTaskList fresh template req data) templates =
      .ok tasks) :
    tasklist.Create env templateFault templatesFault faults fresh w req =
      match Storage.AddTaskList faults w.taskLists w.tasks
          (tasklist.newTaskList fresh template req data) tasks with
      | ((taskLists, queue), some e) =>
        ({ w with taskLists := taskLists, tasks := queue,
                  trace := w.trace ++ [Call.taskListTemplate req.TaskListName,
                    Call.taskTemplates (tasklist.taskNamesFromTaskListTemplate template),
                    Call.addTaskList (tasklist.newTaskList fresh template req data) tasks,
                    Call.logError "error adding taskList to queue"] },
          .error (Error.wrap "error adding taskList to queue" e))
      | ((taskLists, queue), none) =>
        ({ w with taskLists := taskLists, tasks := queue,
                  trace := w.trace ++ [Call.taskListTemplate req.TaskListName,
                    Call.taskTemplates (tasklist.taskNamesFromTaskListTemplate template),
                    Call.addTaskList (tasklist.newTaskList fresh template req data) tasks] },
          .ok fresh.listID) := by
  unfold tasklist.Create
  rw [if_neg hn]
  simp only [ht, hts, hm, hc, List.append_assoc, List.cons_append, List.nil_append]
  rw [(tasklist.newTaskList_spec fresh template req data).1]

/-- The groups `createGroups` builds: one per template group, in the same
order, with the ids read from the generator. -/
theorem tasklist.createGroupsFrom_spec (fresh : Fresh) (req : Bytes) (gts : List GroupTemplate) :
    ∀ i : Nat,
      List.Forall₂ (fun (g : Group) (gt : GroupTemplate) =>
          g.Execution = gt.Execution ∧ g.Tasks = gt.Tasks ∧ g.FinalPolicy = gt.FinalPolicy ∧
          g.State = Created ∧ g.Request = req)
        (tasklist.createGroupsFrom fresh req i gts) gts ∧
      (tasklist.createGroupsFrom fresh req i gts).map (fun g => g.ID) =
        (List.range' i gts.length).map fresh.groupID := by
  induction gts with
  | nil => intro i; exact ⟨List.Forall₂.nil, rfl⟩
  | cons gt gts ih =>
    intro i
    obtain ⟨h1, h2⟩ := ih (i + 1)
    refine ⟨List.Forall₂.cons ⟨rfl, rfl, rfl, rfl, rfl⟩ h1, ?_⟩
    simp only [tasklist.createGroupsFrom, List.map_cons, List.length_cons, List.range'_succ, h2]

/-- The tasks `createTasks` builds for one group, when it builds them. -/
theorem tasklist.createGroupTasks_ok (fresh : Fresh) (t : TaskList) (templates : TemplateMap)
    (group : Group) (names : List String) :
    ∀ (k : Nat) (tasks : List Task),
      tasklist.createGroupTasks fresh t templates group k names = .ok tasks →
      tasks.map (fun x => x.Name) = names ∧
      (∀ x ∈ tasks, ∃ j tpl, templates x.Name = some tpl ∧
        x = tasklist.createTask fresh t group j x.Name tpl) ∧
      tasks.map (fun x => x.CreatedAt) = (List.range' k names.length).map fresh.taskNow ∧
      tasks.map (fun x => x.ID) = (List.range' k names.length).map fresh.taskID := by
  induction names with
  | nil =>
    intro k tasks h
    simp only [tasklist.createGroupTasks, Except.ok.injEq] at h
    subst h
    exact ⟨rfl, (by intro x hx; cases hx), rfl, rfl⟩
  | cons name names ih =>
    intro k tasks h
    unfold tasklist.createGroupTasks at h
    cases ht : templates name with
    | none => rw [ht] at h; cases h
    | some tpl =>
      rw [ht] at h
      cases hr : tasklist.createGroupTasks fresh t templates group (k + 1) names with
      | error e => rw [hr] at h; cases h
      | ok rest =>
        rw [hr] at h
        simp only [Except.ok.injEq] at h
        subst h
        obtain ⟨i1, i2, i3, i4⟩ := ih (k + 1) rest hr
        have hname : (tasklist.createTask fresh t group k name tpl).Name = name := by
          unfold tasklist.createTask; split <;> split <;> rfl
        have hat : (tasklist.createTask fresh t group k name tpl).CreatedAt = fresh.taskNow k := by
          unfold tasklist.createTask; split <;> split <;> rfl
        have hid : (tasklist.createTask fresh t group k name tpl).ID = fresh.taskID k := by
          unfold tasklist.createTask; split <;> split <;> rfl
        refine ⟨?_, ?_, ?_, ?_⟩
        · rw [List.map_cons, i1, hname]
        · intro x hx
          rcases List.mem_cons.mp hx with hx | hx
          · subst hx
            exact ⟨k, tpl, by rw [hname]; exact ht, by rw [hname]⟩
          · exact i2 x hx
        · rw [List.map_cons, i3, hat, List.length_cons, List.range'_succ, List.map_cons]
        · rw [List.map_cons, i4, hid, List.length_cons, List.range'_succ, List.map_cons]

/-- When `createTasks` fails on a group: a name without template, and
the error is NotFound. -/
theorem tasklist.createGroupTasks_error (fresh : Fresh) (t : TaskList) (templates : TemplateMap)
    (group : Group) (names : List String) :
    ∀ (k : Nat) (e : Error),
      tasklist.createGroupTasks fresh t templates group k names = .error e →
      e = ⟨Kind.NotFound, "failed to find task template"⟩ ∧ ∃ n ∈ names, templates n = none := by
  induction names with
  | nil => intro k e h; simp [tasklist.createGroupTasks] at h
  | cons name names ih =>
    intro k e h
    unfold tasklist.createGroupTasks at h
    cases ht : templates name with
    | none =>
      rw [ht] at h
      simp only [Except.error.injEq] at h
      exact ⟨h.symm, name, List.mem_cons_self _ _, ht⟩
    | some tpl =>
      rw [ht] at h
      cases hr : tasklist.createGroupTasks fresh t templates group (k + 1) names with
      | error e' =>
        rw [hr] at h
        simp only [Except.error.injEq] at h
        subst h
        obtain ⟨h1, n, hn, hnt⟩ := ih (k + 1) e' hr
        exact ⟨h1, n, List.mem_cons_of_mem _ hn, hnt⟩
      | ok rest => rw [hr] at h; cases h

/-- Every name has a template: `createTasks` builds the tasks of the group. -/
theorem tasklist.createGroupTasks_total (fresh : Fresh) (t : TaskList) (templates : TemplateMap)
    (group : Group) (names : List String) (hall : ∀ n ∈ names, templates n ≠ none) (k : Nat) :
    ∃ tasks, tasklist.createGroupTasks fresh t templates group k names = .ok tasks := by
  cases h : tasklist.createGroupTasks fresh t templates group k names with
  | ok tasks => exact ⟨tasks, rfl⟩
  | error e =>
    obtain ⟨_, n, hn, hnt⟩ := tasklist.createGroupTasks_error fresh t templates group names k e h
    exact absurd hnt (hall n hn)

/-- The tasks `createTasks` builds, when it builds them: the concatenation,
group by group, of the tasks of each group. -/
theorem tasklist.createTasksFrom_ok (fresh : Fresh) (t : TaskList) (templates : TemplateMap)
    (groups : List Group) :
    ∀ (k : Nat) (tasks : List Task),
      tasklist.createTasksFrom fresh t templates k groups = .ok tasks →
      (∃ parts : List (List Task), tasks = parts.flatten ∧
        List.Forall₂ (fun (g : Group) (part : List Task) =>
            part.map (fun x => x.Name) = g.Tasks ∧
            ∀ x ∈ part, ∃ j tpl, templates x.Name = some tpl ∧
              x = tasklist.createTask fresh t g j x.Name tpl)
          groups parts) ∧
      tasks.map (fun x => x.CreatedAt) = (List.range' k tasks.length).map fresh.taskNow ∧
      tasks.map (fun x => x.ID) = (List.range' k tasks.length).map fresh.taskID := by
  induction groups with
  | nil =>
    intro k tasks h
    simp only [tasklist.createTasksFrom, Except.ok.injEq] at h
    subst h
    exact ⟨⟨[], rfl, List.Forall₂.nil⟩, rfl, rfl⟩
  | cons g groups ih =>
    intro k tasks h
    unfold tasklist.createTasksFrom at h
    cases hg : tasklist.createGroupTasks fresh t templates g k g.Tasks with
    | error e => rw [hg] at h; cases h
    | ok part =>
      rw [hg] at h
      cases hr : tasklist.createTasksFrom fresh t templates (k + g.Tasks.length) groups with
      | error e => rw [hr] at h; cases h
      | ok more =>
        rw [hr] at h
        simp only [Except.ok.injEq] at h
        subst h
        obtain ⟨g1, g2, g3, g4⟩ := tasklist.createGroupTasks_ok fresh t templates g g.Tasks k part hg
        obtain ⟨⟨parts, p1, p2⟩, p3, p4⟩ := ih (k + g.Tasks.length) more hr
        have hlen : part.length = g.Tasks.length := by
          rw [← g1, List.length_map]
        refine ⟨⟨part :: parts, by rw [List.flatten_cons, p1], List.Forall₂.cons ⟨g1, g2⟩ p2⟩,
          ?_, ?_⟩
        · rw [List.map_append, g3, p3, List.length_append, hlen, Nat.add_comm g.Tasks.length,
            ← List.range'_append_1, List.map_append]
        · rw [List.map_append, g4, p4, List.length_append, hlen, Nat.add_comm g.Tasks.length,
            ← List.range'_append_1, List.map_append]

/-- When `createTasks` fails: a name of some group without template, and
the error is NotFound. -/
theorem tasklist.createTasksFrom_error (fresh : Fresh) (t : TaskList) (templates : TemplateMap)
    (groups : List Group) :
    ∀ (k : Nat) (e : Error),
      tasklist.createTasksFrom fresh t templates k groups = .error e →
      e = ⟨Kind.NotFound, "failed to find task template"⟩ ∧
      ∃ g ∈ groups, ∃ n ∈ g.Tasks, templates n = none := by
  induction groups with
  | nil => intro k e h; simp [tasklist.createTasksFrom] at h
  | cons g groups ih =>
    intro k e h
    unfold tasklist.createTasksFrom at h
    cases hg : tasklist.createGroupTasks fresh t templates g k g.Tasks with
    | error e' =>
      rw [hg] at h
      simp only [Except.error.injEq] at h
      subst h
      obtain ⟨h1, n, hn, hnt⟩ := tasklist.createGroupTasks_error fresh t templates g g.Tasks k e' hg
      exact ⟨h1, g, List.mem_cons_self _ _, n, hn, hnt⟩
    | ok part =>
      rw [hg] at h
      cases hr : tasklist.createTasksFrom fresh t templates (k + g.Tasks.length) groups with
      | error e' =>
        rw [hr] at h
        simp only [Except.error.injEq] at h
        subst h
        obtain ⟨h1, g', hg', n, hn, hnt⟩ := ih (k + g.Tasks.length) e' hr
        exact ⟨h1, g', List.mem_cons_of_mem _ hg', n, hn, hnt⟩
      | ok more => rw [hr] at h; cases h

/-- Some name of some group has no template: `createTasks` fails. -/
theorem tasklist.createTasksFrom_missing (fresh : Fresh) (t : TaskList) (templates : TemplateMap)
    (groups : List Group) (hmiss : ∃ g ∈ groups, ∃ n ∈ g.Tasks, templates n = none) (k : Nat) :
    tasklist.createTasksFrom fresh t templates k groups =
      .error ⟨Kind.NotFound, "failed to find task template"⟩ := by
  cases h : tasklist.createTasksFrom fresh t templates k groups with
  | error e => rw [(tasklist.createTasksFrom_error fresh t templates groups k e h).1]
  | ok tasks =>
    obtain ⟨⟨parts, -, hp⟩, -, -⟩ :=
      tasklist.createTasksFrom_ok fresh t templates groups k tasks h
    obtain ⟨g, hg, n, hn, hnt⟩ := hmiss
    exfalso
    clear h
    induction hp with
    | nil => cases hg
    | cons hhead _ ih =>
      rcases List.mem_cons.mp hg with hg | hg
      · subst hg
        obtain ⟨hnames, hx⟩ := hhead
        rw [← hnames] at hn
        obtain ⟨x, hxm, hxn⟩ := List.mem_map.mp hn
        obtain ⟨_, tpl, htpl, _⟩ := hx x hxm
        rw [hxn, hnt] at htpl
        cases htpl
      · exact ih hg

/-- The two ways `AddTaskList` ends: without error, the list and the tasks
are appended to their collections; with an error, the tasks are as before. -/
theorem Storage.AddTaskList_cases (faults : AddTaskListFaults) (taskLists : List TaskList)
    (tasks : List Task) (taskList : TaskList) (ts : List Task) :
    ((Storage.AddTaskList faults taskLists tasks taskList ts).2 = none ∧
      faults.insertList = none ∧ faults.insertTasks = none ∧ ts ≠ [] ∧
      (Storage.AddTaskList faults taskLists tasks taskList ts).1 =
        (taskLists ++ [taskList], tasks ++ ts)) ∨
    ((∃ e, (Storage.AddTaskList faults taskLists tasks taskList ts).2 = some e) ∧
      (faults.insertList ≠ none ∨ faults.insertTasks ≠ none ∨ ts = []) ∧
      (Storage.AddTaskList faults taskLists tasks taskList ts).1.2 = tasks) := by
  unfold Storage.AddTaskList
  cases h1 : faults.insertList with
  | some e => exact Or.inr ⟨⟨e, rfl⟩, Or.inl (by simp), rfl⟩
  | none =>
    cases h2 : faults.insertTasks with
    | some e =>
      refine Or.inr ⟨?_, Or.inr (Or.inl (by simp)), ?_⟩
      · simp only [Storage.AckList]
        cases faults.ackList <;> simp
      · simp only [Storage.AckList]
        cases faults.ackList <;> rfl
    | none =>
      cases ts with
      | nil =>
        refine Or.inr ⟨?_, Or.inr (Or.inr rfl), ?_⟩
        · simp only [Storage.AckList]
          cases faults.ackList <;> simp
        · simp only [Storage.AckList]
          cases faults.ackList <;> rfl
      | cons x xs =>
        exact Or.inl ⟨rfl, rfl, rfl, by simp, rfl⟩

/-- A `tasklist.Create` that returns an id: what was looked up, what was
built and what was added. -/
theorem tasklist.Create_ok_inv (env : Env) (templateFault templatesFault : Option Error)
    (faults : AddTaskListFaults) (fresh : Fresh) (w : World) (req : CreateTaskListRequest)
    (id : String)
    (hok : (tasklist.Create env templateFault templatesFault faults fresh w req).2 = .ok id) :
    req.TaskListName ≠ "" ∧ id = fresh.listID ∧
    ∃ (template : Template) (templates : TemplateMap) (data : Bytes) (tasks : List Task),
      Storage.TaskListTemplate templateFault w.taskListTemplates req.TaskListName =
        .ok template ∧
      Storage.TaskTemplates templatesFault w.taskTemplates
        (tasklist.taskNamesFromTaskListTemplate template) = .ok templates ∧
      env.jsonMarshal req.Data = .ok data ∧
      tasklist.createTasks fresh (tasklist.newTaskList fresh template req data) templates =
        .ok tasks ∧
      tasks ≠ [] ∧
      (tasklist.Create env templateFault templatesFault faults fresh w req).1.tasks =
        w.tasks ++ tasks ∧
      (tasklist.Create env templateFault templatesFault faults fresh w req).1.taskLists =
        w.taskLists ++ [tasklist.newTaskList fresh template req data] ∧
      (tasklist.Create env templateFault templatesFault faults fresh w req).1.trace =
        w.trace ++ [Call.taskListTemplate req.TaskListName,
          Call.taskTemplates (tasklist.taskNamesFromTaskListTemplate template),
          Call.addTaskList (tasklist.newTaskList fresh template req data) tasks] := by
  by_cases hn : req.TaskListName = ""
  · rw [tasklist.Create_empty_name env templateFault templatesFault faults fresh w req hn] at hok
    cases hok
  cases ht : Storage.TaskListTemplate templateFault w.taskListTemplates req.TaskListName with
  | error e =>
    rw [tasklist.Create_template_error env templateFault templatesFault faults fresh w req hn e
      ht] at hok
    cases hok
  | ok template =>
    cases hts : Storage.TaskTemplates templatesFault w.taskTemplates
        (tasklist.taskNamesFromTaskListTemplate template) with
    | error e =>
      rw [tasklist.Create_templates_error env templateFault templatesFault faults fresh w req hn
        template e ht hts] at hok
      cases hok
    | ok templates =>
      cases hm : env.jsonMarshal req.Data with
      | error e =>
        rw [tasklist.Create_marshal_error env templateFault templatesFault faults fresh w req hn
          template templates e ht hts hm] at hok
        cases hok
      | ok data =>
        cases hc : tasklist.createTasks fresh (tasklist.newTaskList fresh template req data)
            templates with
        | error e =>
          rw [tasklist.Create_tasks_error env templateFault templatesFault faults fresh w req hn
            template templates data e ht hts hm hc] at hok
          cases hok
        | ok tasks =>
          have hadd := tasklist.Create_add env templateFault templatesFault faults fresh w req hn
            template templates data tasks ht hts hm hc
          rcases Storage.AddTaskList_cases faults w.taskLists w.tasks
              (tasklist.newTaskList fresh template req data) tasks with
            ⟨a1, _, _, a4, a5⟩ | ⟨⟨e, a1⟩, _, _⟩
          · have hres : Storage.AddTaskList faults w.taskLists w.tasks
                (tasklist.newTaskList fresh template req data) tasks =
                ((w.taskLists ++ [tasklist.newTaskList fresh template req data],
                  w.tasks ++ tasks), none) := Prod.ext a5 a1
            rw [hres] at hadd
            simp only [] at hadd
            rw [hadd] at hok ⊢
            simp only [Except.ok.injEq] at hok
            exact ⟨hn, hok.symm, template, templates, data, tasks, rfl, hts, rfl, hc, a4, rfl, rfl, rfl⟩
          · generalize Storage.AddTaskList faults w.taskLists w.tasks
                (tasklist.newTaskList fresh template req data) tasks = r at hadd a1
            obtain ⟨⟨taskLists, queue⟩, oe⟩ := r
            simp only [] at a1
            subst a1
            simp only [] at hadd
            rw [hadd] at hok
            cases hok

/-- The fields of the task `createTasks` builds from a template. -/
theorem tasklist.createTask_spec (fresh : Fresh) (t : TaskList) (group : Group) (k : Nat)
    (taskName : String) (template : Task) :
    (tasklist.createTask fresh t group k taskName template).ID = fresh.taskID k ∧
    (tasklist.createTask fresh t group k taskName template).GroupID = group.ID ∧
    (tasklist.createTask fresh t group k taskName template).Name = taskName ∧
    (tasklist.createTask fresh t group k taskName template).State = Created ∧
    (tasklist.createTask fresh t group k taskName template).URL = template.URL ∧
    (tasklist.createTask fresh t group k taskName template).Method = template.Method ∧
    (tasklist.createTask fresh t group k taskName template).RequestPolicy =
      template.RequestPolicy ∧
    (tasklist.createTask fresh t group k taskName template).ResponsePolicy =
      template.ResponsePolicy ∧
    (tasklist.createTask fresh t group k taskName template).FinalPolicy =
      template.FinalPolicy ∧
    (tasklist.createTask fresh t group k taskName template).CreatedAt = fresh.taskNow k ∧
    (tasklist.createTask fresh t group k taskName template).CacheNamespace =
      (if t.CacheNamespace ≠ "" then t.CacheNamespace else template.CacheNamespace) ∧
    (tasklist.createTask fresh t group k taskName template).CacheScope =
      (if t.CacheScope ≠ "" then t.CacheScope else template.CacheScope) := by
  unfold tasklist.createTask
  by_cases h1 : t.CacheNamespace = "" <;> by_cases h2 : t.CacheScope = "" <;> simp [h1, h2]

/-- The tasks of one group among the tasks built for the groups of a list
with pairwise distinct group ids. -/
theorem tasklist.filter_flatten_names (groups : List Group) (parts : List (List Task))
    (hp : List.Forall₂ (fun (g : Group) (part : List Task) =>
      part.map (fun x => x.Name) = g.Tasks ∧ ∀ x ∈ part, x.GroupID = g.ID) groups parts) :
    (groups.map (fun g => g.ID)).Nodup →
    (∀ x ∈ parts.flatten, ∃ g ∈ groups, x.GroupID = g.ID) ∧
    ∀ g ∈ groups,
      ((parts.flatten).filter (fun d => d.GroupID == g.ID)).map (fun x => x.Name) = g.Tasks := by
  induction hp with
  | nil =>
    intro _
    exact ⟨by intro x hx; simp at hx, by intro g hg; cases hg⟩
  | @cons g0 part0 groups parts hhead _ ih =>
    intro hnd
    rw [List.map_cons, List.nodup_cons] at hnd
    obtain ⟨hnot, hnd⟩ := hnd
    obtain ⟨ih1, ih2⟩ := ih hnd
    obtain ⟨hnames, hgid⟩ := hhead
    refine ⟨?_, ?_⟩
    · intro x hx
      rw [List.flatten_cons, List.mem_append] at hx
      rcases hx with hx | hx
      · exact ⟨g0, List.mem_cons_self _ _, hgid x hx⟩
      · obtain ⟨g, hg, hxg⟩ := ih1 x hx
        exact ⟨g, List.mem_cons_of_mem _ hg, hxg⟩
    · intro g hg
      rw [List.flatten_cons, List.filter_append, List.map_append]
      rcases List.mem_cons.mp hg with hg | hg
      · subst hg
        have h1 : part0.filter (fun d => d.GroupID == g.ID) = part0 := by
          rw [List.filter_eq_self]
          intro x hx
          simp [hgid x hx]
        have h2 : (parts.flatten).filter (fun d => d.GroupID == g.ID) = [] := by
          rw [List.filter_eq_nil_iff]
          intro x hx hxg
          obtain ⟨g', hg', hxg'⟩ := ih1 x hx
          apply hnot
          rw [List.mem_map]
          refine ⟨g', hg', ?_⟩
          simp only [beq_iff_eq] at hxg
          rw [← hxg', hxg]
        rw [h1, h2, List.map_nil, List.append_nil, hnames]
      · have h1 : part0.filter (fun d => d.GroupID == g.ID) = [] := by
          rw [List.filter_eq_nil_iff]
          intro x hx hxg
          apply hnot
          rw [List.mem_map]
          refine ⟨g, hg, ?_⟩
          simp only [beq_iff_eq] at hxg
          rw [← hxg, hgid x hx]
        rw [h1, List.map_nil, List.nil_append]
        exact ih2 g hg

/-- The tasks built for a list, read back for one of its groups: with group
ids that do not repeat and are new to the queue, `GetGroupTasks` returns
them in the order in which they are stored, which is the order of the names
of the group. -/
theorem tasklist.created_group_fetch (fresh : Fresh) (t : TaskList) (templates : TemplateMap)
    (old tasks : List Task)
    (hnd : (t.Groups.map (fun g => g.ID)).Nodup)
    (hnew : ∀ x ∈ old, ∀ g ∈ t.Groups, x.GroupID ≠ g.ID)
    (hc : tasklist.createTasks fresh t templates = .ok tasks) :
    ∀ g ∈ t.Groups,
      (Mongo.findSorted (fun d => d.GroupID == g.ID) (Task.sortKey "createdAt")
        (old ++ tasks)).map (fun x => x.Name) = g.Tasks ∧
      Mongo.findSorted (fun d => d.GroupID == g.ID) (Task.sortKey "createdAt") (old ++ tasks) =
        tasks.filter (fun d => d.GroupID == g.ID) ∧
      (old ++ tasks).filter (fun d => d.GroupID == g.ID) =
        tasks.filter (fun d => d.GroupID == g.ID) := by
  intro g hg
  obtain ⟨⟨parts, p1, p2⟩, _, _⟩ :=
    tasklist.createTasksFrom_ok fresh t templates t.Groups 0 tasks hc
  have hp : List.Forall₂ (fun (g : Group) (part : List Task) =>
      part.map (fun x => x.Name) = g.Tasks ∧ ∀ x ∈ part, x.GroupID = g.ID) t.Groups parts := by
    refine List.Forall₂.imp ?_ p2
    rintro g' part ⟨h1, h2⟩
    refine ⟨h1, ?_⟩
    intro x hx
    obtain ⟨j, tpl, _, hxe⟩ := h2 x hx
    rw [hxe]
    exact (tasklist.createTask_spec fresh t g' j x.Name tpl).2.1
  obtain ⟨_, hnames⟩ := tasklist.filter_flatten_names t.Groups parts hp hnd
  have hold : old.filter (fun d => d.GroupID == g.ID) = [] := by
    rw [List.filter_eq_nil_iff]
    intro x hx hxg
    simp only [beq_iff_eq] at hxg
    exact hnew x hx g hg hxg
  have hfs : Mongo.findSorted (fun d => d.GroupID == g.ID) (Task.sortKey "createdAt")
      (old ++ tasks) = tasks.filter (fun d => d.GroupID == g.ID) := by
    rw [Mongo.findSorted_const Task.sortKey_createdAt, List.filter_append, hold,
      List.nil_append]
  refine ⟨?_, hfs, by rw [List.filter_append, hold, List.nil_append]⟩
  rw [hfs, p1]
  exact hnames g hg

/-- Two lists related position by position agree under maps that agree on
related elements. -/
theorem map_eq_of_forall₂ {α β γ : Type} (f : α → γ) (g : β → γ) {R : α → β → Prop}
    (hR : ∀ a b, R a b → f a = g b) {l₁ : List α} {l₂ : List β} (h : List.Forall₂ R l₁ l₂) :
    l₁.map f = l₂.map g := by
  induction h with
  | nil => rfl
  | cons h _ ih => rw [List.map_cons, List.map_cons, ih, hR _ _ h]

/-- C16, the claim refuted on a sample: the sample list is created with a
clock that is set back between any two tasks. `GetGroupTasks` returns the
tasks of the first group in the order of the names in the template, "ta"
then "tb", with creation times 50 then 49: the order it returns is the
storage order and not the order of the creation times, in which "tb" would
come first. -/
theorem tasklist.Create_order_not_by_created_at :
    (tasklist.Create sampleEnv none none noFaults backwardFresh sampleListWorld
      sampleListRequest).2 = .ok "L" ∧
    (∃ fetched : List Task,
      Storage.GetGroupTasks none
        (tasklist.Create sampleEnv none none noFaults backwardFresh sampleListWorld
          sampleListRequest).1.tasks
        { sampleGroup0 with ID := "g", State := Pending } = .ok fetched ∧
      fetched.map (fun x => x.Name) = ["ta", "tb"] ∧
      fetched.map (fun x => x.CreatedAt) = [50, 49]) ∧
    (((tasklist.Create sampleEnv none none noFaults backwardFresh sampleListWorld
        sampleListRequest).1.tasks.filter (fun d => d.GroupID == "g")).insertionSort
      (fun a b => a.CreatedAt ≤ b.CreatedAt)).map (fun x => x.Name) = ["tb", "ta"] := by
  refine ⟨by decide, ⟨_, rfl, by decide, by decide⟩, by decide⟩

/-- C16, amended. A task list created by `tasklist.Create` from a template,
with group ids that do not repeat and are new to the queue, whatever the
clock reads: the groups of the list carry the task names and the kinds of
execution of the groups of the template; and in every later world in which
the tasks of a group of the list are still the created ones,
`GetGroupTasks` returns the stored tasks of that group in storage order,
which is the order of the names in the template, and `executeSequential`
goes through them in that order. -/
theorem tasklist.Create_sequential_order (env : Env) (templateFault templatesFault : Option Error)
    (faults : AddTaskListFaults) (fresh : Fresh) (w : World) (req : CreateTaskListRequest)
    (id : String)
    (hgid : Function.Injective fresh.groupID)
    (hnew : ∀ x ∈ w.tasks, ∀ i, x.GroupID ≠ fresh.groupID i)
    (hok : (tasklist.Create env templateFault templatesFault faults fresh w req).2 = .ok id) :
    ∃ (template : Template) (list : TaskList),
      Storage.TaskListTemplate templateFault w.taskListTemplates req.TaskListName =
        .ok template ∧
      list ∈ (tasklist.Create env templateFault templatesFault faults fresh w req).1.taskLists ∧
      list.ID = id ∧
      list.Groups.map (fun g => g.Tasks) = template.Groups.map (fun g => g.Tasks) ∧
      list.Groups.map (fun g => g.Execution) = template.Groups.map (fun g => g.Execution) ∧
      ∀ g ∈ list.Groups, ∀ (env2 : Env) (lenv : ListEnv) (w2 : World),
        w2.tasks.filter (fun d => d.GroupID == g.ID) =
          (tasklist.Create env templateFault templatesFault faults fresh w req).1.tasks.filter
            (fun d => d.GroupID == g.ID) →
        lenv.getGroupTasks { g with State := Pending } = none →
        ∃ fetched : List Task,
          Storage.GetGroupTasks (lenv.getGroupTasks { g with State := Pending }) w2.tasks
            { g with State := Pending } = .ok fetched ∧
          fetched.map (fun x => x.Name) = g.Tasks ∧
          fetched = w2.tasks.filter (fun d => d.GroupID == g.ID) ∧
          (ListExecutor.executeSequential env2 lenv w2 g).tasks.map (fun x => x.Name) =
            g.Tasks ∧
          (ListExecutor.executeSequential env2 lenv w2 g).tasks.map (fun x => x.ID) =
            fetched.map (fun x => x.ID) := by
  obtain ⟨_, hid, template, templates, data, tasks, ht, _, _, hc, _, htasks, hlists, _⟩ :=
    tasklist.Create_ok_inv env templateFault templatesFault faults fresh w req id hok
  obtain ⟨n1, n2, _⟩ := tasklist.newTaskList_spec fresh template req data
  obtain ⟨g1, g2⟩ := tasklist.createGroupsFrom_spec fresh data template.Groups 0
  have hgroups : (tasklist.newTaskList fresh template req data).Groups =
      tasklist.createGroupsFrom fresh data 0 template.Groups := n2
  have hnd : ((tasklist.newTaskList fresh template req data).Groups.map (fun g => g.ID)).Nodup := by
    rw [hgroups, g2]
    exact List.Nodup.map hgid (List.nodup_range' 0 _)
  have hnew' : ∀ x ∈ w.tasks, ∀ g ∈ (tasklist.newTaskList fresh template req data).Groups,
      x.GroupID ≠ g.ID := by
    intro x hx g hg
    have hm : g.ID ∈ (tasklist.newTaskList fresh template req data).Groups.map (fun g => g.ID) :=
      List.mem_map.mpr ⟨g, hg, rfl⟩
    rw [hgroups, g2] at hm
    obtain ⟨i, _, hi⟩ := List.mem_map.mp hm
    rw [← hi]
    exact hnew x hx i
  refine ⟨template, tasklist.newTaskList fresh template req data, ht, ?_, ?_, ?_, ?_, ?_⟩
  · rw [hlists]; simp
  · rw [n1, hid]
  · rw [hgroups]
    exact map_eq_of_forall₂ _ _ (fun a b h => h.2.1) g1
  · rw [hgroups]
    exact map_eq_of_forall₂ _ _ (fun a b h => h.1) g1
  · intro g hg env2 lenv w2 hkeep hfault
    obtain ⟨f1, f2, f3⟩ := tasklist.created_group_fetch fresh
      (tasklist.newTaskList fresh template req data) templates w.tasks tasks hnd hnew' hc
      g hg
    have hfetch : Storage.GetGroupTasks (lenv.getGroupTasks { g with State := Pending }) w2.tasks
        { g with State := Pending } =
        .ok (Mongo.findSorted (fun d => d.GroupID == g.ID) (Task.sortKey "createdAt")
          (w.tasks ++ tasks)) := by
      rw [hfault]
      unfold Storage.GetGroupTasks
      simp only []
      rw [Mongo.findSorted_const Task.sortKey_createdAt,
        Mongo.findSorted_const Task.sortKey_createdAt, hkeep, htasks]
    obtain ⟨_, _, _, s4, s5, _⟩ := ListExecutor.executeSequential_spec env2 lenv w2 g _ hfetch
    have hw2 : w2.tasks.filter (fun d => d.GroupID == g.ID) =
        tasks.filter (fun d => d.GroupID == g.ID) := by
      rw [hkeep, htasks, f3]
    exact ⟨_, hfetch, f1, by rw [f2, hw2], by rw [s5, f1], s4⟩

/-- C16, on a sample: the sample list is created with group ids of
different lengths and a clock that is set back between any two tasks. -/
theorem tasklist.Create_sequential_order_witness :
    (tasklist.Create sampleEnv none none noFaults backwardFresh sampleListWorld
      sampleListRequest).2 = .ok "L" ∧
    ∃ (template : Template) (list : TaskList),
      Storage.TaskListTemplate none sampleListWorld.taskListTemplates
        sampleListRequest.TaskListName = .ok template ∧
      list ∈ (tasklist.Create sampleEnv none none noFaults backwardFresh sampleListWorld
        sampleListRequest).1.taskLists ∧
      list.ID = "L" ∧
      list.Groups.map (fun g => g.Tasks) = template.Groups.map (fun g => g.Tasks) ∧
      list.Groups.map (fun g => g.Execution) = template.Groups.map (fun g => g.Execution) ∧
      ∀ g ∈ list.Groups, ∀ (env2 : Env) (lenv : ListEnv) (w2 : World),
        w2.tasks.filter (fun d => d.GroupID == g.ID) =
          (tasklist.Create sampleEnv none none noFaults backwardFresh sampleListWorld
            sampleListRequest).1.tasks.filter (fun d => d.GroupID == g.ID) →
        lenv.getGroupTasks { g with State := Pending } = none →
        ∃ fetched : List Task,
          Storage.GetGroupTasks (lenv.getGroupTasks { g with State := Pending }) w2.tasks
            { g with State := Pending } = .ok fetched ∧
          fetched.map (fun x => x.Name) = g.Tasks ∧
          fetched = w2.tasks.filter (fun d => d.GroupID == g.ID) ∧
          (ListExecutor.executeSequential env2 lenv w2 g).tasks.map (fun x => x.Name) =
            g.Tasks ∧
          (ListExecutor.executeSequential env2 lenv w2 g).tasks.map (fun x => x.ID) =
            fetched.map (fun x => x.ID) :=
  ⟨by decide,
   tasklist.Create_sequential_order sampleEnv none none noFaults backwardFresh sampleListWorld
    sampleListRequest "L"
    (by
      intro i j h
      have hl := congrArg String.length h
      simpa [backwardFresh, unaryFresh, String.length] using hl)
    (by intro x hx; cases hx)
    (by decide)⟩

/-! ### Task submission -/

/-- A submission whose template is found, whose payload marshals and whose
insert succeeds: the world after it and the id returned. -/
theorem Service.Create_ok (env : Env) (templateFault : Option Error) (id : String) (now : Time)
    (w : World) (req : CreateTaskRequest) (template : Task) (data : Bytes)
    (hn : req.TaskName ≠ "")
    (ht : Storage.TaskTemplate templateFault w.taskTemplates req.TaskName = .ok template)
    (hm : env.jsonMarshal req.Data = .ok data) :
    ∃ task : Task,
      Service.Create env templateFault none id now w req =
        ({ w with tasks := w.tasks ++ [task],
                  trace := w.trace ++ [Call.taskTemplate req.TaskName] ++ [Call.add task] },
          .ok id) ∧
      task = { template with
        ID := id, State := Created, CreatedAt := now, Request := data,
        CacheNamespace :=
          (match req.CacheNamespace with
            | some ns => if ns ≠ "" then ns else template.CacheNamespace
            | none => template.CacheNamespace),
        CacheScope :=
          (match req.CacheScope with
            | some sc => if sc ≠ "" then sc else template.CacheScope
            | none => template.CacheScope) } := by
  obtain ⟨name, d, cn, cs⟩ := req
  simp only [] at hn ht hm
  unfold Service.Create
  rw [if_neg hn]
  simp only []
  rw [ht]
  simp only []
  rw [hm]
  simp only [Storage.Add, Mongo.insertOne]
  cases cn with
  | none =>
    cases cs with
    | none => exact ⟨_, rfl, rfl⟩
    | some sc =>
      by_cases hs : sc = ""
      · subst hs; exact ⟨_, rfl, rfl⟩
      · simp only [ne_eq, hs, not_false_eq_true, if_true]; exact ⟨_, rfl, rfl⟩
  | some ns =>
    by_cases hns : ns = ""
    · subst hns
      cases cs with
      | none => exact ⟨_, rfl, rfl⟩
      | some sc =>
        by_cases hs : sc = ""
        · subst hs; exact ⟨_, rfl, rfl⟩
        · simp only [ne_eq, hs, not_false_eq_true, if_true]; exact ⟨_, rfl, rfl⟩
    · cases cs with
      | none => simp only [ne_eq, hns, not_false_eq_true, if_true]; exact ⟨_, rfl, rfl⟩
      | some sc =>
        by_cases hs : sc = ""
        · subst hs
          simp only [ne_eq, hns, not_false_eq_true, if_true]; exact ⟨_, rfl, rfl⟩
        · simp only [ne_eq, hns, hs, not_false_eq_true, if_true]; exact ⟨_, rfl, rfl⟩

/-- C17. A create-task request with a non-empty name whose template is
found, whose payload marshals and whose insert into the queue succeeds, the
generated id being non-empty: exactly one task is added to the queue; its
state is Created, its request is the marshalled payload, its id is the
returned id and is not empty, its cache namespace (its cache scope) is the
submitted one when that is given and not empty and the one of the template
otherwise, and its url, method and policies are those of the template. -/
theorem Service.Create_adds_one_task (env : Env) (templateFault : Option Error) (id : String)
    (now : Time) (w : World) (req : CreateTaskRequest) (template : Task) (data : Bytes)
    (hn : req.TaskName ≠ "")
    (ht : Storage.TaskTemplate templateFault w.taskTemplates req.TaskName = .ok template)
    (hm : env.jsonMarshal req.Data = .ok data)
    (hid : id ≠ "") :
    ∃ task : Task,
      (Service.Create env templateFault none id now w req).1.tasks = w.tasks ++ [task] ∧
      (Service.Create env templateFault none id now w req).2 = .ok task.ID ∧
      task.ID = id ∧ task.ID ≠ "" ∧
      task.State = Created ∧
      task.Request = data ∧
      task.CacheNamespace =
        (match req.CacheNamespace with
          | some ns => if ns ≠ "" then ns else template.CacheNamespace
          | none => template.CacheNamespace) ∧
      task.CacheScope =
        (match req.CacheScope with
          | some sc => if sc ≠ "" then sc else template.CacheScope
          | none => template.CacheScope) ∧
      task.URL = template.URL ∧ task.Method = template.Method ∧
      task.RequestPolicy = template.RequestPolicy ∧
      task.ResponsePolicy = template.ResponsePolicy ∧
      task.FinalPolicy = template.FinalPolicy ∧
      task.Name = template.Name := by
  obtain ⟨task, h1, h2⟩ := Service.Create_ok env templateFault id now w req template data hn ht hm
  refine ⟨task, by rw [h1], by rw [h1, h2], by rw [h2], by rw [h2]; exact hid, ?_⟩
  subst h2
  exact ⟨rfl, rfl, rfl, rfl, rfl, rfl, rfl, rfl, rfl, rfl⟩

/-- C17, on a sample: a task from the template "ta" with an empty namespace
and the scope "rsc" submitted. -/
theorem Service.Create_adds_one_task_witness :
    ∃ task : Task,
      (Service.Create sampleEnv none none "id1" 5 sampleListWorld sampleCreateRequest).1.tasks =
        sampleListWorld.tasks ++ [task] ∧
      (Service.Create sampleEnv none none "id1" 5 sampleListWorld sampleCreateRequest).2 =
        .ok task.ID ∧
      task.ID = "id1" ∧ task.ID ≠ "" ∧
      task.State = Created ∧
      task.Request = [4, 2] ∧
      task.CacheNamespace =
        (match sampleCreateRequest.CacheNamespace with
          | some ns => if ns ≠ "" then ns else sampleTemplateA.CacheNamespace
          | none => sampleTemplateA.CacheNamespace) ∧
      task.CacheScope =
        (match sampleCreateRequest.CacheScope with
          | some sc => if sc ≠ "" then sc else sampleTemplateA.CacheScope
          | none => sampleTemplateA.CacheScope) ∧
      task.URL = sampleTemplateA.URL ∧ task.Method = sampleTemplateA.Method ∧
      task.RequestPolicy = sampleTemplateA.RequestPolicy ∧
      task.ResponsePolicy = sampleTemplateA.ResponsePolicy ∧
      task.FinalPolicy = sampleTemplateA.FinalPolicy ∧
      task.Name = sampleTemplateA.Name :=
  Service.Create_adds_one_task sampleEnv none "id1" 5 sampleListWorld sampleCreateRequest
    sampleTemplateA [4, 2] (by decide) (by decide) (by decide) (by decide)

/-! ### Structure of a created list -/

/-- In lists related position by position, every element on the left has a
related element on the right. -/
theorem forall₂_mem_left {α β : Type} {R : α → β → Prop} {l₁ : List α} {l₂ : List β}
    (h : List.Forall₂ R l₁ l₂) : ∀ a ∈ l₁, ∃ b ∈ l₂, R a b := by
  induction h with
  | nil => intro a ha; cases ha
  | cons h _ ih =>
    intro a ha
    rcases List.mem_cons.mp ha with ha | ha
    · subst ha; exact ⟨_, List.mem_cons_self _ _, h⟩
    · obtain ⟨b, hb, hab⟩ := ih a ha
      exact ⟨b, List.mem_cons_of_mem _ hb, hab⟩

/-- In lists related position by position, every element on the right has a
related element on the left. -/
theorem forall₂_mem_right {α β : Type} {R : α → β → Prop} {l₁ : List α} {l₂ : List β}
    (h : List.Forall₂ R l₁ l₂) : ∀ b ∈ l₂, ∃ a ∈ l₁, R a b := by
  induction h with
  | nil => intro b hb; cases hb
  | cons h _ ih =>
    intro b hb
    rcases List.mem_cons.mp hb with hb | hb
    · subst hb; exact ⟨_, List.mem_cons_self _ _, h⟩
    · obtain ⟨a, ha, hab⟩ := ih b hb
      exact ⟨a, List.mem_cons_of_mem _ ha, hab⟩

/-- The cache fields of the list record follow the precedence of the
specification. -/
theorem tasklist.newTaskList_cache (fresh : Fresh) (template : Template)
    (req : CreateTaskListRequest) (data : Bytes) :
    (tasklist.newTaskList fresh template req data).CacheNamespace =
      specListCacheField req.CacheNamespace template.CacheNamespace ∧
    (tasklist.newTaskList fresh template req data).CacheScope =
      specListCacheField req.CacheScope template.CacheScope := by
  obtain ⟨_, _, _, _, _, _, h7, h8⟩ := tasklist.newTaskList_spec fresh template req data
  exact ⟨h7, h8⟩

/-- The cache fields of a task built for the list record follow the
precedence of the specification. -/
theorem tasklist.createTask_cache (fresh : Fresh) (template : Template)
    (req : CreateTaskListRequest) (data : Bytes) (group : Group) (k : Nat) (taskName : String)
    (tpl : Task) :
    (tasklist.createTask fresh (tasklist.newTaskList fresh template req data) group k taskName
      tpl).CacheNamespace =
      specTaskCacheField req.CacheNamespace template.CacheNamespace tpl.CacheNamespace ∧
    (tasklist.createTask fresh (tasklist.newTaskList fresh template req data) group k taskName
      tpl).CacheScope =
      specTaskCacheField req.CacheScope template.CacheScope tpl.CacheScope := by
  obtain ⟨_, _, _, _, _, _, _, _, _, _, c1, c2⟩ := tasklist.createTask_spec fresh
    (tasklist.newTaskList fresh template req data) group k taskName tpl
  obtain ⟨l1, l2⟩ := tasklist.newTaskList_cache fresh template req data
  rw [c1, c2, l1, l2]
  unfold specListCacheField specTaskCacheField
  constructor
  · cases req.CacheNamespace with
    | none => rfl
    | some ns =>
      by_cases hns : ns = ""
      · simp [hns]
      · simp [hns]
  · cases req.CacheScope with
    | none => rfl
    | some sc =>
      by_cases hs : sc = ""
      · simp [hs]
      · simp [hs]

/-- C18. Cache fields in the creation of a task list. After a
`tasklist.Create` that returns an id, the list record added has as cache
namespace the submitted one when that is given and not empty, the one of the
list template otherwise; every task added has as cache namespace the
submitted one when that is given and not empty, else the one of the list
template when that is not empty, else the one of its task template; and the
same holds, independently, for the cache scope. -/
theorem tasklist.Create_cache_precedence (env : Env) (templateFault templatesFault : Option Error)
    (faults : AddTaskListFaults) (fresh : Fresh) (w : World) (req : CreateTaskListRequest)
    (id : String)
    (hok : (tasklist.Create env templateFault templatesFault faults fresh w req).2 = .ok id) :
    ∃ (template : Template) (templates : TemplateMap) (list : TaskList) (tasks : List Task),
      Storage.TaskListTemplate templateFault w.taskListTemplates req.TaskListName =
        .ok template ∧
      Storage.TaskTemplates templatesFault w.taskTemplates
        (tasklist.taskNamesFromTaskListTemplate template) = .ok templates ∧
      (tasklist.Create env templateFault templatesFault faults fresh w req).1.taskLists =
        w.taskLists ++ [list] ∧
      (tasklist.Create env templateFault templatesFault faults fresh w req).1.tasks =
        w.tasks ++ tasks ∧
      list.ID = id ∧
      list.CacheNamespace = specListCacheField req.CacheNamespace template.CacheNamespace ∧
      list.CacheScope = specListCacheField req.CacheScope template.CacheScope ∧
      ∀ x ∈ tasks, ∃ tpl : Task, templates x.Name = some tpl ∧
        x.CacheNamespace =
          specTaskCacheField req.CacheNamespace template.CacheNamespace tpl.CacheNamespace ∧
        x.CacheScope = specTaskCacheField req.CacheScope template.CacheScope tpl.CacheScope := by
  obtain ⟨_, hid, template, templates, data, tasks, ht, hts, _, hc, _, htasks, hlists, _⟩ :=
    tasklist.Create_ok_inv env templateFault templatesFault faults fresh w req id hok
  obtain ⟨l1, l2⟩ := tasklist.newTaskList_cache fresh template req data
  refine ⟨template, templates, tasklist.newTaskList fresh template req data, tasks, ht, hts,
    hlists, htasks, ?_, l1, l2, ?_⟩
  · rw [(tasklist.newTaskList_spec fresh template req data).1, hid]
  · intro x hx
    obtain ⟨⟨parts, p1, p2⟩, _, _⟩ := tasklist.createTasksFrom_ok fresh
      (tasklist.newTaskList fresh template req data) templates _ 0 tasks hc
    rw [p1, List.mem_flatten] at hx
    obtain ⟨part, hpart, hxp⟩ := hx
    obtain ⟨g, _, _, hg⟩ := forall₂_mem_right p2 part hpart
    obtain ⟨j, tpl, htpl, hxe⟩ := hg x hxp
    obtain ⟨c1, c2⟩ := tasklist.createTask_cache fresh template req data g j x.Name tpl
    exact ⟨tpl, htpl, by rw [← c1, ← hxe], by rw [← c2, ← hxe]⟩

/-- C18, on a sample: the sample list is created with no namespace and the
scope "rsc" submitted. -/
theorem tasklist.Create_cache_precedence_witness :
    ∃ (template : Template) (templates : TemplateMap) (list : TaskList) (tasks : List Task),
      Storage.TaskListTemplate none sampleListWorld.taskListTemplates
        sampleListRequest.TaskListName = .ok template ∧
      Storage.TaskTemplates none sampleListWorld.taskTemplates
        (tasklist.taskNamesFromTaskListTemplate template) = .ok templates ∧
      (tasklist.Create sampleEnv none none noFaults sampleFresh sampleListWorld
        sampleListRequest).1.taskLists = sampleListWorld.taskLists ++ [list] ∧
      (tasklist.Create sampleEnv none none noFaults sampleFresh sampleListWorld
        sampleListRequest).1.tasks = sampleListWorld.tasks ++ tasks ∧
      list.ID = "L" ∧
      list.CacheNamespace =
        specListCacheField sampleListRequest.CacheNamespace template.CacheNamespace ∧
      list.CacheScope = specListCacheField sampleListRequest.CacheScope template.CacheScope ∧
      ∀ x ∈ tasks, ∃ tpl : Task, templates x.Name = some tpl ∧
        x.CacheNamespace = specTaskCacheField sampleListRequest.CacheNamespace
          template.CacheNamespace tpl.CacheNamespace ∧
        x.CacheScope = specTaskCacheField sampleListRequest.CacheScope template.CacheScope
          tpl.CacheScope :=
  tasklist.Create_cache_precedence sampleEnv none none noFaults sampleFresh sampleListWorld
    sampleListRequest "L" (by decide)

/-- C19. `createGroups` and `createTasks`. The list gets one group per group
of the template, in the same order, with the same execution, task names and
final policy, the state Created and the marshalled submission as request.
When every name of the template has an entry in the template map,
`createTasks` returns the tasks group by group, and for each group one task
per name in the order of the names, each with the state Created, the id of
its group as group id, and the url, method and policies of its template.
When some name has no entry, `createTasks` returns the NotFound error
"failed to find task template", and a `tasklist.Create` that got this
template and this map adds nothing to the queue and does not call it. -/
theorem tasklist.createGroups_createTasks_spec (fresh : Fresh) (template : Template)
    (req : CreateTaskListRequest) (data : Bytes) (templates : TemplateMap) :
    List.Forall₂ (fun (g : Group) (gt : GroupTemplate) =>
        g.Execution = gt.Execution ∧ g.Tasks = gt.Tasks ∧ g.FinalPolicy = gt.FinalPolicy ∧
        g.State = Created ∧ g.Request = data)
      (tasklist.createGroups fresh template data) template.Groups ∧
    (tasklist.newTaskList fresh template req data).Groups =
      tasklist.createGroups fresh template data ∧
    ((∀ gt ∈ template.Groups, ∀ n ∈ gt.Tasks, templates n ≠ none) →
      ∃ (tasks : List Task) (parts : List (List Task)),
        tasklist.createTasks fresh (tasklist.newTaskList fresh template req data) templates =
          .ok tasks ∧
        tasks = parts.flatten ∧
        List.Forall₂ (fun (g : Group) (part : List Task) =>
            part.map (fun x => x.Name) = g.Tasks ∧
            ∀ x ∈ part, x.State = Created ∧ x.GroupID = g.ID ∧
              ∃ tpl : Task, templates x.Name = some tpl ∧
                x.URL = tpl.URL ∧ x.Method = tpl.Method ∧
                x.RequestPolicy = tpl.RequestPolicy ∧
                x.ResponsePolicy = tpl.ResponsePolicy ∧
                x.FinalPolicy = tpl.FinalPolicy)
          (tasklist.createGroups fresh template data) parts) ∧
    ((∃ gt ∈ template.Groups, ∃ n ∈ gt.Tasks, templates n = none) →
      tasklist.createTasks fresh (tasklist.newTaskList fresh template req data) templates =
        .error ⟨Kind.NotFound, "failed to find task template"⟩ ∧
      ∀ (env : Env) (templateFault templatesFault : Option Error) (faults : AddTaskListFaults)
        (w : World),
        req.TaskListName ≠ "" →
        Storage.TaskListTemplate templateFault w.taskListTemplates req.TaskListName =
          .ok template →
        Storage.TaskTemplates templatesFault w.taskTemplates
          (tasklist.taskNamesFromTaskListTemplate template) = .ok templates →
        env.jsonMarshal req.Data = .ok data →
        (tasklist.Create env templateFault templatesFault faults fresh w req).2 =
          .error (Error.wrap "failed to create tasks for taskList"
            ⟨Kind.NotFound, "failed to find task template"⟩) ∧
        (tasklist.Create env templateFault templatesFault faults fresh w req).1.tasks =
          w.tasks ∧
        (tasklist.Create env templateFault templatesFault faults fresh w req).1.taskLists =
          w.taskLists ∧
        (tasklist.Create env templateFault templatesFault faults fresh w req).1.trace =
          w.trace ++ [Call.taskListTemplate req.TaskListName,
            Call.taskTemplates (tasklist.taskNamesFromTaskListTemplate template),
            Call.logError "failed to create tasks for taskList"]) := by
  obtain ⟨g1, _⟩ := tasklist.createGroupsFrom_spec fresh data template.Groups 0
  have hgroups : (tasklist.newTaskList fresh template req data).Groups =
      tasklist.createGroups fresh template data :=
    (tasklist.newTaskList_spec fresh template req data).2.1
  refine ⟨g1, hgroups, ?_, ?_⟩
  · intro hall
    cases hc : tasklist.createTasks fresh (tasklist.newTaskList fresh template req data)
        templates with
    | error e =>
      obtain ⟨_, g, hg, n, hn, hnt⟩ := tasklist.createTasksFrom_error fresh
        (tasklist.newTaskList fresh template req data) templates _ 0 e hc
      rw [hgroups] at hg
      obtain ⟨gt, hgt, hR⟩ := forall₂_mem_left g1 g hg
      rw [hR.2.1] at hn
      exact absurd hnt (hall gt hgt n hn)
    | ok tasks =>
      obtain ⟨⟨parts, p1, p2⟩, _, _⟩ := tasklist.createTasksFrom_ok fresh
        (tasklist.newTaskList fresh template req data) templates _ 0 tasks hc
      rw [hgroups] at p2
      refine ⟨tasks, parts, rfl, p1, List.Forall₂.imp ?_ p2⟩
      rintro g part ⟨h1, h2⟩
      refine ⟨h1, ?_⟩
      intro x hx
      obtain ⟨j, tpl, htpl, hxe⟩ := h2 x hx
      obtain ⟨_, c2, _, c4, c5, c6, c7, c8, c9, _⟩ := tasklist.createTask_spec fresh
        (tasklist.newTaskList fresh template req data) g j x.Name tpl
      rw [← hxe] at c2 c4 c5 c6 c7 c8 c9
      exact ⟨c4, c2, tpl, htpl, c5, c6, c7, c8, c9⟩
  · rintro ⟨gt, hgt, n, hn, hnt⟩
    obtain ⟨g, hg, hR⟩ := forall₂_mem_right g1 gt hgt
    have hc : tasklist.createTasks fresh (tasklist.newTaskList fresh template req data)
        templates = .error ⟨Kind.NotFound, "failed to find task template"⟩ := by
      apply tasklist.createTasksFrom_missing
      refine ⟨g, by rw [hgroups]; exact hg, n, by rw [hR.2.1]; exact hn, hnt⟩
    refine ⟨hc, ?_⟩
    intro env templateFault templatesFault faults w hname ht hts hm
    rw [tasklist.Create_tasks_error env templateFault templatesFault faults fresh w req hname
      template templates data _ ht hts hm hc]
    exact ⟨rfl, rfl, rfl, rfl⟩

/-- C19, on a sample: the sample list template with the map of the sample
templates, and with a map that lacks the template "tb". -/
theorem tasklist.createGroups_createTasks_spec_witness :
    (∃ (tasks : List Task) (parts : List (List Task)),
      tasklist.createTasks sampleFresh
        (tasklist.newTaskList sampleFresh sampleListTemplate sampleListRequest [4, 2])
        sampleTemplateMap = .ok tasks ∧
      tasks = parts.flatten ∧
      List.Forall₂ (fun (g : Group) (part : List Task) =>
          part.map (fun x => x.Name) = g.Tasks ∧
          ∀ x ∈ part, x.State = Created ∧ x.GroupID = g.ID ∧
            ∃ tpl : Task, sampleTemplateMap x.Name = some tpl ∧
              x.URL = tpl.URL ∧ x.Method = tpl.Method ∧
              x.RequestPolicy = tpl.RequestPolicy ∧
              x.ResponsePolicy = tpl.ResponsePolicy ∧
              x.FinalPolicy = tpl.FinalPolicy)
        (tasklist.createGroups sampleFresh sampleListTemplate [4, 2]) parts) ∧
    tasklist.createTasks sampleFresh
      (tasklist.newTaskList sampleFresh sampleListTemplate sampleListRequest [4, 2])
      sampleTemplateMapA = .error ⟨Kind.NotFound, "failed to find task template"⟩ :=
  ⟨(tasklist.createGroups_createTasks_spec sampleFresh sampleListTemplate sampleListRequest
      [4, 2] sampleTemplateMap).2.2.1 (by decide),
   ((tasklist.createGroups_createTasks_spec sampleFresh sampleListTemplate sampleListRequest
      [4, 2] sampleTemplateMapA).2.2.2 (by decide)).1⟩

/-! ### Failures of the two submissions -/

/-- A task template that is not stored: the lookup answers NotFound. -/
theorem Storage.TaskTemplate_missing (taskTemplates : List Task) (taskName : String)
    (hmiss : ∀ d ∈ taskTemplates, d.Name ≠ taskName) :
    Storage.TaskTemplate none taskTemplates taskName =
      .error ⟨Kind.NotFound, "task template not found"⟩ := by
  have hf : Mongo.findOne (fun d : Task => d.Name == taskName) taskTemplates = none := by
    unfold Mongo.findOne
    rw [List.find?_eq_none]
    intro d hd
    simpa using hmiss d hd
  unfold Storage.TaskTemplate
  simp only [hf]
  rfl

/-- A list template that is not stored: the lookup answers NotFound. -/
theorem Storage.TaskListTemplate_missing (taskListTemplates : List Template)
    (taskListName : String) (hmiss : ∀ d ∈ taskListTemplates, d.Name ≠ taskListName) :
    Storage.TaskListTemplate none taskListTemplates taskListName =
      .error ⟨Kind.NotFound, "taskList template not found"⟩ := by
  have hf : Mongo.findOne (fun d : Template => d.Name == taskListName) taskListTemplates =
      none := by
    unfold Mongo.findOne
    rw [List.find?_eq_none]
    intro d hd
    simpa using hmiss d hd
  unfold Storage.TaskListTemplate
  simp only [hf]
  rfl

/-- An empty task name: `Service.Create` answers BadRequest and leaves the
world, its trace included, as it is. -/
theorem Service.Create_missing_name (env : Env) (templateFault addFault : Option Error)
    (id : String) (now : Time) (w : World) (req : CreateTaskRequest) (hn : req.TaskName = "") :
    Service.Create env templateFault addFault id now w req =
      (w, .error ⟨Kind.BadRequest, "missing taskName"⟩) := by
  unfold Service.Create
  rw [if_pos hn]

/-- The lookup of the task template fails: `Service.Create` returns the
error of the lookup and calls the queue not at all. -/
theorem Service.Create_lookup_error (env : Env) (templateFault addFault : Option Error)
    (id : String) (now : Time) (w : World) (req : CreateTaskRequest) (hn : req.TaskName ≠ "")
    (e : Error)
    (ht : Storage.TaskTemplate templateFault w.taskTemplates req.TaskName = .error e) :
    Service.Create env templateFault addFault id now w req =
      ({ w with trace := w.trace ++ [Call.taskTemplate req.TaskName] ++
          [Call.logError "error getting task template from storage"] }, .error e) := by
  unfold Service.Create
  rw [if_neg hn]
  simp only []
  rw [ht]

/-- The insert into the queue fails: `Service.Create` returns an error
around the error of the queue, and the queue is as before. -/
theorem Service.Create_insert_error (env : Env) (templateFault : Option Error) (id : String)
    (now : Time) (w : World) (req : CreateTaskRequest) (template : Task) (data : Bytes)
    (e : Error) (hn : req.TaskName ≠ "")
    (ht : Storage.TaskTemplate templateFault w.taskTemplates req.TaskName = .ok template)
    (hm : env.jsonMarshal req.Data = .ok data) :
    (Service.Create env templateFault (some e) id now w req).2 =
      .error (Error.wrap "failed to create task" e) ∧
    (Service.Create env templateFault (some e) id now w req).1.tasks = w.tasks := by
  unfold Service.Create
  rw [if_neg hn]
  simp only []
  rw [ht]
  simp only []
  rw [hm]
  exact ⟨rfl, rfl⟩

/-- `AddTaskList` fails: `tasklist.Create` returns an error around the error
of the queue, and the tasks in the queue are as before. -/
theorem tasklist.Create_add_error (env : Env) (templateFault templatesFault : Option Error)
    (faults : AddTaskListFaults) (fresh : Fresh) (w : World) (req : CreateTaskListRequest)
    (hn : req.TaskListName ≠ "") (template : Template) (templates : TemplateMap) (data : Bytes)
    (tasks : List Task) (e : Error)
    (ht : Storage.TaskListTemplate templateFault w.taskListTemplates req.TaskListName =
      .ok template)
    (hts : Storage.TaskTemplates templatesFault w.taskTemplates
      (tasklist.taskNamesFromTaskListTemplate template) = .ok templates)
    (hm : env.jsonMarshal req.Data = .ok data)
    (hc : tasklist.createTasks fresh (tasklist.newTaskList fresh template req data) templates =
      .ok tasks)
    (hadd : (Storage.AddTaskList faults w.taskLists w.tasks
      (tasklist.newTaskList fresh template req data) tasks).2 = some e) :
    (tasklist.Create env templateFault templatesFault faults fresh w req).2 =
      .error (Error.wrap "error adding taskList to queue" e) ∧
    (tasklist.Create env templateFault templatesFault faults fresh w req).1.tasks = w.tasks := by
  have h := tasklist.Create_add env templateFault templatesFault faults fresh w req hn template
    templates data tasks ht hts hm hc
  rcases Storage.AddTaskList_cases faults w.taskLists w.tasks
      (tasklist.newTaskList fresh template req data) tasks with ⟨a1, _⟩ | ⟨_, _, a3⟩
  · rw [a1] at hadd; cases hadd
  · generalize Storage.AddTaskList faults w.taskLists w.tasks
        (tasklist.newTaskList fresh template req data) tasks = r at h hadd a3
    obtain ⟨⟨taskLists, queue⟩, oe⟩ := r
    simp only [] at hadd a3
    subst hadd
    subst a3
    rw [h]
    exact ⟨rfl, rfl⟩

/-- C20. Failures of `Service.Create` and of `tasklist.Create`. With an
empty name the result is a BadRequest error and the world is as before, its
trace of calls included, whatever the stores would answer. When a template
lookup fails its error is returned as it is, with its kind (NotFound when the
template is not stored), and nothing is added to the queue. When the insert
into the queue fails, the error returned is an error around the error of the
queue. A result that is an error carries no id. -/
theorem Create_failures (env : Env) (templateFault templatesFault addFault : Option Error)
    (faults : AddTaskListFaults) (id : String) (now : Time) (fresh : Fresh) (w : World)
    (req : CreateTaskRequest) (lreq : CreateTaskListRequest) :
    (req.TaskName = "" →
      Service.Create env templateFault addFault id now w req =
        (w, .error ⟨Kind.BadRequest, "missing taskName"⟩)) ∧
    (lreq.TaskListName = "" →
      tasklist.Create env templateFault templatesFault faults fresh w lreq =
        (w, .error ⟨Kind.BadRequest, "missing taskListName"⟩)) ∧
    (req.TaskName ≠ "" → ∀ e : Error,
      Storage.TaskTemplate templateFault w.taskTemplates req.TaskName = .error e →
      (Service.Create env templateFault addFault id now w req).2 = .error e ∧
      (Service.Create env templateFault addFault id now w req).1.tasks = w.tasks ∧
      (Service.Create env templateFault addFault id now w req).1.trace =
        w.trace ++ [Call.taskTemplate req.TaskName] ++
          [Call.logError "error getting task template from storage"]) ∧
    ((∀ d ∈ w.taskTemplates, d.Name ≠ req.TaskName) →
      Storage.TaskTemplate none w.taskTemplates req.TaskName =
        .error ⟨Kind.NotFound, "task template not found"⟩) ∧
    (lreq.TaskListName ≠ "" → ∀ e : Error,
      Storage.TaskListTemplate templateFault w.taskListTemplates lreq.TaskListName = .error e →
      (tasklist.Create env templateFault templatesFault faults fresh w lreq).2 = .error e ∧
      (tasklist.Create env templateFault templatesFault faults fresh w lreq).1.tasks =
        w.tasks ∧
      (tasklist.Create env templateFault templatesFault faults fresh w lreq).1.taskLists =
        w.taskLists ∧
      (tasklist.Create env templateFault templatesFault faults fresh w lreq).1.trace =
        w.trace ++ [Call.taskListTemplate lreq.TaskListName,
          Call.logError "error getting taskList template from storage"]) ∧
    ((∀ d ∈ w.taskListTemplates, d.Name ≠ lreq.TaskListName) →
      Storage.TaskListTemplate none w.taskListTemplates lreq.TaskListName =
        .error ⟨Kind.NotFound, "taskList template not found"⟩) ∧
    (lreq.TaskListName ≠ "" → ∀ (template : Template) (e : Error),
      Storage.TaskListTemplate templateFault w.taskListTemplates lreq.TaskListName =
        .ok template →
      Storage.TaskTemplates templatesFault w.taskTemplates
        (tasklist.taskNamesFromTaskListTemplate template) = .error e →
      (tasklist.Create env templateFault templatesFault faults fresh w lreq).2 = .error e ∧
      (tasklist.Create env templateFault templatesFault faults fresh w lreq).1.tasks =
        w.tasks ∧
      (tasklist.Create env templateFault templatesFault faults fresh w lreq).1.taskLists =
        w.taskLists ∧
      (tasklist.Create env templateFault templatesFault faults fresh w lreq).1.trace =
        w.trace ++ [Call.taskListTemplate lreq.TaskListName,
          Call.taskTemplates (tasklist.taskNamesFromTaskListTemplate template),
          Call.logError "error getting task templates from storage"]) ∧
    (req.TaskName ≠ "" → ∀ (template : Task) (data : Bytes) (e : Error),
      Storage.TaskTemplate templateFault w.taskTemplates req.TaskName = .ok template →
      env.jsonMarshal req.Data = .ok data →
      (Service.Create env templateFault (some e) id now w req).2 =
        .error (Error.wrap "failed to create task" e) ∧
      (Service.Create env templateFault (some e) id now w req).1.tasks = w.tasks) ∧
    (lreq.TaskListName ≠ "" →
      ∀ (template : Template) (templates : TemplateMap) (data : Bytes) (tasks : List Task)
        (e : Error),
      Storage.TaskListTemplate templateFault w.taskListTemplates lreq.TaskListName =
        .ok template →
      Storage.TaskTemplates templatesFault w.taskTemplates
        (tasklist.taskNamesFromTaskListTemplate template) = .ok templates →
      env.jsonMarshal lreq.Data = .ok data →
      tasklist.createTasks fresh (tasklist.newTaskList fresh template lreq data) templates =
        .ok tasks →
      (Storage.AddTaskList faults w.taskLists w.tasks
        (tasklist.newTaskList fresh template lreq data) tasks).2 = some e →
      (tasklist.Create env templateFault templatesFault faults fresh w lreq).2 =
        .error (Error.wrap "error adding taskList to queue" e) ∧
      (tasklist.Create env templateFault templatesFault faults fresh w lreq).1.tasks =
        w.tasks) ∧
    (∀ e : Error,
      ((Service.Create env templateFault addFault id now w req).2 = .error e →
        ∀ taskID, (Service.Create env templateFault addFault id now w req).2 ≠ .ok taskID) ∧
      ((tasklist.Create env templateFault templatesFault faults fresh w lreq).2 = .error e →
        ∀ taskListID,
          (tasklist.Create env templateFault templatesFault faults fresh w lreq).2 ≠
            .ok taskListID)) := by
  refine ⟨?_, ?_, ?_, ?_, ?_, ?_, ?_, ?_, ?_, ?_⟩
  · exact Service.Create_missing_name env templateFault addFault id now w req
  · exact tasklist.Create_empty_name env templateFault templatesFault faults fresh w lreq
  · intro hn e ht
    rw [Service.Create_lookup_error env templateFault addFault id now w req hn e ht]
    exact ⟨rfl, rfl, rfl⟩
  · exact Storage.TaskTemplate_missing w.taskTemplates req.TaskName
  · intro hn e ht
    rw [tasklist.Create_template_error env templateFault templatesFault faults fresh w lreq hn e
      ht]
    exact ⟨rfl, rfl, rfl, rfl⟩
  · exact Storage.TaskListTemplate_missing w.taskListTemplates lreq.TaskListName
  · intro hn template e ht hts
    rw [tasklist.Create_templates_error env templateFault templatesFault faults fresh w lreq hn
      template e ht hts]
    exact ⟨rfl, rfl, rfl, rfl⟩
  · intro hn template data e ht hm
    exact Service.Create_insert_error env templateFault id now w req template data e hn ht hm
  · intro hn template templates data tasks e ht hts hm hc hadd
    exact tasklist.Create_add_error env templateFault templatesFault faults fresh w lreq hn
      template templates data tasks e ht hts hm hc hadd
  · intro e
    constructor
    · intro h taskID h'
      rw [h] at h'
      cases h'
    · intro h taskListID h'
      rw [h] at h'
      cases h'

/-- C20, on samples: requests with an empty name, and a request for a task
from the template "ta" whose insert into the queue fails. -/
theorem Create_failures_witness :
    Service.Create sampleEnv none none "id1" 5 sampleListWorld sampleEmptyCreateRequest =
      (sampleListWorld, .error ⟨Kind.BadRequest, "missing taskName"⟩) ∧
    tasklist.Create sampleEnv none none noFaults sampleFresh sampleListWorld
      sampleEmptyListRequest =
      (sampleListWorld, .error ⟨Kind.BadRequest, "missing taskListName"⟩) ∧
    Storage.TaskTemplate none sampleListWorld.taskTemplates sampleEmptyCreateRequest.TaskName =
      .error ⟨Kind.NotFound, "task template not found"⟩ ∧
    (Service.Create sampleEnv none (some storageError) "id1" 5 sampleListWorld
      sampleCreateRequest).2 = .error (Error.wrap "failed to create task" storageError) :=
  ⟨(Create_failures sampleEnv none none none noFaults "id1" 5 sampleFresh sampleListWorld
      sampleEmptyCreateRequest sampleEmptyListRequest).1 (by decide),
   (Create_failures sampleEnv none none none noFaults "id1" 5 sampleFresh sampleListWorld
      sampleEmptyCreateRequest sampleEmptyListRequest).2.1 (by decide),
   (Create_failures sampleEnv none none none noFaults "id1" 5 sampleFresh sampleListWorld
      sampleEmptyCreateRequest sampleEmptyListRequest).2.2.2.1 (by decide),
   ((Create_failures sampleEnv none none none noFaults "id1" 5 sampleFresh sampleListWorld
      sampleCreateRequest sampleListRequest).2.2.2.2.2.2.2.1 (by decide) sampleTemplateA [4, 2]
      storageError (by decide) (by decide)).1⟩

/-! ### Reading the result of a task -/

/-- The end of `TaskResult` on a task that is not completed: NotFound,
without a call. -/
theorem Service.taskResultOf_pending (renv : ReadEnv) (w : World) (task : Task)
    (calls : List Call) (h : task.State ≠ Done ∧ task.State ≠ Failed) :
    Service.taskResultOf renv w task calls =
      (.error ⟨Kind.NotFound, "no result, task is not completed"⟩, calls) := by
  unfold Service.taskResultOf
  rw [if_pos h]

/-- The end of `TaskResult` on a completed task: the cache is read under the
id and the cache fields of the task, and the value is decoded. -/
theorem Service.taskResultOf_completed (renv : ReadEnv) (w : World) (task : Task)
    (calls : List Call) (h : task.State = Done ∨ task.State = Failed) :
    Service.taskResultOf renv w task calls =
      match Cache.Get renv w.cache task.ID task.CacheNamespace task.CacheScope with
      | .error e =>
        (.error e, calls ++ [Call.cacheGet task.ID task.CacheNamespace task.CacheScope] ++
          [Call.logError "error getting task result from cache"])
      | .ok value =>
        match renv.jsonDecode value with
        | .error e =>
          (.error (Error.wrap "error decoding result from cache" e),
            calls ++ [Call.cacheGet task.ID task.CacheNamespace task.CacheScope] ++
              [Call.logError "error decoding result from cache"])
        | .ok result =>
          (.ok result, calls ++ [Call.cacheGet task.ID task.CacheNamespace task.CacheScope]) := by
  unfold Service.taskResultOf
  have hn : ¬ (task.State ≠ Done ∧ task.State ≠ Failed) := by
    rintro ⟨h1, h2⟩
    rcases h with h | h
    · exact h1 h
    · exact h2 h
  rw [if_neg hn]

/-- `TaskResult` when the history holds the task: the queue is not asked. -/
theorem Service.TaskResult_history (renv : ReadEnv) (w : World) (taskID : String)
    (hid : taskID ≠ "") (task : Task)
    (hh : Storage.TaskHistory (renv.taskHistory taskID) w.tasksHistory taskID = .ok task) :
    Service.TaskResult renv w taskID =
      Service.taskResultOf renv w task [Call.taskHistory taskID] := by
  unfold Service.TaskResult
  rw [if_neg hid]
  simp only []
  rw [hh]

/-- `TaskResult` when the history lookup fails with another error than
NotFound: that error, and the queue is not asked. -/
theorem Service.TaskResult_history_error (renv : ReadEnv) (w : World) (taskID : String)
    (hid : taskID ≠ "") (e : Error)
    (hh : Storage.TaskHistory (renv.taskHistory taskID) w.tasksHistory taskID = .error e)
    (hk : e.kind ≠ Kind.NotFound) :
    Service.TaskResult renv w taskID =
      (.error e, [Call.taskHistory taskID] ++
        [Call.logError "error getting task from history collection"]) := by
  unfold Service.TaskResult
  rw [if_neg hid]
  simp only []
  rw [hh]
  have : Error.is Kind.NotFound e = false := by
    unfold Error.is
    simpa using hk
  simp only [this, Bool.not_false, if_true]

/-- `TaskResult` when the history reports NotFound: the queue is asked. -/
theorem Service.TaskResult_queue (renv : ReadEnv) (w : World) (taskID : String)
    (hid : taskID ≠ "") (e : Error)
    (hh : Storage.TaskHistory (renv.taskHistory taskID) w.tasksHistory taskID = .error e)
    (hk : e.kind = Kind.NotFound) :
    Service.TaskResult renv w taskID =
      match Storage.TaskByID (renv.task taskID) w.tasks taskID with
      | .error e =>
        if Error.is Kind.NotFound e then
          (.error (Error.wrap "task is not found" e),
            [Call.taskHistory taskID] ++ [Call.task taskID])
        else
          (.error e, [Call.taskHistory taskID] ++ [Call.task taskID] ++
            [Call.logError "error getting task from history collection"])
      | .ok task =>
        Service.taskResultOf renv w task ([Call.taskHistory taskID] ++ [Call.task taskID]) := by
  unfold Service.TaskResult
  rw [if_neg hid]
  simp only []
  rw [hh]
  have : Error.is Kind.NotFound e = true := by
    unfold Error.is
    simpa using hk
  simp only [this, Bool.not_true, Bool.false_eq_true, if_false]

/-- C21. The decision table of `TaskResult`. An empty task id gives
BadRequest without a call. For a task id that is not empty: the history is
asked first; an error of the history other than NotFound is returned and
the queue is not asked; when the history reports NotFound the queue is
asked, an error of the queue other than NotFound is returned, and NotFound
from both gives a NotFound error "task is not found". For the task found
(in the history, or else in the queue): when its state is neither Done nor
Failed the result is the NotFound error "no result, task is not completed"
and the cache is not read; otherwise the cache is read under the id, cache
namespace and cache scope of the task, an error of the cache is returned as
it is, bytes that do not decode give an error "error decoding result from
cache", and bytes that decode give the decoded document. -/
theorem Service.TaskResult_decision_table (renv : ReadEnv) (w : World) (taskID : String) :
    (taskID = "" →
      Service.TaskResult renv w taskID = (.error ⟨Kind.BadRequest, "missing taskID"⟩, [])) ∧
    (taskID ≠ "" →
      (∀ e : Error,
        Storage.TaskHistory (renv.taskHistory taskID) w.tasksHistory taskID = .error e →
        e.kind ≠ Kind.NotFound →
        Service.TaskResult renv w taskID =
          (.error e, [Call.taskHistory taskID] ++
            [Call.logError "error getting task from history collection"])) ∧
      (∀ e e' : Error,
        Storage.TaskHistory (renv.taskHistory taskID) w.tasksHistory taskID = .error e →
        e.kind = Kind.NotFound →
        Storage.TaskByID (renv.task taskID) w.tasks taskID = .error e' →
        (e'.kind = Kind.NotFound →
          Service.TaskResult renv w taskID =
            (.error (Error.wrap "task is not found" e'),
              [Call.taskHistory taskID] ++ [Call.task taskID]) ∧
          (Error.wrap "task is not found" e').kind = Kind.NotFound) ∧
        (e'.kind ≠ Kind.NotFound →
          (Service.TaskResult renv w taskID).1 = .error e')) ∧
      (∀ (task : Task) (calls : List Call),
        (Storage.TaskHistory (renv.taskHistory taskID) w.tasksHistory taskID = .ok task ∧
            calls = [Call.taskHistory taskID]) ∨
          (∃ e, Storage.TaskHistory (renv.taskHistory taskID) w.tasksHistory taskID =
              .error e ∧ e.kind = Kind.NotFound ∧
            Storage.TaskByID (renv.task taskID) w.tasks taskID = .ok task ∧
            calls = [Call.taskHistory taskID] ++ [Call.task taskID]) →
        (task.State ≠ Done ∧ task.State ≠ Failed →
          Service.TaskResult renv w taskID =
            (.error ⟨Kind.NotFound, "no result, task is not completed"⟩, calls)) ∧
        (task.State = Done ∨ task.State = Failed →
          (∀ e, Cache.Get renv w.cache task.ID task.CacheNamespace task.CacheScope =
              .error e →
            Service.TaskResult renv w taskID =
              (.error e, calls ++ [Call.cacheGet task.ID task.CacheNamespace task.CacheScope] ++
                [Call.logError "error getting task result from cache"])) ∧
          (∀ value e, Cache.Get renv w.cache task.ID task.CacheNamespace task.CacheScope =
              .ok value →
            renv.jsonDecode value = .error e →
            Service.TaskResult renv w taskID =
              (.error (Error.wrap "error decoding result from cache" e),
                calls ++ [Call.cacheGet task.ID task.CacheNamespace task.CacheScope] ++
                  [Call.logError "error decoding result from cache"])) ∧
          (∀ value result,
            Cache.Get renv w.cache task.ID task.CacheNamespace task.CacheScope = .ok value →
            renv.jsonDecode value = .ok result →
            Service.TaskResult renv w taskID =
              (.ok result,
                calls ++ [Call.cacheGet task.ID task.CacheNamespace task.CacheScope]))))) := by
  refine ⟨?_, ?_⟩
  · intro h
    unfold Service.TaskResult
    rw [if_pos h]
  · intro hid
    refine ⟨?_, ?_, ?_⟩
    · intro e hh hk
      exact Service.TaskResult_history_error renv w taskID hid e hh hk
    · intro e e' hh hk hq
      rw [Service.TaskResult_queue renv w taskID hid e hh hk, hq]
      refine ⟨?_, ?_⟩
      · intro hk'
        have : Error.is Kind.NotFound e' = true := by
          unfold Error.is
          simpa using hk'
        simp only [this, if_true]
        exact ⟨trivial, hk'⟩
      · intro hk'
        have : Error.is Kind.NotFound e' = false := by
          unfold Error.is
          simpa using hk'
        simp only [this, Bool.false_eq_true, if_false]
    · intro task calls hfound
      have hres : Service.TaskResult renv w taskID = Service.taskResultOf renv w task calls := by
        rcases hfound with ⟨hh, hc⟩ | ⟨e, hh, hk, hq, hc⟩
        · rw [hc]
          exact Service.TaskResult_history renv w taskID hid task hh
        · rw [hc, Service.TaskResult_queue renv w taskID hid e hh hk, hq]
      rw [hres]
      refine ⟨?_, ?_⟩
      · intro hs
        exact Service.taskResultOf_pending renv w task calls hs
      · intro hs
        rw [Service.taskResultOf_completed renv w task calls hs]
        refine ⟨?_, ?_, ?_⟩
        · intro e hg
          rw [hg]
        · intro value e hg hd
          rw [hg]
          simp only []
          rw [hd]
        · intro value result hg hd
          rw [hg]
          simp only []
          rw [hd]

/-- C21, on a sample: the result of the sample task is asked for after a
worker has executed it: found in the history, completed, read from the cache
and decoded. -/
theorem Service.TaskResult_decision_table_witness :
    Service.TaskResult sampleReadEnv sampleDoneWorld "a" =
      (.ok ⟨String.mk ([1, 1].map Char.ofNat)⟩,
        [Call.taskHistory "a"] ++ [Call.cacheGet "a" "" ""]) :=
  (((Service.TaskResult_decision_table sampleReadEnv sampleDoneWorld "a").2 (by decide)).2.2
    { samplePending with State := Done, Response := [1, 1], ResponseCode := 200,
                         StartedAt := 1, FinishedAt := 2 }
    [Call.taskHistory "a"] (Or.inl ⟨by decide, rfl⟩)).2 (Or.inl (by decide)) |>.2.2
    [1, 1] ⟨String.mk ([1, 1].map Char.ofNat)⟩ (by decide) (by decide)

/-! ### From the worker to the result endpoint -/

/-- A lookup by id in a collection to which a record of that id was
appended, no earlier record having the id: that record. -/
theorem Mongo.findOne_append_new (tasks : List Task) (x : Task) (taskID : String)
    (hnew : ∀ d ∈ tasks, d.ID ≠ taskID) (hx : x.ID = taskID) :
    Mongo.findOne (fun d : Task => d.ID == taskID) (tasks ++ [x]) = some x := by
  unfold Mongo.findOne
  rw [List.find?_append]
  have h1 : tasks.find? (fun d : Task => d.ID == taskID) = none := by
    rw [List.find?_eq_none]
    intro d hd
    simpa using hnew d hd
  rw [h1]
  simp [hx]

/-- A worker whose execution, cache write and history write succeed: the
cache, the history and the trace after it. -/
theorem Worker.handle_success_writes (env : Env) (maxTaskRetries : Int)
    (started finished : Time) (w : World) (t : Task) (h : t.Retries < maxTaskRetries)
    (he : (Worker.Execute env started finished t).err = none)
    (hc : env.cacheSet (Worker.Execute env started finished t).task.ID
      (Worker.Execute env started finished t).task.CacheNamespace
      (Worker.Execute env started finished t).task.CacheScope
      (Worker.Execute env started finished t).task.Response = none)
    (hh : env.saveTaskHistory (Worker.Execute env started finished t).task = none) :
    (Worker.handle env maxTaskRetries started finished w t).cache =
      Cache.set w.cache (Worker.Execute env started finished t).task.ID
        (Worker.Execute env started finished t).task.CacheNamespace
        (Worker.Execute env started finished t).task.CacheScope
        (Worker.Execute env started finished t).task.Response ∧
    Call.cacheSet (Worker.Execute env started finished t).task.ID
        (Worker.Execute env started finished t).task.CacheNamespace
        (Worker.Execute env started finished t).task.CacheScope
        (Worker.Execute env started finished t).task.Response ∈
      (Worker.handle env maxTaskRetries started finished w t).trace ∧
    Call.saveTaskHistory (Worker.Execute env started finished t).task ∈
      (Worker.handle env maxTaskRetries started finished w t).trace := by
  unfold Worker.handle
  rw [if_neg (not_le.mpr h)]
  simp only [he, hc, hh, Storage.SaveTaskHistory, Mongo.insertOne]
  cases env.ack (Worker.Execute env started finished t).task <;> simp [Storage.Ack]

/-- What a get returns after a put under the same key. -/
theorem Cache.get_set (cache : List (CacheKey × Bytes)) (key ns scope : String) (value : Bytes) :
    Cache.get (Cache.set cache key ns scope value) key ns scope = some value := by
  simp [Cache.get, Cache.set]

/-- C22. From the worker to the result endpoint. A standalone task with a
non-empty id that the worker executes successfully, with cache write and
history write succeeding, no earlier history record having its id: the
worker writes the final response of the task to the cache under the id, the
cache namespace and the cache scope of the task; and `TaskResult` for that
id, in every later world whose history still answers with the record of the
worker and whose cache still answers with what the worker wrote, reads the
cache under exactly that triple and returns the decoding of those bytes. -/
theorem Worker.result_round_trip (env : Env) (renv : ReadEnv) (maxTaskRetries : Int)
    (started finished : Time) (w w2 : World) (t : Task) (doc : Document)
    (hlt : t.Retries < maxTaskRetries)
    (he : (Worker.Execute env started finished t).err = none)
    (hc : env.cacheSet (Worker.Execute env started finished t).task.ID
      (Worker.Execute env started finished t).task.CacheNamespace
      (Worker.Execute env started finished t).task.CacheScope
      (Worker.Execute env started finished t).task.Response = none)
    (hh : env.saveTaskHistory (Worker.Execute env started finished t).task = none)
    (hid : t.ID ≠ "")
    (hnew : ∀ d ∈ w.tasksHistory, d.ID ≠ t.ID)
    (hlaterH : Mongo.findOne (fun d : Task => d.ID == t.ID) w2.tasksHistory =
      Mongo.findOne (fun d : Task => d.ID == t.ID)
        (Worker.handle env maxTaskRetries started finished w t).tasksHistory)
    (hlaterC : Cache.get w2.cache t.ID t.CacheNamespace t.CacheScope =
      Cache.get (Worker.handle env maxTaskRetries started finished w t).cache t.ID
        t.CacheNamespace t.CacheScope)
    (hfaultH : renv.taskHistory t.ID = none)
    (hfaultC : renv.cacheGet t.ID t.CacheNamespace t.CacheScope = none)
    (hdoc : renv.jsonDecode (Worker.Execute env started finished t).task.Response = .ok doc) :
    Call.cacheSet t.ID t.CacheNamespace t.CacheScope
        (Worker.Execute env started finished t).task.Response ∈
      (Worker.handle env maxTaskRetries started finished w t).trace ∧
    (Worker.handle env maxTaskRetries started finished w t).tasksHistory =
      w.tasksHistory ++ [(Worker.Execute env started finished t).task] ∧
    Cache.Get renv w2.cache t.ID t.CacheNamespace t.CacheScope =
      .ok (Worker.Execute env started finished t).task.Response ∧
    Service.TaskResult renv w2 t.ID =
      (.ok doc, [Call.taskHistory t.ID] ++ [Call.cacheGet t.ID t.CacheNamespace t.CacheScope]) := by
  obtain ⟨f1, _, _, f4, f5, f6, _⟩ := executeWith_frame Worker.doHTTPTask env started finished t
  have f1' : (Worker.Execute env started finished t).task.ID = t.ID := f1
  have f4' : (Worker.Execute env started finished t).task.CacheNamespace = t.CacheNamespace := f4
  have f5' : (Worker.Execute env started finished t).task.CacheScope = t.CacheScope := f5
  have f6' : (Worker.Execute env started finished t).task.State = Done := f6 he
  obtain ⟨_, s2⟩ := Worker.handle_success env maxTaskRetries started finished w t hlt he hc hh
  obtain ⟨c1, c2, _⟩ :=
    Worker.handle_success_writes env maxTaskRetries started finished w t hlt he hc hh
  rw [f1', f4', f5'] at c1 c2
  have hget : Cache.Get renv w2.cache t.ID t.CacheNamespace t.CacheScope =
      .ok (Worker.Execute env started finished t).task.Response := by
    unfold Cache.Get
    rw [hfaultC, hlaterC, c1, Cache.get_set]
  have hhist : Storage.TaskHistory (renv.taskHistory t.ID) w2.tasksHistory t.ID =
      .ok (Worker.Execute env started finished t).task := by
    unfold Storage.TaskHistory
    rw [hfaultH, hlaterH, s2, Mongo.findOne_append_new _ _ _ hnew f1']
  refine ⟨c2, s2, hget, ?_⟩
  rw [Service.TaskResult_history renv w2 t.ID hid _ hhist,
    Service.taskResultOf_completed renv w2 _ _ (Or.inl f6'), f1', f4', f5', hget]
  simp only []
  rw [hdoc]

/-- C22, on a sample: the worker executes the claimed sample task, and
its result is asked for. -/
theorem Worker.result_round_trip_witness :
    Call.cacheSet "a" "" "" [1, 1] ∈ sampleDoneWorld.trace ∧
    Service.TaskResult sampleReadEnv sampleDoneWorld "a" =
      (.ok ⟨String.mk ([1, 1].map Char.ofNat)⟩,
        [Call.taskHistory "a"] ++ [Call.cacheGet "a" "" ""]) :=
  ⟨(Worker.result_round_trip sampleEnv sampleReadEnv 3 1 2 (worldOf samplePending)
      sampleDoneWorld samplePending ⟨String.mk ([1, 1].map Char.ofNat)⟩ (by decide) (by decide)
      (by decide) (by decide) (by decide) (by decide) rfl rfl rfl rfl (by decide)).1,
   (Worker.result_round_trip sampleEnv sampleReadEnv 3 1 2 (worldOf samplePending)
      sampleDoneWorld samplePending ⟨String.mk ([1, 1].map Char.ofNat)⟩ (by decide) (by decide)
      (by decide) (by decide) (by decide) (by decide) rfl rfl rfl rfl (by decide)).2.2.2⟩

/-! ### The result of a dropped task -/

/-- A task that is not in the queue: the lookup answers NotFound. -/
theorem Storage.TaskByID_missing (tasks : List Task) (taskID : String)
    (hmiss : ∀ d ∈ tasks, d.ID ≠ taskID) :
    Storage.TaskByID none tasks taskID = .error ⟨Kind.NotFound, "task not found"⟩ := by
  have hf : Mongo.findOne (fun d : Task => d.ID == taskID) tasks = none := by
    unfold Mongo.findOne
    rw [List.find?_eq_none]
    intro d hd
    simpa using hmiss d hd
  unfold Storage.TaskByID
  simp only [hf]
  rfl

/-- A task that is not in the history: the lookup answers NotFound. -/
theorem Storage.TaskHistory_missing (tasksHistory : List Task) (taskID : String)
    (hmiss : ∀ d ∈ tasksHistory, d.ID ≠ taskID) :
    Storage.TaskHistory none tasksHistory taskID = .error ⟨Kind.NotFound, "task not found"⟩ := by
  have hf : Mongo.findOne (fun d : Task => d.ID == taskID) tasksHistory = none := by
    unfold Mongo.findOne
    rw [List.find?_eq_none]
    intro d hd
    simpa using hmiss d hd
  unfold Storage.TaskHistory
  simp only [hf]
  rfl

/-- A task that is in the queue: the lookup by its id answers with a record
of the queue that has this id. -/
theorem Storage.TaskByID_found (tasks : List Task) (taskID : String)
    (hmem : ∃ d ∈ tasks, d.ID = taskID) :
    ∃ d ∈ tasks, d.ID = taskID ∧ Storage.TaskByID none tasks taskID = .ok d := by
  cases hf : Mongo.findOne (fun d : Task => d.ID == taskID) tasks with
  | none =>
    unfold Mongo.findOne at hf
    rw [List.find?_eq_none] at hf
    obtain ⟨d, hd, hdi⟩ := hmem
    exact absurd (by simpa using hdi) (hf d hd)
  | some d =>
    have hd := hf
    unfold Mongo.findOne at hd
    refine ⟨d, List.mem_of_find?_eq_some hd, by simpa using List.find?_some hd, ?_⟩
    unfold Storage.TaskByID
    simp only [hf]

/-- C23, the claim refuted on a sample: the sample task, dropped by a worker
with cap 3 at retries 3, is in neither collection, and `TaskResult` for its
id answers "task is not found", not "no result, task is not completed". -/
theorem Service.TaskResult_dropped_is_not_found :
    sampleDroppedWorld.tasks = [] ∧ sampleDroppedWorld.tasksHistory = [] ∧
    (Service.TaskResult sampleReadEnv sampleDroppedWorld "a").1 =
      .error ⟨Kind.NotFound, "task is not found: task not found"⟩ ∧
    (Service.TaskResult sampleReadEnv sampleDroppedWorld "a").1 ≠
      .error ⟨Kind.NotFound, "no result, task is not completed"⟩ := by
  decide

/-- C23, amended. A task with a non-empty id that the worker drops because
its retries reached the cap, on a queue with unique ids and with no history
record of that id, the ack and the two lookups meeting no driver error:
before the drop, while a record with its id is in the queue in a state that
is neither Done nor Failed, `TaskResult` answers with the NotFound error
"no result, task is not completed"; after the drop the task is in neither
collection, and `TaskResult` answers with the NotFound error "task is not
found" around the error of the queue lookup, without reading the cache. -/
theorem Service.TaskResult_after_drop (env : Env) (renv : ReadEnv) (maxTaskRetries : Int)
    (started finished : Time) (w : World) (t : Task)
    (hcap : t.Retries ≥ maxTaskRetries)
    (hid : t.ID ≠ "")
    (hack : env.ack t = none)
    (hids : (w.tasks.map (fun d => d.ID)).Nodup)
    (hnohist : ∀ d ∈ w.tasksHistory, d.ID ≠ t.ID)
    (hfaultH : renv.taskHistory t.ID = none)
    (hfaultQ : renv.task t.ID = none) :
    ((∃ d ∈ w.tasks, d.ID = t.ID) → (∀ d ∈ w.tasks, d.State ≠ Done ∧ d.State ≠ Failed) →
      Service.TaskResult renv w t.ID =
        (.error ⟨Kind.NotFound, "no result, task is not completed"⟩,
          [Call.taskHistory t.ID] ++ [Call.task t.ID])) ∧
    (∀ d ∈ (Worker.handle env maxTaskRetries started finished w t).tasks, d.ID ≠ t.ID) ∧
    (∀ d ∈ (Worker.handle env maxTaskRetries started finished w t).tasksHistory,
      d.ID ≠ t.ID) ∧
    Service.TaskResult renv (Worker.handle env maxTaskRetries started finished w t) t.ID =
      (.error (Error.wrap "task is not found" ⟨Kind.NotFound, "task not found"⟩),
        [Call.taskHistory t.ID] ++ [Call.task t.ID]) ∧
    (Error.wrap "task is not found" ⟨Kind.NotFound, "task not found"⟩).kind = Kind.NotFound ∧
    (Error.wrap "task is not found" ⟨Kind.NotFound, "task not found"⟩).message =
      "task is not found: task not found" := by
  obtain ⟨h1, _, _, h4⟩ := Worker.handle_atCap env maxTaskRetries started finished w t hcap
  have hgone : ∀ d ∈ (Worker.handle env maxTaskRetries started finished w t).tasks,
      d.ID ≠ t.ID := by
    intro d hd
    rw [h1, hack] at hd
    exact ((Storage.mem_Ack_iff hids d).mp hd).2
  have hhist : ∀ d ∈ (Worker.handle env maxTaskRetries started finished w t).tasksHistory,
      d.ID ≠ t.ID := by
    rw [h4]; exact hnohist
  refine ⟨?_, hgone, hhist, ?_, rfl, by decide⟩
  · intro hmem hstates
    obtain ⟨d, hd, _, hfound⟩ := Storage.TaskByID_found w.tasks t.ID hmem
    have hH : Storage.TaskHistory (renv.taskHistory t.ID) w.tasksHistory t.ID =
        .error ⟨Kind.NotFound, "task not found"⟩ := by
      rw [hfaultH]; exact Storage.TaskHistory_missing _ _ hnohist
    rw [Service.TaskResult_queue renv w t.ID hid _ hH rfl, hfaultQ, hfound]
    exact Service.taskResultOf_pending renv w d _ (hstates d hd)
  · have hH : Storage.TaskHistory (renv.taskHistory t.ID)
        (Worker.handle env maxTaskRetries started finished w t).tasksHistory t.ID =
        .error ⟨Kind.NotFound, "task not found"⟩ := by
      rw [hfaultH]; exact Storage.TaskHistory_missing _ _ hhist
    rw [Service.TaskResult_queue renv _ t.ID hid _ hH rfl, hfaultQ,
      Storage.TaskByID_missing _ _ hgone]
    rfl

/-- C23, amended, on a sample: the sample task with retries 3 and a worker
with cap 3. -/
theorem Service.TaskResult_after_drop_witness :
    Service.TaskResult sampleReadEnv (worldOf sampleAtCap) "a" =
      (.error ⟨Kind.NotFound, "no result, task is not completed"⟩,
        [Call.taskHistory "a"] ++ [Call.task "a"]) ∧
    Service.TaskResult sampleReadEnv sampleDroppedWorld "a" =
      (.error (Error.wrap "task is not found" ⟨Kind.NotFound, "task not found"⟩),
        [Call.taskHistory "a"] ++ [Call.task "a"]) :=
  ⟨(Service.TaskResult_after_drop sampleEnv sampleReadEnv 3 1 2 (worldOf sampleAtCap)
      sampleAtCap (by decide) (by decide) rfl (by decide) (by decide) rfl rfl).1
      (by decide) (by decide),
   (Service.TaskResult_after_drop sampleEnv sampleReadEnv 3 1 2 (worldOf sampleAtCap)
      sampleAtCap (by decide) (by decide) rfl (by decide) (by decide) rfl rfl).2.2.2.1⟩

/-! ### Status of a task list -/

/-- What the loop of `calculateState` returns: one status per group, in
order, with the tasks that `GetGroupTasks` returns for the group; or the
error of a `GetGroupTasks`. -/
theorem tasklist.calculateGroups_spec (renv : ReadEnv) (w : World) (groups : List Group) :
    (∃ statuses : List GroupStatus,
      tasklist.calculateGroups renv w groups =
        (.ok statuses, groups.map Call.getGroupTasks) ∧
      List.Forall₂ (fun (g : Group) (st : GroupStatus) =>
          st.ID = some g.ID ∧ st.Status = some g.State ∧
          ∃ tasks, Storage.GetGroupTasks (renv.getGroupTasks g) w.tasks g = .ok tasks ∧
            st.Tasks = tasks.map TaskStatus.ofTask)
        groups statuses) ∨
    (∃ (e : Error) (calls : List Call),
      tasklist.calculateGroups renv w groups = (.error e, calls) ∧
      (∀ c ∈ calls, ∃ g, c = Call.getGroupTasks g) ∧
      ∃ g ∈ groups, Storage.GetGroupTasks (renv.getGroupTasks g) w.tasks g = .error e) := by
  induction groups with
  | nil => exact Or.inl ⟨[], rfl, List.Forall₂.nil⟩
  | cons g rest ih =>
    unfold tasklist.calculateGroups
    cases hg : Storage.GetGroupTasks (renv.getGroupTasks g) w.tasks g with
    | error e =>
      refine Or.inr ⟨e, [Call.getGroupTasks g], rfl, ?_, g, List.mem_cons_self _ _, hg⟩
      intro c hc
      exact ⟨g, List.mem_singleton.mp hc⟩
    | ok tasks =>
      rcases ih with ⟨statuses, h1, h2⟩ | ⟨e, calls, h1, h2, g', hg', he⟩
      · refine Or.inl ⟨(⟨some g.ID, some g.State, tasks.map TaskStatus.ofTask⟩ : GroupStatus) ::
          statuses, by rw [h1]; rfl, ?_⟩
        exact List.Forall₂.cons ⟨rfl, rfl, tasks, hg, rfl⟩ h2
      · refine Or.inr ⟨e, Call.getGroupTasks g :: calls, by rw [h1], ?_,
          g', List.mem_cons_of_mem _ hg', he⟩
        intro c hc
        rcases List.mem_cons.mp hc with hc | hc
        · exact ⟨g, hc⟩
        · exact h2 c hc

/-- The end of `TaskListStatus` on a list that is not executed: the status
is computed from the groups, and the cache is not read. -/
theorem tasklist.taskListStatusOf_running (renv : ReadEnv) (w : World) (list : TaskList)
    (calls : List Call) (h : list.State ≠ Done ∧ list.State ≠ Failed) :
    (∃ statuses : List GroupStatus,
      tasklist.taskListStatusOf renv w list calls =
        (.ok { ID := list.ID, Status := list.State, Groups := statuses },
          calls ++ list.Groups.map Call.getGroupTasks) ∧
      List.Forall₂ (fun (g : Group) (st : GroupStatus) =>
          st.ID = some g.ID ∧ st.Status = some g.State ∧
          ∃ tasks, Storage.GetGroupTasks (renv.getGroupTasks g) w.tasks g = .ok tasks ∧
            st.Tasks = tasks.map TaskStatus.ofTask)
        list.Groups statuses) ∨
    (∃ (e : Error) (more : List Call),
      tasklist.taskListStatusOf renv w list calls =
        (.error e, calls ++ more ++ [Call.logError "error calculating taskList state"]) ∧
      (∀ c ∈ more, ∃ g, c = Call.getGroupTasks g) ∧
      ∃ g ∈ list.Groups, Storage.GetGroupTasks (renv.getGroupTasks g) w.tasks g = .error e) := by
  unfold tasklist.taskListStatusOf
  rw [if_pos h]
  unfold tasklist.calculateState
  rcases tasklist.calculateGroups_spec renv w list.Groups with
    ⟨statuses, h1, h2⟩ | ⟨e, more, h1, h2, h3⟩
  · exact Or.inl ⟨statuses, by simp only [h1], h2⟩
  · exact Or.inr ⟨e, more, by simp only [h1], h2, h3⟩

/-- The end of `TaskListStatus` on an executed list: the cache is read
under the id and the cache fields of the list, and the value is decoded. -/
theorem tasklist.taskListStatusOf_executed (renv : ReadEnv) (w : World) (list : TaskList)
    (calls : List Call) (h : list.State = Done ∨ list.State = Failed) :
    tasklist.taskListStatusOf renv w list calls =
      match Cache.Get renv w.cache list.ID list.CacheNamespace list.CacheScope with
      | .error e =>
        (.error e, calls ++ [Call.cacheGet list.ID list.CacheNamespace list.CacheScope] ++
          [Call.logError "error getting taskList result from cache"])
      | .ok value =>
        match renv.jsonDecodeStatus value with
        | .error e =>
          (.error (Error.wrap "error decoding result from cache" e),
            calls ++ [Call.cacheGet list.ID list.CacheNamespace list.CacheScope] ++
              [Call.logError "error decoding result from cache"])
        | .ok result =>
          (.ok result, calls ++ [Call.cacheGet list.ID list.CacheNamespace list.CacheScope]) := by
  unfold tasklist.taskListStatusOf
  have hn : ¬ (list.State ≠ Done ∧ list.State ≠ Failed) := by
    rintro ⟨h1, h2⟩
    rcases h with h | h
    · exact h1 h
    · exact h2 h
  exact Eq.trans (if_neg hn) rfl

/-- `TaskListStatus` when the history holds the list: the queue is not asked. -/
theorem tasklist.TaskListStatus_history (renv : ReadEnv) (w : World) (taskListID : String)
    (hid : taskListID ≠ "") (list : TaskList)
    (hh : Storage.TaskListHistory (renv.taskListHistory taskListID) w.taskListHistory
      taskListID = .ok list) :
    tasklist.TaskListStatus renv w taskListID =
      tasklist.taskListStatusOf renv w list [Call.taskListHistory taskListID] := by
  unfold tasklist.TaskListStatus
  rw [if_neg hid]
  simp only []
  rw [hh]

/-- `TaskListStatus` when the history lookup fails with another error than
NotFound: that error, and the queue is not asked. -/
theorem tasklist.TaskListStatus_history_error (renv : ReadEnv) (w : World)
    (taskListID : String) (hid : taskListID ≠ "") (e : Error)
    (hh : Storage.TaskListHistory (renv.taskListHistory taskListID) w.taskListHistory
      taskListID = .error e)
    (hk : e.kind ≠ Kind.NotFound) :
    tasklist.TaskListStatus renv w taskListID =
      (.error e, [Call.taskListHistory taskListID] ++
        [Call.logError "error getting taskList from history collection"]) := by
  unfold tasklist.TaskListStatus
  rw [if_neg hid]
  simp only []
  rw [hh]
  have : Error.is Kind.NotFound e = false := by
    unfold Error.is
    simpa using hk
  simp only [this, Bool.not_false, if_true]

/-- `TaskListStatus` when the history reports NotFound: the queue is asked. -/
theorem tasklist.TaskListStatus_queue (renv : ReadEnv) (w : World) (taskListID : String)
    (hid : taskListID ≠ "") (e : Error)
    (hh : Storage.TaskListHistory (renv.taskListHistory taskListID) w.taskListHistory
      taskListID = .error e)
    (hk : e.kind = Kind.NotFound) :
    tasklist.TaskListStatus renv w taskListID =
      match Storage.TaskListByID (renv.taskList taskListID) w.taskLists taskListID with
      | .error e =>
        if Error.is Kind.NotFound e then
          (.error (Error.wrap "taskList is not found" e),
            [Call.taskListHistory taskListID] ++ [Call.taskList taskListID])
        else
          (.error e, [Call.taskListHistory taskListID] ++ [Call.taskList taskListID] ++
            [Call.logError "error getting taskList from taskLists collection"])
      | .ok list =>
        tasklist.taskListStatusOf renv w list
          ([Call.taskListHistory taskListID] ++ [Call.taskList taskListID]) := by
  unfold tasklist.TaskListStatus
  rw [if_neg hid]
  simp only []
  rw [hh]
  have : Error.is Kind.NotFound e = true := by
    unfold Error.is
    simpa using hk
  simp only [this, Bool.not_true, Bool.false_eq_true, if_false]

/-- C24. `TaskListStatus` for a list id that is not empty. When the list is
in neither collection the result is the NotFound error "taskList is not
found". For the list found (in the history, or else, the history reporting
NotFound, in the queue): when its state is neither Done nor Failed the cache
is not read, and the result has the id and the state of the list and one
group status per group of the list, in order, each with the id and the state
of the group and one task status (id, state) per task that `GetGroupTasks`
returns for the group, in order, or it is the error of a `GetGroupTasks`,
without a status; when its state is Done or Failed the cache is read under
the id, cache namespace and cache scope of the list and the result is the
decoding of the value. -/
theorem tasklist.TaskListStatus_spec (renv : ReadEnv) (w : World) (taskListID : String)
    (hid : taskListID ≠ "") :
    (∀ e e' : Error,
      Storage.TaskListHistory (renv.taskListHistory taskListID) w.taskListHistory taskListID =
        .error e →
      e.kind = Kind.NotFound →
      Storage.TaskListByID (renv.taskList taskListID) w.taskLists taskListID = .error e' →
      e'.kind = Kind.NotFound →
      tasklist.TaskListStatus renv w taskListID =
        (.error (Error.wrap "taskList is not found" e'),
          [Call.taskListHistory taskListID] ++ [Call.taskList taskListID]) ∧
      (Error.wrap "taskList is not found" e').kind = Kind.NotFound) ∧
    (∀ (list : TaskList) (calls : List Call),
      (Storage.TaskListHistory (renv.taskListHistory taskListID) w.taskListHistory
            taskListID = .ok list ∧
          calls = [Call.taskListHistory taskListID]) ∨
        (∃ e, Storage.TaskListHistory (renv.taskListHistory taskListID) w.taskListHistory
              taskListID = .error e ∧ e.kind = Kind.NotFound ∧
          Storage.TaskListByID (renv.taskList taskListID) w.taskLists taskListID = .ok list ∧
          calls = [Call.taskListHistory taskListID] ++ [Call.taskList taskListID]) →
      (list.State ≠ Done ∧ list.State ≠ Failed →
        (∀ k ns scope, Call.cacheGet k ns scope ∉ (tasklist.TaskListStatus renv w taskListID).2) ∧
        ((∃ statuses : List GroupStatus,
            tasklist.TaskListStatus renv w taskListID =
              (.ok { ID := list.ID, Status := list.State, Groups := statuses },
                calls ++ list.Groups.map Call.getGroupTasks) ∧
            List.Forall₂ (fun (g : Group) (st : GroupStatus) =>
                st.ID = some g.ID ∧ st.Status = some g.State ∧
                ∃ tasks, Storage.GetGroupTasks (renv.getGroupTasks g) w.tasks g = .ok tasks ∧
                  st.Tasks = tasks.map TaskStatus.ofTask)
              list.Groups statuses) ∨
          (∃ e : Error,
            (tasklist.TaskListStatus renv w taskListID).1 = .error e ∧
            ∃ g ∈ list.Groups,
              Storage.GetGroupTasks (renv.getGroupTasks g) w.tasks g = .error e)) ∧
        ((∀ g ∈ list.Groups, renv.getGroupTasks g = none) →
          ∃ statuses, (tasklist.TaskListStatus renv w taskListID).1 =
            .ok { ID := list.ID, Status := list.State, Groups := statuses })) ∧
      (list.State = Done ∨ list.State = Failed →
        (∀ e, Cache.Get renv w.cache list.ID list.CacheNamespace list.CacheScope = .error e →
          (tasklist.TaskListStatus renv w taskListID).1 = .error e) ∧
        (∀ value e, Cache.Get renv w.cache list.ID list.CacheNamespace list.CacheScope =
            .ok value →
          renv.jsonDecodeStatus value = .error e →
          (tasklist.TaskListStatus renv w taskListID).1 =
            .error (Error.wrap "error decoding result from cache" e)) ∧
        (∀ value result,
          Cache.Get renv w.cache list.ID list.CacheNamespace list.CacheScope = .ok value →
          renv.jsonDecodeStatus value = .ok result →
          tasklist.TaskListStatus renv w taskListID =
            (.ok result,
              calls ++ [Call.cacheGet list.ID list.CacheNamespace list.CacheScope])))) := by
  refine ⟨?_, ?_⟩
  · intro e e' hh hk hq hk'
    rw [tasklist.TaskListStatus_queue renv w taskListID hid e hh hk, hq]
    have : Error.is Kind.NotFound e' = true := by
      unfold Error.is
      simpa using hk'
    simp only [this, if_true]
    exact ⟨trivial, hk'⟩
  · intro list calls hfound
    have hres : tasklist.TaskListStatus renv w taskListID =
        tasklist.taskListStatusOf renv w list calls := by
      rcases hfound with ⟨hh, hc⟩ | ⟨e, hh, hk, hq, hc⟩
      · rw [hc]
        exact tasklist.TaskListStatus_history renv w taskListID hid list hh
      · rw [hc, tasklist.TaskListStatus_queue renv w taskListID hid e hh hk, hq]
    have hcalls : ∀ k ns scope, Call.cacheGet k ns scope ∉ calls := by
      intro k ns scope hmem
      rcases hfound with ⟨_, hc⟩ | ⟨_, _, _, _, hc⟩ <;> rw [hc] at hmem <;> simp at hmem
    rw [hres]
    refine ⟨?_, ?_⟩
    · intro hs
      rcases tasklist.taskListStatusOf_running renv w list calls hs with
        ⟨statuses, h1, h2⟩ | ⟨e, more, h1, h2, h3⟩
      · refine ⟨?_, Or.inl ⟨statuses, h1, h2⟩, fun _ => ⟨statuses, by rw [h1]⟩⟩
        intro k ns scope hmem
        rw [h1] at hmem
        rcases List.mem_append.mp hmem with hmem | hmem
        · exact hcalls k ns scope hmem
        · obtain ⟨g, _, hg⟩ := List.mem_map.mp hmem
          cases hg
      · refine ⟨?_, Or.inr ⟨e, by rw [h1], h3⟩, ?_⟩
        · intro k ns scope hmem
          rw [h1] at hmem
          simp only [List.mem_append, List.mem_singleton] at hmem
          rcases hmem with (hmem | hmem) | hmem
          · exact hcalls k ns scope hmem
          · obtain ⟨g, hg⟩ := h2 _ hmem
            cases hg
          · cases hmem
        · intro hall
          obtain ⟨g, hg, hge⟩ := h3
          rw [hall g hg] at hge
          cases hge
    · intro hs
      rw [tasklist.taskListStatusOf_executed renv w list calls hs]
      refine ⟨?_, ?_, ?_⟩
      · intro e hg
        rw [hg]
      · intro value e hg hd
        rw [hg]
        simp only []
        rw [hd]
      · intro value result hg hd
        rw [hg]
        simp only []
        rw [hd]

/-- C24, on a sample: the status of the created sample list is asked for
before its execution: it is computed from the queue. -/
theorem tasklist.TaskListStatus_spec_witness :
    ∃ statuses, (tasklist.TaskListStatus sampleReadEnv sampleCreatedWorld "L").1 =
      .ok { ID := sampleList.ID, Status := sampleList.State, Groups := statuses } :=
  (((tasklist.TaskListStatus_spec sampleReadEnv sampleCreatedWorld "L" (by decide)).2 sampleList
    ([Call.taskListHistory "L"] ++ [Call.taskList "L"])
    (Or.inr ⟨⟨Kind.NotFound, "taskList not found"⟩, by decide, rfl, by decide, rfl⟩)).1
    (by decide)).2.2 (by decide)

/-! ### `AddTaskList` -/

/-- A delete by a filter that only the record appended last matches removes
that record. -/
theorem Mongo.deleteOne_append_new {α : Type} (p : α → Bool) (l : List α) (x : α)
    (hnew : ∀ d ∈ l, p d = false) (hx : p x = true) :
    Mongo.deleteOne p (l ++ [x]) = l := by
  induction l with
  | nil => simp [Mongo.deleteOne, hx]
  | cons d ds ih =>
    have hd : p d = false := hnew d (List.mem_cons_self _ _)
    rw [List.cons_append]
    unfold Mongo.deleteOne
    simp only [hd, Bool.false_eq_true, if_false]
    rw [ih (fun y hy => hnew y (List.mem_cons_of_mem _ hy))]

/-- C25, the claim refuted on a sample: the bulk insert of the tasks fails
and the delete of the list record that follows fails too: `AddTaskList`
returns an error and the list record is still in the list queue. -/
theorem Storage.AddTaskList_record_stays :
    Storage.AddTaskList bulkAndAckFaults [] [] sampleList sampleGroup0Tasks =
      (([sampleList], []), some (Error.wrap "failed to ack taskList" storageError)) ∧
    ∃ d ∈ (Storage.AddTaskList bulkAndAckFaults [] [] sampleList sampleGroup0Tasks).1.1,
      d.ID = sampleList.ID := by
  decide

/-- C25, amended. `AddTaskList` on a list whose id no record of the list
queue has. When the insert of the list record fails, its error is returned
and nothing is inserted. When it succeeds and the bulk insert of the tasks
fails (an empty slice of tasks makes it fail), no task is inserted and the
delete of the list record is attempted: when the delete succeeds, the error
of the bulk insert is returned, the list queue is as before and holds no
record with the id of the list; when the delete fails too, the error
"failed to ack taskList" around its error is returned and the list record
stays in the list queue. Otherwise the list and the tasks are inserted. -/
theorem Storage.AddTaskList_atomicity (faults : AddTaskListFaults) (taskLists : List TaskList)
    (tasks : List Task) (taskList : TaskList) (ts : List Task)
    (hnew : ∀ d ∈ taskLists, d.ID ≠ taskList.ID) :
    (∀ e, faults.insertList = some e →
      Storage.AddTaskList faults taskLists tasks taskList ts = ((taskLists, tasks), some e)) ∧
    (faults.insertList = none →
      ∀ e, (faults.insertTasks = some e ∨
          (faults.insertTasks = none ∧ ts = [] ∧ e = Mongo.ErrEmptySlice)) →
        (faults.ackList = none →
          Storage.AddTaskList faults taskLists tasks taskList ts =
            ((taskLists, tasks), some e) ∧
          ∀ d ∈ (Storage.AddTaskList faults taskLists tasks taskList ts).1.1,
            d.ID ≠ taskList.ID) ∧
        (∀ e', faults.ackList = some e' →
          Storage.AddTaskList faults taskLists tasks taskList ts =
            ((taskLists ++ [taskList], tasks),
              some (Error.wrap "failed to ack taskList" e')))) ∧
    (faults.insertList = none → faults.insertTasks = none → ts ≠ [] →
      Storage.AddTaskList faults taskLists tasks taskList ts =
        ((taskLists ++ [taskList], tasks ++ ts), none)) := by
  have hdel : Mongo.deleteOne (fun d : TaskList => d.ID == taskList.ID)
      (taskLists ++ [taskList]) = taskLists := by
    apply Mongo.deleteOne_append_new
    · intro d hd
      simpa using hnew d hd
    · simp
  refine ⟨?_, ?_, ?_⟩
  · intro e h1
    unfold Storage.AddTaskList
    rw [h1]
  · intro h1 e hbulk
    refine ⟨?_, ?_⟩
    · intro h3
      have hres : Storage.AddTaskList faults taskLists tasks taskList ts =
          ((taskLists, tasks), some e) := by
        unfold Storage.AddTaskList
        rcases hbulk with h2 | ⟨h2, h4, h5⟩
        · simp only [h1, h2, h3, Storage.AckList, Mongo.insertOne, hdel]
        · subst h4 h5
          simp only [h1, h2, h3, Storage.AckList, Mongo.insertOne, hdel, List.isEmpty_nil,
            if_true]
      refine ⟨hres, ?_⟩
      rw [hres]
      exact hnew
    · intro e' h3
      unfold Storage.AddTaskList
      rcases hbulk with h2 | ⟨h2, h4, h5⟩
      · simp only [h1, h2, h3, Storage.AckList, Mongo.insertOne]
      · subst h4 h5
        simp only [h1, h2, h3, Storage.AckList, Mongo.insertOne, List.isEmpty_nil, if_true]
  · intro h1 h2 h3
    unfold Storage.AddTaskList
    cases ts with
    | nil => exact absurd rfl h3
    | cons x xs =>
      simp only [h1, h2, Mongo.insertOne, Mongo.insertMany, List.isEmpty_cons,
        Bool.false_eq_true, if_false]

/-- C25, amended, on a sample: the bulk insert fails and the delete of the
list record succeeds: the list queue is as before. -/
theorem Storage.AddTaskList_atomicity_witness :
    Storage.AddTaskList bulkFaults [] [] sampleList sampleGroup0Tasks =
      (([], []), some storageError) ∧
    Storage.AddTaskList bulkAndAckFaults [] [] sampleList sampleGroup0Tasks =
      (([] ++ [sampleList], []), some (Error.wrap "failed to ack taskList" storageError)) :=
  ⟨(((Storage.AddTaskList_atomicity bulkFaults [] [] sampleList sampleGroup0Tasks
      (by decide)).2.1 rfl storageError (Or.inl rfl)).1 rfl).1,
   ((Storage.AddTaskList_atomicity bulkAndAckFaults [] [] sampleList sampleGroup0Tasks
      (by decide)).2.1 rfl storageError (Or.inl rfl)).2 storageError rfl⟩

/-! ### Events -/

/-- `strings.Split` returns at least one piece. -/
theorem Strings.splitChars_ne_nil (sep : Char) (cs : List Char) :
    Strings.splitChars sep cs ≠ [] := by
  cases cs with
  | nil => simp [Strings.splitChars]
  | cons c cs =>
    unfold Strings.splitChars
    split
    · simp
    · split <;> simp

/-- The pieces that `strings.Split` returns for the separator "," are the
comma-separated segments of the specification. -/
theorem Strings.splitChars_getD (cs : List Char) :
    ∀ n, (Strings.splitChars ',' cs).getD n [] = specSegment n cs := by
  induction cs with
  | nil =>
    intro n
    cases n with
    | zero => rfl
    | succ n => simp [Strings.splitChars, specSegment]
  | cons c cs ih =>
    intro n
    by_cases hc : c = ','
    · subst hc
      cases n with
      | zero => simp [Strings.splitChars, specSegment]
      | succ n =>
        have := ih n
        simp only [Strings.splitChars, if_true, List.getD_cons_succ, specSegment]
        simpa [List.dropWhile] using this
    · have h0 := ih 0
      cases hs : Strings.splitChars ',' cs with
      | nil => exact absurd hs (Strings.splitChars_ne_nil ',' cs)
      | cons piece rest =>
        rw [hs] at h0
        cases n with
        | zero =>
          simp only [Strings.splitChars, hc, if_false, hs, List.getD_cons_zero, specSegment]
          simp only [List.getD_cons_zero, specSegment] at h0
          simp [List.takeWhile, hc, h0]
        | succ n =>
          have hn := ih (n + 1)
          rw [hs] at hn
          simp only [Strings.splitChars, hc, if_false, hs, List.getD_cons_succ, specSegment]
          simp only [List.getD_cons_succ, specSegment] at hn
          simpa [List.dropWhile, hc] using hn

/-- Piece `n` of `strings.Split(s, ",")`, read with the length guard of the
handler, is segment `n` of the specification. -/
theorem Strings.Split_segment (s : String) (n : Nat) :
    (if (Strings.Split s ',').length > n then (Strings.Split s ',').getD n "" else "") =
      String.mk (specSegment n s.toList) := by
  have hd : ∀ l : List (List Char), (l.map String.mk).getD n "" = String.mk (l.getD n []) := by
    intro l
    exact List.getD_map l [] String.mk
  rw [← Strings.splitChars_getD]
  unfold Strings.Split
  split
  · exact hd _
  · rename_i h
    rw [List.length_map] at h
    rw [List.getD_eq_default _ _ (by omega)]

/-- The first piece of `strings.Split(s, ",")` is segment 0 of the
specification, and there is a first piece. -/
theorem Strings.Split_first (s : String) :
    (Strings.Split s ',').length ≠ 0 ∧
    (Strings.Split s ',').getD 0 "" = String.mk (specSegment 0 s.toList) := by
  have hne : (Strings.Split s ',').length ≠ 0 := by
    unfold Strings.Split
    rw [List.length_map]
    intro h
    exact Strings.splitChars_ne_nil ',' s.toList (List.length_eq_zero.mp h)
  refine ⟨hne, ?_⟩
  have := Strings.Split_segment s 0
  rwa [if_pos (by omega)] at this

/-- The handler on an event with a string key: the binding is looked up
under the three segments of the key, and a binding found is enqueued. -/
theorem Client.handler_string_key (eenv : EventEnv) (eventTasks : List EventTask) (id : String)
    (now : Time) (w : World) (event : CloudEvent) (data : String → Option JSONField)
    (s : String)
    (hct : event.DataContentType = "application/json")
    (hu : eenv.jsonUnmarshal event.Data = .ok data)
    (hk : data "key" = some (JSONField.string s)) :
    (∀ e, Storage.EventTaskByKey
        (eenv.eventTask (String.mk (specSegment 0 s.toList)) (String.mk (specSegment 1 s.toList))
          (String.mk (specSegment 2 s.toList)))
        eventTasks (String.mk (specSegment 0 s.toList)) (String.mk (specSegment 1 s.toList))
        (String.mk (specSegment 2 s.toList)) = .error e →
      Client.handler eenv eventTasks id now w event =
        ({ w with trace := w.trace ++ [Call.eventTask (String.mk (specSegment 0 s.toList))
            (String.mk (specSegment 1 s.toList)) (String.mk (specSegment 2 s.toList))] },
          some e)) ∧
    (∀ eventTask, Storage.EventTaskByKey
        (eenv.eventTask (String.mk (specSegment 0 s.toList)) (String.mk (specSegment 1 s.toList))
          (String.mk (specSegment 2 s.toList)))
        eventTasks (String.mk (specSegment 0 s.toList)) (String.mk (specSegment 1 s.toList))
        (String.mk (specSegment 2 s.toList)) = .ok eventTask →
      Client.handler eenv eventTasks id now w event =
        Client.enqueueTask eenv id now
          { w with trace := w.trace ++ [Call.eventTask (String.mk (specSegment 0 s.toList))
            (String.mk (specSegment 1 s.toList)) (String.mk (specSegment 2 s.toList))] }
          eventTask) := by
  have h0 := Strings.Split_first s
  have h1 := Strings.Split_segment s 1
  have h2 := Strings.Split_segment s 2
  have hkey : data eventDataKey = some (JSONField.string s) := hk
  constructor
  · intro e hl
    unfold Client.handler
    rw [if_neg (by simp [hct])]
    simp only [hu, hkey]
    rw [if_neg h0.1, h0.2, h1, h2, hl]
  · intro eventTask hl
    unfold Client.handler
    rw [if_neg (by simp [hct])]
    simp only [hu, hkey]
    rw [if_neg h0.1, h0.2, h1, h2, hl]

/-- The trace after `enqueueTask` starts with the trace before it. -/
theorem Client.enqueueTask_trace (eenv : EventEnv) (id : String) (now : Time) (w : World)
    (eventTask : EventTask) :
    w.trace <+: (Client.enqueueTask eenv id now w eventTask).1.trace := by
  unfold Client.enqueueTask
  simp only []
  split
  · exact List.prefix_append _ _
  · split
    · exact List.prefix_append _ _
    · split
      · exact List.prefix_append _ _
      · split
        · simp only [List.append_assoc]
          exact List.prefix_append _ _
        · simp only [List.append_assoc]
          exact List.prefix_append _ _

/-- C26. The handler on an event. With a content type other than
"application/json", with data that do not parse, or with data without the
field `key`, it returns an error and leaves the world as it is: no lookup, no
insertion, nothing recorded. With content type "application/json" and data
whose field `key` is the string `s`, the binding is looked up with the key
`specSegment 0 s` (the text before the first comma), the namespace
`specSegment 1 s` and the scope `specSegment 2 s` (the second and the third
comma-separated segment, empty if absent): the call is recorded next in the
trace, an error of the lookup is returned, and a binding found goes to
`enqueueTask`. -/
theorem Client.handler_key_parsing (eenv : EventEnv) (eventTasks : List EventTask) (id : String)
    (now : Time) (w : World) (event : CloudEvent) :
    (event.DataContentType ≠ "application/json" →
      Client.handler eenv eventTasks id now w event =
        (w, some ⟨Kind.Unknown,
          "event data has invalid content type, must be application/json"⟩)) ∧
    (event.DataContentType = "application/json" →
      (∀ e, eenv.jsonUnmarshal event.Data = .error e →
        Client.handler eenv eventTasks id now w event = (w, some e)) ∧
      (∀ data, eenv.jsonUnmarshal event.Data = .ok data →
        (data "key" = none →
          Client.handler eenv eventTasks id now w event =
            (w, some ⟨Kind.Unknown, "invalid event data key"⟩)) ∧
        (∀ s, data "key" = some (JSONField.string s) →
          (w.trace ++ [Call.eventTask (String.mk (specSegment 0 s.toList))
              (String.mk (specSegment 1 s.toList)) (String.mk (specSegment 2 s.toList))] <+:
            (Client.handler eenv eventTasks id now w event).1.trace) ∧
          (∀ e, Storage.EventTaskByKey
              (eenv.eventTask (String.mk (specSegment 0 s.toList))
                (String.mk (specSegment 1 s.toList)) (String.mk (specSegment 2 s.toList)))
              eventTasks (String.mk (specSegment 0 s.toList))
              (String.mk (specSegment 1 s.toList)) (String.mk (specSegment 2 s.toList)) =
                .error e →
            Client.handler eenv eventTasks id now w event =
              ({ w with trace := w.trace ++
                  [Call.eventTask (String.mk (specSegment 0 s.toList))
                    (String.mk (specSegment 1 s.toList))
                    (String.mk (specSegment 2 s.toList))] },
                some e)) ∧
          (∀ eventTask, Storage.EventTaskByKey
              (eenv.eventTask (String.mk (specSegment 0 s.toList))
                (String.mk (specSegment 1 s.toList)) (String.mk (specSegment 2 s.toList)))
              eventTasks (String.mk (specSegment 0 s.toList))
              (String.mk (specSegment 1 s.toList)) (String.mk (specSegment 2 s.toList)) =
                .ok eventTask →
            Client.handler eenv eventTasks id now w event =
              Client.enqueueTask eenv id now
                { w with trace := w.trace ++
                  [Call.eventTask (String.mk (specSegment 0 s.toList))
                    (String.mk (specSegment 1 s.toList))
                    (String.mk (specSegment 2 s.toList))] }
                eventTask)))) := by
  refine ⟨?_, ?_⟩
  · intro hct
    unfold Client.handler
    rw [if_pos hct]
  · intro hct
    refine ⟨?_, ?_⟩
    · intro e hu
      unfold Client.handler
      rw [if_neg (by simp [hct])]
      simp only [hu]
    · intro data hu
      refine ⟨?_, ?_⟩
      · intro hk
        have hkey : data eventDataKey = none := hk
        unfold Client.handler
        rw [if_neg (by simp [hct])]
        simp only [hu, hkey]
      · intro s hk
        have h := Client.handler_string_key eenv eventTasks id now w event data s hct hu hk
        refine ⟨?_, h.1, h.2⟩
        cases hl : Storage.EventTaskByKey
            (eenv.eventTask (String.mk (specSegment 0 s.toList))
              (String.mk (specSegment 1 s.toList)) (String.mk (specSegment 2 s.toList)))
            eventTasks (String.mk (specSegment 0 s.toList))
            (String.mk (specSegment 1 s.toList)) (String.mk (specSegment 2 s.toList)) with
        | error e =>
          rw [h.1 e hl]
        | ok eventTask =>
          rw [h.2 eventTask hl]
          exact Client.enqueueTask_trace eenv id now
            { w with trace := w.trace ++
              [Call.eventTask (String.mk (specSegment 0 s.toList))
                (String.mk (specSegment 1 s.toList))
                (String.mk (specSegment 2 s.toList))] }
            eventTask

/-- The sample event with the key "k1,ns1,sc1,more": the binding is looked
up with the key "k1", the namespace "ns1" and the scope "sc1". -/
theorem Client.handler_key_parsing_witness :
    (String.mk (specSegment 0 "k1,ns1,sc1,more".toList) = "k1" ∧
      String.mk (specSegment 1 "k1,ns1,sc1,more".toList) = "ns1" ∧
      String.mk (specSegment 2 "k1,ns1,sc1,more".toList) = "sc1") ∧
    (sampleEventWorld.trace ++ [Call.eventTask
        (String.mk (specSegment 0 "k1,ns1,sc1,more".toList))
        (String.mk (specSegment 1 "k1,ns1,sc1,more".toList))
        (String.mk (specSegment 2 "k1,ns1,sc1,more".toList))] <+:
      (Client.handler sampleEventEnv sampleEventTasks "id1" 7 sampleEventWorld
        sampleEvent).1.trace) :=
  ⟨by decide,
    ((((Client.handler_key_parsing sampleEventEnv sampleEventTasks "id1" 7 sampleEventWorld
      sampleEvent).2 rfl).2 (sampleFields "k1,ns1,sc1,more") rfl).2 "k1,ns1,sc1,more" rfl).1⟩

/-- C27. The handler with a binding resolved: it goes on with `enqueueTask`
for the binding. There, the template of the binding found: with an empty
request policy the error "event task must execute a policy" is returned and
the queue stays as it is; otherwise, the binding marshalling to `input`,
exactly one task is added at the end of the queue: the template with a new
id, state Created, the creation time and the request `input`, every other
field (policies, cache namespace and scope among them) being the one of the
template; if the insert fails, the queue stays as it is and the error is
returned. -/
theorem Client.event_task_materialisation (eenv : EventEnv) (id : String) (now : Time)
    (eventTask : EventTask) :
    (∀ (eventTasks : List EventTask) (w : World) (event : CloudEvent)
        (data : String → Option JSONField) (s : String),
      event.DataContentType = "application/json" →
      eenv.jsonUnmarshal event.Data = .ok data →
      data "key" = some (JSONField.string s) →
      Storage.EventTaskByKey
        (eenv.eventTask (String.mk (specSegment 0 s.toList)) (String.mk (specSegment 1 s.toList))
          (String.mk (specSegment 2 s.toList)))
        eventTasks (String.mk (specSegment 0 s.toList)) (String.mk (specSegment 1 s.toList))
        (String.mk (specSegment 2 s.toList)) = .ok eventTask →
      Client.handler eenv eventTasks id now w event =
        Client.enqueueTask eenv id now
          { w with trace := w.trace ++ [Call.eventTask (String.mk (specSegment 0 s.toList))
            (String.mk (specSegment 1 s.toList)) (String.mk (specSegment 2 s.toList))] }
          eventTask) ∧
    (∀ (w : World) (template : Task),
      Storage.TaskTemplate (eenv.taskTemplate eventTask.TaskName) w.taskTemplates
        eventTask.TaskName = .ok template →
      (template.RequestPolicy = "" →
        Client.enqueueTask eenv id now w eventTask =
          ({ w with trace := w.trace ++ [Call.taskTemplate eventTask.TaskName] },
            some ⟨Kind.Unknown, "event task must execute a policy"⟩)) ∧
      (template.RequestPolicy ≠ "" → ∀ input, eenv.jsonMarshal eventTask = .ok input →
        (eenv.add { template with ID := id, State := Created, CreatedAt := now,
                                  Request := input } = none →
          Client.enqueueTask eenv id now w eventTask =
            ({ w with
                tasks := w.tasks ++ [{ template with ID := id, State := Created,
                                                     CreatedAt := now, Request := input }],
                trace := w.trace ++ [Call.taskTemplate eventTask.TaskName] ++
                  [Call.add { template with ID := id, State := Created, CreatedAt := now,
                                            Request := input }] },
              none)) ∧
        (∀ e, eenv.add { template with ID := id, State := Created, CreatedAt := now,
                                       Request := input } = some e →
          Client.enqueueTask eenv id now w eventTask =
            ({ w with
                trace := w.trace ++ [Call.taskTemplate eventTask.TaskName] ++
                  [Call.add { template with ID := id, State := Created, CreatedAt := now,
                                            Request := input }] },
              some (Error.wrap "failed to create task" e))))) := by
  refine ⟨?_, ?_⟩
  · intro eventTasks w event data s hct hu hk hl
    exact (Client.handler_string_key eenv eventTasks id now w event data s hct hu hk).2
      eventTask hl
  · intro w template ht
    refine ⟨?_, ?_⟩
    · intro hp
      unfold Client.enqueueTask
      simp only [ht]
      rw [if_pos hp]
    · intro hp input hm
      refine ⟨?_, ?_⟩
      · intro ha
        unfold Client.enqueueTask
        simp only [ht]
        rw [if_neg hp]
        simp only [hm, ha, Storage.Add, Mongo.insertOne]
      · intro e ha
        unfold Client.enqueueTask
        simp only [ht]
        rw [if_neg hp]
        simp only [hm, ha, Storage.Add]

/-- The sample event with the key "k2" resolves to a binding whose template
calls a URL: an error and an empty queue. The binding of "k1" resolves to a
policy template: one Created task whose request is the marshalled binding. -/
theorem Client.event_task_materialisation_witness :
    Client.enqueueTask sampleEventEnv "id1" 7 sampleEventWorld
        { Key := "k2", Namespace := "", Scope := "", TaskName := "th" } =
      ({ sampleEventWorld with trace := sampleEventWorld.trace ++ [Call.taskTemplate "th"] },
        some ⟨Kind.Unknown, "event task must execute a policy"⟩) ∧
    Client.enqueueTask sampleEventEnv "id1" 7 sampleEventWorld
        { Key := "k1", Namespace := "ns1", Scope := "sc1", TaskName := "ta" } =
      ({ sampleEventWorld with
          tasks := sampleEventWorld.tasks ++
            [{ sampleTemplateA with ID := "id1", State := Created, CreatedAt := 7,
                                    Request := [2, 3, 3, 2] }],
          trace := sampleEventWorld.trace ++ [Call.taskTemplate "ta"] ++
            [Call.add { sampleTemplateA with ID := "id1", State := Created, CreatedAt := 7,
                                             Request := [2, 3, 3, 2] }] },
        none) :=
  ⟨((Client.event_task_materialisation sampleEventEnv "id1" 7
      { Key := "k2", Namespace := "", Scope := "", TaskName := "th" }).2
      sampleEventWorld sampleURLTemplate (by decide)).1 (by decide),
   (((Client.event_task_materialisation sampleEventEnv "id1" 7
      { Key := "k1", Namespace := "ns1", Scope := "sc1", TaskName := "ta" }).2
      sampleEventWorld sampleTemplateA (by decide)).2 (by decide) [2, 3, 3, 2] (by decide)).1
      rfl⟩

/-! ### History of the tasks of a group -/

/-- A sequential group whose first fetched task fails, after the loop: the
group is Failed, every task is recorded as Failed, and the world is the one
at the entry of the loop with the calls of the first task added to the trace. -/
theorem ListExecutor.sequentialLoop_first_fails (env : Env) (lenv : ListEnv) (w : World)
    (group : Group) (tk : Task) (suf : List Task) (e : Error)
    (hk : (ListExecutor.runTask env lenv group.Request tk).err = some e) :
    (ListExecutor.sequentialLoop env lenv w group (tk :: suf)).group =
      { group with State := Failed } ∧
    (ListExecutor.sequentialLoop env lenv w group (tk :: suf)).tasks =
      { (ListExecutor.runTask env lenv group.Request tk).task with State := Failed } ::
        suf.map (fun t => { t with State := Failed }) ∧
    (ListExecutor.sequentialLoop env lenv w group (tk :: suf)).world =
      { w with trace := w.trace ++ [Call.getGroupTasks { group with State := Pending }] ++
          (ListExecutor.runTask env lenv group.Request tk).calls ++
          [Call.logError "error executing task"] } := by
  have hP : (GroupRun.init w group).group.State ≠ Failed := Pending_ne_Failed
  have hstep := ListExecutor.sequentialStep_fail env lenv (GroupRun.init w group) tk hP e hk
  unfold ListExecutor.sequentialLoop
  rw [List.foldl_cons, hstep, ListExecutor.sequential_foldl_failed env lenv suf _ rfl]
  exact ⟨rfl, rfl, rfl⟩

/-- C28, what the code does instead. A sequential group whose first fetched
task fails in its execution, the removal of the rows succeeding: every task
of the group ends Failed (the first by its own error, the others skipped),
the task history is the one before the group ran (no record of the group is
saved), and the rows of the group are removed from the queue. In a parallel
group an execution that fails records its task as Failed and leaves the
history as it is. -/
theorem ListExecutor.failed_tasks_not_saved (env : Env) (lenv : ListEnv) (w : World)
    (group : Group) (tk : Task) (suf : List Task)
    (hfetch : Storage.GetGroupTasks (lenv.getGroupTasks { group with State := Pending }) w.tasks
      { group with State := Pending } = .ok (tk :: suf))
    (hk : (ListExecutor.runTask env lenv group.Request tk).err ≠ none)
    (hack : lenv.ackGroupTasks { group with State := Failed } = none) :
    ((ListExecutor.executeSequential env lenv w group).tasks =
      { (ListExecutor.runTask env lenv group.Request tk).task with State := Failed } ::
        suf.map (fun t => { t with State := Failed }) ∧
     (∀ t ∈ (ListExecutor.executeSequential env lenv w group).tasks, t.State = Failed) ∧
     (ListExecutor.executeSequential env lenv w group).world.tasksHistory = w.tasksHistory ∧
     (ListExecutor.executeSequential env lenv w group).world.tasks =
       Mongo.deleteMany (fun d => d.GroupID == group.ID) w.tasks) ∧
    (∀ (run : GroupRun) (t : Task),
      (ListExecutor.runTask env lenv run.group.Request t).err ≠ none →
      (ListExecutor.parallelStep env lenv run t).tasks = run.tasks ++
        [{ (ListExecutor.runTask env lenv run.group.Request t).task with State := Failed }] ∧
      (ListExecutor.parallelStep env lenv run t).world.tasksHistory =
        run.world.tasksHistory) := by
  refine ⟨?_, ?_⟩
  · cases he : (ListExecutor.runTask env lenv group.Request tk).err with
    | none => exact absurd he hk
    | some e =>
      obtain ⟨l1, l2, l3⟩ := ListExecutor.sequentialLoop_first_fails env lenv w group tk suf e he
      rw [ListExecutor.executeSequential_of_fetch env lenv w group (tk :: suf) hfetch]
      have hf := (ListExecutor.finishGroup_spec lenv
        (ListExecutor.sequentialLoop env lenv w group (tk :: suf))).1
      have hackg : lenv.ackGroupTasks
          (ListExecutor.sequentialLoop env lenv w group (tk :: suf)).group = none := by
        rw [l1]; exact hack
      refine ⟨by rw [hf, l2], ?_, ?_, ?_⟩
      · intro t ht
        rw [hf, l2] at ht
        rcases List.mem_cons.mp ht with h | h
        · rw [h]
        · obtain ⟨u, _, hu⟩ := List.mem_map.mp h
          rw [← hu]
      · unfold ListExecutor.finishGroup
        simp only [hackg, Storage.AckGroupTasks]
        rw [l3]
      · unfold ListExecutor.finishGroup
        simp only [hackg, Storage.AckGroupTasks]
        rw [l1, l3]
  · intro run t hk
    cases he : (ListExecutor.runTask env lenv run.group.Request t).err with
    | none => exact absurd he hk
    | some e =>
      rw [ListExecutor.parallelStep_fail env lenv run t e he]
      exact ⟨rfl, rfl⟩

/-- The first group of the created sample list, with a policy engine that
fails on the first task: both tasks end Failed, the history stays empty,
and the queue keeps only the row of the second group. -/
theorem ListExecutor.failed_tasks_not_saved_witness :
    (∀ t ∈ (ListExecutor.executeSequential policyDownEnv sampleListEnv sampleCreatedWorld
      sampleGroup0).tasks, t.State = Failed) ∧
    (ListExecutor.executeSequential policyDownEnv sampleListEnv sampleCreatedWorld
      sampleGroup0).world.tasksHistory = sampleCreatedWorld.tasksHistory ∧
    sampleCreatedWorld.tasksHistory = [] ∧
    (ListExecutor.executeSequential policyDownEnv sampleListEnv sampleCreatedWorld
      sampleGroup0).world.tasks =
      Mongo.deleteMany (fun d => d.GroupID == sampleGroup0.ID) sampleCreatedWorld.tasks :=
  ⟨(ListExecutor.failed_tasks_not_saved policyDownEnv sampleListEnv sampleCreatedWorld
      sampleGroup0 sampleTaskA [sampleTaskB] (by decide) (by decide) (by decide)).1.2.1,
   (ListExecutor.failed_tasks_not_saved policyDownEnv sampleListEnv sampleCreatedWorld
      sampleGroup0 sampleTaskA [sampleTaskB] (by decide) (by decide) (by decide)).1.2.2.1,
   by decide,
   (ListExecutor.failed_tasks_not_saved policyDownEnv sampleListEnv sampleCreatedWorld
      sampleGroup0 sampleTaskA [sampleTaskB] (by decide) (by decide) (by decide)).1.2.2.2⟩

/-! ### What the list executor writes -/

/-- A step of a sequential group leaves the queue, the list queue and the
list history as they are. -/
theorem ListExecutor.sequentialStep_frame (env : Env) (lenv : ListEnv) (run : GroupRun)
    (task : Task) :
    (ListExecutor.sequentialStep env lenv run task).world.tasks = run.world.tasks ∧
    (ListExecutor.sequentialStep env lenv run task).world.taskLists = run.world.taskLists ∧
    (ListExecutor.sequentialStep env lenv run task).world.taskListHistory =
      run.world.taskListHistory := by
  unfold ListExecutor.sequentialStep
  split
  · exact ⟨rfl, rfl, rfl⟩
  · simp only []
    split
    · exact ⟨rfl, rfl, rfl⟩
    · split
      · exact ⟨rfl, rfl, rfl⟩
      · split <;> exact ⟨rfl, rfl, rfl⟩

/-- A step of a parallel group leaves the queue, the list queue and the list
history as they are. -/
theorem ListExecutor.parallelStep_frame (env : Env) (lenv : ListEnv) (run : GroupRun)
    (task : Task) :
    (ListExecutor.parallelStep env lenv run task).world.tasks = run.world.tasks ∧
    (ListExecutor.parallelStep env lenv run task).world.taskLists = run.world.taskLists ∧
    (ListExecutor.parallelStep env lenv run task).world.taskListHistory =
      run.world.taskListHistory := by
  unfold ListExecutor.parallelStep
  simp only []
  split
  · exact ⟨rfl, rfl, rfl⟩
  · split
    · exact ⟨rfl, rfl, rfl⟩
    · split <;> exact ⟨rfl, rfl, rfl⟩

/-- The loop of a sequential group leaves the queue, the list queue and the
list history as they are. -/
theorem ListExecutor.sequential_foldl_frame (env : Env) (lenv : ListEnv) (ts : List Task) :
    ∀ run : GroupRun,
      (ts.foldl (ListExecutor.sequentialStep env lenv) run).world.tasks = run.world.tasks ∧
      (ts.foldl (ListExecutor.sequentialStep env lenv) run).world.taskLists =
        run.world.taskLists ∧
      (ts.foldl (ListExecutor.sequentialStep env lenv) run).world.taskListHistory =
        run.world.taskListHistory := by
  induction ts with
  | nil => intro run; exact ⟨rfl, rfl, rfl⟩
  | cons t ts ih =>
    intro run
    obtain ⟨a1, a2, a3⟩ := ListExecutor.sequentialStep_frame env lenv run t
    obtain ⟨b1, b2, b3⟩ := ih (ListExecutor.sequentialStep env lenv run t)
    rw [List.foldl_cons]
    exact ⟨b1.trans a1, b2.trans a2, b3.trans a3⟩

/-- The executions of a parallel group leave the queue, the list queue and
the list history as they are. -/
theorem ListExecutor.parallel_foldl_frame (env : Env) (lenv : ListEnv) (ts : List Task) :
    ∀ run : GroupRun,
      (ts.foldl (ListExecutor.parallelStep env lenv) run).world.tasks = run.world.tasks ∧
      (ts.foldl (ListExecutor.parallelStep env lenv) run).world.taskLists =
        run.world.taskLists ∧
      (ts.foldl (ListExecutor.parallelStep env lenv) run).world.taskListHistory =
        run.world.taskListHistory := by
  induction ts with
  | nil => intro run; exact ⟨rfl, rfl, rfl⟩
  | cons t ts ih =>
    intro run
    obtain ⟨a1, a2, a3⟩ := ListExecutor.parallelStep_frame env lenv run t
    obtain ⟨b1, b2, b3⟩ := ih (ListExecutor.parallelStep env lenv run t)
    rw [List.foldl_cons]
    exact ⟨b1.trans a1, b2.trans a2, b3.trans a3⟩

/-- The end of a group only removes records from the queue, and leaves the
list queue and the list history as they are. -/
theorem ListExecutor.finishGroup_frame (lenv : ListEnv) (run : GroupRun) :
    (∀ d ∈ (ListExecutor.finishGroup lenv run).world.tasks, d ∈ run.world.tasks) ∧
    (ListExecutor.finishGroup lenv run).world.taskLists = run.world.taskLists ∧
    (ListExecutor.finishGroup lenv run).world.taskListHistory = run.world.taskListHistory := by
  unfold ListExecutor.finishGroup Storage.AckGroupTasks
  cases lenv.ackGroupTasks run.group with
  | some e => exact ⟨fun d hd => hd, rfl, rfl⟩
  | none =>
    refine ⟨?_, rfl, rfl⟩
    intro d hd
    exact (List.mem_filter.mp hd).1

/-- The execution of a group only removes records from the queue, and leaves
the list queue and the list history as they are. -/
theorem ListExecutor.executeGroup_frame (env : Env) (lenv : ListEnv) (w : World)
    (group : Group) :
    (∀ d ∈ (ListExecutor.executeGroup env lenv w group).world.tasks, d ∈ w.tasks) ∧
    (ListExecutor.executeGroup env lenv w group).world.taskLists = w.taskLists ∧
    (ListExecutor.executeGroup env lenv w group).world.taskListHistory = w.taskListHistory := by
  unfold ListExecutor.executeGroup
  split
  · unfold ListExecutor.executeSequential
    simp only []
    split
    · exact ⟨fun d hd => hd, rfl, rfl⟩
    · rename_i tasks _
      obtain ⟨f1, f2, f3⟩ := ListExecutor.finishGroup_frame lenv
        (tasks.foldl (ListExecutor.sequentialStep env lenv)
          { group := { group with State := Pending }, req := group.Request,
            state := ⟨none, none, []⟩, tasks := [],
            world := { w with trace := w.trace ++
              [Call.getGroupTasks { group with State := Pending }] } })
      obtain ⟨l1, l2, l3⟩ := ListExecutor.sequential_foldl_frame env lenv tasks
          { group := { group with State := Pending }, req := group.Request,
            state := ⟨none, none, []⟩, tasks := [],
            world := { w with trace := w.trace ++
              [Call.getGroupTasks { group with State := Pending }] } }
      refine ⟨?_, f2.trans l2, f3.trans l3⟩
      intro d hd
      have := f1 d hd
      rw [l1] at this
      exact this
  · split
    · unfold ListExecutor.executeParallel
      simp only []
      split
      · exact ⟨fun d hd => hd, rfl, rfl⟩
      · rename_i tasks _
        obtain ⟨f1, f2, f3⟩ := ListExecutor.finishGroup_frame lenv
          ((lenv.schedule tasks).foldl (ListExecutor.parallelStep env lenv)
            { group := { group with State := Pending }, req := group.Request,
              state := ⟨none, none, []⟩, tasks := [],
              world := { w with trace := w.trace ++
                [Call.getGroupTasks { group with State := Pending }] } })
        obtain ⟨l1, l2, l3⟩ := ListExecutor.parallel_foldl_frame env lenv (lenv.schedule tasks)
            { group := { group with State := Pending }, req := group.Request,
              state := ⟨none, none, []⟩, tasks := [],
              world := { w with trace := w.trace ++
                [Call.getGroupTasks { group with State := Pending }] } }
        refine ⟨?_, f2.trans l2, f3.trans l3⟩
        intro d hd
        have := f1 d hd
        rw [l1] at this
        exact this
    · exact ⟨fun d hd => hd, rfl, rfl⟩

/-- A step of the loop of `Execute` only removes records from the queue, and
leaves the list queue and the list history as they are. -/
theorem ListExecutor.groupStep_frame (env : Env) (lenv : ListEnv) (run : ListRun)
    (group : Group) :
    (∀ d ∈ (ListExecutor.groupStep env lenv run group).world.tasks, d ∈ run.world.tasks) ∧
    (ListExecutor.groupStep env lenv run group).world.taskLists = run.world.taskLists ∧
    (ListExecutor.groupStep env lenv run group).world.taskListHistory =
      run.world.taskListHistory := by
  obtain ⟨f1, f2, f3⟩ := ListExecutor.executeGroup_frame env lenv run.world group
  unfold ListExecutor.groupStep
  split
  · exact ⟨fun d hd => hd, rfl, rfl⟩
  · simp only []
    split
    · exact ⟨f1, f2, f3⟩
    · split
      · exact ⟨f1, f2, f3⟩
      · exact ⟨f1, f2, f3⟩

/-- The loop of `Execute` only removes records from the queue, and leaves
the list queue and the list history as they are. -/
theorem ListExecutor.groupStep_foldl_frame (env : Env) (lenv : ListEnv) (gs : List Group) :
    ∀ run : ListRun,
      (∀ d ∈ (gs.foldl (ListExecutor.groupStep env lenv) run).world.tasks,
        d ∈ run.world.tasks) ∧
      (gs.foldl (ListExecutor.groupStep env lenv) run).world.taskLists = run.world.taskLists ∧
      (gs.foldl (ListExecutor.groupStep env lenv) run).world.taskListHistory =
        run.world.taskListHistory := by
  induction gs with
  | nil => intro run; exact ⟨fun d hd => hd, rfl, rfl⟩
  | cons g gs ih =>
    intro run
    obtain ⟨a1, a2, a3⟩ := ListExecutor.groupStep_frame env lenv run g
    obtain ⟨b1, b2, b3⟩ := ih (ListExecutor.groupStep env lenv run g)
    rw [List.foldl_cons]
    exact ⟨fun d hd => a1 d (b1 d hd), b2.trans a2, b3.trans a3⟩

/-! ### `Execute` and a group that cannot be executed -/

/-- A group whose kind of execution is unknown, or whose tasks cannot be
fetched: `executeGroup` returns an error. -/
theorem ListExecutor.executeGroup_error (env : Env) (lenv : ListEnv) (w : World) (group : Group)
    (hbad : (group.Execution ≠ sequential ∧ group.Execution ≠ parallel) ∨
      lenv.getGroupTasks { group with State := Pending } ≠ none) :
    ∃ e, (ListExecutor.executeGroup env lenv w group).result = .error e := by
  unfold ListExecutor.executeGroup
  by_cases hs : group.Execution = sequential
  · rw [if_pos hs]
    rcases hbad with h | h
    · exact absurd hs h.1
    · cases hf : lenv.getGroupTasks { group with State := Pending } with
      | none => exact absurd hf h
      | some e =>
        refine ⟨e, ?_⟩
        unfold ListExecutor.executeSequential Storage.GetGroupTasks
        simp only [hf]
  · rw [if_neg hs]
    by_cases hp : group.Execution = parallel
    · rw [if_pos hp]
      rcases hbad with h | h
      · exact absurd hp h.2
      · cases hf : lenv.getGroupTasks { group with State := Pending } with
        | none => exact absurd hf h
        | some e =>
          refine ⟨e, ?_⟩
          unfold ListExecutor.executeParallel Storage.GetGroupTasks
          simp only [hf]
    · rw [if_neg hp]
      exact ⟨_, rfl⟩

/-- The loop of `Execute` stops at a group for which `executeGroup` returns
an error, and a loop that has stopped stays stopped. -/
theorem ListExecutor.groupStep_panicked (env : Env) (lenv : ListEnv) (run : ListRun)
    (group : Group) :
    (run.panicked = true → (ListExecutor.groupStep env lenv run group).panicked = true) ∧
    (((group.Execution ≠ sequential ∧ group.Execution ≠ parallel) ∨
        lenv.getGroupTasks { group with State := Pending } ≠ none) →
      (ListExecutor.groupStep env lenv run group).panicked = true) := by
  refine ⟨?_, ?_⟩
  · intro hp
    unfold ListExecutor.groupStep
    rw [if_pos hp]
    exact hp
  · intro hbad
    obtain ⟨e, he⟩ := ListExecutor.executeGroup_error env lenv run.world group hbad
    unfold ListExecutor.groupStep
    split
    · rename_i hp; exact hp
    · simp only [he]

/-- The loop of `Execute` over groups of which one cannot be executed stops. -/
theorem ListExecutor.groupStep_foldl_panicked (env : Env) (lenv : ListEnv) (gs : List Group) :
    ∀ run : ListRun,
      (run.panicked = true ∨
        ∃ g ∈ gs, (g.Execution ≠ sequential ∧ g.Execution ≠ parallel) ∨
          lenv.getGroupTasks { g with State := Pending } ≠ none) →
      (gs.foldl (ListExecutor.groupStep env lenv) run).panicked = true := by
  induction gs with
  | nil =>
    intro run h
    rcases h with h | ⟨g, hg, _⟩
    · exact h
    · cases hg
  | cons g gs ih =>
    intro run h
    rw [List.foldl_cons]
    apply ih
    rcases h with h | ⟨g', hg', hbad⟩
    · exact Or.inl ((ListExecutor.groupStep_panicked env lenv run g).1 h)
    · rcases List.mem_cons.mp hg' with heq | hmem
      · subst heq
        exact Or.inl ((ListExecutor.groupStep_panicked env lenv run g').2 hbad)
      · exact Or.inr ⟨g', hmem, hbad⟩

/-- C29, what the code does instead. A list with a group for which
`executeGroup` returns an error (its kind of execution is neither
"sequential" nor "parallel", or its tasks cannot be fetched): the run of
`Execute` stops on the nil group status; it does not return, the list is not
saved to the history and it is not removed from the list queue. -/
theorem ListExecutor.Execute_group_error (env : Env) (lenv : ListEnv) (started finished : Time)
    (w : World) (list : TaskList)
    (hbad : ∃ g ∈ list.Groups, (g.Execution ≠ sequential ∧ g.Execution ≠ parallel) ∨
      lenv.getGroupTasks { g with State := Pending } ≠ none) :
    ∃ (w' : World) (list' : TaskList),
      ListExecutor.Execute env lenv started finished w list = ExecuteResult.panicked w' list' ∧
      w'.taskListHistory = w.taskListHistory ∧
      w'.taskLists = w.taskLists := by
  have hp := ListExecutor.groupStep_foldl_panicked env lenv list.Groups
    { world := w, listState := Pending, groups := [], state := [], panicked := false }
    (Or.inr hbad)
  obtain ⟨_, f2, f3⟩ := ListExecutor.groupStep_foldl_frame env lenv list.Groups
    { world := w, listState := Pending, groups := [], state := [], panicked := false }
  refine ⟨(list.Groups.foldl (ListExecutor.groupStep env lenv)
      { world := w, listState := Pending, groups := [], state := [], panicked := false }).world,
    { list with
      State := (list.Groups.foldl (ListExecutor.groupStep env lenv)
        { world := w, listState := Pending, groups := [], state := [],
          panicked := false }).listState,
      StartedAt := started,
      Groups := (list.Groups.foldl (ListExecutor.groupStep env lenv)
        { world := w, listState := Pending, groups := [], state := [],
          panicked := false }).groups },
    ?_, f3, f2⟩
  unfold ListExecutor.Execute
  simp only []
  rw [if_pos hp]

/-- The sample list with a group of execution "serial" in front: the run of
`Execute` stops, and the list record stays in the list queue. -/
theorem ListExecutor.Execute_group_error_witness :
    ∃ (w' : World) (list' : TaskList),
      ListExecutor.Execute sampleEnv sampleListEnv 20 30 sampleCreatedWorld sampleUnknownList =
        ExecuteResult.panicked w' list' ∧
      w'.taskListHistory = sampleCreatedWorld.taskListHistory ∧
      w'.taskLists = sampleCreatedWorld.taskLists :=
  ListExecutor.Execute_group_error sampleEnv sampleListEnv 20 30 sampleCreatedWorld
    sampleUnknownList ⟨sampleUnknownGroup, by decide, Or.inl (by decide)⟩

/-! ### States of the records of the live queue -/

/-- A record in state Created is in a live state. -/
theorem Task.live_of_created {d : Task} (h : d.State = Created) : d.live :=
  ⟨Or.inl h, fun _ => h⟩

/-- A live state is neither Done nor Failed. -/
theorem Task.live_not_terminal {d : Task} (h : d.live) : d.State ≠ Done ∧ d.State ≠ Failed := by
  rcases h.1 with h | h <;> rw [h] <;> exact ⟨by decide, by decide⟩

/-- `Poll` keeps the states of the queue live: it sets Pending a record that
is Created and of no group. -/
theorem Storage.Poll_live (fault : Option Error) (tasks : List Task)
    (hq : ∀ d ∈ tasks, d.live) : ∀ d ∈ (Storage.Poll fault tasks).2, d.live := by
  intro d hd
  cases hr : Storage.Poll fault tasks with
  | mk r tasks' =>
    rw [hr] at hd
    cases r with
    | error e =>
      have := Storage.Poll_error hr
      subst this
      exact hq d hd
    | ok t =>
      obtain ⟨i, x, hget, hpf, _, _, rfl⟩ := Storage.Poll_ok hr
      rcases List.mem_or_eq_of_mem_set hd with hd | rfl
      · exact hq d hd
      · have hg : x.GroupID = "" := by
          unfold Storage.pollFilter at hpf
          simp only [Bool.and_eq_true, beq_iff_eq] at hpf
          exact hpf.2
        exact ⟨Or.inr rfl, fun h => absurd hg h⟩

/-- `Ack` keeps the states of the queue live. -/
theorem Storage.Ack_live (fault : Option Error) (tasks : List Task) (t : Task)
    (hq : ∀ d ∈ tasks, d.live) : ∀ d ∈ (Storage.Ack fault tasks t).1, d.live := by
  intro d hd
  cases fault with
  | some e => exact hq d hd
  | none => exact hq d (Mongo.mem_deleteOne hd)

/-- `Unack` keeps the states of the queue live: it sets a record Created. -/
theorem Storage.Unack_live (fault : Option Error) (tasks : List Task) (t : Task)
    (hq : ∀ d ∈ tasks, d.live) : ∀ d ∈ (Storage.Unack fault tasks t).1, d.live := by
  intro d hd
  cases fault with
  | some e => exact hq d hd
  | none =>
    rcases Mongo.mem_updateOne hd with hd | ⟨x, _, _, rfl⟩
    · exact hq d hd
    · exact Task.live_of_created rfl

/-- One queue call that inserts only Created tasks keeps the states of the
queue live. -/
theorem QueueOp.apply_live (tasks : List Task) (op : QueueOp)
    (hq : ∀ d ∈ tasks, d.live)
    (hadd : ∀ fault task, op = QueueOp.add fault task → task.State = Created)
    (hmany : ∀ fault ts, op = QueueOp.insertMany fault ts → ∀ t ∈ ts, t.State = Created) :
    ∀ d ∈ QueueOp.apply tasks op, d.live := by
  intro d hd
  cases op with
  | add fault task =>
    cases fault with
    | some e => exact hq d hd
    | none =>
      simp only [QueueOp.apply, Storage.Add, Mongo.insertOne, List.mem_append,
        List.mem_singleton] at hd
      rcases hd with hd | rfl
      · exact hq d hd
      · exact Task.live_of_created (hadd none d rfl)
  | insertMany fault ts =>
    cases fault with
    | some e => exact hq d hd
    | none =>
      simp only [QueueOp.apply, Mongo.insertMany, List.mem_append] at hd
      rcases hd with hd | hd
      · exact hq d hd
      · exact Task.live_of_created (hmany none ts rfl d hd)
  | poll fault => exact Storage.Poll_live fault tasks hq d hd
  | ack fault task => exact Storage.Ack_live fault tasks task hq d hd
  | unack fault task => exact Storage.Unack_live fault tasks task hq d hd
  | ackGroupTasks fault group =>
    cases fault with
    | some e => exact hq d hd
    | none =>
      simp only [QueueOp.apply, Storage.AckGroupTasks, Mongo.deleteMany] at hd
      exact hq d (List.mem_filter.mp hd).1

/-- A sequence of queue calls that insert only Created tasks keeps the
states of the queue live. -/
theorem QueueOp.calls_live (ops : List QueueOp) :
    ∀ tasks : List Task, (∀ d ∈ tasks, d.live) →
      (∀ op ∈ ops, (∀ fault task, op = QueueOp.add fault task → task.State = Created) ∧
        (∀ fault ts, op = QueueOp.insertMany fault ts → ∀ t ∈ ts, t.State = Created)) →
      ∀ d ∈ QueueOp.run tasks ops, d.live := by
  induction ops with
  | nil => intro tasks hq _; simpa [QueueOp.run] using hq
  | cons op ops ih =>
    intro tasks hq hops
    have h1 := QueueOp.apply_live tasks op hq (hops op (List.mem_cons_self _ _)).1
      (hops op (List.mem_cons_self _ _)).2
    have h2 := ih (QueueOp.apply tasks op) h1 (fun o ho => hops o (List.mem_cons_of_mem _ ho))
    simpa [QueueOp.run] using h2

/-- What a task submission can do to the queue: nothing, or add one task in
state Created. -/
theorem Service.Create_adds_created (env : Env) (templateFault addFault : Option Error)
    (id : String) (now : Time) (w : World) (req : CreateTaskRequest) :
    (Service.Create env templateFault addFault id now w req).1.tasks = w.tasks ∨
    ∃ task, task.State = Created ∧
      (Service.Create env templateFault addFault id now w req).1.tasks = w.tasks ++ [task] := by
  unfold Service.Create
  by_cases hn : req.TaskName = ""
  · simp [hn]
  · rw [if_neg hn]
    simp only []
    cases ht : Storage.TaskTemplate templateFault w.taskTemplates req.TaskName with
    | error e => simp
    | ok template =>
      cases hj : env.jsonMarshal req.Data with
      | error e => simp
      | ok taskRequest =>
        cases addFault with
        | some e => simp [Storage.Add]
        | none =>
          refine Or.inr ?_
          simp only [Storage.Add, Mongo.insertOne]
          refine ⟨_, ?_, rfl⟩
          cases req.CacheNamespace <;> cases req.CacheScope <;> simp only [] <;>
            (repeat' split) <;> rfl

/-- What the event client can do to the queue: nothing, or add one task in
state Created. -/
theorem Client.enqueueTask_queue_cases (eenv : EventEnv) (id : String) (now : Time) (w : World)
    (eventTask : EventTask) :
    (Client.enqueueTask eenv id now w eventTask).1.tasks = w.tasks ∨
    ∃ task, task.State = Created ∧
      (Client.enqueueTask eenv id now w eventTask).1.tasks = w.tasks ++ [task] := by
  unfold Client.enqueueTask
  simp only []
  cases ht : Storage.TaskTemplate (eenv.taskTemplate eventTask.TaskName) w.taskTemplates
      eventTask.TaskName with
  | error e => exact Or.inl rfl
  | ok template =>
    by_cases hp : template.RequestPolicy = ""
    · simp [hp]
    · simp only [hp, if_false]
      cases hm : eenv.jsonMarshal eventTask with
      | error e => exact Or.inl rfl
      | ok input =>
        cases ha : eenv.add { template with ID := id, State := Created, CreatedAt := now,
                                            Request := input } with
        | some e => simp [Storage.Add, ha]
        | none =>
          simp only [Storage.Add, ha, Mongo.insertOne]
          refine Or.inr ⟨_, ?_, rfl⟩
          rfl

/-- What the handler of an event can do to the queue: nothing, or add one
task in state Created. -/
theorem Client.handler_queue_cases (eenv : EventEnv) (eventTasks : List EventTask) (id : String)
    (now : Time) (w : World) (event : CloudEvent) :
    (Client.handler eenv eventTasks id now w event).1.tasks = w.tasks ∨
    ∃ task, task.State = Created ∧
      (Client.handler eenv eventTasks id now w event).1.tasks = w.tasks ++ [task] := by
  unfold Client.handler
  split
  · exact Or.inl rfl
  · split
    · exact Or.inl rfl
    · split
      · exact Or.inl rfl
      · simp only []
        split
        · exact Or.inl rfl
        · split
          · exact Or.inl rfl
          · exact Client.enqueueTask_queue_cases eenv id now _ _

/-- The tasks `createTasks` builds are in state Created. -/
theorem tasklist.createTasks_created (fresh : Fresh) (t : TaskList) (templates : TemplateMap)
    (tasks : List Task) (hc : tasklist.createTasks fresh t templates = .ok tasks) :
    ∀ x ∈ tasks, x.State = Created := by
  obtain ⟨⟨parts, hflat, hparts⟩, _, _⟩ :=
    tasklist.createTasksFrom_ok fresh t templates t.Groups 0 tasks hc
  intro x hx
  rw [hflat] at hx
  obtain ⟨part, hpart, hxp⟩ := List.mem_flatten.mp hx
  obtain ⟨g, _, _, hg⟩ := forall₂_mem_right hparts part hpart
  obtain ⟨j, tpl, _, hxe⟩ := hg x hxp
  rw [hxe]
  exact (tasklist.createTask_spec fresh t g j x.Name tpl).2.2.2.1

/-- What a task-list submission can do to the queue: nothing, or add tasks
in state Created. -/
theorem tasklist.Create_queue_cases (env : Env) (templateFault templatesFault : Option Error)
    (faults : AddTaskListFaults) (fresh : Fresh) (w : World) (req : CreateTaskListRequest) :
    (tasklist.Create env templateFault templatesFault faults fresh w req).1.tasks = w.tasks ∨
    ∃ tasks, (∀ x ∈ tasks, x.State = Created) ∧
      (tasklist.Create env templateFault templatesFault faults fresh w req).1.tasks =
        w.tasks ++ tasks := by
  unfold tasklist.Create
  by_cases hn : req.TaskListName = ""
  · simp [hn]
  · rw [if_neg hn]
    simp only []
    cases ht : Storage.TaskListTemplate templateFault w.taskListTemplates req.TaskListName with
    | error e => simp
    | ok template =>
      simp only []
      cases hts : Storage.TaskTemplates templatesFault w.taskTemplates
          (tasklist.taskNamesFromTaskListTemplate template) with
      | error e => simp
      | ok templates =>
        simp only []
        cases hm : env.jsonMarshal req.Data with
        | error e => simp
        | ok data =>
          simp only []
          cases hc : tasklist.createTasks fresh (tasklist.newTaskList fresh template req data)
              templates with
          | error e => simp
          | ok tasks =>
            have hcr := tasklist.createTasks_created fresh _ templates tasks hc
            simp only []
            rcases Storage.AddTaskList_cases faults w.taskLists w.tasks
                (tasklist.newTaskList fresh template req data) tasks with
              ⟨h2, _, _, _, h1⟩ | ⟨⟨e, h2⟩, _, h1⟩
            · cases hr : Storage.AddTaskList faults w.taskLists w.tasks
                  (tasklist.newTaskList fresh template req data) tasks with
              | mk cols err =>
                rw [hr] at h1 h2
                simp only [] at h1 h2
                subst h1 h2
                exact Or.inr ⟨tasks, hcr, rfl⟩
            · cases hr : Storage.AddTaskList faults w.taskLists w.tasks
                  (tasklist.newTaskList fresh template req data) tasks with
              | mk cols err =>
                obtain ⟨lists, queue⟩ := cols
                rw [hr] at h1 h2
                simp only [] at h1 h2
                subst h1 h2
                exact Or.inl rfl

/-- A run of `Execute` only removes records from the queue. -/
theorem ListExecutor.Execute_queue (env : Env) (lenv : ListEnv) (started finished : Time)
    (w : World) (list : TaskList) :
    ∀ d ∈ (ListExecutor.Execute env lenv started finished w list).world.tasks, d ∈ w.tasks := by
  obtain ⟨f1, _, _⟩ := ListExecutor.groupStep_foldl_frame env lenv list.Groups
    { world := w, listState := Pending, groups := [], state := [], panicked := false }
  have hw : (ListExecutor.Execute env lenv started finished w list).world.tasks =
      (list.Groups.foldl (ListExecutor.groupStep env lenv)
        { world := w, listState := Pending, groups := [], state := [],
          panicked := false }).world.tasks := by
    unfold ListExecutor.Execute Storage.SaveTaskListHistory Storage.AckList
    simp only []
    split
    · rfl
    · simp only [ExecuteResult.world]
      (repeat' split) <;> rfl
  intro d hd
  rw [hw] at hd
  exact f1 d hd

/-- What the worker does to the queue keeps its states live. -/
theorem Worker.handle_live (env : Env) (maxTaskRetries : Int) (started finished : Time)
    (w : World) (t : Task) (hq : ∀ d ∈ w.tasks, d.live) :
    ∀ d ∈ (Worker.handle env maxTaskRetries started finished w t).tasks, d.live := by
  rcases Worker.handle_tasks_cases env maxTaskRetries started finished w t with
    h | ⟨fault, x, h⟩ | ⟨_, fault, x, _, h⟩
  · rw [h]; exact hq
  · rw [h]; exact Storage.Ack_live fault w.tasks x hq
  · rw [h]; exact Storage.Unack_live fault w.tasks x hq

/-- Every step of the scheduler keeps the states of the queue live. -/
theorem Scheduler.step_live (env : Env) (maxTaskRetries : Int) (s : ExecutorState)
    (hq : ∀ d ∈ s.world.tasks, d.live) (ev : SchedulerEvent) :
    ∀ d ∈ (Scheduler.step env maxTaskRetries s ev).world.tasks, d.live := by
  have happ : ∀ (tasks' : List Task),
      (tasks' = s.world.tasks ∨ ∃ task, task.State = Created ∧
        tasks' = s.world.tasks ++ [task]) → ∀ d ∈ tasks', d.live := by
    intro tasks' h d hd
    rcases h with h | ⟨task, hc, h⟩
    · rw [h] at hd; exact hq d hd
    · rw [h] at hd
      rcases List.mem_append.mp hd with hd | hd
      · exact hq d hd
      · rw [List.mem_singleton.mp hd]; exact Task.live_of_created hc
  cases ev with
  | executor ev =>
    cases ev with
    | tick fault =>
      have := Storage.Poll_live fault s.world.tasks hq
      simp only [Scheduler.step, Executor.step, Executor.tick]
      cases hr : Storage.Poll fault s.world.tasks with
      | mk r tasks' =>
        rw [hr] at this
        cases r with
        | error e => exact this
        | ok t => exact this
    | work i started finished =>
      simp only [Scheduler.step, Executor.step]
      cases hi : s.inflight[i]? with
      | none => exact hq
      | some t => exact Worker.handle_live env maxTaskRetries started finished s.world t hq
    | submit templateFault addFault id now req =>
      exact happ _ (Service.Create_adds_created env templateFault addFault id now s.world req)
  | createList templateFault templatesFault faults fresh req =>
    simp only [Scheduler.step]
    rcases tasklist.Create_queue_cases env templateFault templatesFault faults fresh s.world req
      with h | ⟨tasks, hc, h⟩
    · rw [h]; exact hq
    · rw [h]
      intro d hd
      rcases List.mem_append.mp hd with hd | hd
      · exact hq d hd
      · exact Task.live_of_created (hc d hd)
  | event eenv eventTasks id now ev =>
    exact happ _ (Client.handler_queue_cases eenv eventTasks id now s.world ev)
  | executeGroup lenv group =>
    intro d hd
    exact hq d ((ListExecutor.executeGroup_frame env lenv s.world group).1 d hd)
  | executeList lenv started finished list =>
    intro d hd
    exact hq d (ListExecutor.Execute_queue env lenv started finished s.world list d hd)

/-- Every run of the scheduler keeps the states of the queue live. -/
theorem Scheduler.run_live (env : Env) (maxTaskRetries : Int) (events : List SchedulerEvent) :
    ∀ s : ExecutorState, (∀ d ∈ s.world.tasks, d.live) →
      ∀ d ∈ (Scheduler.run env maxTaskRetries s events).world.tasks, d.live := by
  induction events with
  | nil => intro s hq; exact hq
  | cons ev events ih =>
    intro s hq
    have h1 := Scheduler.step_live env maxTaskRetries s hq ev
    have h2 := ih (Scheduler.step env maxTaskRetries s ev) h1
    simpa [Scheduler.run] using h2

/-- C30. The states of the records of the live queue. Starting from an empty
queue, after any sequence of `Add` and bulk inserts of tasks in state
Created, `Poll`, `Ack`, `Unack` and `AckGroupTasks`, with any arguments and
any driver faults, every stored record is Created or Pending, and Created if
it is a task of a group. The same holds after any run of the scheduler from
an empty queue (dispatcher ticks, workers, task and task-list submissions,
events, executions of groups and of lists), where no stored record is Done
or Failed. The loops over the tasks of a group leave the queue as it is, and
the execution of a group only removes records from it. -/
theorem Scheduler.queue_states (env : Env) (maxTaskRetries : Int) :
    (∀ ops : List QueueOp,
      (∀ op ∈ ops, (∀ fault task, op = QueueOp.add fault task → task.State = Created) ∧
        (∀ fault ts, op = QueueOp.insertMany fault ts → ∀ t ∈ ts, t.State = Created)) →
      ∀ d ∈ QueueOp.run [] ops,
        (d.State = Created ∨ d.State = Pending) ∧ d.State ≠ Done ∧ d.State ≠ Failed ∧
        (d.GroupID ≠ "" → d.State = Created)) ∧
    (∀ (s : ExecutorState) (events : List SchedulerEvent), s.world.tasks = [] →
      ∀ d ∈ (Scheduler.run env maxTaskRetries s events).world.tasks,
        (d.State = Created ∨ d.State = Pending) ∧ d.State ≠ Done ∧ d.State ≠ Failed ∧
        (d.GroupID ≠ "" → d.State = Created)) ∧
    (∀ (lenv : ListEnv) (w : World) (group : Group) (tasks : List Task),
      (ListExecutor.sequentialLoop env lenv w group tasks).world.tasks = w.tasks ∧
      (ListExecutor.parallelLoop env lenv w group tasks).world.tasks = w.tasks) ∧
    (∀ (lenv : ListEnv) (w : World) (group : Group),
      ∀ d ∈ (ListExecutor.executeGroup env lenv w group).world.tasks, d ∈ w.tasks) := by
  refine ⟨?_, ?_, ?_, ?_⟩
  · intro ops hops d hd
    have h := QueueOp.calls_live ops [] (by intro x hx; cases hx) hops d hd
    exact ⟨h.1, (Task.live_not_terminal h).1, (Task.live_not_terminal h).2, h.2⟩
  · intro s events hs d hd
    have h := Scheduler.run_live env maxTaskRetries events s
      (by intro x hx; rw [hs] at hx; cases hx) d hd
    exact ⟨h.1, (Task.live_not_terminal h).1, (Task.live_not_terminal h).2, h.2⟩
  · intro lenv w group tasks
    exact ⟨(ListExecutor.sequential_foldl_frame env lenv tasks (GroupRun.init w group)).1,
      (ListExecutor.parallel_foldl_frame env lenv tasks (GroupRun.init w group)).1⟩
  · intro lenv w group
    exact (ListExecutor.executeGroup_frame env lenv w group).1

/-- The sample list is submitted, a task is submitted, the dispatcher polls,
and the first group of the list is executed: two records are left in the
queue, and each is Created or Pending. -/
theorem Scheduler.queue_states_witness :
    (Scheduler.run sampleEnv 3 { world := sampleListWorld, inflight := [] }
      [SchedulerEvent.createList none none noFaults sampleFresh sampleListRequest,
        SchedulerEvent.executor (Event.submit none none "s1" 50 sampleCreateRequest),
        SchedulerEvent.executor (Event.tick none),
        SchedulerEvent.executeGroup sampleListEnv sampleGroup0]).world.tasks.length = 2 ∧
    ∀ d ∈ (Scheduler.run sampleEnv 3 { world := sampleListWorld, inflight := [] }
      [SchedulerEvent.createList none none noFaults sampleFresh sampleListRequest,
        SchedulerEvent.executor (Event.submit none none "s1" 50 sampleCreateRequest),
        SchedulerEvent.executor (Event.tick none),
        SchedulerEvent.executeGroup sampleListEnv sampleGroup0]).world.tasks,
      (d.State = Created ∨ d.State = Pending) ∧ d.State ≠ Done ∧ d.State ≠ Failed ∧
      (d.GroupID ≠ "" → d.State = Created) :=
  ⟨by decide,
    (Scheduler.queue_states sampleEnv 3).2.1 { world := sampleListWorld, inflight := [] }
      [SchedulerEvent.createList none none noFaults sampleFresh sampleListRequest,
        SchedulerEvent.executor (Event.submit none none "s1" 50 sampleCreateRequest),
        SchedulerEvent.executor (Event.tick none),
        SchedulerEvent.executeGroup sampleListEnv sampleGroup0] rfl⟩

end TaskScheduler
